import Mathlib

/-!
Shallow embedding of the scope-analysis library in `src/index.ts`
(secoya/typescript-scope-analysis).

The TypeScript sources operate on `ts.Node` syntax trees from the external
TypeScript parser.  Here a faithful subset of the node kinds that the
analysed code dispatches on is embedded as the inductive type `Node`;
every node kind the code has no special handling for is represented by
`Node.otherNode` (the code treats all such kinds uniformly through
`ts.forEachChild`).  Type annotations, decorators/modifiers and a few
expression forms are outside the modelled subset.

Object identity of `ts.Node` values (used by the `WeakMap` from nodes to
scopes) is modelled by addressing every node with its access path from
the root: `NodePath` is the list of child indices (indices into
`children`).  Mutable `Scope` objects linked by `parentScope` pointers
are modelled as an arena: a list of `Scope` records indexed by `Nat`,
with `parentScope` an optional index.  Thrown exceptions
(`Could not find parent function scope`, `Scope not found`) are modelled
by an `err` flag on the state; the development proves the first
unreachable under the construction invariant.

Recursive tree walks are written with an explicit fuel argument (the
source recursion is structural on the tree; fuel at least the tree depth
reproduces it exactly, and the top-level wrappers pass `sizeOf` of the
tree, which is proved to dominate the depth).
-/

namespace TsScope

/-- Child-index path addressing a node from the tree root. -/
abbrev NodePath := List Nat

/-- Mirrors `enum ScopeKind` in the source. -/
inductive ScopeKind where
  | lexicalScope
  | functionScope
deriving DecidableEq

/-- Mirrors `enum Mutability` in the source. -/
inductive Mutability where
  | mutable_
  | immutable
deriving DecidableEq

/-- Mirrors `interface ScopeReference`.  The `identifier` node is recorded by
its text and its path; `referenceTo` records the arena index of the owning
scope of the resolved binding (the binding itself is the entry stored there
under `identifier`), or `none` for an unresolved reference.  `writeExpr`
records the path of the write expression node. -/
structure ScopeReference where
  identifier : String
  identifierPath : NodePath
  referenceTo : Option Nat
  referencedFromScope : Nat
  writeExpr : Option NodePath
  isInitializer : Bool
deriving DecidableEq

/-- Mirrors `interface ScopeBindingDeclaration`; `declaringNode` is recorded
by its path. -/
structure ScopeBindingDeclaration where
  declaringNode : NodePath
  bindingScopeKind : ScopeKind
  identifier : String
  mutability : Mutability
  references : List ScopeReference
deriving DecidableEq

/-- Mirrors `class Scope` (its data part).  `parentScope` is an arena index;
child links are recoverable from the parents, so the `childScopes` array is
not separately modelled.  `declaratingNode` keeps the source's (sic)
spelling. -/
structure Scope where
  scopeKind : ScopeKind
  bindings : List (String × ScopeBindingDeclaration)
  parentScope : Option Nat
  declaratingNode : NodePath
  references : List ScopeReference
deriving DecidableEq

/-- Flags of a `ts.VariableDeclarationList`: `var`, `let` or `const`
(`NodeFlags.BlockScoped` covers `let` and `const`; `NodeFlags.Const` is
`const`). -/
inductive VarDeclFlags where
  | varKind
  | letKind
  | constKind
deriving DecidableEq

/-- Mirrors the test `(flags & ts.NodeFlags.BlockScoped) != 0`. -/
def VarDeclFlags.blockScoped : VarDeclFlags → Bool
  | .varKind => false
  | .letKind => true
  | .constKind => true

/-- Mirrors the test `(flags & ts.NodeFlags.Const) != 0`. -/
def VarDeclFlags.isConst : VarDeclFlags → Bool
  | .constKind => true
  | _ => false

/-- Binary operator token: the analysed code only distinguishes
`ts.SyntaxKind.EqualsToken` from everything else. -/
inductive BinaryOperator where
  | equalsToken
  | otherToken
deriving DecidableEq

/-- The embedded subset of `ts.Node`.  Function and class names are
`Option String` (they are `ts.Identifier` nodes in the grammar; `children`
materialises them as `Node.identifier` children in syntactic position).
`otherNode` stands for every node kind neither traversal handles
specially. -/
inductive Node where
  | identifier (text : String)
  | sourceFile (statements : List Node)
  | block (statements : List Node)
  | variableDeclarationList (flags : VarDeclFlags) (declarations : List Node)
  | variableDeclaration (name : Node) (init : Option Node)
  | objectBindingPattern (elements : List Node)
  | arrayBindingPattern (elements : List Node)
  | bindingElement (propertyName : Option Node) (name : Node) (init : Option Node)
  | parameter (name : Node) (init : Option Node)
  | functionDeclaration (name : Option String) (parameters : List Node) (body : Option Node)
  | functionExpression (name : Option String) (parameters : List Node) (body : Option Node)
  | arrowFunction (parameters : List Node) (body : Node)
  | classDeclaration (name : Option String) (members : List Node)
  | expressionStatement (expression : Node)
  | binaryExpression (left : Node) (op : BinaryOperator) (right : Node)
  | computedPropertyName (expression : Node)
  | forOfStatement (initializer : Node) (expression : Node) (statement : Node)
  | forInStatement (initializer : Node) (expression : Node) (statement : Node)
  | otherNode (childNodes : List Node)

mutual

/-- Executable size of a node, dominating the depth of the `children` tree;
used as the fuel for the traversals. -/
def nsize : Node → Nat
  | .identifier _ => 1
  | .sourceFile sts => 1 + nsizeList sts
  | .block sts => 1 + nsizeList sts
  | .variableDeclarationList _ ds => 1 + nsizeList ds
  | .variableDeclaration nm ini => 1 + nsize nm + nsizeOpt ini
  | .objectBindingPattern els => 1 + nsizeList els
  | .arrayBindingPattern els => 1 + nsizeList els
  | .bindingElement prop nm ini => 1 + nsizeOpt prop + nsize nm + nsizeOpt ini
  | .parameter nm ini => 1 + nsize nm + nsizeOpt ini
  | .functionDeclaration nm ps body =>
    1 + (match nm with | none => 0 | some _ => 1) + nsizeList ps + nsizeOpt body
  | .functionExpression nm ps body =>
    1 + (match nm with | none => 0 | some _ => 1) + nsizeList ps + nsizeOpt body
  | .arrowFunction ps body => 1 + nsizeList ps + nsize body
  | .classDeclaration nm ms =>
    1 + (match nm with | none => 0 | some _ => 1) + nsizeList ms
  | .expressionStatement e => 1 + nsize e
  | .binaryExpression l _ r => 1 + nsize l + nsize r
  | .computedPropertyName e => 1 + nsize e
  | .forOfStatement ini e stmt => 1 + nsize ini + nsize e + nsize stmt
  | .forInStatement ini e stmt => 1 + nsize ini + nsize e + nsize stmt
  | .otherNode cs => 1 + nsizeList cs

/-- Size of a list of nodes. -/
def nsizeList : List Node → Nat
  | [] => 1
  | n :: ns => 1 + nsize n + nsizeList ns

/-- Size of an optional node. -/
def nsizeOpt : Option Node → Nat
  | none => 0
  | some n => 1 + nsize n

end

/-- The children of a node, in `ts.forEachChild` order (token children such
as operator tokens are omitted; they have no descendants and play no role in
either traversal). -/
def children : Node → List Node
  | .identifier _ => []
  | .sourceFile sts => sts
  | .block sts => sts
  | .variableDeclarationList _ ds => ds
  | .variableDeclaration nm ini => [nm] ++ ini.toList
  | .objectBindingPattern els => els
  | .arrayBindingPattern els => els
  | .bindingElement prop nm ini => prop.toList ++ [nm] ++ ini.toList
  | .parameter nm ini => [nm] ++ ini.toList
  | .functionDeclaration nm ps body => (nm.map Node.identifier).toList ++ ps ++ body.toList
  | .functionExpression nm ps body => (nm.map Node.identifier).toList ++ ps ++ body.toList
  | .arrowFunction ps body => ps ++ [body]
  | .classDeclaration nm ms => (nm.map Node.identifier).toList ++ ms
  | .expressionStatement e => [e]
  | .binaryExpression l _ r => [l, r]
  | .computedPropertyName e => [e]
  | .forOfStatement ini e stmt => [ini, e, stmt]
  | .forInStatement ini e stmt => [ini, e, stmt]
  | .otherNode cs => cs

/-- The node reached from `n` by following a child-index path. -/
def nodeAt : Node → NodePath → Option Node
  | n, [] => some n
  | n, k :: q =>
    match (children n)[k]? with
    | none => none
    | some c => nodeAt c q

/-- Mirrors `ts.isBlock`. -/
def Node.isBlockNode : Node → Bool
  | .block _ => true
  | _ => false

/-- The node-to-scope map of pass 1 (`WeakMap<ts.Node, Scope>`): most recent
`set` first, so lookup takes the first matching entry. -/
abbrev ScopesMap := List (NodePath × Nat)

/-- Mirrors `WeakMap.set` (later writes shadow earlier ones). -/
def mset (q : NodePath) (sc : Nat) (m : ScopesMap) : ScopesMap := (q, sc) :: m

/-- Mirrors `WeakMap.get`. -/
def mget (q : NodePath) (m : ScopesMap) : Option Nat :=
  (m.find? (fun e => e.1 == q)).map (·.2)

/-- Mirrors `Map.get` on a scope's binding table. -/
def bget (nm : String) (bs : List (String × ScopeBindingDeclaration)) :
    Option ScopeBindingDeclaration :=
  (bs.find? (fun e => e.1 == nm)).map (·.2)

/-- Mirrors `Map.set` on a scope's binding table: replace an existing entry
for the key in place, else append. -/
def bset (nm : String) (b : ScopeBindingDeclaration) :
    List (String × ScopeBindingDeclaration) → List (String × ScopeBindingDeclaration)
  | [] => [(nm, b)]
  | (k, v) :: rest => if k == nm then (nm, b) :: rest else (k, v) :: bset nm b rest

/-- Update the scope at arena index `i` (no-op when out of range; arena
indices produced by construction are always in range). -/
def supdate (i : Nat) (f : Scope → Scope) (scs : List Scope) : List Scope :=
  match scs[i]? with
  | none => scs
  | some sd => scs.set i (f sd)

/-- State of pass 1 (`findScopes`): the scope arena, the node-to-scope map
under construction, and the exception flag. -/
structure BuildState where
  scopes : List Scope
  scopesMap : ScopesMap
  err : Bool
deriving DecidableEq

/-- Mirrors `Scope.newChildScope`: the new scope is appended to the arena
(its index is the arena length before the call). -/
def newChildScope (kind : ScopeKind) (declPath : NodePath) (parentSc : Nat)
    (st : BuildState) : BuildState :=
  { st with scopes := st.scopes ++
      [{ scopeKind := kind, bindings := [], parentScope := some parentSc,
         declaratingNode := declPath, references := [] }] }

/-- The walk in `Scope.addBinding`'s `FunctionScope` branch: from scope `i`
follow `parentScope` links to the nearest scope of kind `FunctionScope`
(`i` included).  Fuel `i + 1` suffices whenever parent indices are smaller
than child indices, which construction guarantees. -/
def findFunctionScope : Nat → Nat → List Scope → Option Nat
  | 0, _, _ => none
  | fuel + 1, i, scs =>
    match scs[i]? with
    | none => none
    | some sd =>
      if sd.scopeKind == ScopeKind.functionScope then some i
      else
        match sd.parentScope with
        | none => none
        | some j => findFunctionScope fuel j scs

/-- Store binding `decl` in the binding table of scope `i`. -/
def storeBinding (i : Nat) (nm : String) (decl : ScopeBindingDeclaration)
    (st : BuildState) : BuildState :=
  { st with scopes := supdate i (fun s => { s with bindings := bset nm decl s.bindings }) st.scopes }

/-- Mirrors `Scope.addBinding`: a `LexicalScope` binding is stored in the
receiver's own table; a `FunctionScope` binding is stored in the nearest
`FunctionScope`-kind scope on the parent chain.  The
`Could not find parent function scope` throw is modelled by `err`. -/
def addBinding (sc : Nat) (nm : String) (decl : ScopeBindingDeclaration)
    (st : BuildState) : BuildState :=
  if decl.bindingScopeKind == ScopeKind.lexicalScope then
    storeBinding sc nm decl st
  else
    match findFunctionScope (sc + 1) sc st.scopes with
    | none => { st with err := true }
    | some j => storeBinding j nm decl st

/-- Fold a node-handling function over a list of sibling nodes, passing each
its child index (this is how both traversals consume `ts.forEachChild`). -/
def goList (v : NodePath → Nat → Node → Nat → BuildState → BuildState)
    (p : NodePath) : Nat → List Node → Nat → BuildState → BuildState
  | _, [], _, st => st
  | k, c :: cs, sc, st => goList v p (k + 1) cs sc (v p k c sc st)

/-- Mirrors `addAllChildren` in `findScopes`: map every immediate child of
the node at `p` to scope `sc` without recursing. -/
def setChildren (p : NodePath) (sc : Nat) : Nat → List Node → ScopesMap → ScopesMap
  | _, [], m => m
  | k, _ :: cs, m => setChildren p sc (k + 1) cs (mset (p ++ [k]) sc m)

/-- Mirrors `addAllChildren` at the state level. -/
def addAllChildren (p : NodePath) (n : Node) (sc : Nat) (st : BuildState) : BuildState :=
  { st with scopesMap := setChildren p sc 0 (children n) st.scopesMap }

/-- Accumulate the binding-element handler of `visitBindingElement` /
`visitArrayBindingElement` over pattern elements. -/
def bindList (h : Node → BuildState → BuildState) : List Node → BuildState → BuildState
  | [], st => st
  | el :: els, st => bindList h els (h el st)

/-- Mirrors `visitBindingName` (with `visitBindingElement` and
`visitArrayBindingElement` inlined): register one binding per leaf
identifier of a binding-name pattern, all sharing the declaring node, scope
kind and mutability.  Elements of an array pattern that are not binding
elements (holes) register nothing, matching the `ts.isBindingElement`
guard. -/
def bindName : Nat → Node → NodePath → Nat → ScopeKind → Mutability → BuildState → BuildState
  | 0, _, _, _, _, _, st => st
  | fuel + 1, bn, declPath, sc, kind, mu, st =>
    match bn with
    | .identifier t =>
      addBinding sc t
        { declaringNode := declPath, bindingScopeKind := kind, identifier := t,
          mutability := mu, references := [] } st
    | .objectBindingPattern els =>
      bindList
        (fun el st' =>
          match el with
          | .bindingElement _ nm _ => bindName fuel nm declPath sc kind mu st'
          | _ => st') els st
    | .arrayBindingPattern els =>
      bindList
        (fun el st' =>
          match el with
          | .bindingElement _ nm _ => bindName fuel nm declPath sc kind mu st'
          | _ => st') els st
    | _ => st

/-- Mirrors the parameter-binding part of `visitParameterDeclaration`:
an identifier name binds directly, an object or array pattern expands
through its elements; parameters always bind `FunctionScope` and
`Mutable`. -/
def bindParameterName (fuel : Nat) (paramPath : NodePath) (nm : Node) (sc : Nat)
    (st : BuildState) : BuildState :=
  bindName fuel nm paramPath sc ScopeKind.functionScope Mutability.mutable_ st

/-- Pass 1, mirroring `visitNode` inside `findScopes` (with
`visitFunctionLike`, `visitParameterDeclaration` and the loop handling
inlined at the corresponding branches).  `par` is the `node.parent` link the
source consults in the `isVariableDeclaration` branch.  Every visited node
is first mapped to the current scope, then the node is dispatched on. -/
def visitNode1 : Nat → Option Node → NodePath → Node → Nat → BuildState → BuildState
  | 0, _, _, _, _, st => st
  | fuel + 1, par, p, n, sc, st =>
    let st := { st with scopesMap := mset p sc st.scopesMap }
    match n with
    | .block _ =>
      let blockId := st.scopes.length
      let st := newChildScope ScopeKind.lexicalScope p sc st
      goList (fun p' k c sc' st' => visitNode1 fuel (some n) (p' ++ [k]) c sc' st')
        p 0 (children n) blockId st
    | .functionDeclaration fname ps body =>
      let st := addAllChildren p n sc st
      let st :=
        match fname with
        | none => st
        | some t =>
          let st := { st with scopesMap := mset (p ++ [0]) sc st.scopesMap }
          addBinding sc t
            { declaringNode := p, bindingScopeKind := ScopeKind.lexicalScope,
              identifier := t, mutability := Mutability.immutable, references := [] } st
      let off := if fname.isSome then 1 else 0
      let fnId := st.scopes.length
      let st := newChildScope ScopeKind.functionScope p sc st
      let st := goList
        (fun p' k c sc' st' =>
          let st' := visitNode1 fuel (some n) (p' ++ [k]) c sc' st'
          match c with
          | .parameter pnm _ => bindParameterName fuel (p' ++ [k]) pnm sc' st'
          | _ => st')
        p off ps fnId st
      match body with
      | none => st
      | some b =>
        if b.isBlockNode then
          let st := { st with scopesMap := mset (p ++ [off + ps.length]) fnId st.scopesMap }
          goList (fun p' k c sc' st' => visitNode1 fuel (some b) (p' ++ [k]) c sc' st')
            (p ++ [off + ps.length]) 0 (children b) fnId st
        else visitNode1 fuel (some n) (p ++ [off + ps.length]) b fnId st
    | .functionExpression fname ps body =>
      let st := addAllChildren p n sc st
      let st :=
        match fname with
        | none => st
        | some t =>
          let st := { st with scopesMap := mset (p ++ [0]) sc st.scopesMap }
          addBinding sc t
            { declaringNode := p, bindingScopeKind := ScopeKind.lexicalScope,
              identifier := t, mutability := Mutability.immutable, references := [] } st
      let off := if fname.isSome then 1 else 0
      let fnId := st.scopes.length
      let st := newChildScope ScopeKind.functionScope p sc st
      let st := goList
        (fun p' k c sc' st' =>
          let st' := visitNode1 fuel (some n) (p' ++ [k]) c sc' st'
          match c with
          | .parameter pnm _ => bindParameterName fuel (p' ++ [k]) pnm sc' st'
          | _ => st')
        p off ps fnId st
      match body with
      | none => st
      | some b =>
        if b.isBlockNode then
          let st := { st with scopesMap := mset (p ++ [off + ps.length]) fnId st.scopesMap }
          goList (fun p' k c sc' st' => visitNode1 fuel (some b) (p' ++ [k]) c sc' st')
            (p ++ [off + ps.length]) 0 (children b) fnId st
        else visitNode1 fuel (some n) (p ++ [off + ps.length]) b fnId st
    | .arrowFunction ps body =>
      let st := addAllChildren p n sc st
      let fnId := st.scopes.length
      let st := newChildScope ScopeKind.functionScope p sc st
      let st := goList
        (fun p' k c sc' st' =>
          let st' := visitNode1 fuel (some n) (p' ++ [k]) c sc' st'
          match c with
          | .parameter pnm _ => bindParameterName fuel (p' ++ [k]) pnm sc' st'
          | _ => st')
        p 0 ps fnId st
      if body.isBlockNode then
        let st := { st with scopesMap := mset (p ++ [ps.length]) fnId st.scopesMap }
        goList (fun p' k c sc' st' => visitNode1 fuel (some body) (p' ++ [k]) c sc' st')
          (p ++ [ps.length]) 0 (children body) fnId st
      else visitNode1 fuel (some n) (p ++ [ps.length]) body fnId st
    | .classDeclaration cname _ =>
      let st :=
        match cname with
        | none => st
        | some t =>
          addBinding sc t
            { declaringNode := p, bindingScopeKind := ScopeKind.functionScope,
              identifier := t, mutability := Mutability.immutable, references := [] } st
      let clsId := st.scopes.length
      let st := newChildScope ScopeKind.functionScope p sc st
      let st := addBinding clsId "this"
        { declaringNode := p, bindingScopeKind := ScopeKind.functionScope,
          identifier := "this", mutability := Mutability.immutable, references := [] } st
      goList (fun p' k c sc' st' => visitNode1 fuel (some n) (p' ++ [k]) c sc' st')
        p 0 (children n) clsId st
    | .forOfStatement ini e stmt =>
      let st := addAllChildren p n sc st
      let forId := st.scopes.length
      let st := newChildScope ScopeKind.lexicalScope p sc st
      let st := visitNode1 fuel (some n) (p ++ [0]) ini forId st
      let st := visitNode1 fuel (some n) (p ++ [1]) e sc st
      if stmt.isBlockNode then
        let st := { st with scopesMap := mset (p ++ [2]) forId st.scopesMap }
        goList (fun p' k c sc' st' => visitNode1 fuel (some stmt) (p' ++ [k]) c sc' st')
          (p ++ [2]) 0 (children stmt) forId st
      else visitNode1 fuel (some n) (p ++ [2]) stmt forId st
    | .forInStatement ini e stmt =>
      let st := addAllChildren p n sc st
      let forId := st.scopes.length
      let st := newChildScope ScopeKind.lexicalScope p sc st
      let st := visitNode1 fuel (some n) (p ++ [0]) ini forId st
      let st := visitNode1 fuel (some n) (p ++ [1]) e sc st
      if stmt.isBlockNode then
        let st := { st with scopesMap := mset (p ++ [2]) forId st.scopesMap }
        goList (fun p' k c sc' st' => visitNode1 fuel (some stmt) (p' ++ [k]) c sc' st')
          (p ++ [2]) 0 (children stmt) forId st
      else visitNode1 fuel (some n) (p ++ [2]) stmt forId st
    | .variableDeclaration bn _ =>
      let st :=
        match par with
        | some (.variableDeclarationList flags _) =>
          let kind := if flags.blockScoped then ScopeKind.lexicalScope else ScopeKind.functionScope
          let mu := if flags.isConst then Mutability.immutable else Mutability.mutable_
          bindName fuel bn p sc kind mu st
        | _ => st
      goList (fun p' k c sc' st' => visitNode1 fuel (some n) (p' ++ [k]) c sc' st')
        p 0 (children n) sc st
    | _ =>
      goList (fun p' k c sc' st' => visitNode1 fuel (some n) (p' ++ [k]) c sc' st')
        p 0 (children n) sc st

/-- Mirrors `findScopes(sourceFile)`: visit the root in a fresh root scope of
kind `FunctionScope` with no parent. -/
def findScopes (root : Node) : BuildState :=
  visitNode1 (nsize root) none [] root 0
    { scopes := [{ scopeKind := ScopeKind.functionScope, bindings := [],
                   parentScope := none, declaratingNode := [], references := [] }],
      scopesMap := [], err := false }

/-- Chain of arena indices from scope `i` upward through `parentScope`
links (used to state resolution properties).  Fuel `i + 1` suffices under
the construction invariant. -/
def chainFuel : Nat → List Scope → Nat → List Nat
  | 0, _, _ => []
  | fuel + 1, scs, i =>
    i ::
      (match scs[i]? with
       | none => []
       | some sd =>
         match sd.parentScope with
         | none => []
         | some j => chainFuel fuel scs j)

/-- The parent chain of scope `i`, `i` first. -/
def scopeChain (scs : List Scope) (i : Nat) : List Nat := chainFuel (i + 1) scs i

/-- Mirrors `Scope.getBinding`: look the name up in this scope's own table,
else recurse to the parent; `none` at the root.  Returns the binding
together with the arena index of its owning scope (the source returns the
`[decl, scope]` pair). -/
def getBindingFuel : Nat → List Scope → Nat → String → Option (ScopeBindingDeclaration × Nat)
  | 0, _, _, _ => none
  | fuel + 1, scs, i, nm =>
    match scs[i]? with
    | none => none
    | some sd =>
      match bget nm sd.bindings with
      | some decl => some (decl, i)
      | none =>
        match sd.parentScope with
        | none => none
        | some j => getBindingFuel fuel scs j nm

/-- `Scope.getBinding` with the canonical fuel. -/
def getBinding (scs : List Scope) (i : Nat) (nm : String) :
    Option (ScopeBindingDeclaration × Nat) :=
  getBindingFuel (i + 1) scs i nm

/-- Append `ref` to the reference list of the binding stored under `nm`
(this models `binding[0].references.push(reference)`: the object aliasing of
the source becomes an in-place update of the owning scope's table entry). -/
def pushBindingRef (nm : String) (ref : ScopeReference) :
    List (String × ScopeBindingDeclaration) → List (String × ScopeBindingDeclaration)
  | [] => []
  | (k, v) :: rest =>
    if k == nm then (k, { v with references := v.references ++ [ref] }) :: rest
    else (k, v) :: pushBindingRef nm ref rest

/-- Mirrors `Scope.addReference` on scope `i`: resolve the identifier text
via `getBinding`, build the reference, push it onto the target binding's
list when resolved, and always push it onto scope `i`'s own list. -/
def addReference (i : Nat) (idText : String) (idPath : NodePath)
    (writeExpr : Option NodePath) (isInit : Bool) (scs : List Scope) : List Scope :=
  let bo := getBinding scs i idText
  let ref : ScopeReference :=
    { identifier := idText, identifierPath := idPath, referenceTo := bo.map (·.2),
      referencedFromScope := i, writeExpr := writeExpr, isInitializer := isInit }
  let scs :=
    match bo with
    | none => scs
    | some (_, j) =>
      supdate j (fun s => { s with bindings := pushBindingRef idText ref s.bindings }) scs
  supdate i (fun s => { s with references := s.references ++ [ref] }) scs

/-- State of pass 2 (`assignReferences`): the scope arena being filled with
references, and the flag for the `Scope not found` throw. -/
structure ResolveState where
  scopes : List Scope
  err : Bool
deriving DecidableEq

/-- Fold a pass-2 node handler over sibling nodes with their child
indices. -/
def goList2 (v : NodePath → Nat → Node → Bool → ResolveState → ResolveState)
    (p : NodePath) : Nat → List Node → Bool → ResolveState → ResolveState
  | _, [], _, st => st
  | k, c :: cs, collect, st => goList2 v p (k + 1) cs collect (v p k c collect st)

/-- Pass 2, mirroring `visitNode` inside `assignReferences`.  `m` is the
node-to-scope map of pass 1 (`getScope` is `mget`, its failure the `err`
flag); `collect` is the `collectReferences` flag; `ini` is the optional
`initializer` argument, recorded by path.  Branches the modelled subset does
not contain (return/throw/member access/JSX/...) all either set the flag for
specific children or fall to the generic child visit, exactly like the ones
modelled here. -/
def visitNode2 : Nat → ScopesMap → NodePath → Node → Bool → Option NodePath →
    ResolveState → ResolveState
  | 0, _, _, _, _, _, st => st
  | fuel + 1, m, p, n, collect, ini, st =>
    match n with
    | .identifier t =>
      if collect then
        match mget p m with
        | none => { st with err := true }
        | some sc =>
          if t == "" then st
          else
            match ini with
            | none => { st with scopes := addReference sc t p none false st.scopes }
            | some iniPath =>
              { st with scopes := addReference sc t p (some iniPath) true st.scopes }
      else st
    | .variableDeclaration nm ini' =>
      let st :=
        match ini' with
        | none => st
        | some e => visitNode2 fuel m (p ++ [1]) e true none st
      visitNode2 fuel m (p ++ [0]) nm true (ini'.map (fun _ => p ++ [1])) st
    | .expressionStatement e => visitNode2 fuel m (p ++ [0]) e true none st
    | .binaryExpression l op r =>
      if op == BinaryOperator.equalsToken then
        let st :=
          match l with
          | .identifier lt =>
            match mget p m with
            | none => { st with err := true }
            | some sc =>
              { st with
                scopes := addReference sc lt (p ++ [0]) (some (p ++ [1])) false st.scopes }
          | _ => visitNode2 fuel m (p ++ [0]) l true none st
        visitNode2 fuel m (p ++ [1]) r true none st
      else
        goList2 (fun p' k c collect' st' => visitNode2 fuel m (p' ++ [k]) c collect' none st')
          p 0 (children n) collect st
    | .arrowFunction ps body =>
      let st := goList2
        (fun p' k c collect' st' => visitNode2 fuel m (p' ++ [k]) c collect' none st')
        p 0 ps false st
      visitNode2 fuel m (p ++ [ps.length]) body (!body.isBlockNode) none st
    | .functionDeclaration _ _ _ =>
      goList2 (fun p' k c collect' st' => visitNode2 fuel m (p' ++ [k]) c collect' none st')
        p 0 (children n) false st
    | .functionExpression _ _ _ =>
      goList2 (fun p' k c collect' st' => visitNode2 fuel m (p' ++ [k]) c collect' none st')
        p 0 (children n) false st
    | .parameter nm ini' =>
      let st := visitNode2 fuel m (p ++ [0]) nm false none st
      match ini' with
      | none => st
      | some e => visitNode2 fuel m (p ++ [1]) e true none st
    | .forOfStatement i e s =>
      let st := visitNode2 fuel m (p ++ [1]) e true none st
      let st := visitNode2 fuel m (p ++ [0]) i true (some (p ++ [1])) st
      visitNode2 fuel m (p ++ [2]) s false none st
    | .forInStatement i e s =>
      let st := visitNode2 fuel m (p ++ [1]) e true none st
      let st := visitNode2 fuel m (p ++ [0]) i true (some (p ++ [1])) st
      visitNode2 fuel m (p ++ [2]) s false none st
    | .computedPropertyName e => visitNode2 fuel m (p ++ [0]) e true none st
    | _ =>
      goList2 (fun p' k c collect' st' => visitNode2 fuel m (p' ++ [k]) c collect' none st')
        p 0 (children n) collect st

/-- One `addReference` call of pass 2, as pure data: the path of the node
whose scope the call is made through, the identifier's text and path, and
the write-expression/initializer arguments. -/
structure RefEvent where
  scopePath : NodePath
  text : String
  identifierPath : NodePath
  writeExpr : Option NodePath
  isInitializer : Bool
deriving DecidableEq

/-- Fold an event collector over sibling nodes with their child indices. -/
def goCollect (v : NodePath → Nat → Node → Bool → List RefEvent)
    (p : NodePath) : Nat → List Node → Bool → List RefEvent
  | _, [], _ => []
  | k, c :: cs, collect => v p k c collect ++ goCollect v p (k + 1) cs collect

/-- The sequence of `addReference` calls pass 2 makes below a node, in call
order (the state-passing `visitNode2` is proved equal to replaying these
events). -/
def collectRefs : Nat → NodePath → Node → Bool → Option NodePath → List RefEvent
  | 0, _, _, _, _ => []
  | fuel + 1, p, n, collect, ini =>
    match n with
    | .identifier t =>
      if collect && t != "" then
        match ini with
        | none =>
          [{ scopePath := p, text := t, identifierPath := p, writeExpr := none,
             isInitializer := false }]
        | some iniPath =>
          [{ scopePath := p, text := t, identifierPath := p, writeExpr := some iniPath,
             isInitializer := true }]
      else []
    | .variableDeclaration nm ini' =>
      (match ini' with
       | none => []
       | some e => collectRefs fuel (p ++ [1]) e true none) ++
      collectRefs fuel (p ++ [0]) nm true (ini'.map (fun _ => p ++ [1]))
    | .expressionStatement e => collectRefs fuel (p ++ [0]) e true none
    | .binaryExpression l op r =>
      if op == BinaryOperator.equalsToken then
        (match l with
         | .identifier lt =>
           [{ scopePath := p, text := lt, identifierPath := p ++ [0],
              writeExpr := some (p ++ [1]), isInitializer := false }]
         | _ => collectRefs fuel (p ++ [0]) l true none) ++
        collectRefs fuel (p ++ [1]) r true none
      else
        goCollect (fun p' k c collect' => collectRefs fuel (p' ++ [k]) c collect' none)
          p 0 (children n) collect
    | .arrowFunction ps body =>
      goCollect (fun p' k c collect' => collectRefs fuel (p' ++ [k]) c collect' none)
        p 0 ps false ++
      collectRefs fuel (p ++ [ps.length]) body (!body.isBlockNode) none
    | .functionDeclaration _ _ _ =>
      goCollect (fun p' k c collect' => collectRefs fuel (p' ++ [k]) c collect' none)
        p 0 (children n) false
    | .functionExpression _ _ _ =>
      goCollect (fun p' k c collect' => collectRefs fuel (p' ++ [k]) c collect' none)
        p 0 (children n) false
    | .parameter nm ini' =>
      collectRefs fuel (p ++ [0]) nm false none ++
      (match ini' with
       | none => []
       | some e => collectRefs fuel (p ++ [1]) e true none)
    | .forOfStatement i e s =>
      collectRefs fuel (p ++ [1]) e true none ++
      collectRefs fuel (p ++ [0]) i true (some (p ++ [1])) ++
      collectRefs fuel (p ++ [2]) s false none
    | .forInStatement i e s =>
      collectRefs fuel (p ++ [1]) e true none ++
      collectRefs fuel (p ++ [0]) i true (some (p ++ [1])) ++
      collectRefs fuel (p ++ [2]) s false none
    | .computedPropertyName e => collectRefs fuel (p ++ [0]) e true none
    | _ =>
      goCollect (fun p' k c collect' => collectRefs fuel (p' ++ [k]) c collect' none)
        p 0 (children n) collect

/-- Replay one `addReference` call against the arena (skipping it when the
scope lookup fails, which in `visitNode2` raises the error flag instead). -/
def applyEvent (m : ScopesMap) (ev : RefEvent) (scs : List Scope) : List Scope :=
  match mget ev.scopePath m with
  | none => scs
  | some sc => addReference sc ev.text ev.identifierPath ev.writeExpr ev.isInitializer scs

/-- Replay a sequence of `addReference` calls. -/
def applyEvents (m : ScopesMap) : List RefEvent → List Scope → List Scope
  | [], scs => scs
  | ev :: evs, scs => applyEvents m evs (applyEvent m ev scs)

/-- Mirrors `assignReferences(scopesMap, sourceFile)`. -/
def assignReferences (m : ScopesMap) (root : Node) (scs : List Scope) : ResolveState :=
  visitNode2 (nsize root) m [] root false none { scopes := scs, err := false }

/-- Mirrors `SourceFileScopesContainer` after its constructor ran both
passes. -/
structure SourceFileScopesContainer where
  scopes : List Scope
  scopesMap : ScopesMap
  buildErr : Bool
  resolveErr : Bool
deriving DecidableEq

/-- Mirrors `new SourceFileScopesContainer(sourceFile)`. -/
def buildContainer (root : Node) : SourceFileScopesContainer :=
  let st1 := findScopes root
  let st2 := assignReferences st1.scopesMap root st1.scopes
  { scopes := st2.scopes, scopesMap := st1.scopesMap, buildErr := st1.err,
    resolveErr := st2.err }

/-- Mirrors `SourceFileScopesContainer.getScopeForNode`: `none` models the
`No scope could be found for node` throw. -/
def getScopeForNode (c : SourceFileScopesContainer) (q : NodePath) : Option Nat :=
  mget q c.scopesMap

/-- The scope kind stored at arena index `j`. -/
def scopeKindAt (scs : List Scope) (j : Nat) : Option ScopeKind :=
  (scs[j]?).map (·.scopeKind)

/-- Decidable check of the scope-arena invariant maintained by
construction: the root scope (index 0) has kind `FunctionScope`, every
other scope has a parent, and parent indices precede child indices (scopes
are appended after their parents), so parent chains are well-founded. -/
def arenaOk (scs : List Scope) : Bool :=
  (match scs[0]? with
   | none => true
   | some sd => sd.scopeKind == ScopeKind.functionScope) &&
  (List.range scs.length).all fun i =>
    match scs[i]? with
    | none => true
    | some sd =>
      match sd.parentScope with
      | none => i == 0
      | some j => decide (j < i)

/-- The arena invariant as a proposition. -/
abbrev WellFormedArena (scs : List Scope) : Prop := arenaOk scs = true

/-- The resolver predicate on one chain entry: the binding stored under `nm`
in scope `j`'s own table, paired with `j`. -/
def ownEntry (scs : List Scope) (nm : String) (j : Nat) :
    Option (ScopeBindingDeclaration × Nat) :=
  match scs[j]? with
  | none => none
  | some sd => (bget nm sd.bindings).map (fun b => (b, j))

/-- Target positions of a binding-name pattern: the paths (relative to the
pattern root) of the identifiers a destructuring pattern binds, reached
through pattern/element name edges only (property names, element
initializers and holes are not targets). -/
def isTarget : Node → NodePath → Bool
  | .identifier _, [] => true
  | .objectBindingPattern els, k :: q =>
    (match els[k]? with
     | some e => isTarget e q
     | none => false)
  | .arrayBindingPattern els, k :: q =>
    (match els[k]? with
     | some e => isTarget e q
     | none => false)
  | .bindingElement prop nm _, j :: q => j == (if prop.isSome then 1 else 0) && isTarget nm q
  | _, _ => false

/-- The program `const |a| = b;` (a destructuring variable declaration):
counterexample input for reference collection on pattern targets. -/
def progDestructureVar : Node :=
  .sourceFile [.otherNode [.variableDeclarationList .constKind
    [.variableDeclaration
      (.objectBindingPattern [.bindingElement none (.identifier "a") none])
      (some (.identifier "b"))]]]

/-- A source file whose single statement is an assignment whose left-hand
side is an identifier with empty text (as TypeScript's parser produces for
missing identifiers during error recovery), `<missing> = y;`. -/
def progEmptyAssign : Node :=
  .sourceFile [.expressionStatement
    (.binaryExpression (.identifier "") .equalsToken (.identifier "y"))]

/-- The program `for (x of (y) => y) |{|}|`: a for-of statement whose
iterated expression contains an arrow function. -/
def progForOfArrow : Node :=
  .sourceFile [.forOfStatement
    (.identifier "x")
    (.arrowFunction [.parameter (.identifier "y") none] (.identifier "y"))
    (.block [])]

/-- The program `function f(|{a|}) |{|}| const |{c|} = d;`:
a parameter destructuring target alongside a variable-declaration
destructuring target, for the pattern-target theorems. -/
def progParamPattern : Node :=
  .sourceFile
    [.functionDeclaration (some "f")
      [.parameter (.objectBindingPattern [.bindingElement none (.identifier "a") none]) none]
      (some (.block [])),
     .otherNode [.variableDeclarationList .constKind
      [.variableDeclaration
        (.objectBindingPattern [.bindingElement none (.identifier "c") none])
        (some (.identifier "d"))]]]

/-- A three-scope arena (root function scope, a lexical child, a lexical
grandchild) with a binding `x` in the root and a shadowing `x` in the
middle scope; used to instantiate the scope-level theorems. -/
def witnessArena : List Scope :=
  [{ scopeKind := .functionScope,
     bindings := [("x",
       { declaringNode := [], bindingScopeKind := .functionScope, identifier := "x",
         mutability := .mutable_, references := [] })],
     parentScope := none, declaratingNode := [], references := [] },
   { scopeKind := .lexicalScope,
     bindings := [("x",
       { declaringNode := [0], bindingScopeKind := .lexicalScope, identifier := "x",
         mutability := .immutable, references := [] })],
     parentScope := some 0, declaratingNode := [0], references := [] },
   { scopeKind := .lexicalScope, bindings := [], parentScope := some 1,
     declaratingNode := [1], references := [] }]

/-- `witnessArena` wrapped as a pass-1 state. -/
def witnessBuild : BuildState :=
  { scopes := witnessArena, scopesMap := [], err := false }

/-- A `FunctionScope`-tagged binding payload used to instantiate the
hoisting theorem. -/
def witnessDecl : ScopeBindingDeclaration :=
  { declaringNode := [2], bindingScopeKind := .functionScope, identifier := "v",
    mutability := .mutable_, references := [] }

/-- The deepest scope of `witnessArena` (used to discharge hypotheses of the
reference-appending theorem at a concrete input). -/
def witnessScope2 : Scope :=
  { scopeKind := .lexicalScope, bindings := [], parentScope := some 1,
    declaratingNode := [1], references := [] }

/-- The root scope record of `witnessArena`. -/
def witnessRootScope : Scope :=
  { scopeKind := .functionScope,
    bindings := [("x",
      { declaringNode := [], bindingScopeKind := .functionScope, identifier := "x",
        mutability := .mutable_, references := [] })],
    parentScope := none, declaratingNode := [], references := [] }

/-- The program `const a = b;`. -/
def progConstAB : Node :=
  .sourceFile [.otherNode [.variableDeclarationList .constKind
    [.variableDeclaration (.identifier "a") (some (.identifier "b"))]]]

/-- The program `x = y;`. -/
def progAssignXY : Node :=
  .sourceFile [.expressionStatement
    (.binaryExpression (.identifier "x") .equalsToken (.identifier "y"))]

/-- Fallback reference value, used only to state concrete witness lookups. -/
def dummyRef : ScopeReference :=
  { identifier := "", identifierPath := [], referenceTo := none,
    referencedFromScope := 0, writeExpr := none, isInitializer := false }

/-- Fallback scope value, used only to state concrete witness lookups. -/
def dummyScope : Scope :=
  { scopeKind := ScopeKind.functionScope, bindings := [], parentScope := none,
    declaratingNode := [], references := [] }

/-- The root scope of the container built for the program `"" = y;`. -/
def w10scope : Scope := (buildContainer progEmptyAssign).scopes.getD 0 dummyScope

/-- Its first recorded reference (the empty-text assignment target). -/
def w10ref : ScopeReference := w10scope.references.getD 0 dummyRef

/-- The root scope of the container built for `function f({a}) {} const {c} = d;`. -/
def w5scope : Scope := (buildContainer progParamPattern).scopes.getD 0 dummyScope

/-- Its first recorded reference (the read of `d`). -/
def w5ref : ScopeReference := w5scope.references.getD 0 dummyRef

/-- Property of a node-to-scope map entry added while visiting the node at
`p` in scope `sc` over an arena of length `len`: its path extends `p` and it
maps to `sc` or to a scope created during the visit. -/
def entryOkW (p : NodePath) (sc len : Nat) (en : NodePath × Nat) : Prop :=
  (∃ r, en.1 = p ++ r) ∧ (en.2 = sc ∨ len ≤ en.2)

/-- As `entryOkW`, but the path properly extends `p` (used for the entries
above the visited node's own map entry). -/
def entryOkS (p : NodePath) (sc len : Nat) (en : NodePath × Nat) : Prop :=
  (∃ k r, en.1 = p ++ k :: r) ∧ (en.2 = sc ∨ len ≤ en.2)

/-- The scope tree skeleton of arena `a` persists into arena `b`: every
scope of `a` is still present at the same index with the same kind, parent
and declaring node (only its bindings and references may have grown). -/
def skelPres (a b : List Scope) : Prop :=
  ∀ (j : Nat) (sd : Scope), a[j]? = some sd →
    ∃ sd2, b[j]? = some sd2 ∧ sd2.scopeKind = sd.scopeKind ∧
      sd2.parentScope = sd.parentScope ∧ sd2.declaratingNode = sd.declaratingNode

/-- The two loop statements the builder's loop branch treats identically:
`for-in` when `isIn` is true, else `for-of`. -/
def mkLoop (isIn : Bool) (ini e stmt : Node) : Node :=
  if isIn then .forInStatement ini e stmt else .forOfStatement ini e stmt

/-- A one-scope build state (just a root function scope), the state in which
`findScopes` starts visiting: witness fixture for the loop-scope theorem. -/
def w8st : BuildState :=
  { scopes := [{ scopeKind := ScopeKind.functionScope, bindings := [], parentScope := none,
                 declaratingNode := [], references := [] }],
    scopesMap := [], err := false }

/-- The loop initializer `let i` as a declaration list: witness fixture. -/
def w8ini : Node :=
  .variableDeclarationList .letKind [.variableDeclaration (.identifier "i") none]

/-! ### Theorems -/

theorem getElem?_some_lt {α : Type} {l : List α} {i : Nat} {a : α}
    (h : l[i]? = some a) : i < l.length := by
  by_contra hc
  rw [List.getElem?_eq_none (Nat.le_of_not_lt hc)] at h
  exact Option.noConfusion h

theorem WellFormedArena.parent_lt {scs : List Scope} {i : Nat} {sd : Scope} {j : Nat}
    (hwf : WellFormedArena scs) (h : scs[i]? = some sd)
    (hp : sd.parentScope = some j) : j < i := by
  have hi : i < scs.length := getElem?_some_lt h
  have hm := (Bool.and_eq_true _ _ |>.mp hwf).2
  rw [List.all_eq_true] at hm
  have hm2 := hm i (List.mem_range.mpr hi)
  rw [h] at hm2
  simp only [hp] at hm2
  exact of_decide_eq_true hm2

theorem WellFormedArena.parent_none_eq_zero {scs : List Scope} {i : Nat} {sd : Scope}
    (hwf : WellFormedArena scs) (h : scs[i]? = some sd)
    (hp : sd.parentScope = none) : i = 0 := by
  have hi : i < scs.length := getElem?_some_lt h
  have hm := (Bool.and_eq_true _ _ |>.mp hwf).2
  rw [List.all_eq_true] at hm
  have hm2 := hm i (List.mem_range.mpr hi)
  rw [h] at hm2
  simp only [hp] at hm2
  exact eq_of_beq hm2

theorem WellFormedArena.root_kind {scs : List Scope} {sd : Scope}
    (hwf : WellFormedArena scs) (h : scs[0]? = some sd) :
    sd.scopeKind = ScopeKind.functionScope := by
  have hm := (Bool.and_eq_true _ _ |>.mp hwf).1
  rw [h] at hm
  exact eq_of_beq hm

theorem chainFuel_invariant {scs : List Scope} (hwf : WellFormedArena scs) :
    ∀ i, i < scs.length → ∀ fuel, i < fuel →
      chainFuel fuel scs i = chainFuel (i + 1) scs i := by
  intro i
  induction i using Nat.strong_induction_on with
  | _ i ih =>
    intro hi fuel hfuel
    match fuel, hfuel with
    | f + 1, _ =>
      show chainFuel (f + 1) scs i = chainFuel (i + 1) scs i
      simp only [chainFuel]
      cases hsd : scs[i]? with
      | none => rfl
      | some sd =>
        dsimp only
        cases hp : sd.parentScope with
        | none => rfl
        | some j =>
          dsimp only
          have hj : j < i := hwf.parent_lt hsd hp
          have hjlen : j < scs.length := Nat.lt_trans hj hi
          rw [ih j hj hjlen f (by omega), ih j hj hjlen i (by omega)]

theorem zero_mem_chainFuel {scs : List Scope} (hwf : WellFormedArena scs) :
    ∀ i, i < scs.length → 0 ∈ chainFuel (i + 1) scs i := by
  intro i
  induction i using Nat.strong_induction_on with
  | _ i ih =>
    intro hi
    simp only [chainFuel]
    cases hsd : scs[i]? with
    | none =>
      exfalso
      rw [List.getElem?_eq_getElem hi] at hsd
      exact Option.noConfusion hsd
    | some sd =>
      dsimp only
      cases hp : sd.parentScope with
      | none =>
        have := hwf.parent_none_eq_zero hsd hp
        subst this
        exact List.mem_cons_self 0 _
      | some j =>
        dsimp only
        have hj : j < i := hwf.parent_lt hsd hp
        have hjlen : j < scs.length := Nat.lt_trans hj hi
        have hch : chainFuel i scs j = chainFuel (j + 1) scs j :=
          chainFuel_invariant hwf j hjlen i (by omega)
        rw [hch]
        exact List.mem_cons_of_mem _ (ih j hj hjlen)

theorem findFunctionScope_eq_find {scs : List Scope} (hwf : WellFormedArena scs) :
    ∀ i, i < scs.length → ∀ fuel, i < fuel →
      findFunctionScope fuel i scs =
        (chainFuel (i + 1) scs i).find?
          (fun j => scopeKindAt scs j == some ScopeKind.functionScope) := by
  intro i
  induction i using Nat.strong_induction_on with
  | _ i ih =>
    intro hi fuel hfuel
    match fuel, hfuel with
    | f + 1, _ =>
      simp only [findFunctionScope, chainFuel]
      cases hsd : scs[i]? with
      | none =>
        exfalso
        rw [List.getElem?_eq_getElem hi] at hsd
        exact Option.noConfusion hsd
      | some sd =>
        dsimp only
        have hpred : (fun j => scopeKindAt scs j == some ScopeKind.functionScope) i =
            (sd.scopeKind == ScopeKind.functionScope) := by
          simp [scopeKindAt, hsd]
        by_cases hk : sd.scopeKind = ScopeKind.functionScope
        · have hkb : (sd.scopeKind == ScopeKind.functionScope) = true := by
            rw [hk]
            rfl
          rw [hkb]
          rw [List.find?_cons_of_pos _ (by simp [scopeKindAt, hsd, hk])]
          simp
        · have hkb : (sd.scopeKind == ScopeKind.functionScope) = false := by
            simp [hk]
          rw [hkb]
          rw [List.find?_cons_of_neg _ (by simp [scopeKindAt, hsd, hk])]
          cases hp : sd.parentScope with
          | none =>
            have h0 : i = 0 := hwf.parent_none_eq_zero hsd hp
            subst h0
            exact absurd (hwf.root_kind hsd) hk
          | some j =>
            dsimp only
            have hj : j < i := hwf.parent_lt hsd hp
            have hjlen : j < scs.length := Nat.lt_trans hj hi
            rw [chainFuel_invariant hwf j hjlen i (by omega)]
            exact ih j hj hjlen f (by omega)

theorem findFunctionScope_isSome {scs : List Scope} (hwf : WellFormedArena scs)
    {i : Nat} (hi : i < scs.length) :
    (findFunctionScope (i + 1) i scs).isSome := by
  rw [findFunctionScope_eq_find hwf i hi (i + 1) (Nat.lt_succ_self i)]
  rw [List.find?_isSome]
  refine ⟨0, zero_mem_chainFuel hwf i hi, ?_⟩
  have h0 : 0 < scs.length := Nat.lt_of_le_of_lt (Nat.zero_le i) hi
  cases hsd : scs[0]? with
  | none =>
    rw [List.getElem?_eq_getElem h0] at hsd
    exact Option.noConfusion hsd
  | some sd =>
    simp [scopeKindAt, hsd, hwf.root_kind hsd]

theorem getBindingFuel_eq_findSome {scs : List Scope} (nm : String)
    (hwf : WellFormedArena scs) :
    ∀ i, i < scs.length → ∀ fuel, i < fuel →
      getBindingFuel fuel scs i nm =
        (chainFuel (i + 1) scs i).findSome? (ownEntry scs nm) := by
  intro i
  induction i using Nat.strong_induction_on with
  | _ i ih =>
    intro hi fuel hfuel
    match fuel, hfuel with
    | f + 1, _ =>
      simp only [getBindingFuel, chainFuel, List.findSome?_cons]
      cases hsd : scs[i]? with
      | none =>
        exfalso
        rw [List.getElem?_eq_getElem hi] at hsd
        exact Option.noConfusion hsd
      | some sd =>
        dsimp only
        cases hb : bget nm sd.bindings with
        | some decl =>
          simp [ownEntry, hsd, hb]
        | none =>
          simp only [ownEntry, hsd, hb]
          cases hp : sd.parentScope with
          | none =>
            have h0 : i = 0 := hwf.parent_none_eq_zero hsd hp
            subst h0
            rfl
          | some j =>
            dsimp only
            have hj : j < i := hwf.parent_lt hsd hp
            have hjlen : j < scs.length := Nat.lt_trans hj hi
            rw [chainFuel_invariant hwf j hjlen i (by omega)]
            exact ih j hj hjlen f (by omega)

theorem getBindingFuel_sound :
    ∀ fuel (scs : List Scope) i nm b j, getBindingFuel fuel scs i nm = some (b, j) →
      ∃ sd, scs[j]? = some sd ∧ bget nm sd.bindings = some b := by
  intro fuel
  induction fuel with
  | zero =>
    intro scs i nm b j h
    simp [getBindingFuel] at h
  | succ f ih =>
    intro scs i nm b j h
    simp only [getBindingFuel] at h
    cases hsd : scs[i]? with
    | none => rw [hsd] at h; exact Option.noConfusion h
    | some sd =>
      rw [hsd] at h
      dsimp only at h
      cases hb : bget nm sd.bindings with
      | some decl =>
        rw [hb] at h
        dsimp only at h
        obtain ⟨hbd, hij⟩ : decl = b ∧ i = j := by
          have := Option.some.inj h
          exact ⟨congrArg Prod.fst this, congrArg Prod.snd this⟩
        subst hbd
        subst hij
        exact ⟨sd, hsd, hb⟩
      | none =>
        rw [hb] at h
        dsimp only at h
        cases hp : sd.parentScope with
        | none => rw [hp] at h; exact Option.noConfusion h
        | some p =>
          rw [hp] at h
          exact ih scs p nm b j h

theorem supdate_length (i : Nat) (f : Scope → Scope) (scs : List Scope) :
    (supdate i f scs).length = scs.length := by
  unfold supdate
  cases scs[i]? <;> simp

theorem supdate_self {scs : List Scope} {i : Nat} {sd : Scope}
    (h : scs[i]? = some sd) (f : Scope → Scope) :
    (supdate i f scs)[i]? = some (f sd) := by
  unfold supdate
  rw [h]
  exact List.getElem?_set_self (getElem?_some_lt h)

theorem supdate_other {scs : List Scope} {i k : Nat} (f : Scope → Scope) (hk : k ≠ i) :
    (supdate i f scs)[k]? = scs[k]? := by
  unfold supdate
  cases scs[i]? with
  | none => rfl
  | some sd => exact List.getElem?_set_ne (fun he => hk he.symm)

theorem pushBindingRef_bget_self (nm : String) (ref : ScopeReference) :
    ∀ bs, bget nm (pushBindingRef nm ref bs) =
      (bget nm bs).map (fun v => { v with references := v.references ++ [ref] }) := by
  intro bs
  induction bs with
  | nil => rfl
  | cons kv rest ih =>
    obtain ⟨k, v⟩ := kv
    cases hk : (k == nm) with
    | true =>
      rw [show pushBindingRef nm ref ((k, v) :: rest) =
          (k, { v with references := v.references ++ [ref] }) :: rest from by
        simp [pushBindingRef, hk]]
      unfold bget
      rw [List.find?_cons_of_pos _ (by simpa using hk),
        List.find?_cons_of_pos _ (by simpa using hk)]
      rfl
    | false =>
      rw [show pushBindingRef nm ref ((k, v) :: rest) =
          (k, v) :: pushBindingRef nm ref rest from by simp [pushBindingRef, hk]]
      unfold bget
      rw [List.find?_cons_of_neg _ (by simp [hk]),
        List.find?_cons_of_neg _ (by simp [hk])]
      exact ih

/-- C4: `Scope.addReference(id, writeExpr, isInitializer)` always appends
exactly one new reference to the receiver scope's own reference list (and to
no other scope's list); the reference's `referenceTo` is the result of
`getBinding` on the identifier text (absent when unresolved); the same
reference is additionally appended to the target binding's reference list
exactly when resolution succeeded (unresolved identifiers change no binding
table and cause no error). -/
theorem addReference_appends (scs : List Scope) (i : Nat) (t : String)
    (qp : NodePath) (wE : Option NodePath) (ii : Bool) (sd : Scope)
    (hsd : scs[i]? = some sd) :
    ((addReference i t qp wE ii scs)[i]?).map Scope.references =
      some (sd.references ++
        [{ identifier := t, identifierPath := qp,
           referenceTo := (getBinding scs i t).map (·.2),
           referencedFromScope := i, writeExpr := wE, isInitializer := ii }]) ∧
    (∀ k : Nat, k ≠ i → ((addReference i t qp wE ii scs)[k]?).map Scope.references =
      (scs[k]?).map Scope.references) ∧
    (∀ (b : ScopeBindingDeclaration) (j : Nat), getBinding scs i t = some (b, j) →
      ∃ sdj, scs[j]? = some sdj ∧ bget t sdj.bindings = some b ∧
        ((addReference i t qp wE ii scs)[j]?).map (fun s => bget t s.bindings) =
          some (some { b with references := b.references ++
            [{ identifier := t, identifierPath := qp,
               referenceTo := (getBinding scs i t).map (·.2),
               referencedFromScope := i, writeExpr := wE, isInitializer := ii }] })) ∧
    (getBinding scs i t = none →
      ∀ k : Nat, ((addReference i t qp wE ii scs)[k]?).map Scope.bindings =
        (scs[k]?).map Scope.bindings) := by
  cases hres : getBinding scs i t with
  | none =>
    have hlhs : addReference i t qp wE ii scs =
        supdate i (fun s => { s with references := s.references ++
          [{ identifier := t, identifierPath := qp, referenceTo := none,
             referencedFromScope := i, writeExpr := wE, isInitializer := ii }] }) scs := by
      unfold addReference
      rw [hres]
      rfl
    refine ⟨?_, ?_, ?_, ?_⟩
    · rw [hlhs, supdate_self hsd]
      simp [hres]
    · intro k hk
      rw [hlhs, supdate_other _ hk]
    · intro b j hbj
      exact Option.noConfusion hbj
    · intro _ k
      by_cases hk : k = i
      · subst hk
        rw [hlhs, supdate_self hsd]
        simp [hsd]
      · rw [hlhs, supdate_other _ hk]
  | some bj =>
    obtain ⟨b, j⟩ := bj
    obtain ⟨sdj, hsdj, hbj⟩ := getBindingFuel_sound (i + 1) scs i t b j hres
    have hlhs : addReference i t qp wE ii scs =
        supdate i
          (fun s =>
            { s with
              references := s.references ++
                [{ identifier := t, identifierPath := qp, referenceTo := some j,
                   referencedFromScope := i, writeExpr := wE, isInitializer := ii }] })
          (supdate j
            (fun s =>
              { s with
                bindings :=
                  pushBindingRef t
                    { identifier := t, identifierPath := qp, referenceTo := some j,
                      referencedFromScope := i, writeExpr := wE, isInitializer := ii }
                    s.bindings })
            scs) := by
      unfold addReference
      rw [hres]
      rfl
    refine ⟨?_, ?_, ?_, ?_⟩
    · rw [hlhs]
      by_cases hij : i = j
      · subst hij
        rw [supdate_self (supdate_self hsd _) ]
        simp [hres]
      · rw [supdate_self ((supdate_other _ hij).trans hsd)]
        simp [hres]
    · intro k hk
      rw [hlhs, supdate_other _ hk]
      by_cases hkj : k = j
      · subst hkj
        rw [supdate_self hsdj]
        simp [hsdj]
      · rw [supdate_other _ hkj]
    · intro b' j' hbj'
      obtain ⟨rfl, rfl⟩ : b = b' ∧ j = j' := by
        have h2 := Option.some.inj hbj'
        exact ⟨congrArg Prod.fst h2, congrArg Prod.snd h2⟩
      refine ⟨sdj, hsdj, hbj, ?_⟩
      rw [hlhs]
      by_cases hij : j = i
      · subst hij
        rw [supdate_self (supdate_self hsdj _) _]
        simp [pushBindingRef_bget_self, hbj]
      · rw [supdate_other _ hij, supdate_self hsdj _]
        simp [pushBindingRef_bget_self, hbj]
    · intro hnone
      exact Option.noConfusion hnone

/-- C1: `Scope.addBinding(name, binding)` stores a `LexicalScope`-tagged
binding in the receiver scope's own table, and stores a
`FunctionScope`-tagged binding in the nearest `FunctionScope`-kind scope on
the chain receiver, parent, grandparent, ... (receiver inclusive); under the
construction invariant the root scope has kind `FunctionScope`, so such a
scope always exists and the `Could not find parent function scope` error
branch is unreachable (the error flag is never raised). -/
theorem addBinding_stores_at_nearest_function_scope
    (st : BuildState) (sc : Nat) (nm : String) (decl : ScopeBindingDeclaration)
    (hwf : WellFormedArena st.scopes) (hsc : sc < st.scopes.length) :
    (decl.bindingScopeKind = ScopeKind.lexicalScope →
      addBinding sc nm decl st = storeBinding sc nm decl st) ∧
    (decl.bindingScopeKind = ScopeKind.functionScope →
      ∃ j, (scopeChain st.scopes sc).find?
          (fun k => scopeKindAt st.scopes k == some ScopeKind.functionScope) = some j ∧
        addBinding sc nm decl st = storeBinding j nm decl st ∧
        (addBinding sc nm decl st).err = st.err) := by
  constructor
  · intro hk
    unfold addBinding
    rw [if_pos (by rw [hk]; rfl)]
  · intro hk
    have hfind := findFunctionScope_eq_find hwf sc hsc (sc + 1) (Nat.lt_succ_self sc)
    have hsome := findFunctionScope_isSome hwf hsc
    obtain ⟨j, hj⟩ := Option.isSome_iff_exists.mp hsome
    have heq : addBinding sc nm decl st = storeBinding j nm decl st := by
      unfold addBinding
      rw [if_neg (by rw [hk]; simp), hj]
    refine ⟨j, ?_, heq, ?_⟩
    · unfold scopeChain
      rw [← hfind]
      exact hj
    · rw [heq]
      rfl

/-- Witness for the hoisting theorem: in the concrete three-scope arena the
`FunctionScope`-tagged binding added through the deepest scope is stored in
the root scope (the nearest function-scope ancestor). -/
theorem addBinding_stores_at_nearest_function_scope_witness :
    WellFormedArena witnessBuild.scopes ∧ 2 < witnessBuild.scopes.length ∧
    ((witnessDecl.bindingScopeKind = ScopeKind.lexicalScope →
      addBinding 2 "v" witnessDecl witnessBuild = storeBinding 2 "v" witnessDecl witnessBuild) ∧
    (witnessDecl.bindingScopeKind = ScopeKind.functionScope →
      ∃ j, (scopeChain witnessBuild.scopes 2).find?
          (fun k => scopeKindAt witnessBuild.scopes k == some ScopeKind.functionScope) = some j ∧
        addBinding 2 "v" witnessDecl witnessBuild = storeBinding j "v" witnessDecl witnessBuild ∧
        (addBinding 2 "v" witnessDecl witnessBuild).err = witnessBuild.err)) :=
  ⟨by decide, by decide,
    addBinding_stores_at_nearest_function_scope witnessBuild 2 "v" witnessDecl
      (by decide) (by decide)⟩

/-- C3: `Scope.getBinding(name)` returns the (binding, owning scope) pair of
the nearest scope on the chain S, S.parent, ... whose own table holds the
name (the first hit along the chain), is absent exactly when no scope on the
chain holds one, and a binding in the receiver's own table shadows any
outer same-named binding. -/
theorem getBinding_resolves_nearest (scs : List Scope) (nm : String)
    (hwf : WellFormedArena scs) (i : Nat) (hi : i < scs.length) :
    getBinding scs i nm = (scopeChain scs i).findSome? (ownEntry scs nm) ∧
    (getBinding scs i nm = none ↔ ∀ j ∈ scopeChain scs i, ownEntry scs nm j = none) ∧
    (∀ sd b, scs[i]? = some sd → bget nm sd.bindings = some b →
      getBinding scs i nm = some (b, i)) := by
  have h := getBindingFuel_eq_findSome nm hwf i hi (i + 1) (Nat.lt_succ_self i)
  refine ⟨h, ?_, ?_⟩
  · rw [show getBinding scs i nm = (scopeChain scs i).findSome? (ownEntry scs nm) from h]
    exact List.findSome?_eq_none_iff
  · intro sd b hsd hb
    show getBindingFuel (i + 1) scs i nm = some (b, i)
    simp [getBindingFuel, hsd, hb]

/-- Witness for the resolution theorem at the concrete arena: from the
deepest scope, `x` resolves to the shadowing binding of the middle scope,
not the root's. -/
theorem getBinding_resolves_nearest_witness :
    WellFormedArena witnessArena ∧ 2 < witnessArena.length ∧
    (getBinding witnessArena 2 "x" =
        (scopeChain witnessArena 2).findSome? (ownEntry witnessArena "x") ∧
      (getBinding witnessArena 2 "x" = none ↔
        ∀ j ∈ scopeChain witnessArena 2, ownEntry witnessArena "x" j = none) ∧
      (∀ sd b, witnessArena[2]? = some sd → bget "x" sd.bindings = some b →
        getBinding witnessArena 2 "x" = some (b, 2))) :=
  ⟨by decide, by decide, getBinding_resolves_nearest witnessArena "x" (by decide) 2 (by decide)⟩

/-- Witness for the reference-appending theorem: one concrete
`addReference` call from the deepest scope of the arena (the identifier
resolves to the shadowing binding of the middle scope). -/
theorem addReference_appends_witness :
    witnessArena[2]? = some witnessScope2 ∧
    (((addReference 2 "x" [5] none false witnessArena)[2]?).map Scope.references =
      some (witnessScope2.references ++
        [{ identifier := "x", identifierPath := [5],
           referenceTo := (getBinding witnessArena 2 "x").map (·.2),
           referencedFromScope := 2, writeExpr := none, isInitializer := false }]) ∧
    (∀ k : Nat, k ≠ 2 → ((addReference 2 "x" [5] none false witnessArena)[k]?).map Scope.references =
      (witnessArena[k]?).map Scope.references) ∧
    (∀ (b : ScopeBindingDeclaration) (j : Nat), getBinding witnessArena 2 "x" = some (b, j) →
      ∃ sdj, witnessArena[j]? = some sdj ∧ bget "x" sdj.bindings = some b ∧
        ((addReference 2 "x" [5] none false witnessArena)[j]?).map (fun s => bget "x" s.bindings) =
          some (some { b with references := b.references ++
            [{ identifier := "x", identifierPath := [5],
               referenceTo := (getBinding witnessArena 2 "x").map (·.2),
               referencedFromScope := 2, writeExpr := none, isInitializer := false }] })) ∧
    (getBinding witnessArena 2 "x" = none →
      ∀ k : Nat, ((addReference 2 "x" [5] none false witnessArena)[k]?).map Scope.bindings =
        (witnessArena[k]?).map Scope.bindings)) :=
  ⟨by decide, addReference_appends witnessArena 2 "x" [5] none false witnessScope2 (by decide)⟩

theorem supdate_append_length (A : List Scope) (c : Scope) (f : Scope → Scope) :
    supdate A.length f (A ++ [c]) = A ++ [f c] := by
  unfold supdate
  rw [List.getElem?_append_right (Nat.le_refl _)]
  simp

/-- C6: resolving a variable declaration with a plain identifier name and an
identifier initializer (`const a = b;`) performs exactly two `addReference`
calls, in order: a read of the initializer `b` (no write expression, not an
initializer reference) and a declare-with-initializer reference for the
declared name `a` whose write expression is the initializer `b`. -/
theorem variableDeclaration_records_read_then_declare
    (f : Nat) (m : ScopesMap) (p : NodePath) (collect : Bool) (ini : Option NodePath)
    (a b : String) (s0 s1 : Nat) (st : ResolveState)
    (ha : a ≠ "") (hb : b ≠ "")
    (hm1 : mget (p ++ [1]) m = some s1) (hm0 : mget (p ++ [0]) m = some s0) :
    visitNode2 (f + 2) m p
        (.variableDeclaration (.identifier a) (some (.identifier b))) collect ini st =
      { st with
        scopes :=
          addReference s0 a (p ++ [0]) (some (p ++ [1])) true
            (addReference s1 b (p ++ [1]) none false st.scopes) } ∧
    collectRefs (f + 2) p
        (.variableDeclaration (.identifier a) (some (.identifier b))) collect ini =
      [{ scopePath := p ++ [1], text := b, identifierPath := p ++ [1],
         writeExpr := none, isInitializer := false },
       { scopePath := p ++ [0], text := a, identifierPath := p ++ [0],
         writeExpr := some (p ++ [1]), isInitializer := true }] := by
  have ha' : (a != "") = true := by simpa using ha
  have hb' : (b != "") = true := by simpa using hb
  constructor
  · simp [visitNode2, hm1, hm0, ha, hb]
  · simp [collectRefs, ha', hb']

/-- Witness for the variable-declaration reference theorem on the program
`const a = b;` built by the full pipeline. -/
theorem variableDeclaration_records_read_then_declare_witness :
    ("a" : String) ≠ "" ∧ ("b" : String) ≠ "" ∧
    mget ([0, 0, 0] ++ [1]) (findScopes progConstAB).scopesMap = some 0 ∧
    mget ([0, 0, 0] ++ [0]) (findScopes progConstAB).scopesMap = some 0 ∧
    (visitNode2 (0 + 2) (findScopes progConstAB).scopesMap [0, 0, 0]
        (.variableDeclaration (.identifier "a") (some (.identifier "b"))) true none
        { scopes := (findScopes progConstAB).scopes, err := false } =
      { scopes :=
          addReference 0 "a" ([0, 0, 0] ++ [0]) (some ([0, 0, 0] ++ [1])) true
            (addReference 0 "b" ([0, 0, 0] ++ [1]) none false (findScopes progConstAB).scopes)
        , err := false } ∧
    collectRefs (0 + 2) [0, 0, 0]
        (.variableDeclaration (.identifier "a") (some (.identifier "b"))) true none =
      [{ scopePath := [0, 0, 0] ++ [1], text := "b", identifierPath := [0, 0, 0] ++ [1],
         writeExpr := none, isInitializer := false },
       { scopePath := [0, 0, 0] ++ [0], text := "a", identifierPath := [0, 0, 0] ++ [0],
         writeExpr := some ([0, 0, 0] ++ [1]), isInitializer := true }]) :=
  ⟨by decide, by decide, by decide, by decide,
    variableDeclaration_records_read_then_declare 0 (findScopes progConstAB).scopesMap
      [0, 0, 0] true none "a" "b" 0 0 { scopes := (findScopes progConstAB).scopes, err := false }
      (by decide) (by decide) (by decide) (by decide)⟩

/-- C7: resolving `x = y;` (an expression statement whose expression is a
simple assignment with a bare identifier left side) performs exactly two
`addReference` calls, in order: a write reference for `x` whose write
expression is the right side `y` (not an initializer), and a read of `y`;
and pass 1 creates no binding anywhere for such a statement (the scope
arena is unchanged). -/
theorem assignment_records_write_then_read
    (f : Nat) (m : ScopesMap) (p : NodePath) (collect : Bool) (ini : Option NodePath)
    (x y : String) (s1 s2 : Nat) (st : ResolveState)
    (hy : y ≠ "")
    (hm1 : mget (p ++ [0]) m = some s1) (hm2 : mget (p ++ [0, 1]) m = some s2) :
    visitNode2 (f + 3) m p
        (.expressionStatement
          (.binaryExpression (.identifier x) .equalsToken (.identifier y))) collect ini st =
      { st with
        scopes :=
          addReference s2 y (p ++ [0, 1]) none false
            (addReference s1 x (p ++ [0, 0]) (some (p ++ [0, 1])) false st.scopes) } ∧
    (∀ (f1 : Nat) (par : Option Node) (sc : Nat) (st1 : BuildState),
      (visitNode1 f1 par p
        (.expressionStatement
          (.binaryExpression (.identifier x) .equalsToken (.identifier y))) sc st1).scopes =
        st1.scopes) := by
  have hy' : (y != "") = true := by simpa using hy
  constructor
  · simp [visitNode2, hm1, hm2, hy]
  · intro f1 par sc st1
    match f1 with
    | 0 => rfl
    | f2 + 1 =>
      simp only [visitNode1, children, goList]
      match f2 with
      | 0 => rfl
      | f3 + 1 =>
        simp only [visitNode1, children, goList]
        match f3 with
        | 0 => rfl
        | f4 + 1 => simp [visitNode1, children, goList]

/-- Witness for the assignment reference theorem on the pipeline state of
the program `x = y;`. -/
theorem assignment_records_write_then_read_witness :
    ("y" : String) ≠ "" ∧
    mget ([0] ++ [0]) (findScopes progAssignXY).scopesMap = some 0 ∧
    mget ([0] ++ [0, 1]) (findScopes progAssignXY).scopesMap = some 0 ∧
    (visitNode2 (1 + 3) (findScopes progAssignXY).scopesMap [0]
        (.expressionStatement
          (.binaryExpression (.identifier "x") .equalsToken (.identifier "y"))) false none
        { scopes := (findScopes progAssignXY).scopes, err := false } =
      { scopes :=
          addReference 0 "y" ([0] ++ [0, 1]) none false
            (addReference 0 "x" ([0] ++ [0, 0]) (some ([0] ++ [0, 1])) false
              (findScopes progAssignXY).scopes)
        , err := false } ∧
    (∀ (f1 : Nat) (par : Option Node) (sc : Nat) (st1 : BuildState),
      (visitNode1 f1 par [0]
        (.expressionStatement
          (.binaryExpression (.identifier "x") .equalsToken (.identifier "y"))) sc st1).scopes =
        st1.scopes)) :=
  ⟨by decide, by decide, by decide,
    assignment_records_write_then_read 1 (findScopes progAssignXY).scopesMap [0] false none
      "x" "y" 0 0 { scopes := (findScopes progAssignXY).scopes, err := false }
      (by decide) (by decide) (by decide)⟩

theorem findFunctionScope_append_fs (A : List Scope) (c : Scope) (i fuel : Nat)
    (hi : i = A.length) (hc : c.scopeKind = ScopeKind.functionScope) :
    findFunctionScope (fuel + 1) i (A ++ [c]) = some i := by
  subst hi
  simp only [findFunctionScope]
  rw [List.getElem?_append_right (Nat.le_refl _)]
  simp [hc]

theorem supdate_append_length_eq (A : List Scope) (c : Scope) (f : Scope → Scope) (i : Nat)
    (hi : i = A.length) : supdate i f (A ++ [c]) = A ++ [f c] := by
  subst hi
  exact supdate_append_length A c f

/-- C9: in pass 1, a named class-like node binds its name through the
containing scope with mutability `Immutable` and `bindingScopeKind`
`FunctionScope` (stored in the containing scope itself when that scope has
kind `FunctionScope`, as hypothesised here), and adds an implicit
self-reference binding named `this`, `Immutable`, to the fresh
`FunctionScope` class scope; a named function declaration or function
expression instead binds its name `Immutable` with `bindingScopeKind`
`LexicalScope` directly in the containing scope.  The statement exhibits
the exact final arenas for a class with no members and a function with no
parameters and an empty block body. -/
theorem class_binds_functionscope_function_binds_lexical
    (f : Nat) (par : Option Node) (p : NodePath) (sc : Nat) (st : BuildState)
    (t u v : String) (sd : Scope) (hsd : st.scopes[sc]? = some sd)
    (hk : sd.scopeKind = ScopeKind.functionScope) :
    (visitNode1 (f + 1) par p (.classDeclaration (some t) []) sc st).scopes =
      supdate sc
        (fun s =>
          { s with
            bindings :=
              bset t
                { declaringNode := p, bindingScopeKind := ScopeKind.functionScope,
                  identifier := t, mutability := Mutability.immutable, references := [] }
                s.bindings })
        st.scopes ++
      [{ scopeKind := ScopeKind.functionScope,
         bindings := [("this",
           { declaringNode := p, bindingScopeKind := ScopeKind.functionScope,
             identifier := "this", mutability := Mutability.immutable, references := [] })],
         parentScope := some sc, declaratingNode := p, references := [] }] ∧
    (visitNode1 (f + 1) par p (.functionDeclaration (some u) [] (some (.block []))) sc st).scopes =
      supdate sc
        (fun s =>
          { s with
            bindings :=
              bset u
                { declaringNode := p, bindingScopeKind := ScopeKind.lexicalScope,
                  identifier := u, mutability := Mutability.immutable, references := [] }
                s.bindings })
        st.scopes ++
      [{ scopeKind := ScopeKind.functionScope, bindings := [], parentScope := some sc,
         declaratingNode := p, references := [] }] ∧
    (visitNode1 (f + 1) par p (.functionExpression (some v) [] (some (.block []))) sc st).scopes =
      supdate sc
        (fun s =>
          { s with
            bindings :=
              bset v
                { declaringNode := p, bindingScopeKind := ScopeKind.lexicalScope,
                  identifier := v, mutability := Mutability.immutable, references := [] }
                s.bindings })
        st.scopes ++
      [{ scopeKind := ScopeKind.functionScope, bindings := [], parentScope := some sc,
         declaratingNode := p, references := [] }] := by
  have hlen : sc < st.scopes.length := getElem?_some_lt hsd
  have hfs : findFunctionScope (sc + 1) sc st.scopes = some sc := by
    match sc with
    | 0 =>
      simp only [findFunctionScope, hsd]
      rw [if_pos (by rw [hk]; rfl)]
    | s + 1 =>
      simp only [findFunctionScope, hsd]
      rw [if_pos (by rw [hk]; rfl)]
  have hname : ∀ (f2 : Nat) (par2 : Option Node) (p2 : NodePath) (tx : String)
      (sc2 : Nat) (st2 : BuildState),
      (visitNode1 f2 par2 p2 (.identifier tx) sc2 st2).scopes = st2.scopes := by
    intro f2 par2 p2 tx sc2 st2
    match f2 with
    | 0 => rfl
    | f3 + 1 => simp [visitNode1, children, goList]
  refine ⟨?_, ?_, ?_⟩
  · simp only [visitNode1, children, goList, Option.map_some, Option.toList_some,
      List.nil_append, List.append_nil]
    rw [hname]
    simp only [addBinding]
    rw [if_neg (by simp)]
    rw [if_neg (by simp)]
    simp only [hfs]
    simp only [storeBinding, newChildScope, supdate_length]
    rw [findFunctionScope_append_fs _ _ _ _ (supdate_length _ _ _).symm rfl]
    dsimp only
    rw [supdate_append_length_eq _ _ _ _ (supdate_length _ _ _).symm]
    simp [bset]
  · simp [visitNode1, children, goList, addAllChildren, setChildren, addBinding,
      storeBinding, newChildScope, Node.isBlockNode]
  · simp [visitNode1, children, goList, addAllChildren, setChildren, addBinding,
      storeBinding, newChildScope, Node.isBlockNode]

/-- Witness for the class-versus-function binding theorem at the root scope
of the concrete arena. -/
theorem class_binds_functionscope_function_binds_lexical_witness :
    witnessBuild.scopes[0]? = some witnessRootScope ∧
    witnessRootScope.scopeKind = ScopeKind.functionScope ∧
    ((visitNode1 (0 + 1) none [7] (.classDeclaration (some "C") []) 0 witnessBuild).scopes =
      supdate 0
        (fun s =>
          { s with
            bindings :=
              bset "C"
                { declaringNode := [7], bindingScopeKind := ScopeKind.functionScope,
                  identifier := "C", mutability := Mutability.immutable, references := [] }
                s.bindings })
        witnessBuild.scopes ++
      [{ scopeKind := ScopeKind.functionScope,
         bindings := [("this",
           { declaringNode := [7], bindingScopeKind := ScopeKind.functionScope,
             identifier := "this", mutability := Mutability.immutable, references := [] })],
         parentScope := some 0, declaratingNode := [7], references := [] }] ∧
    (visitNode1 (0 + 1) none [7] (.functionDeclaration (some "g") [] (some (.block []))) 0
        witnessBuild).scopes =
      supdate 0
        (fun s =>
          { s with
            bindings :=
              bset "g"
                { declaringNode := [7], bindingScopeKind := ScopeKind.lexicalScope,
                  identifier := "g", mutability := Mutability.immutable, references := [] }
                s.bindings })
        witnessBuild.scopes ++
      [{ scopeKind := ScopeKind.functionScope, bindings := [], parentScope := some 0,
         declaratingNode := [7], references := [] }] ∧
    (visitNode1 (0 + 1) none [7] (.functionExpression (some "h") [] (some (.block []))) 0
        witnessBuild).scopes =
      supdate 0
        (fun s =>
          { s with
            bindings :=
              bset "h"
                { declaringNode := [7], bindingScopeKind := ScopeKind.lexicalScope,
                  identifier := "h", mutability := Mutability.immutable, references := [] }
                s.bindings })
        witnessBuild.scopes ++
      [{ scopeKind := ScopeKind.functionScope, bindings := [], parentScope := some 0,
         declaratingNode := [7], references := [] }]) :=
  ⟨by decide, by decide,
    class_binds_functionscope_function_binds_lexical 0 none [7] 0 witnessBuild "C" "g" "h"
      witnessRootScope (by decide) (by decide)⟩

theorem nsize_pos : ∀ n : Node, 0 < nsize n := by
  intro n
  cases n <;> (simp only [nsize]; omega)

theorem nsizeList_pos : ∀ l : List Node, 0 < nsizeList l := by
  intro l
  cases l <;> (simp only [nsizeList]; omega)

theorem nsize_lt_nsizeList {c : Node} : ∀ {l : List Node}, c ∈ l → nsize c < nsizeList l := by
  intro l
  induction l with
  | nil => intro h; exact absurd h (List.not_mem_nil c)
  | cons x xs ih =>
    intro h
    rcases List.mem_cons.mp h with h | h
    · subst h
      have := nsizeList_pos xs
      simp only [nsizeList]
      omega
    · have := ih h
      simp only [nsizeList]
      omega

theorem children_nsize {c n : Node} (h : c ∈ children n) : nsize c < nsize n := by
  have hid : ∀ t : String, nsize (Node.identifier t) = 1 := fun _ => rfl
  cases n with
  | identifier t => simp [children] at h
  | sourceFile sts =>
    simp only [children] at h
    have := nsize_lt_nsizeList h
    simp only [nsize]
    omega
  | block sts =>
    simp only [children] at h
    have := nsize_lt_nsizeList h
    simp only [nsize]
    omega
  | variableDeclarationList fl ds =>
    simp only [children] at h
    have := nsize_lt_nsizeList h
    simp only [nsize]
    omega
  | variableDeclaration nm ini =>
    simp only [children, List.mem_append, List.mem_singleton, Option.mem_toList,
      Option.mem_def] at h
    rcases h with h | h
    · subst h
      simp only [nsize]
      omega
    · rw [h]
      simp only [nsize, nsizeOpt]
      omega
  | objectBindingPattern els =>
    simp only [children] at h
    have := nsize_lt_nsizeList h
    simp only [nsize]
    omega
  | arrayBindingPattern els =>
    simp only [children] at h
    have := nsize_lt_nsizeList h
    simp only [nsize]
    omega
  | bindingElement prop nm ini =>
    simp only [children, List.mem_append, List.mem_singleton, Option.mem_toList,
      Option.mem_def] at h
    rcases h with (h | h) | h
    · rw [h]
      simp only [nsize, nsizeOpt]
      omega
    · subst h
      simp only [nsize]
      omega
    · rw [h]
      simp only [nsize, nsizeOpt]
      omega
  | parameter nm ini =>
    simp only [children, List.mem_append, List.mem_singleton, Option.mem_toList,
      Option.mem_def] at h
    rcases h with h | h
    · subst h
      simp only [nsize]
      omega
    · rw [h]
      simp only [nsize, nsizeOpt]
      omega
  | functionDeclaration nm ps body =>
    simp only [children, List.mem_append, List.mem_singleton, Option.mem_toList,
      Option.mem_def, Option.map_eq_some'] at h
    rcases h with (h | h) | h
    · obtain ⟨t, ht, hc⟩ := h
      subst ht
      rw [← hc, hid]
      simp only [nsize]
      omega
    · have := nsize_lt_nsizeList h
      simp only [nsize]
      omega
    · rw [h]
      simp only [nsize, nsizeOpt]
      omega
  | functionExpression nm ps body =>
    simp only [children, List.mem_append, List.mem_singleton, Option.mem_toList,
      Option.mem_def, Option.map_eq_some'] at h
    rcases h with (h | h) | h
    · obtain ⟨t, ht, hc⟩ := h
      subst ht
      rw [← hc, hid]
      simp only [nsize]
      omega
    · have := nsize_lt_nsizeList h
      simp only [nsize]
      omega
    · rw [h]
      simp only [nsize, nsizeOpt]
      omega
  | arrowFunction ps body =>
    simp only [children, List.mem_append, List.mem_singleton] at h
    rcases h with h | h
    · have := nsize_lt_nsizeList h
      simp only [nsize]
      omega
    · subst h
      simp only [nsize]
      omega
  | classDeclaration nm ms =>
    simp only [children, List.mem_append, Option.mem_toList, Option.mem_def,
      Option.map_eq_some'] at h
    rcases h with h | h
    · obtain ⟨t, ht, hc⟩ := h
      subst ht
      rw [← hc, hid]
      simp only [nsize]
      omega
    · have := nsize_lt_nsizeList h
      simp only [nsize]
      omega
  | expressionStatement e =>
    simp only [children, List.mem_singleton] at h
    subst h
    simp only [nsize]
    omega
  | binaryExpression l op r =>
    simp only [children, List.mem_cons, List.mem_singleton, List.not_mem_nil, or_false] at h
    rcases h with h | h
    · subst h
      simp only [nsize]
      omega
    · subst h
      simp only [nsize]
      omega
  | computedPropertyName e =>
    simp only [children, List.mem_singleton] at h
    subst h
    simp only [nsize]
    omega
  | forOfStatement ini e stmt =>
    simp only [children, List.mem_cons, List.not_mem_nil, or_false] at h
    rcases h with h | h | h
    · subst h
      simp only [nsize]
      omega
    · subst h
      simp only [nsize]
      omega
    · subst h
      simp only [nsize]
      omega
  | forInStatement ini e stmt =>
    simp only [children, List.mem_cons, List.not_mem_nil, or_false] at h
    rcases h with h | h | h
    · subst h
      simp only [nsize]
      omega
    · subst h
      simp only [nsize]
      omega
    · subst h
      simp only [nsize]
      omega
  | otherNode cs =>
    simp only [children] at h
    have := nsize_lt_nsizeList h
    simp only [nsize]
    omega

theorem mget_append_isSome {q : NodePath} {m : ScopesMap} (B : ScopesMap)
    (h : (mget q m).isSome) : (mget q (B ++ m)).isSome := by
  unfold mget at *
  rw [List.find?_append]
  cases hB : B.find? (fun e => e.1 == q) with
  | none => simpa using h
  | some e => simp

theorem setChildren_pfx (p : NodePath) (sc : Nat) :
    ∀ (cs : List Node) (k : Nat) (m : ScopesMap), ∃ B, setChildren p sc k cs m = B ++ m := by
  intro cs
  induction cs with
  | nil => intro k m; exact ⟨[], rfl⟩
  | cons c cs ih =>
    intro k m
    obtain ⟨B, hB⟩ := ih (k + 1) (mset (p ++ [k]) sc m)
    refine ⟨B ++ [(p ++ [k], sc)], ?_⟩
    show setChildren p sc (k + 1) cs (mset (p ++ [k]) sc m) = (B ++ [(p ++ [k], sc)]) ++ m
    rw [hB]
    simp [mset]

theorem addBinding_scopesMap (sc : Nat) (nm : String) (d : ScopeBindingDeclaration)
    (st : BuildState) : (addBinding sc nm d st).scopesMap = st.scopesMap := by
  unfold addBinding storeBinding
  split
  · rfl
  · split <;> rfl

theorem bindList_scopesMap (h : Node → BuildState → BuildState)
    (hh : ∀ el st, (h el st).scopesMap = st.scopesMap) :
    ∀ (els : List Node) (st : BuildState), (bindList h els st).scopesMap = st.scopesMap := by
  intro els
  induction els with
  | nil => intro st; rfl
  | cons el els ih =>
    intro st
    simp only [bindList, ih, hh]

theorem bindName_scopesMap :
    ∀ (fuel : Nat) (bn : Node) (dp : NodePath) (sc : Nat) (k : ScopeKind) (mu : Mutability)
      (st : BuildState), (bindName fuel bn dp sc k mu st).scopesMap = st.scopesMap := by
  intro fuel
  induction fuel with
  | zero => intro bn dp sc k mu st; rfl
  | succ f ih =>
    intro bn dp sc k mu st
    cases bn with
    | identifier t => exact addBinding_scopesMap _ _ _ _
    | objectBindingPattern els =>
      refine bindList_scopesMap _ ?_ els st
      intro el st'
      cases el with
      | bindingElement prop nm ini => exact ih _ _ _ _ _ _
      | identifier t => rfl
      | sourceFile a => rfl
      | block a => rfl
      | variableDeclarationList a b => rfl
      | variableDeclaration a b => rfl
      | objectBindingPattern a => rfl
      | arrayBindingPattern a => rfl
      | parameter a b => rfl
      | functionDeclaration a b c => rfl
      | functionExpression a b c => rfl
      | arrowFunction a b => rfl
      | classDeclaration a b => rfl
      | expressionStatement a => rfl
      | binaryExpression a b c => rfl
      | computedPropertyName a => rfl
      | forOfStatement a b c => rfl
      | forInStatement a b c => rfl
      | otherNode a => rfl
    | arrayBindingPattern els =>
      refine bindList_scopesMap _ ?_ els st
      intro el st'
      cases el with
      | bindingElement prop nm ini => exact ih _ _ _ _ _ _
      | identifier t => rfl
      | sourceFile a => rfl
      | block a => rfl
      | variableDeclarationList a b => rfl
      | variableDeclaration a b => rfl
      | objectBindingPattern a => rfl
      | arrayBindingPattern a => rfl
      | parameter a b => rfl
      | functionDeclaration a b c => rfl
      | functionExpression a b c => rfl
      | arrowFunction a b => rfl
      | classDeclaration a b => rfl
      | expressionStatement a => rfl
      | binaryExpression a b c => rfl
      | computedPropertyName a => rfl
      | forOfStatement a b c => rfl
      | forInStatement a b c => rfl
      | otherNode a => rfl
    | sourceFile a => rfl
    | block a => rfl
    | variableDeclarationList a b => rfl
    | variableDeclaration a b => rfl
    | bindingElement a b c => rfl
    | parameter a b => rfl
    | functionDeclaration a b c => rfl
    | functionExpression a b c => rfl
    | arrowFunction a b => rfl
    | classDeclaration a b => rfl
    | expressionStatement a => rfl
    | binaryExpression a b c => rfl
    | computedPropertyName a => rfl
    | forOfStatement a b c => rfl
    | forInStatement a b c => rfl
    | otherNode a => rfl

theorem exists_prefix_goList (v : NodePath → Nat → Node → Nat → BuildState → BuildState)
    (hv : ∀ p k c sc st, ∃ B, (v p k c sc st).scopesMap = B ++ st.scopesMap) :
    ∀ (cs : List Node) (p : NodePath) (i : Nat) (sc : Nat) (st : BuildState),
      ∃ B, (goList v p i cs sc st).scopesMap = B ++ st.scopesMap := by
  intro cs
  induction cs with
  | nil => intro p i sc st; exact ⟨[], rfl⟩
  | cons c cs ih =>
    intro p i sc st
    obtain ⟨B1, hB1⟩ := hv p i c sc st
    obtain ⟨B2, hB2⟩ := ih p (i + 1) sc (v p i c sc st)
    refine ⟨B2 ++ B1, ?_⟩
    simp only [goList, hB2, hB1, List.append_assoc]

theorem prefix_trans {a b c : ScopesMap} (h1 : ∃ B, a = B ++ b) (h2 : ∃ B, b = B ++ c) :
    ∃ B, a = B ++ c := by
  obtain ⟨B1, h1⟩ := h1
  obtain ⟨B2, h2⟩ := h2
  exact ⟨B1 ++ B2, by rw [h1, h2, List.append_assoc]⟩

theorem prefix_of_eq {a b : ScopesMap} (h : a = b) : ∃ B, a = B ++ b := ⟨[], by simp [h]⟩

theorem prefix_cons (e : NodePath × Nat) (m : ScopesMap) :
    ∃ B, (e :: m : ScopesMap) = B ++ m := ⟨[e], rfl⟩

theorem addAllChildren_pfx (p : NodePath) (n : Node) (sc : Nat) (st : BuildState) :
    ∃ B, (addAllChildren p n sc st).scopesMap = B ++ st.scopesMap :=
  setChildren_pfx p sc (children n) 0 st.scopesMap

theorem visitNode1_map_pfx :
    ∀ (fuel : Nat) (par : Option Node) (p : NodePath) (n : Node) (sc : Nat) (st : BuildState),
      ∃ B, (visitNode1 fuel par p n sc st).scopesMap = B ++ st.scopesMap := by
  intro fuel
  induction fuel with
  | zero => intro par p n sc st; exact ⟨[], rfl⟩
  | succ f ih =>
    intro par p n sc st
    cases n with
    | identifier t =>
      simp only [visitNode1]
      refine prefix_trans (exists_prefix_goList _ ?_ _ _ _ _ _) ?_
      · intro p' k c sc' st'
        exact ih _ _ _ _ _
      · exact prefix_cons _ _
    | sourceFile sts =>
      simp only [visitNode1]
      refine prefix_trans (exists_prefix_goList _ ?_ _ _ _ _ _) ?_
      · intro p' k c sc' st'
        exact ih _ _ _ _ _
      · exact prefix_cons _ _
    | variableDeclarationList fl ds =>
      simp only [visitNode1]
      refine prefix_trans (exists_prefix_goList _ ?_ _ _ _ _ _) ?_
      · intro p' k c sc' st'
        exact ih _ _ _ _ _
      · exact prefix_cons _ _
    | objectBindingPattern els =>
      simp only [visitNode1]
      refine prefix_trans (exists_prefix_goList _ ?_ _ _ _ _ _) ?_
      · intro p' k c sc' st'
        exact ih _ _ _ _ _
      · exact prefix_cons _ _
    | arrayBindingPattern els =>
      simp only [visitNode1]
      refine prefix_trans (exists_prefix_goList _ ?_ _ _ _ _ _) ?_
      · intro p' k c sc' st'
        exact ih _ _ _ _ _
      · exact prefix_cons _ _
    | bindingElement prop bnm bini =>
      simp only [visitNode1]
      refine prefix_trans (exists_prefix_goList _ ?_ _ _ _ _ _) ?_
      · intro p' k c sc' st'
        exact ih _ _ _ _ _
      · exact prefix_cons _ _
    | parameter pnm pini =>
      simp only [visitNode1]
      refine prefix_trans (exists_prefix_goList _ ?_ _ _ _ _ _) ?_
      · intro p' k c sc' st'
        exact ih _ _ _ _ _
      · exact prefix_cons _ _
    | expressionStatement e =>
      simp only [visitNode1]
      refine prefix_trans (exists_prefix_goList _ ?_ _ _ _ _ _) ?_
      · intro p' k c sc' st'
        exact ih _ _ _ _ _
      · exact prefix_cons _ _
    | binaryExpression l op r =>
      simp only [visitNode1]
      refine prefix_trans (exists_prefix_goList _ ?_ _ _ _ _ _) ?_
      · intro p' k c sc' st'
        exact ih _ _ _ _ _
      · exact prefix_cons _ _
    | computedPropertyName e =>
      simp only [visitNode1]
      refine prefix_trans (exists_prefix_goList _ ?_ _ _ _ _ _) ?_
      · intro p' k c sc' st'
        exact ih _ _ _ _ _
      · exact prefix_cons _ _
    | otherNode cs =>
      simp only [visitNode1]
      refine prefix_trans (exists_prefix_goList _ ?_ _ _ _ _ _) ?_
      · intro p' k c sc' st'
        exact ih _ _ _ _ _
      · exact prefix_cons _ _
    | block sts =>
      simp only [visitNode1]
      refine prefix_trans (exists_prefix_goList _ ?_ _ _ _ _ _) ?_
      · intro p' k c sc' st'
        exact ih _ _ _ _ _
      · exact prefix_cons _ _
    | variableDeclaration vnm vini =>
      simp only [visitNode1]
      refine prefix_trans (exists_prefix_goList _ ?_ _ _ _ _ _) ?_
      · intro p' k c sc' st'
        exact ih _ _ _ _ _
      · split
        · refine prefix_trans (prefix_of_eq (bindName_scopesMap _ _ _ _ _ _ _)) ?_
          exact prefix_cons _ _
        · exact prefix_cons _ _
    | functionDeclaration fname ps body =>
      cases fname with
      | none =>
        cases body with
        | none =>
          simp only [visitNode1, Option.isSome_none, Bool.false_eq_true, if_false]
          refine prefix_trans (exists_prefix_goList _ ?_ _ _ _ _ _) ?_
          · intro p' k c sc' st'
            obtain ⟨B, hB⟩ := ih _ (p' ++ [k]) c sc' st'
            cases c <;>
              first
                | exact ⟨B, hB⟩
                | exact ⟨B, (bindName_scopesMap _ _ _ _ _ _ _).trans hB⟩
          ·
            refine prefix_trans (addAllChildren_pfx _ _ _ _) ?_
            exact prefix_cons _ _
        | some b =>
          cases hb : b.isBlockNode with
          | true =>
            simp only [visitNode1, Option.isSome_none, Bool.false_eq_true, if_false, hb,
              if_true]
            refine prefix_trans (exists_prefix_goList _ ?_ _ _ _ _ _) ?_
            · intro p' k c sc' st'
              exact ih _ _ _ _ _
            · refine prefix_trans (prefix_cons _ _) ?_
              refine prefix_trans (exists_prefix_goList _ ?_ _ _ _ _ _) ?_
              · intro p' k c sc' st'
                obtain ⟨B, hB⟩ := ih _ (p' ++ [k]) c sc' st'
                cases c <;>
                  first
                    | exact ⟨B, hB⟩
                    | exact ⟨B, (bindName_scopesMap _ _ _ _ _ _ _).trans hB⟩
              ·
                refine prefix_trans (addAllChildren_pfx _ _ _ _) ?_
                exact prefix_cons _ _
          | false =>
            simp only [visitNode1, Option.isSome_none, Bool.false_eq_true, if_false, hb]
            refine prefix_trans (ih _ _ _ _ _) ?_
            refine prefix_trans (exists_prefix_goList _ ?_ _ _ _ _ _) ?_
            · intro p' k c sc' st'
              obtain ⟨B, hB⟩ := ih _ (p' ++ [k]) c sc' st'
              cases c <;>
                first
                  | exact ⟨B, hB⟩
                  | exact ⟨B, (bindName_scopesMap _ _ _ _ _ _ _).trans hB⟩
            ·
              refine prefix_trans (addAllChildren_pfx _ _ _ _) ?_
              exact prefix_cons _ _
      | some t =>
        cases body with
        | none =>
          simp only [visitNode1, Option.isSome_some, if_true]
          refine prefix_trans (exists_prefix_goList _ ?_ _ _ _ _ _) ?_
          · intro p' k c sc' st'
            obtain ⟨B, hB⟩ := ih _ (p' ++ [k]) c sc' st'
            cases c <;>
              first
                | exact ⟨B, hB⟩
                | exact ⟨B, (bindName_scopesMap _ _ _ _ _ _ _).trans hB⟩
          ·
            refine prefix_trans (prefix_of_eq (addBinding_scopesMap _ _ _ _)) ?_
            refine prefix_trans (prefix_cons _ _) ?_
            refine prefix_trans (addAllChildren_pfx _ _ _ _) ?_
            exact prefix_cons _ _
        | some b =>
          cases hb : b.isBlockNode with
          | true =>
            simp only [visitNode1, Option.isSome_some, if_true, hb]
            refine prefix_trans (exists_prefix_goList _ ?_ _ _ _ _ _) ?_
            · intro p' k c sc' st'
              exact ih _ _ _ _ _
            · refine prefix_trans (prefix_cons _ _) ?_
              refine prefix_trans (exists_prefix_goList _ ?_ _ _ _ _ _) ?_
              · intro p' k c sc' st'
                obtain ⟨B, hB⟩ := ih _ (p' ++ [k]) c sc' st'
                cases c <;>
                  first
                    | exact ⟨B, hB⟩
                    | exact ⟨B, (bindName_scopesMap _ _ _ _ _ _ _).trans hB⟩
              ·
                refine prefix_trans (prefix_of_eq (addBinding_scopesMap _ _ _ _)) ?_
                refine prefix_trans (prefix_cons _ _) ?_
                refine prefix_trans (addAllChildren_pfx _ _ _ _) ?_
                exact prefix_cons _ _
          | false =>
            simp only [visitNode1, Option.isSome_some, if_true, hb, Bool.false_eq_true,
              if_false]
            refine prefix_trans (ih _ _ _ _ _) ?_
            refine prefix_trans (exists_prefix_goList _ ?_ _ _ _ _ _) ?_
            · intro p' k c sc' st'
              obtain ⟨B, hB⟩ := ih _ (p' ++ [k]) c sc' st'
              cases c <;>
                first
                  | exact ⟨B, hB⟩
                  | exact ⟨B, (bindName_scopesMap _ _ _ _ _ _ _).trans hB⟩
            ·
              refine prefix_trans (prefix_of_eq (addBinding_scopesMap _ _ _ _)) ?_
              refine prefix_trans (prefix_cons _ _) ?_
              refine prefix_trans (addAllChildren_pfx _ _ _ _) ?_
              exact prefix_cons _ _
    | functionExpression fname ps body =>
      cases fname with
      | none =>
        cases body with
        | none =>
          simp only [visitNode1, Option.isSome_none, Bool.false_eq_true, if_false]
          refine prefix_trans (exists_prefix_goList _ ?_ _ _ _ _ _) ?_
          · intro p' k c sc' st'
            obtain ⟨B, hB⟩ := ih _ (p' ++ [k]) c sc' st'
            cases c <;>
              first
                | exact ⟨B, hB⟩
                | exact ⟨B, (bindName_scopesMap _ _ _ _ _ _ _).trans hB⟩
          ·
            refine prefix_trans (addAllChildren_pfx _ _ _ _) ?_
            exact prefix_cons _ _
        | some b =>
          cases hb : b.isBlockNode with
          | true =>
            simp only [visitNode1, Option.isSome_none, Bool.false_eq_true, if_false, hb,
              if_true]
            refine prefix_trans (exists_prefix_goList _ ?_ _ _ _ _ _) ?_
            · intro p' k c sc' st'
              exact ih _ _ _ _ _
            · refine prefix_trans (prefix_cons _ _) ?_
              refine prefix_trans (exists_prefix_goList _ ?_ _ _ _ _ _) ?_
              · intro p' k c sc' st'
                obtain ⟨B, hB⟩ := ih _ (p' ++ [k]) c sc' st'
                cases c <;>
                  first
                    | exact ⟨B, hB⟩
                    | exact ⟨B, (bindName_scopesMap _ _ _ _ _ _ _).trans hB⟩
              ·
                refine prefix_trans (addAllChildren_pfx _ _ _ _) ?_
                exact prefix_cons _ _
          | false =>
            simp only [visitNode1, Option.isSome_none, Bool.false_eq_true, if_false, hb]
            refine prefix_trans (ih _ _ _ _ _) ?_
            refine prefix_trans (exists_prefix_goList _ ?_ _ _ _ _ _) ?_
            · intro p' k c sc' st'
              obtain ⟨B, hB⟩ := ih _ (p' ++ [k]) c sc' st'
              cases c <;>
                first
                  | exact ⟨B, hB⟩
                  | exact ⟨B, (bindName_scopesMap _ _ _ _ _ _ _).trans hB⟩
            ·
              refine prefix_trans (addAllChildren_pfx _ _ _ _) ?_
              exact prefix_cons _ _
      | some t =>
        cases body with
        | none =>
          simp only [visitNode1, Option.isSome_some, if_true]
          refine prefix_trans (exists_prefix_goList _ ?_ _ _ _ _ _) ?_
          · intro p' k c sc' st'
            obtain ⟨B, hB⟩ := ih _ (p' ++ [k]) c sc' st'
            cases c <;>
              first
                | exact ⟨B, hB⟩
                | exact ⟨B, (bindName_scopesMap _ _ _ _ _ _ _).trans hB⟩
          ·
            refine prefix_trans (prefix_of_eq (addBinding_scopesMap _ _ _ _)) ?_
            refine prefix_trans (prefix_cons _ _) ?_
            refine prefix_trans (addAllChildren_pfx _ _ _ _) ?_
            exact prefix_cons _ _
        | some b =>
          cases hb : b.isBlockNode with
          | true =>
            simp only [visitNode1, Option.isSome_some, if_true, hb]
            refine prefix_trans (exists_prefix_goList _ ?_ _ _ _ _ _) ?_
            · intro p' k c sc' st'
              exact ih _ _ _ _ _
            · refine prefix_trans (prefix_cons _ _) ?_
              refine prefix_trans (exists_prefix_goList _ ?_ _ _ _ _ _) ?_
              · intro p' k c sc' st'
                obtain ⟨B, hB⟩ := ih _ (p' ++ [k]) c sc' st'
                cases c <;>
                  first
                    | exact ⟨B, hB⟩
                    | exact ⟨B, (bindName_scopesMap _ _ _ _ _ _ _).trans hB⟩
              ·
                refine prefix_trans (prefix_of_eq (addBinding_scopesMap _ _ _ _)) ?_
                refine prefix_trans (prefix_cons _ _) ?_
                refine prefix_trans (addAllChildren_pfx _ _ _ _) ?_
                exact prefix_cons _ _
          | false =>
            simp only [visitNode1, Option.isSome_some, if_true, hb, Bool.false_eq_true,
              if_false]
            refine prefix_trans (ih _ _ _ _ _) ?_
            refine prefix_trans (exists_prefix_goList _ ?_ _ _ _ _ _) ?_
            · intro p' k c sc' st'
              obtain ⟨B, hB⟩ := ih _ (p' ++ [k]) c sc' st'
              cases c <;>
                first
                  | exact ⟨B, hB⟩
                  | exact ⟨B, (bindName_scopesMap _ _ _ _ _ _ _).trans hB⟩
            ·
              refine prefix_trans (prefix_of_eq (addBinding_scopesMap _ _ _ _)) ?_
              refine prefix_trans (prefix_cons _ _) ?_
              refine prefix_trans (addAllChildren_pfx _ _ _ _) ?_
              exact prefix_cons _ _
    | arrowFunction ps body =>
      cases hb : body.isBlockNode with
      | true =>
        simp only [visitNode1, hb, if_true]
        refine prefix_trans (exists_prefix_goList _ ?_ _ _ _ _ _) ?_
        · intro p' k c sc' st'
          exact ih _ _ _ _ _
        · refine prefix_trans (prefix_cons _ _) ?_
          refine prefix_trans (exists_prefix_goList _ ?_ _ _ _ _ _) ?_
          · intro p' k c sc' st'
            obtain ⟨B, hB⟩ := ih _ (p' ++ [k]) c sc' st'
            cases c <;>
              first
                | exact ⟨B, hB⟩
                | exact ⟨B, (bindName_scopesMap _ _ _ _ _ _ _).trans hB⟩
          ·
            refine prefix_trans (addAllChildren_pfx _ _ _ _) ?_
            exact prefix_cons _ _
      | false =>
        simp only [visitNode1, hb, Bool.false_eq_true, if_false]
        refine prefix_trans (ih _ _ _ _ _) ?_
        refine prefix_trans (exists_prefix_goList _ ?_ _ _ _ _ _) ?_
        · intro p' k c sc' st'
          obtain ⟨B, hB⟩ := ih _ (p' ++ [k]) c sc' st'
          cases c <;>
            first
              | exact ⟨B, hB⟩
              | exact ⟨B, (bindName_scopesMap _ _ _ _ _ _ _).trans hB⟩
        ·
          refine prefix_trans (addAllChildren_pfx _ _ _ _) ?_
          exact prefix_cons _ _
    | classDeclaration cname ms =>
      cases cname with
      | none =>
        simp only [visitNode1]
        refine prefix_trans (exists_prefix_goList _ ?_ _ _ _ _ _) ?_
        · intro p' k c sc' st'
          exact ih _ _ _ _ _
        · refine prefix_trans (prefix_of_eq (addBinding_scopesMap _ _ _ _)) ?_
          exact prefix_cons _ _
      | some t =>
        simp only [visitNode1]
        refine prefix_trans (exists_prefix_goList _ ?_ _ _ _ _ _) ?_
        · intro p' k c sc' st'
          exact ih _ _ _ _ _
        · refine prefix_trans (prefix_of_eq (addBinding_scopesMap _ _ _ _)) ?_
          refine prefix_trans (prefix_of_eq (addBinding_scopesMap _ _ _ _)) ?_
          exact prefix_cons _ _
    | forOfStatement lini le lstmt =>
      cases hb : lstmt.isBlockNode with
      | true =>
        simp only [visitNode1, hb, if_true]
        refine prefix_trans (exists_prefix_goList _ ?_ _ _ _ _ _) ?_
        · intro p' k c sc' st'
          exact ih _ _ _ _ _
        · refine prefix_trans (prefix_cons _ _) ?_
          refine prefix_trans (ih _ _ _ _ _) ?_
          refine prefix_trans (ih _ _ _ _ _) ?_
          refine prefix_trans (addAllChildren_pfx _ _ _ _) ?_
          exact prefix_cons _ _
      | false =>
        simp only [visitNode1, hb, Bool.false_eq_true, if_false]
        refine prefix_trans (ih _ _ _ _ _) ?_
        refine prefix_trans (ih _ _ _ _ _) ?_
        refine prefix_trans (ih _ _ _ _ _) ?_
        refine prefix_trans (addAllChildren_pfx _ _ _ _) ?_
        exact prefix_cons _ _
    | forInStatement lini le lstmt =>
      cases hb : lstmt.isBlockNode with
      | true =>
        simp only [visitNode1, hb, if_true]
        refine prefix_trans (exists_prefix_goList _ ?_ _ _ _ _ _) ?_
        · intro p' k c sc' st'
          exact ih _ _ _ _ _
        · refine prefix_trans (prefix_cons _ _) ?_
          refine prefix_trans (ih _ _ _ _ _) ?_
          refine prefix_trans (ih _ _ _ _ _) ?_
          refine prefix_trans (addAllChildren_pfx _ _ _ _) ?_
          exact prefix_cons _ _
      | false =>
        simp only [visitNode1, hb, Bool.false_eq_true, if_false]
        refine prefix_trans (ih _ _ _ _ _) ?_
        refine prefix_trans (ih _ _ _ _ _) ?_
        refine prefix_trans (ih _ _ _ _ _) ?_
        refine prefix_trans (addAllChildren_pfx _ _ _ _) ?_
        exact prefix_cons _ _

theorem mget_mset_self_isSome (q : NodePath) (v : Nat) (m : ScopesMap) :
    (mget q (mset q v m)).isSome := by
  unfold mget mset
  rw [List.find?_cons_of_pos _ (by simp)]
  rfl

theorem mget_mono_of_prefix {q : NodePath} {m m' : ScopesMap}
    (hpre : ∃ B, m' = B ++ m) (h : (mget q m).isSome) : (mget q m').isSome := by
  obtain ⟨B, hB⟩ := hpre
  rw [hB]
  exact mget_append_isSome B h

theorem setChildren_covers (p : NodePath) (sc : Nat) :
    ∀ (cs : List Node) (i k : Nat) (c : Node) (m : ScopesMap), cs[k]? = some c →
      (mget (p ++ [i + k]) (setChildren p sc i cs m)).isSome := by
  intro cs
  induction cs with
  | nil =>
    intro i k c m h
    simp at h
  | cons x xs ihx =>
    intro i k c m h
    cases k with
    | zero =>
      show (mget (p ++ [i + 0]) (setChildren p sc (i + 1) xs (mset (p ++ [i]) sc m))).isSome
      refine mget_mono_of_prefix (setChildren_pfx p sc xs (i + 1) _) ?_
      have : i + 0 = i := by omega
      rw [this]
      exact mget_mset_self_isSome _ _ _
    | succ k =>
      show (mget (p ++ [i + (k + 1)]) (setChildren p sc (i + 1) xs (mset (p ++ [i]) sc m))).isSome
      have : i + (k + 1) = (i + 1) + k := by omega
      rw [this]
      exact ihx (i + 1) k c _ (by simpa using h)

theorem nodeAt_cons_decomp {n : Node} {k : Nat} {q : NodePath}
    (h : (nodeAt n (k :: q)).isSome) :
    ∃ c, (children n)[k]? = some c ∧ (nodeAt c q).isSome := by
  rw [nodeAt] at h
  cases hc : (children n)[k]? with
  | none => rw [hc] at h; simp at h
  | some c => rw [hc] at h; exact ⟨c, rfl, h⟩

theorem nodeAt_identifier_nil {t : String} {q : NodePath}
    (h : (nodeAt (Node.identifier t) q).isSome) : q = [] := by
  cases q with
  | nil => rfl
  | cons k q =>
    rw [nodeAt] at h
    simp [children] at h

theorem getElem?_append_split {A B : List Node} {k : Nat} {c : Node}
    (h : (A ++ B)[k]? = some c) :
    (k < A.length ∧ A[k]? = some c) ∨ (A.length ≤ k ∧ B[k - A.length]? = some c) := by
  by_cases hk : k < A.length
  · left
    refine ⟨hk, ?_⟩
    rw [List.getElem?_append_left hk] at h
    exact h
  · right
    have hk' : A.length ≤ k := Nat.le_of_not_lt hk
    refine ⟨hk', ?_⟩
    rw [List.getElem?_append_right hk'] at h
    exact h

theorem goList_covers (v : NodePath → Nat → Node → Nat → BuildState → BuildState)
    (p : NodePath) (q : NodePath) (c : Node)
    (hmono : ∀ p2 i c2 sc st, ∃ B, (v p2 i c2 sc st).scopesMap = B ++ st.scopesMap)
    (hcov : ∀ i sc st, (mget (p ++ [i] ++ q) (v p i c sc st).scopesMap).isSome) :
    ∀ (cs : List Node) (k i : Nat) (sc : Nat) (st : BuildState), cs[k]? = some c →
      (mget (p ++ [i + k] ++ q) (goList v p i cs sc st).scopesMap).isSome := by
  intro cs
  induction cs with
  | nil =>
    intro k i sc st h
    simp at h
  | cons x xs ihx =>
    intro k i sc st h
    cases k with
    | zero =>
      have hx : x = c := by simpa using h
      subst hx
      show (mget (p ++ [i + 0] ++ q) (goList v p (i + 1) xs sc (v p i x sc st)).scopesMap).isSome
      refine mget_mono_of_prefix (exists_prefix_goList v hmono xs p (i + 1) sc _) ?_
      have : i + 0 = i := by omega
      rw [this]
      exact hcov i sc st
    | succ k =>
      show (mget (p ++ [i + (k + 1)] ++ q) (goList v p (i + 1) xs sc (v p i x sc st)).scopesMap).isSome
      have : i + (k + 1) = (i + 1) + k := by omega
      rw [this]
      exact ihx k (i + 1) sc _ (by simpa using h)

theorem visitNode1_map_pfx_succ :
    ∀ (f : Nat) (par : Option Node) (p : NodePath) (n : Node) (sc : Nat) (st : BuildState),
      ∃ B, (visitNode1 (f + 1) par p n sc st).scopesMap = B ++ (p, sc) :: st.scopesMap := by
  intro f par p n sc st
  cases n with
    | identifier t =>
      simp only [visitNode1]
      refine prefix_trans (exists_prefix_goList _ ?_ _ _ _ _ _) ?_
      · intro p' k c sc' st'
        exact visitNode1_map_pfx f _ _ _ _ _
      · exact ⟨[], rfl⟩
    | sourceFile sts =>
      simp only [visitNode1]
      refine prefix_trans (exists_prefix_goList _ ?_ _ _ _ _ _) ?_
      · intro p' k c sc' st'
        exact visitNode1_map_pfx f _ _ _ _ _
      · exact ⟨[], rfl⟩
    | variableDeclarationList fl ds =>
      simp only [visitNode1]
      refine prefix_trans (exists_prefix_goList _ ?_ _ _ _ _ _) ?_
      · intro p' k c sc' st'
        exact visitNode1_map_pfx f _ _ _ _ _
      · exact ⟨[], rfl⟩
    | objectBindingPattern els =>
      simp only [visitNode1]
      refine prefix_trans (exists_prefix_goList _ ?_ _ _ _ _ _) ?_
      · intro p' k c sc' st'
        exact visitNode1_map_pfx f _ _ _ _ _
      · exact ⟨[], rfl⟩
    | arrayBindingPattern els =>
      simp only [visitNode1]
      refine prefix_trans (exists_prefix_goList _ ?_ _ _ _ _ _) ?_
      · intro p' k c sc' st'
        exact visitNode1_map_pfx f _ _ _ _ _
      · exact ⟨[], rfl⟩
    | bindingElement prop bnm bini =>
      simp only [visitNode1]
      refine prefix_trans (exists_prefix_goList _ ?_ _ _ _ _ _) ?_
      · intro p' k c sc' st'
        exact visitNode1_map_pfx f _ _ _ _ _
      · exact ⟨[], rfl⟩
    | parameter pnm pini =>
      simp only [visitNode1]
      refine prefix_trans (exists_prefix_goList _ ?_ _ _ _ _ _) ?_
      · intro p' k c sc' st'
        exact visitNode1_map_pfx f _ _ _ _ _
      · exact ⟨[], rfl⟩
    | expressionStatement e =>
      simp only [visitNode1]
      refine prefix_trans (exists_prefix_goList _ ?_ _ _ _ _ _) ?_
      · intro p' k c sc' st'
        exact visitNode1_map_pfx f _ _ _ _ _
      · exact ⟨[], rfl⟩
    | binaryExpression l op r =>
      simp only [visitNode1]
      refine prefix_trans (exists_prefix_goList _ ?_ _ _ _ _ _) ?_
      · intro p' k c sc' st'
        exact visitNode1_map_pfx f _ _ _ _ _
      · exact ⟨[], rfl⟩
    | computedPropertyName e =>
      simp only [visitNode1]
      refine prefix_trans (exists_prefix_goList _ ?_ _ _ _ _ _) ?_
      · intro p' k c sc' st'
        exact visitNode1_map_pfx f _ _ _ _ _
      · exact ⟨[], rfl⟩
    | otherNode cs =>
      simp only [visitNode1]
      refine prefix_trans (exists_prefix_goList _ ?_ _ _ _ _ _) ?_
      · intro p' k c sc' st'
        exact visitNode1_map_pfx f _ _ _ _ _
      · exact ⟨[], rfl⟩
    | block sts =>
      simp only [visitNode1]
      refine prefix_trans (exists_prefix_goList _ ?_ _ _ _ _ _) ?_
      · intro p' k c sc' st'
        exact visitNode1_map_pfx f _ _ _ _ _
      · exact ⟨[], rfl⟩
    | variableDeclaration vnm vini =>
      simp only [visitNode1]
      refine prefix_trans (exists_prefix_goList _ ?_ _ _ _ _ _) ?_
      · intro p' k c sc' st'
        exact visitNode1_map_pfx f _ _ _ _ _
      · split
        · refine prefix_trans (prefix_of_eq (bindName_scopesMap _ _ _ _ _ _ _)) ?_
          exact ⟨[], rfl⟩
        · exact ⟨[], rfl⟩
    | functionDeclaration fname ps body =>
      cases fname with
      | none =>
        cases body with
        | none =>
          simp only [visitNode1, Option.isSome_none, Bool.false_eq_true, if_false]
          refine prefix_trans (exists_prefix_goList _ ?_ _ _ _ _ _) ?_
          · intro p' k c sc' st'
            obtain ⟨B, hB⟩ := visitNode1_map_pfx f _ (p' ++ [k]) c sc' st'
            cases c <;>
              first
                | exact ⟨B, hB⟩
                | exact ⟨B, (bindName_scopesMap _ _ _ _ _ _ _).trans hB⟩
          ·
            refine prefix_trans (addAllChildren_pfx _ _ _ _) ?_
            exact ⟨[], rfl⟩
        | some b =>
          cases hb : b.isBlockNode with
          | true =>
            simp only [visitNode1, Option.isSome_none, Bool.false_eq_true, if_false, hb,
              if_true]
            refine prefix_trans (exists_prefix_goList _ ?_ _ _ _ _ _) ?_
            · intro p' k c sc' st'
              exact visitNode1_map_pfx f _ _ _ _ _
            · refine prefix_trans (prefix_cons _ _) ?_
              refine prefix_trans (exists_prefix_goList _ ?_ _ _ _ _ _) ?_
              · intro p' k c sc' st'
                obtain ⟨B, hB⟩ := visitNode1_map_pfx f _ (p' ++ [k]) c sc' st'
                cases c <;>
                  first
                    | exact ⟨B, hB⟩
                    | exact ⟨B, (bindName_scopesMap _ _ _ _ _ _ _).trans hB⟩
              ·
                refine prefix_trans (addAllChildren_pfx _ _ _ _) ?_
                exact ⟨[], rfl⟩
          | false =>
            simp only [visitNode1, Option.isSome_none, Bool.false_eq_true, if_false, hb]
            refine prefix_trans (visitNode1_map_pfx f _ _ _ _ _) ?_
            refine prefix_trans (exists_prefix_goList _ ?_ _ _ _ _ _) ?_
            · intro p' k c sc' st'
              obtain ⟨B, hB⟩ := visitNode1_map_pfx f _ (p' ++ [k]) c sc' st'
              cases c <;>
                first
                  | exact ⟨B, hB⟩
                  | exact ⟨B, (bindName_scopesMap _ _ _ _ _ _ _).trans hB⟩
            ·
              refine prefix_trans (addAllChildren_pfx _ _ _ _) ?_
              exact ⟨[], rfl⟩
      | some t =>
        cases body with
        | none =>
          simp only [visitNode1, Option.isSome_some, if_true]
          refine prefix_trans (exists_prefix_goList _ ?_ _ _ _ _ _) ?_
          · intro p' k c sc' st'
            obtain ⟨B, hB⟩ := visitNode1_map_pfx f _ (p' ++ [k]) c sc' st'
            cases c <;>
              first
                | exact ⟨B, hB⟩
                | exact ⟨B, (bindName_scopesMap _ _ _ _ _ _ _).trans hB⟩
          ·
            refine prefix_trans (prefix_of_eq (addBinding_scopesMap _ _ _ _)) ?_
            refine prefix_trans (prefix_cons _ _) ?_
            refine prefix_trans (addAllChildren_pfx _ _ _ _) ?_
            exact ⟨[], rfl⟩
        | some b =>
          cases hb : b.isBlockNode with
          | true =>
            simp only [visitNode1, Option.isSome_some, if_true, hb]
            refine prefix_trans (exists_prefix_goList _ ?_ _ _ _ _ _) ?_
            · intro p' k c sc' st'
              exact visitNode1_map_pfx f _ _ _ _ _
            · refine prefix_trans (prefix_cons _ _) ?_
              refine prefix_trans (exists_prefix_goList _ ?_ _ _ _ _ _) ?_
              · intro p' k c sc' st'
                obtain ⟨B, hB⟩ := visitNode1_map_pfx f _ (p' ++ [k]) c sc' st'
                cases c <;>
                  first
                    | exact ⟨B, hB⟩
                    | exact ⟨B, (bindName_scopesMap _ _ _ _ _ _ _).trans hB⟩
              ·
                refine prefix_trans (prefix_of_eq (addBinding_scopesMap _ _ _ _)) ?_
                refine prefix_trans (prefix_cons _ _) ?_
                refine prefix_trans (addAllChildren_pfx _ _ _ _) ?_
                exact ⟨[], rfl⟩
          | false =>
            simp only [visitNode1, Option.isSome_some, if_true, hb, Bool.false_eq_true,
              if_false]
            refine prefix_trans (visitNode1_map_pfx f _ _ _ _ _) ?_
            refine prefix_trans (exists_prefix_goList _ ?_ _ _ _ _ _) ?_
            · intro p' k c sc' st'
              obtain ⟨B, hB⟩ := visitNode1_map_pfx f _ (p' ++ [k]) c sc' st'
              cases c <;>
                first
                  | exact ⟨B, hB⟩
                  | exact ⟨B, (bindName_scopesMap _ _ _ _ _ _ _).trans hB⟩
            ·
              refine prefix_trans (prefix_of_eq (addBinding_scopesMap _ _ _ _)) ?_
              refine prefix_trans (prefix_cons _ _) ?_
              refine prefix_trans (addAllChildren_pfx _ _ _ _) ?_
              exact ⟨[], rfl⟩
    | functionExpression fname ps body =>
      cases fname with
      | none =>
        cases body with
        | none =>
          simp only [visitNode1, Option.isSome_none, Bool.false_eq_true, if_false]
          refine prefix_trans (exists_prefix_goList _ ?_ _ _ _ _ _) ?_
          · intro p' k c sc' st'
            obtain ⟨B, hB⟩ := visitNode1_map_pfx f _ (p' ++ [k]) c sc' st'
            cases c <;>
              first
                | exact ⟨B, hB⟩
                | exact ⟨B, (bindName_scopesMap _ _ _ _ _ _ _).trans hB⟩
          ·
            refine prefix_trans (addAllChildren_pfx _ _ _ _) ?_
            exact ⟨[], rfl⟩
        | some b =>
          cases hb : b.isBlockNode with
          | true =>
            simp only [visitNode1, Option.isSome_none, Bool.false_eq_true, if_false, hb,
              if_true]
            refine prefix_trans (exists_prefix_goList _ ?_ _ _ _ _ _) ?_
            · intro p' k c sc' st'
              exact visitNode1_map_pfx f _ _ _ _ _
            · refine prefix_trans (prefix_cons _ _) ?_
              refine prefix_trans (exists_prefix_goList _ ?_ _ _ _ _ _) ?_
              · intro p' k c sc' st'
                obtain ⟨B, hB⟩ := visitNode1_map_pfx f _ (p' ++ [k]) c sc' st'
                cases c <;>
                  first
                    | exact ⟨B, hB⟩
                    | exact ⟨B, (bindName_scopesMap _ _ _ _ _ _ _).trans hB⟩
              ·
                refine prefix_trans (addAllChildren_pfx _ _ _ _) ?_
                exact ⟨[], rfl⟩
          | false =>
            simp only [visitNode1, Option.isSome_none, Bool.false_eq_true, if_false, hb]
            refine prefix_trans (visitNode1_map_pfx f _ _ _ _ _) ?_
            refine prefix_trans (exists_prefix_goList _ ?_ _ _ _ _ _) ?_
            · intro p' k c sc' st'
              obtain ⟨B, hB⟩ := visitNode1_map_pfx f _ (p' ++ [k]) c sc' st'
              cases c <;>
                first
                  | exact ⟨B, hB⟩
                  | exact ⟨B, (bindName_scopesMap _ _ _ _ _ _ _).trans hB⟩
            ·
              refine prefix_trans (addAllChildren_pfx _ _ _ _) ?_
              exact ⟨[], rfl⟩
      | some t =>
        cases body with
        | none =>
          simp only [visitNode1, Option.isSome_some, if_true]
          refine prefix_trans (exists_prefix_goList _ ?_ _ _ _ _ _) ?_
          · intro p' k c sc' st'
            obtain ⟨B, hB⟩ := visitNode1_map_pfx f _ (p' ++ [k]) c sc' st'
            cases c <;>
              first
                | exact ⟨B, hB⟩
                | exact ⟨B, (bindName_scopesMap _ _ _ _ _ _ _).trans hB⟩
          ·
            refine prefix_trans (prefix_of_eq (addBinding_scopesMap _ _ _ _)) ?_
            refine prefix_trans (prefix_cons _ _) ?_
            refine prefix_trans (addAllChildren_pfx _ _ _ _) ?_
            exact ⟨[], rfl⟩
        | some b =>
          cases hb : b.isBlockNode with
          | true =>
            simp only [visitNode1, Option.isSome_some, if_true, hb]
            refine prefix_trans (exists_prefix_goList _ ?_ _ _ _ _ _) ?_
            · intro p' k c sc' st'
              exact visitNode1_map_pfx f _ _ _ _ _
            · refine prefix_trans (prefix_cons _ _) ?_
              refine prefix_trans (exists_prefix_goList _ ?_ _ _ _ _ _) ?_
              · intro p' k c sc' st'
                obtain ⟨B, hB⟩ := visitNode1_map_pfx f _ (p' ++ [k]) c sc' st'
                cases c <;>
                  first
                    | exact ⟨B, hB⟩
                    | exact ⟨B, (bindName_scopesMap _ _ _ _ _ _ _).trans hB⟩
              ·
                refine prefix_trans (prefix_of_eq (addBinding_scopesMap _ _ _ _)) ?_
                refine prefix_trans (prefix_cons _ _) ?_
                refine prefix_trans (addAllChildren_pfx _ _ _ _) ?_
                exact ⟨[], rfl⟩
          | false =>
            simp only [visitNode1, Option.isSome_some, if_true, hb, Bool.false_eq_true,
              if_false]
            refine prefix_trans (visitNode1_map_pfx f _ _ _ _ _) ?_
            refine prefix_trans (exists_prefix_goList _ ?_ _ _ _ _ _) ?_
            · intro p' k c sc' st'
              obtain ⟨B, hB⟩ := visitNode1_map_pfx f _ (p' ++ [k]) c sc' st'
              cases c <;>
                first
                  | exact ⟨B, hB⟩
                  | exact ⟨B, (bindName_scopesMap _ _ _ _ _ _ _).trans hB⟩
            ·
              refine prefix_trans (prefix_of_eq (addBinding_scopesMap _ _ _ _)) ?_
              refine prefix_trans (prefix_cons _ _) ?_
              refine prefix_trans (addAllChildren_pfx _ _ _ _) ?_
              exact ⟨[], rfl⟩
    | arrowFunction ps body =>
      cases hb : body.isBlockNode with
      | true =>
        simp only [visitNode1, hb, if_true]
        refine prefix_trans (exists_prefix_goList _ ?_ _ _ _ _ _) ?_
        · intro p' k c sc' st'
          exact visitNode1_map_pfx f _ _ _ _ _
        · refine prefix_trans (prefix_cons _ _) ?_
          refine prefix_trans (exists_prefix_goList _ ?_ _ _ _ _ _) ?_
          · intro p' k c sc' st'
            obtain ⟨B, hB⟩ := visitNode1_map_pfx f _ (p' ++ [k]) c sc' st'
            cases c <;>
              first
                | exact ⟨B, hB⟩
                | exact ⟨B, (bindName_scopesMap _ _ _ _ _ _ _).trans hB⟩
          ·
            refine prefix_trans (addAllChildren_pfx _ _ _ _) ?_
            exact ⟨[], rfl⟩
      | false =>
        simp only [visitNode1, hb, Bool.false_eq_true, if_false]
        refine prefix_trans (visitNode1_map_pfx f _ _ _ _ _) ?_
        refine prefix_trans (exists_prefix_goList _ ?_ _ _ _ _ _) ?_
        · intro p' k c sc' st'
          obtain ⟨B, hB⟩ := visitNode1_map_pfx f _ (p' ++ [k]) c sc' st'
          cases c <;>
            first
              | exact ⟨B, hB⟩
              | exact ⟨B, (bindName_scopesMap _ _ _ _ _ _ _).trans hB⟩
        ·
          refine prefix_trans (addAllChildren_pfx _ _ _ _) ?_
          exact ⟨[], rfl⟩
    | classDeclaration cname ms =>
      cases cname with
      | none =>
        simp only [visitNode1]
        refine prefix_trans (exists_prefix_goList _ ?_ _ _ _ _ _) ?_
        · intro p' k c sc' st'
          exact visitNode1_map_pfx f _ _ _ _ _
        · refine prefix_trans (prefix_of_eq (addBinding_scopesMap _ _ _ _)) ?_
          exact ⟨[], rfl⟩
      | some t =>
        simp only [visitNode1]
        refine prefix_trans (exists_prefix_goList _ ?_ _ _ _ _ _) ?_
        · intro p' k c sc' st'
          exact visitNode1_map_pfx f _ _ _ _ _
        · refine prefix_trans (prefix_of_eq (addBinding_scopesMap _ _ _ _)) ?_
          refine prefix_trans (prefix_of_eq (addBinding_scopesMap _ _ _ _)) ?_
          exact ⟨[], rfl⟩
    | forOfStatement lini le lstmt =>
      cases hb : lstmt.isBlockNode with
      | true =>
        simp only [visitNode1, hb, if_true]
        refine prefix_trans (exists_prefix_goList _ ?_ _ _ _ _ _) ?_
        · intro p' k c sc' st'
          exact visitNode1_map_pfx f _ _ _ _ _
        · refine prefix_trans (prefix_cons _ _) ?_
          refine prefix_trans (visitNode1_map_pfx f _ _ _ _ _) ?_
          refine prefix_trans (visitNode1_map_pfx f _ _ _ _ _) ?_
          refine prefix_trans (addAllChildren_pfx _ _ _ _) ?_
          exact ⟨[], rfl⟩
      | false =>
        simp only [visitNode1, hb, Bool.false_eq_true, if_false]
        refine prefix_trans (visitNode1_map_pfx f _ _ _ _ _) ?_
        refine prefix_trans (visitNode1_map_pfx f _ _ _ _ _) ?_
        refine prefix_trans (visitNode1_map_pfx f _ _ _ _ _) ?_
        refine prefix_trans (addAllChildren_pfx _ _ _ _) ?_
        exact ⟨[], rfl⟩
    | forInStatement lini le lstmt =>
      cases hb : lstmt.isBlockNode with
      | true =>
        simp only [visitNode1, hb, if_true]
        refine prefix_trans (exists_prefix_goList _ ?_ _ _ _ _ _) ?_
        · intro p' k c sc' st'
          exact visitNode1_map_pfx f _ _ _ _ _
        · refine prefix_trans (prefix_cons _ _) ?_
          refine prefix_trans (visitNode1_map_pfx f _ _ _ _ _) ?_
          refine prefix_trans (visitNode1_map_pfx f _ _ _ _ _) ?_
          refine prefix_trans (addAllChildren_pfx _ _ _ _) ?_
          exact ⟨[], rfl⟩
      | false =>
        simp only [visitNode1, hb, Bool.false_eq_true, if_false]
        refine prefix_trans (visitNode1_map_pfx f _ _ _ _ _) ?_
        refine prefix_trans (visitNode1_map_pfx f _ _ _ _ _) ?_
        refine prefix_trans (visitNode1_map_pfx f _ _ _ _ _) ?_
        refine prefix_trans (addAllChildren_pfx _ _ _ _) ?_
        exact ⟨[], rfl⟩

theorem getElem?_singleton {α : Type} {x c : α} {j : Nat} (h : [x][j]? = some c) :
    j = 0 ∧ c = x := by
  cases j with
  | zero =>
    refine ⟨rfl, ?_⟩
    simpa using h.symm
  | succ j => simp at h

theorem visitNode1_covers :
    ∀ (fuel : Nat) (n : Node), nsize n ≤ fuel →
      ∀ (par : Option Node) (p : NodePath) (sc : Nat) (st : BuildState) (q : NodePath),
        (nodeAt n q).isSome →
        (mget (p ++ q) (visitNode1 fuel par p n sc st).scopesMap).isSome := by
  intro fuel
  induction fuel with
  | zero =>
    intro n hn
    exact absurd hn (Nat.not_le.mpr (nsize_pos n))
  | succ f ih =>
    intro n hn par p sc st q hq
    cases q with
    | nil =>
      obtain ⟨B, hB⟩ := visitNode1_map_pfx_succ f par p n sc st
      rw [List.append_nil, hB]
      exact mget_append_isSome B (mget_mset_self_isSome p sc st.scopesMap)
    | cons k q =>
      obtain ⟨c, hck, hcq⟩ := nodeAt_cons_decomp hq
      have hcf : nsize c ≤ f := by
        have h1 := children_nsize (List.getElem?_mem hck)
        omega
      cases n with
      | identifier t =>
        simp only [visitNode1]
        have hpe : p ++ k :: q = p ++ [0 + k] ++ q := by simp [List.append_assoc]
        rw [hpe]
        refine goList_covers _ p q c ?_ ?_ _ k 0 _ _ hck
        · intro p2 k2 c2 sc2 st2
          exact visitNode1_map_pfx f _ _ _ _ _
        · intro i2 sc2 st2
          exact ih _ hcf _ (p ++ [i2]) sc2 st2 q hcq
      | sourceFile sts =>
        simp only [visitNode1]
        have hpe : p ++ k :: q = p ++ [0 + k] ++ q := by simp [List.append_assoc]
        rw [hpe]
        refine goList_covers _ p q c ?_ ?_ _ k 0 _ _ hck
        · intro p2 k2 c2 sc2 st2
          exact visitNode1_map_pfx f _ _ _ _ _
        · intro i2 sc2 st2
          exact ih _ hcf _ (p ++ [i2]) sc2 st2 q hcq
      | block sts =>
        simp only [visitNode1]
        have hpe : p ++ k :: q = p ++ [0 + k] ++ q := by simp [List.append_assoc]
        rw [hpe]
        refine goList_covers _ p q c ?_ ?_ _ k 0 _ _ hck
        · intro p2 k2 c2 sc2 st2
          exact visitNode1_map_pfx f _ _ _ _ _
        · intro i2 sc2 st2
          exact ih _ hcf _ (p ++ [i2]) sc2 st2 q hcq
      | variableDeclarationList fl ds =>
        simp only [visitNode1]
        have hpe : p ++ k :: q = p ++ [0 + k] ++ q := by simp [List.append_assoc]
        rw [hpe]
        refine goList_covers _ p q c ?_ ?_ _ k 0 _ _ hck
        · intro p2 k2 c2 sc2 st2
          exact visitNode1_map_pfx f _ _ _ _ _
        · intro i2 sc2 st2
          exact ih _ hcf _ (p ++ [i2]) sc2 st2 q hcq
      | variableDeclaration vnm vini =>
        simp only [visitNode1]
        have hpe : p ++ k :: q = p ++ [0 + k] ++ q := by simp [List.append_assoc]
        rw [hpe]
        refine goList_covers _ p q c ?_ ?_ _ k 0 _ _ hck
        · intro p2 k2 c2 sc2 st2
          exact visitNode1_map_pfx f _ _ _ _ _
        · intro i2 sc2 st2
          exact ih _ hcf _ (p ++ [i2]) sc2 st2 q hcq
      | objectBindingPattern els =>
        simp only [visitNode1]
        have hpe : p ++ k :: q = p ++ [0 + k] ++ q := by simp [List.append_assoc]
        rw [hpe]
        refine goList_covers _ p q c ?_ ?_ _ k 0 _ _ hck
        · intro p2 k2 c2 sc2 st2
          exact visitNode1_map_pfx f _ _ _ _ _
        · intro i2 sc2 st2
          exact ih _ hcf _ (p ++ [i2]) sc2 st2 q hcq
      | arrayBindingPattern els =>
        simp only [visitNode1]
        have hpe : p ++ k :: q = p ++ [0 + k] ++ q := by simp [List.append_assoc]
        rw [hpe]
        refine goList_covers _ p q c ?_ ?_ _ k 0 _ _ hck
        · intro p2 k2 c2 sc2 st2
          exact visitNode1_map_pfx f _ _ _ _ _
        · intro i2 sc2 st2
          exact ih _ hcf _ (p ++ [i2]) sc2 st2 q hcq
      | bindingElement prop bnm bini =>
        simp only [visitNode1]
        have hpe : p ++ k :: q = p ++ [0 + k] ++ q := by simp [List.append_assoc]
        rw [hpe]
        refine goList_covers _ p q c ?_ ?_ _ k 0 _ _ hck
        · intro p2 k2 c2 sc2 st2
          exact visitNode1_map_pfx f _ _ _ _ _
        · intro i2 sc2 st2
          exact ih _ hcf _ (p ++ [i2]) sc2 st2 q hcq
      | parameter pnm pini =>
        simp only [visitNode1]
        have hpe : p ++ k :: q = p ++ [0 + k] ++ q := by simp [List.append_assoc]
        rw [hpe]
        refine goList_covers _ p q c ?_ ?_ _ k 0 _ _ hck
        · intro p2 k2 c2 sc2 st2
          exact visitNode1_map_pfx f _ _ _ _ _
        · intro i2 sc2 st2
          exact ih _ hcf _ (p ++ [i2]) sc2 st2 q hcq
      | classDeclaration cname ms =>
        simp only [visitNode1]
        have hpe : p ++ k :: q = p ++ [0 + k] ++ q := by simp [List.append_assoc]
        rw [hpe]
        refine goList_covers _ p q c ?_ ?_ _ k 0 _ _ hck
        · intro p2 k2 c2 sc2 st2
          exact visitNode1_map_pfx f _ _ _ _ _
        · intro i2 sc2 st2
          exact ih _ hcf _ (p ++ [i2]) sc2 st2 q hcq
      | expressionStatement e =>
        simp only [visitNode1]
        have hpe : p ++ k :: q = p ++ [0 + k] ++ q := by simp [List.append_assoc]
        rw [hpe]
        refine goList_covers _ p q c ?_ ?_ _ k 0 _ _ hck
        · intro p2 k2 c2 sc2 st2
          exact visitNode1_map_pfx f _ _ _ _ _
        · intro i2 sc2 st2
          exact ih _ hcf _ (p ++ [i2]) sc2 st2 q hcq
      | binaryExpression l op r =>
        simp only [visitNode1]
        have hpe : p ++ k :: q = p ++ [0 + k] ++ q := by simp [List.append_assoc]
        rw [hpe]
        refine goList_covers _ p q c ?_ ?_ _ k 0 _ _ hck
        · intro p2 k2 c2 sc2 st2
          exact visitNode1_map_pfx f _ _ _ _ _
        · intro i2 sc2 st2
          exact ih _ hcf _ (p ++ [i2]) sc2 st2 q hcq
      | computedPropertyName e =>
        simp only [visitNode1]
        have hpe : p ++ k :: q = p ++ [0 + k] ++ q := by simp [List.append_assoc]
        rw [hpe]
        refine goList_covers _ p q c ?_ ?_ _ k 0 _ _ hck
        · intro p2 k2 c2 sc2 st2
          exact visitNode1_map_pfx f _ _ _ _ _
        · intro i2 sc2 st2
          exact ih _ hcf _ (p ++ [i2]) sc2 st2 q hcq
      | otherNode cs =>
        simp only [visitNode1]
        have hpe : p ++ k :: q = p ++ [0 + k] ++ q := by simp [List.append_assoc]
        rw [hpe]
        refine goList_covers _ p q c ?_ ?_ _ k 0 _ _ hck
        · intro p2 k2 c2 sc2 st2
          exact visitNode1_map_pfx f _ _ _ _ _
        · intro i2 sc2 st2
          exact ih _ hcf _ (p ++ [i2]) sc2 st2 q hcq
      | functionDeclaration fname ps body =>
        cases fname with
        | none =>
          cases body with
          | none =>
            simp only [children, Option.map_none', Option.toList_none, List.nil_append,
              List.append_nil] at hck
            simp only [visitNode1, Option.isSome_none, Bool.false_eq_true, reduceIte,
              Nat.zero_add]
            have hpe : p ++ k :: q = p ++ [0 + k] ++ q := by simp [List.append_assoc]
            rw [hpe]
            refine goList_covers _ p q c ?_ ?_ _ k 0 _ _ hck
            · intro p2 k2 c2 sc2 st2
              obtain ⟨B, hB⟩ := visitNode1_map_pfx f _ (p2 ++ [k2]) c2 sc2 st2
              cases c2 <;>
                first
                  | exact ⟨B, hB⟩
                  | exact ⟨B, (bindName_scopesMap _ _ _ _ _ _ _).trans hB⟩
            · intro i2 sc2 st2
              cases c <;>
                first
                  | exact ih _ hcf _ (p ++ [i2]) sc2 st2 q hcq
                  | exact mget_mono_of_prefix (prefix_of_eq (bindName_scopesMap _ _ _ _ _ _ _))
                      (ih _ hcf _ (p ++ [i2]) sc2 st2 q hcq)
          | some b =>
            simp only [children, Option.map_none', Option.toList_none, Option.toList_some,
              List.nil_append] at hck
            cases hb : b.isBlockNode with
            | true =>
              simp only [visitNode1, Option.isSome_none, Bool.false_eq_true, reduceIte,
                Nat.zero_add, hb]
              rcases getElem?_append_split hck with ⟨hk1, hck1⟩ | ⟨hk1, hck1⟩
              · have hpe : p ++ k :: q = p ++ [0 + k] ++ q := by simp [List.append_assoc]
                rw [hpe]
                refine mget_mono_of_prefix (exists_prefix_goList _ ?_ _ _ _ _ _) ?_
                · intro p2 k2 c2 sc2 st2
                  exact visitNode1_map_pfx f _ _ _ _ _
                · refine mget_mono_of_prefix (prefix_cons _ _) ?_
                  refine goList_covers _ p q c ?_ ?_ _ k 0 _ _ hck1
                  · intro p2 k2 c2 sc2 st2
                    obtain ⟨B, hB⟩ := visitNode1_map_pfx f _ (p2 ++ [k2]) c2 sc2 st2
                    cases c2 <;>
                      first
                        | exact ⟨B, hB⟩
                        | exact ⟨B, (bindName_scopesMap _ _ _ _ _ _ _).trans hB⟩
                  · intro i2 sc2 st2
                    cases c <;>
                      first
                        | exact ih _ hcf _ (p ++ [i2]) sc2 st2 q hcq
                        | exact mget_mono_of_prefix (prefix_of_eq (bindName_scopesMap _ _ _ _ _ _ _))
                            (ih _ hcf _ (p ++ [i2]) sc2 st2 q hcq)
              · obtain ⟨hj0, hcb⟩ := getElem?_singleton hck1
                subst hcb
                have hk : k = ps.length := by omega
                subst hk
                cases q with
                | nil =>
                  refine mget_mono_of_prefix (exists_prefix_goList _ ?_ _ _ _ _ _) ?_
                  · intro p2 k2 c2 sc2 st2
                    exact visitNode1_map_pfx f _ _ _ _ _
                  · exact mget_mset_self_isSome _ _ _
                | cons k2 q2 =>
                  obtain ⟨c2, hck2, hcq2⟩ := nodeAt_cons_decomp hcq
                  have hcf2 : nsize c2 ≤ f := by
                    have h1 := children_nsize (List.getElem?_mem hck2)
                    omega
                  have hpe : p ++ ps.length :: k2 :: q2
                      = (p ++ [ps.length]) ++ [0 + k2] ++ q2 := by
                    simp [List.append_assoc]
                  rw [hpe]
                  refine goList_covers _ (p ++ [ps.length]) q2 c2 ?_ ?_ _ k2 0 _ _ hck2
                  · intro p2 k2 c2 sc2 st2
                    exact visitNode1_map_pfx f _ _ _ _ _
                  · intro i2 sc2 st2
                    exact ih _ hcf2 _ ((p ++ [ps.length]) ++ [i2]) sc2 st2 q2 hcq2
            | false =>
              simp only [visitNode1, Option.isSome_none, Bool.false_eq_true, reduceIte,
                Nat.zero_add, hb]
              rcases getElem?_append_split hck with ⟨hk1, hck1⟩ | ⟨hk1, hck1⟩
              · have hpe : p ++ k :: q = p ++ [0 + k] ++ q := by simp [List.append_assoc]
                rw [hpe]
                refine mget_mono_of_prefix (visitNode1_map_pfx f _ _ _ _ _) ?_
                refine goList_covers _ p q c ?_ ?_ _ k 0 _ _ hck1
                · intro p2 k2 c2 sc2 st2
                  obtain ⟨B, hB⟩ := visitNode1_map_pfx f _ (p2 ++ [k2]) c2 sc2 st2
                  cases c2 <;>
                    first
                      | exact ⟨B, hB⟩
                      | exact ⟨B, (bindName_scopesMap _ _ _ _ _ _ _).trans hB⟩
                · intro i2 sc2 st2
                  cases c <;>
                    first
                      | exact ih _ hcf _ (p ++ [i2]) sc2 st2 q hcq
                      | exact mget_mono_of_prefix (prefix_of_eq (bindName_scopesMap _ _ _ _ _ _ _))
                          (ih _ hcf _ (p ++ [i2]) sc2 st2 q hcq)
              · obtain ⟨hj0, hcb⟩ := getElem?_singleton hck1
                subst hcb
                have hk : k = ps.length := by omega
                subst hk
                have hpe : p ++ ps.length :: q = (p ++ [ps.length]) ++ q := by
                  simp [List.append_assoc]
                rw [hpe]
                exact ih _ hcf _ (p ++ [ps.length]) _ _ q hcq
        | some t =>
          cases body with
          | none =>
            simp only [children, Option.map_some', Option.toList_some, Option.toList_none,
              List.append_nil, List.singleton_append, List.cons_append,
              List.nil_append] at hck
            simp only [visitNode1, Option.isSome_some, reduceIte]
            cases k with
            | zero =>
              simp only [List.getElem?_cons_zero] at hck
              have hc := Option.some.inj hck
              subst hc
              have hq0 := nodeAt_identifier_nil hcq
              subst hq0
              refine mget_mono_of_prefix (exists_prefix_goList _ ?_ _ _ _ _ _) ?_
              · intro p2 k2 c2 sc2 st2
                obtain ⟨B, hB⟩ := visitNode1_map_pfx f _ (p2 ++ [k2]) c2 sc2 st2
                cases c2 <;>
                  first
                    | exact ⟨B, hB⟩
                    | exact ⟨B, (bindName_scopesMap _ _ _ _ _ _ _).trans hB⟩
              · refine mget_mono_of_prefix (prefix_of_eq (addBinding_scopesMap _ _ _ _)) ?_
                exact mget_mset_self_isSome _ _ _
            | succ k =>
              simp only [List.getElem?_cons_succ] at hck
              have hpe : p ++ (k + 1) :: q = p ++ [1 + k] ++ q := by
                have h2 : 1 + k = k + 1 := by omega
                rw [h2]
                simp [List.append_assoc]
              rw [hpe]
              refine goList_covers _ p q c ?_ ?_ _ k 1 _ _ hck
              · intro p2 k2 c2 sc2 st2
                obtain ⟨B, hB⟩ := visitNode1_map_pfx f _ (p2 ++ [k2]) c2 sc2 st2
                cases c2 <;>
                  first
                    | exact ⟨B, hB⟩
                    | exact ⟨B, (bindName_scopesMap _ _ _ _ _ _ _).trans hB⟩
              · intro i2 sc2 st2
                cases c <;>
                  first
                    | exact ih _ hcf _ (p ++ [i2]) sc2 st2 q hcq
                    | exact mget_mono_of_prefix (prefix_of_eq (bindName_scopesMap _ _ _ _ _ _ _))
                        (ih _ hcf _ (p ++ [i2]) sc2 st2 q hcq)
          | some b =>
            simp only [children, Option.map_some', Option.toList_some, List.singleton_append,
              List.cons_append, List.nil_append] at hck
            cases hb : b.isBlockNode with
            | true =>
              simp only [visitNode1, Option.isSome_some, reduceIte, hb]
              cases k with
              | zero =>
                simp only [List.getElem?_cons_zero] at hck
                have hc := Option.some.inj hck
                subst hc
                have hq0 := nodeAt_identifier_nil hcq
                subst hq0
                refine mget_mono_of_prefix (exists_prefix_goList _ ?_ _ _ _ _ _) ?_
                · intro p2 k2 c2 sc2 st2
                  exact visitNode1_map_pfx f _ _ _ _ _
                · refine mget_mono_of_prefix (prefix_cons _ _) ?_
                  refine mget_mono_of_prefix (exists_prefix_goList _ ?_ _ _ _ _ _) ?_
                  · intro p2 k2 c2 sc2 st2
                    obtain ⟨B, hB⟩ := visitNode1_map_pfx f _ (p2 ++ [k2]) c2 sc2 st2
                    cases c2 <;>
                      first
                        | exact ⟨B, hB⟩
                        | exact ⟨B, (bindName_scopesMap _ _ _ _ _ _ _).trans hB⟩
                  · refine mget_mono_of_prefix
                        (prefix_of_eq (addBinding_scopesMap _ _ _ _)) ?_
                    exact mget_mset_self_isSome _ _ _
              | succ k =>
                simp only [List.getElem?_cons_succ] at hck
                rcases getElem?_append_split hck with ⟨hk1, hck1⟩ | ⟨hk1, hck1⟩
                · have hpe : p ++ (k + 1) :: q = p ++ [1 + k] ++ q := by
                    have h2 : 1 + k = k + 1 := by omega
                    rw [h2]
                    simp [List.append_assoc]
                  rw [hpe]
                  refine mget_mono_of_prefix (exists_prefix_goList _ ?_ _ _ _ _ _) ?_
                  · intro p2 k2 c2 sc2 st2
                    exact visitNode1_map_pfx f _ _ _ _ _
                  · refine mget_mono_of_prefix (prefix_cons _ _) ?_
                    refine goList_covers _ p q c ?_ ?_ _ k 1 _ _ hck1
                    · intro p2 k2 c2 sc2 st2
                      obtain ⟨B, hB⟩ := visitNode1_map_pfx f _ (p2 ++ [k2]) c2 sc2 st2
                      cases c2 <;>
                        first
                          | exact ⟨B, hB⟩
                          | exact ⟨B, (bindName_scopesMap _ _ _ _ _ _ _).trans hB⟩
                    · intro i2 sc2 st2
                      cases c <;>
                        first
                          | exact ih _ hcf _ (p ++ [i2]) sc2 st2 q hcq
                          | exact mget_mono_of_prefix (prefix_of_eq (bindName_scopesMap _ _ _ _ _ _ _))
                              (ih _ hcf _ (p ++ [i2]) sc2 st2 q hcq)
                · obtain ⟨hj0, hcb⟩ := getElem?_singleton hck1
                  subst hcb
                  have hk : k = ps.length := by omega
                  subst hk
                  cases q with
                  | nil =>
                    have hpe : p ++ [ps.length + 1] = p ++ [1 + ps.length] := by
                      have h2 : 1 + ps.length = ps.length + 1 := by omega
                      rw [h2]
                    rw [hpe]
                    refine mget_mono_of_prefix (exists_prefix_goList _ ?_ _ _ _ _ _) ?_
                    · intro p2 k2 c2 sc2 st2
                      exact visitNode1_map_pfx f _ _ _ _ _
                    · exact mget_mset_self_isSome _ _ _
                  | cons k2 q2 =>
                    obtain ⟨c2, hck2, hcq2⟩ := nodeAt_cons_decomp hcq
                    have hcf2 : nsize c2 ≤ f := by
                      have h1 := children_nsize (List.getElem?_mem hck2)
                      omega
                    have hpe : p ++ (ps.length + 1) :: k2 :: q2
                        = (p ++ [1 + ps.length]) ++ [0 + k2] ++ q2 := by
                      have h2 : 1 + ps.length = ps.length + 1 := by omega
                      rw [h2]
                      simp [List.append_assoc]
                    rw [hpe]
                    refine goList_covers _ (p ++ [1 + ps.length]) q2 c2 ?_ ?_ _ k2 0 _ _ hck2
                    · intro p2 k2 c2 sc2 st2
                      exact visitNode1_map_pfx f _ _ _ _ _
                    · intro i2 sc2 st2
                      exact ih _ hcf2 _ ((p ++ [1 + ps.length]) ++ [i2]) sc2 st2 q2 hcq2
            | false =>
              simp only [visitNode1, Option.isSome_some, reduceIte, hb,
                Bool.false_eq_true]
              cases k with
              | zero =>
                simp only [List.getElem?_cons_zero] at hck
                have hc := Option.some.inj hck
                subst hc
                have hq0 := nodeAt_identifier_nil hcq
                subst hq0
                refine mget_mono_of_prefix (visitNode1_map_pfx f _ _ _ _ _) ?_
                refine mget_mono_of_prefix (exists_prefix_goList _ ?_ _ _ _ _ _) ?_
                · intro p2 k2 c2 sc2 st2
                  obtain ⟨B, hB⟩ := visitNode1_map_pfx f _ (p2 ++ [k2]) c2 sc2 st2
                  cases c2 <;>
                    first
                      | exact ⟨B, hB⟩
                      | exact ⟨B, (bindName_scopesMap _ _ _ _ _ _ _).trans hB⟩
                · refine mget_mono_of_prefix (prefix_of_eq (addBinding_scopesMap _ _ _ _)) ?_
                  exact mget_mset_self_isSome _ _ _
              | succ k =>
                simp only [List.getElem?_cons_succ] at hck
                rcases getElem?_append_split hck with ⟨hk1, hck1⟩ | ⟨hk1, hck1⟩
                · have hpe : p ++ (k + 1) :: q = p ++ [1 + k] ++ q := by
                    have h2 : 1 + k = k + 1 := by omega
                    rw [h2]
                    simp [List.append_assoc]
                  rw [hpe]
                  refine mget_mono_of_prefix (visitNode1_map_pfx f _ _ _ _ _) ?_
                  refine goList_covers _ p q c ?_ ?_ _ k 1 _ _ hck1
                  · intro p2 k2 c2 sc2 st2
                    obtain ⟨B, hB⟩ := visitNode1_map_pfx f _ (p2 ++ [k2]) c2 sc2 st2
                    cases c2 <;>
                      first
                        | exact ⟨B, hB⟩
                        | exact ⟨B, (bindName_scopesMap _ _ _ _ _ _ _).trans hB⟩
                  · intro i2 sc2 st2
                    cases c <;>
                      first
                        | exact ih _ hcf _ (p ++ [i2]) sc2 st2 q hcq
                        | exact mget_mono_of_prefix (prefix_of_eq (bindName_scopesMap _ _ _ _ _ _ _))
                            (ih _ hcf _ (p ++ [i2]) sc2 st2 q hcq)
                · obtain ⟨hj0, hcb⟩ := getElem?_singleton hck1
                  subst hcb
                  have hk : k = ps.length := by omega
                  subst hk
                  have hpe : p ++ (ps.length + 1) :: q = (p ++ [1 + ps.length]) ++ q := by
                    have h2 : 1 + ps.length = ps.length + 1 := by omega
                    rw [h2]
                    simp [List.append_assoc]
                  rw [hpe]
                  exact ih _ hcf _ (p ++ [1 + ps.length]) _ _ q hcq
      | functionExpression fname ps body =>
        cases fname with
        | none =>
          cases body with
          | none =>
            simp only [children, Option.map_none', Option.toList_none, List.nil_append,
              List.append_nil] at hck
            simp only [visitNode1, Option.isSome_none, Bool.false_eq_true, reduceIte,
              Nat.zero_add]
            have hpe : p ++ k :: q = p ++ [0 + k] ++ q := by simp [List.append_assoc]
            rw [hpe]
            refine goList_covers _ p q c ?_ ?_ _ k 0 _ _ hck
            · intro p2 k2 c2 sc2 st2
              obtain ⟨B, hB⟩ := visitNode1_map_pfx f _ (p2 ++ [k2]) c2 sc2 st2
              cases c2 <;>
                first
                  | exact ⟨B, hB⟩
                  | exact ⟨B, (bindName_scopesMap _ _ _ _ _ _ _).trans hB⟩
            · intro i2 sc2 st2
              cases c <;>
                first
                  | exact ih _ hcf _ (p ++ [i2]) sc2 st2 q hcq
                  | exact mget_mono_of_prefix (prefix_of_eq (bindName_scopesMap _ _ _ _ _ _ _))
                      (ih _ hcf _ (p ++ [i2]) sc2 st2 q hcq)
          | some b =>
            simp only [children, Option.map_none', Option.toList_none, Option.toList_some,
              List.nil_append] at hck
            cases hb : b.isBlockNode with
            | true =>
              simp only [visitNode1, Option.isSome_none, Bool.false_eq_true, reduceIte,
                Nat.zero_add, hb]
              rcases getElem?_append_split hck with ⟨hk1, hck1⟩ | ⟨hk1, hck1⟩
              · have hpe : p ++ k :: q = p ++ [0 + k] ++ q := by simp [List.append_assoc]
                rw [hpe]
                refine mget_mono_of_prefix (exists_prefix_goList _ ?_ _ _ _ _ _) ?_
                · intro p2 k2 c2 sc2 st2
                  exact visitNode1_map_pfx f _ _ _ _ _
                · refine mget_mono_of_prefix (prefix_cons _ _) ?_
                  refine goList_covers _ p q c ?_ ?_ _ k 0 _ _ hck1
                  · intro p2 k2 c2 sc2 st2
                    obtain ⟨B, hB⟩ := visitNode1_map_pfx f _ (p2 ++ [k2]) c2 sc2 st2
                    cases c2 <;>
                      first
                        | exact ⟨B, hB⟩
                        | exact ⟨B, (bindName_scopesMap _ _ _ _ _ _ _).trans hB⟩
                  · intro i2 sc2 st2
                    cases c <;>
                      first
                        | exact ih _ hcf _ (p ++ [i2]) sc2 st2 q hcq
                        | exact mget_mono_of_prefix (prefix_of_eq (bindName_scopesMap _ _ _ _ _ _ _))
                            (ih _ hcf _ (p ++ [i2]) sc2 st2 q hcq)
              · obtain ⟨hj0, hcb⟩ := getElem?_singleton hck1
                subst hcb
                have hk : k = ps.length := by omega
                subst hk
                cases q with
                | nil =>
                  refine mget_mono_of_prefix (exists_prefix_goList _ ?_ _ _ _ _ _) ?_
                  · intro p2 k2 c2 sc2 st2
                    exact visitNode1_map_pfx f _ _ _ _ _
                  · exact mget_mset_self_isSome _ _ _
                | cons k2 q2 =>
                  obtain ⟨c2, hck2, hcq2⟩ := nodeAt_cons_decomp hcq
                  have hcf2 : nsize c2 ≤ f := by
                    have h1 := children_nsize (List.getElem?_mem hck2)
                    omega
                  have hpe : p ++ ps.length :: k2 :: q2
                      = (p ++ [ps.length]) ++ [0 + k2] ++ q2 := by
                    simp [List.append_assoc]
                  rw [hpe]
                  refine goList_covers _ (p ++ [ps.length]) q2 c2 ?_ ?_ _ k2 0 _ _ hck2
                  · intro p2 k2 c2 sc2 st2
                    exact visitNode1_map_pfx f _ _ _ _ _
                  · intro i2 sc2 st2
                    exact ih _ hcf2 _ ((p ++ [ps.length]) ++ [i2]) sc2 st2 q2 hcq2
            | false =>
              simp only [visitNode1, Option.isSome_none, Bool.false_eq_true, reduceIte,
                Nat.zero_add, hb]
              rcases getElem?_append_split hck with ⟨hk1, hck1⟩ | ⟨hk1, hck1⟩
              · have hpe : p ++ k :: q = p ++ [0 + k] ++ q := by simp [List.append_assoc]
                rw [hpe]
                refine mget_mono_of_prefix (visitNode1_map_pfx f _ _ _ _ _) ?_
                refine goList_covers _ p q c ?_ ?_ _ k 0 _ _ hck1
                · intro p2 k2 c2 sc2 st2
                  obtain ⟨B, hB⟩ := visitNode1_map_pfx f _ (p2 ++ [k2]) c2 sc2 st2
                  cases c2 <;>
                    first
                      | exact ⟨B, hB⟩
                      | exact ⟨B, (bindName_scopesMap _ _ _ _ _ _ _).trans hB⟩
                · intro i2 sc2 st2
                  cases c <;>
                    first
                      | exact ih _ hcf _ (p ++ [i2]) sc2 st2 q hcq
                      | exact mget_mono_of_prefix (prefix_of_eq (bindName_scopesMap _ _ _ _ _ _ _))
                          (ih _ hcf _ (p ++ [i2]) sc2 st2 q hcq)
              · obtain ⟨hj0, hcb⟩ := getElem?_singleton hck1
                subst hcb
                have hk : k = ps.length := by omega
                subst hk
                have hpe : p ++ ps.length :: q = (p ++ [ps.length]) ++ q := by
                  simp [List.append_assoc]
                rw [hpe]
                exact ih _ hcf _ (p ++ [ps.length]) _ _ q hcq
        | some t =>
          cases body with
          | none =>
            simp only [children, Option.map_some', Option.toList_some, Option.toList_none,
              List.append_nil, List.singleton_append, List.cons_append,
              List.nil_append] at hck
            simp only [visitNode1, Option.isSome_some, reduceIte]
            cases k with
            | zero =>
              simp only [List.getElem?_cons_zero] at hck
              have hc := Option.some.inj hck
              subst hc
              have hq0 := nodeAt_identifier_nil hcq
              subst hq0
              refine mget_mono_of_prefix (exists_prefix_goList _ ?_ _ _ _ _ _) ?_
              · intro p2 k2 c2 sc2 st2
                obtain ⟨B, hB⟩ := visitNode1_map_pfx f _ (p2 ++ [k2]) c2 sc2 st2
                cases c2 <;>
                  first
                    | exact ⟨B, hB⟩
                    | exact ⟨B, (bindName_scopesMap _ _ _ _ _ _ _).trans hB⟩
              · refine mget_mono_of_prefix (prefix_of_eq (addBinding_scopesMap _ _ _ _)) ?_
                exact mget_mset_self_isSome _ _ _
            | succ k =>
              simp only [List.getElem?_cons_succ] at hck
              have hpe : p ++ (k + 1) :: q = p ++ [1 + k] ++ q := by
                have h2 : 1 + k = k + 1 := by omega
                rw [h2]
                simp [List.append_assoc]
              rw [hpe]
              refine goList_covers _ p q c ?_ ?_ _ k 1 _ _ hck
              · intro p2 k2 c2 sc2 st2
                obtain ⟨B, hB⟩ := visitNode1_map_pfx f _ (p2 ++ [k2]) c2 sc2 st2
                cases c2 <;>
                  first
                    | exact ⟨B, hB⟩
                    | exact ⟨B, (bindName_scopesMap _ _ _ _ _ _ _).trans hB⟩
              · intro i2 sc2 st2
                cases c <;>
                  first
                    | exact ih _ hcf _ (p ++ [i2]) sc2 st2 q hcq
                    | exact mget_mono_of_prefix (prefix_of_eq (bindName_scopesMap _ _ _ _ _ _ _))
                        (ih _ hcf _ (p ++ [i2]) sc2 st2 q hcq)
          | some b =>
            simp only [children, Option.map_some', Option.toList_some, List.singleton_append,
              List.cons_append, List.nil_append] at hck
            cases hb : b.isBlockNode with
            | true =>
              simp only [visitNode1, Option.isSome_some, reduceIte, hb]
              cases k with
              | zero =>
                simp only [List.getElem?_cons_zero] at hck
                have hc := Option.some.inj hck
                subst hc
                have hq0 := nodeAt_identifier_nil hcq
                subst hq0
                refine mget_mono_of_prefix (exists_prefix_goList _ ?_ _ _ _ _ _) ?_
                · intro p2 k2 c2 sc2 st2
                  exact visitNode1_map_pfx f _ _ _ _ _
                · refine mget_mono_of_prefix (prefix_cons _ _) ?_
                  refine mget_mono_of_prefix (exists_prefix_goList _ ?_ _ _ _ _ _) ?_
                  · intro p2 k2 c2 sc2 st2
                    obtain ⟨B, hB⟩ := visitNode1_map_pfx f _ (p2 ++ [k2]) c2 sc2 st2
                    cases c2 <;>
                      first
                        | exact ⟨B, hB⟩
                        | exact ⟨B, (bindName_scopesMap _ _ _ _ _ _ _).trans hB⟩
                  · refine mget_mono_of_prefix
                        (prefix_of_eq (addBinding_scopesMap _ _ _ _)) ?_
                    exact mget_mset_self_isSome _ _ _
              | succ k =>
                simp only [List.getElem?_cons_succ] at hck
                rcases getElem?_append_split hck with ⟨hk1, hck1⟩ | ⟨hk1, hck1⟩
                · have hpe : p ++ (k + 1) :: q = p ++ [1 + k] ++ q := by
                    have h2 : 1 + k = k + 1 := by omega
                    rw [h2]
                    simp [List.append_assoc]
                  rw [hpe]
                  refine mget_mono_of_prefix (exists_prefix_goList _ ?_ _ _ _ _ _) ?_
                  · intro p2 k2 c2 sc2 st2
                    exact visitNode1_map_pfx f _ _ _ _ _
                  · refine mget_mono_of_prefix (prefix_cons _ _) ?_
                    refine goList_covers _ p q c ?_ ?_ _ k 1 _ _ hck1
                    · intro p2 k2 c2 sc2 st2
                      obtain ⟨B, hB⟩ := visitNode1_map_pfx f _ (p2 ++ [k2]) c2 sc2 st2
                      cases c2 <;>
                        first
                          | exact ⟨B, hB⟩
                          | exact ⟨B, (bindName_scopesMap _ _ _ _ _ _ _).trans hB⟩
                    · intro i2 sc2 st2
                      cases c <;>
                        first
                          | exact ih _ hcf _ (p ++ [i2]) sc2 st2 q hcq
                          | exact mget_mono_of_prefix (prefix_of_eq (bindName_scopesMap _ _ _ _ _ _ _))
                              (ih _ hcf _ (p ++ [i2]) sc2 st2 q hcq)
                · obtain ⟨hj0, hcb⟩ := getElem?_singleton hck1
                  subst hcb
                  have hk : k = ps.length := by omega
                  subst hk
                  cases q with
                  | nil =>
                    have hpe : p ++ [ps.length + 1] = p ++ [1 + ps.length] := by
                      have h2 : 1 + ps.length = ps.length + 1 := by omega
                      rw [h2]
                    rw [hpe]
                    refine mget_mono_of_prefix (exists_prefix_goList _ ?_ _ _ _ _ _) ?_
                    · intro p2 k2 c2 sc2 st2
                      exact visitNode1_map_pfx f _ _ _ _ _
                    · exact mget_mset_self_isSome _ _ _
                  | cons k2 q2 =>
                    obtain ⟨c2, hck2, hcq2⟩ := nodeAt_cons_decomp hcq
                    have hcf2 : nsize c2 ≤ f := by
                      have h1 := children_nsize (List.getElem?_mem hck2)
                      omega
                    have hpe : p ++ (ps.length + 1) :: k2 :: q2
                        = (p ++ [1 + ps.length]) ++ [0 + k2] ++ q2 := by
                      have h2 : 1 + ps.length = ps.length + 1 := by omega
                      rw [h2]
                      simp [List.append_assoc]
                    rw [hpe]
                    refine goList_covers _ (p ++ [1 + ps.length]) q2 c2 ?_ ?_ _ k2 0 _ _ hck2
                    · intro p2 k2 c2 sc2 st2
                      exact visitNode1_map_pfx f _ _ _ _ _
                    · intro i2 sc2 st2
                      exact ih _ hcf2 _ ((p ++ [1 + ps.length]) ++ [i2]) sc2 st2 q2 hcq2
            | false =>
              simp only [visitNode1, Option.isSome_some, reduceIte, hb,
                Bool.false_eq_true]
              cases k with
              | zero =>
                simp only [List.getElem?_cons_zero] at hck
                have hc := Option.some.inj hck
                subst hc
                have hq0 := nodeAt_identifier_nil hcq
                subst hq0
                refine mget_mono_of_prefix (visitNode1_map_pfx f _ _ _ _ _) ?_
                refine mget_mono_of_prefix (exists_prefix_goList _ ?_ _ _ _ _ _) ?_
                · intro p2 k2 c2 sc2 st2
                  obtain ⟨B, hB⟩ := visitNode1_map_pfx f _ (p2 ++ [k2]) c2 sc2 st2
                  cases c2 <;>
                    first
                      | exact ⟨B, hB⟩
                      | exact ⟨B, (bindName_scopesMap _ _ _ _ _ _ _).trans hB⟩
                · refine mget_mono_of_prefix (prefix_of_eq (addBinding_scopesMap _ _ _ _)) ?_
                  exact mget_mset_self_isSome _ _ _
              | succ k =>
                simp only [List.getElem?_cons_succ] at hck
                rcases getElem?_append_split hck with ⟨hk1, hck1⟩ | ⟨hk1, hck1⟩
                · have hpe : p ++ (k + 1) :: q = p ++ [1 + k] ++ q := by
                    have h2 : 1 + k = k + 1 := by omega
                    rw [h2]
                    simp [List.append_assoc]
                  rw [hpe]
                  refine mget_mono_of_prefix (visitNode1_map_pfx f _ _ _ _ _) ?_
                  refine goList_covers _ p q c ?_ ?_ _ k 1 _ _ hck1
                  · intro p2 k2 c2 sc2 st2
                    obtain ⟨B, hB⟩ := visitNode1_map_pfx f _ (p2 ++ [k2]) c2 sc2 st2
                    cases c2 <;>
                      first
                        | exact ⟨B, hB⟩
                        | exact ⟨B, (bindName_scopesMap _ _ _ _ _ _ _).trans hB⟩
                  · intro i2 sc2 st2
                    cases c <;>
                      first
                        | exact ih _ hcf _ (p ++ [i2]) sc2 st2 q hcq
                        | exact mget_mono_of_prefix (prefix_of_eq (bindName_scopesMap _ _ _ _ _ _ _))
                            (ih _ hcf _ (p ++ [i2]) sc2 st2 q hcq)
                · obtain ⟨hj0, hcb⟩ := getElem?_singleton hck1
                  subst hcb
                  have hk : k = ps.length := by omega
                  subst hk
                  have hpe : p ++ (ps.length + 1) :: q = (p ++ [1 + ps.length]) ++ q := by
                    have h2 : 1 + ps.length = ps.length + 1 := by omega
                    rw [h2]
                    simp [List.append_assoc]
                  rw [hpe]
                  exact ih _ hcf _ (p ++ [1 + ps.length]) _ _ q hcq
      | arrowFunction ps body =>
        simp only [children] at hck
        cases hb : body.isBlockNode with
        | true =>
          simp only [visitNode1, hb, reduceIte]
          rcases getElem?_append_split hck with ⟨hk1, hck1⟩ | ⟨hk1, hck1⟩
          · have hpe : p ++ k :: q = p ++ [0 + k] ++ q := by simp [List.append_assoc]
            rw [hpe]
            refine mget_mono_of_prefix (exists_prefix_goList _ ?_ _ _ _ _ _) ?_
            · intro p2 k2 c2 sc2 st2
              exact visitNode1_map_pfx f _ _ _ _ _
            · refine mget_mono_of_prefix (prefix_cons _ _) ?_
              refine goList_covers _ p q c ?_ ?_ _ k 0 _ _ hck1
              · intro p2 k2 c2 sc2 st2
                obtain ⟨B, hB⟩ := visitNode1_map_pfx f _ (p2 ++ [k2]) c2 sc2 st2
                cases c2 <;>
                  first
                    | exact ⟨B, hB⟩
                    | exact ⟨B, (bindName_scopesMap _ _ _ _ _ _ _).trans hB⟩
              · intro i2 sc2 st2
                cases c <;>
                  first
                    | exact ih _ hcf _ (p ++ [i2]) sc2 st2 q hcq
                    | exact mget_mono_of_prefix (prefix_of_eq (bindName_scopesMap _ _ _ _ _ _ _))
                        (ih _ hcf _ (p ++ [i2]) sc2 st2 q hcq)
          · obtain ⟨hj0, hcb⟩ := getElem?_singleton hck1
            subst hcb
            have hk : k = ps.length := by omega
            subst hk
            cases q with
            | nil =>
              refine mget_mono_of_prefix (exists_prefix_goList _ ?_ _ _ _ _ _) ?_
              · intro p2 k2 c2 sc2 st2
                exact visitNode1_map_pfx f _ _ _ _ _
              · exact mget_mset_self_isSome _ _ _
            | cons k2 q2 =>
              obtain ⟨c2, hck2, hcq2⟩ := nodeAt_cons_decomp hcq
              have hcf2 : nsize c2 ≤ f := by
                have h1 := children_nsize (List.getElem?_mem hck2)
                omega
              have hpe : p ++ ps.length :: k2 :: q2
                  = (p ++ [ps.length]) ++ [0 + k2] ++ q2 := by
                simp [List.append_assoc]
              rw [hpe]
              refine goList_covers _ (p ++ [ps.length]) q2 c2 ?_ ?_ _ k2 0 _ _ hck2
              · intro p2 k2 c2 sc2 st2
                exact visitNode1_map_pfx f _ _ _ _ _
              · intro i2 sc2 st2
                exact ih _ hcf2 _ ((p ++ [ps.length]) ++ [i2]) sc2 st2 q2 hcq2
        | false =>
          simp only [visitNode1, hb, Bool.false_eq_true, reduceIte]
          rcases getElem?_append_split hck with ⟨hk1, hck1⟩ | ⟨hk1, hck1⟩
          · have hpe : p ++ k :: q = p ++ [0 + k] ++ q := by simp [List.append_assoc]
            rw [hpe]
            refine mget_mono_of_prefix (visitNode1_map_pfx f _ _ _ _ _) ?_
            refine goList_covers _ p q c ?_ ?_ _ k 0 _ _ hck1
            · intro p2 k2 c2 sc2 st2
              obtain ⟨B, hB⟩ := visitNode1_map_pfx f _ (p2 ++ [k2]) c2 sc2 st2
              cases c2 <;>
                first
                  | exact ⟨B, hB⟩
                  | exact ⟨B, (bindName_scopesMap _ _ _ _ _ _ _).trans hB⟩
            · intro i2 sc2 st2
              cases c <;>
                first
                  | exact ih _ hcf _ (p ++ [i2]) sc2 st2 q hcq
                  | exact mget_mono_of_prefix (prefix_of_eq (bindName_scopesMap _ _ _ _ _ _ _))
                      (ih _ hcf _ (p ++ [i2]) sc2 st2 q hcq)
          · obtain ⟨hj0, hcb⟩ := getElem?_singleton hck1
            subst hcb
            have hk : k = ps.length := by omega
            subst hk
            have hpe : p ++ ps.length :: q = (p ++ [ps.length]) ++ q := by
              simp [List.append_assoc]
            rw [hpe]
            exact ih _ hcf _ (p ++ [ps.length]) _ _ q hcq
      | forOfStatement lini le lstmt =>
        simp only [children] at hck
        cases hb : lstmt.isBlockNode with
        | true =>
          simp only [visitNode1, hb, reduceIte]
          cases k with
          | zero =>
            simp only [List.getElem?_cons_zero] at hck
            have hc := Option.some.inj hck
            subst hc
            have hpe : p ++ (0 : Nat) :: q = (p ++ [0]) ++ q := by simp [List.append_assoc]
            rw [hpe]
            refine mget_mono_of_prefix (exists_prefix_goList _ ?_ _ _ _ _ _) ?_
            · intro p2 k2 c2 sc2 st2
              exact visitNode1_map_pfx f _ _ _ _ _
            · refine mget_mono_of_prefix (prefix_cons _ _) ?_
              refine mget_mono_of_prefix (visitNode1_map_pfx f _ _ _ _ _) ?_
              exact ih _ hcf _ (p ++ [0]) _ _ q hcq
          | succ k =>
            simp only [List.getElem?_cons_succ] at hck
            cases k with
            | zero =>
              simp only [List.getElem?_cons_zero] at hck
              have hc := Option.some.inj hck
              subst hc
              have hpe : p ++ (0 + 1 : Nat) :: q = (p ++ [1]) ++ q := by
                simp [List.append_assoc]
              rw [hpe]
              refine mget_mono_of_prefix (exists_prefix_goList _ ?_ _ _ _ _ _) ?_
              · intro p2 k2 c2 sc2 st2
                exact visitNode1_map_pfx f _ _ _ _ _
              · refine mget_mono_of_prefix (prefix_cons _ _) ?_
                exact ih _ hcf _ (p ++ [1]) _ _ q hcq
            | succ k =>
              simp only [List.getElem?_cons_succ] at hck
              cases k with
              | zero =>
                simp only [List.getElem?_cons_zero] at hck
                have hc := Option.some.inj hck
                subst hc
                cases q with
                | nil =>
                  have hpe : p ++ [(0 + 1 + 1 : Nat)] = p ++ [2] := by
                    have h2 : (0 + 1 + 1 : Nat) = 2 := by omega
                    rw [h2]
                  rw [hpe]
                  refine mget_mono_of_prefix (exists_prefix_goList _ ?_ _ _ _ _ _) ?_
                  · intro p2 k2 c2 sc2 st2
                    exact visitNode1_map_pfx f _ _ _ _ _
                  · exact mget_mset_self_isSome _ _ _
                | cons k2 q2 =>
                  obtain ⟨c2, hck2, hcq2⟩ := nodeAt_cons_decomp hcq
                  have hcf2 : nsize c2 ≤ f := by
                    have h1 := children_nsize (List.getElem?_mem hck2)
                    omega
                  have hpe : p ++ (0 + 1 + 1 : Nat) :: k2 :: q2
                      = (p ++ [2]) ++ [0 + k2] ++ q2 := by
                    have h2 : (0 + 1 + 1 : Nat) = 2 := by omega
                    rw [h2]
                    simp [List.append_assoc]
                  rw [hpe]
                  refine goList_covers _ (p ++ [2]) q2 c2 ?_ ?_ _ k2 0 _ _ hck2
                  · intro p2 k2 c2 sc2 st2
                    exact visitNode1_map_pfx f _ _ _ _ _
                  · intro i2 sc2 st2
                    exact ih _ hcf2 _ ((p ++ [2]) ++ [i2]) sc2 st2 q2 hcq2
              | succ k =>
                simp at hck
        | false =>
          simp only [visitNode1, hb, Bool.false_eq_true, reduceIte]
          cases k with
          | zero =>
            simp only [List.getElem?_cons_zero] at hck
            have hc := Option.some.inj hck
            subst hc
            have hpe : p ++ (0 : Nat) :: q = (p ++ [0]) ++ q := by simp [List.append_assoc]
            rw [hpe]
            refine mget_mono_of_prefix (visitNode1_map_pfx f _ _ _ _ _) ?_
            refine mget_mono_of_prefix (visitNode1_map_pfx f _ _ _ _ _) ?_
            exact ih _ hcf _ (p ++ [0]) _ _ q hcq
          | succ k =>
            simp only [List.getElem?_cons_succ] at hck
            cases k with
            | zero =>
              simp only [List.getElem?_cons_zero] at hck
              have hc := Option.some.inj hck
              subst hc
              have hpe : p ++ (0 + 1 : Nat) :: q = (p ++ [1]) ++ q := by
                simp [List.append_assoc]
              rw [hpe]
              refine mget_mono_of_prefix (visitNode1_map_pfx f _ _ _ _ _) ?_
              exact ih _ hcf _ (p ++ [1]) _ _ q hcq
            | succ k =>
              simp only [List.getElem?_cons_succ] at hck
              cases k with
              | zero =>
                simp only [List.getElem?_cons_zero] at hck
                have hc := Option.some.inj hck
                subst hc
                have hpe : p ++ (0 + 1 + 1 : Nat) :: q = (p ++ [2]) ++ q := by
                  have h2 : (0 + 1 + 1 : Nat) = 2 := by omega
                  rw [h2]
                  simp [List.append_assoc]
                rw [hpe]
                exact ih _ hcf _ (p ++ [2]) _ _ q hcq
              | succ k =>
                simp at hck
      | forInStatement lini le lstmt =>
        simp only [children] at hck
        cases hb : lstmt.isBlockNode with
        | true =>
          simp only [visitNode1, hb, reduceIte]
          cases k with
          | zero =>
            simp only [List.getElem?_cons_zero] at hck
            have hc := Option.some.inj hck
            subst hc
            have hpe : p ++ (0 : Nat) :: q = (p ++ [0]) ++ q := by simp [List.append_assoc]
            rw [hpe]
            refine mget_mono_of_prefix (exists_prefix_goList _ ?_ _ _ _ _ _) ?_
            · intro p2 k2 c2 sc2 st2
              exact visitNode1_map_pfx f _ _ _ _ _
            · refine mget_mono_of_prefix (prefix_cons _ _) ?_
              refine mget_mono_of_prefix (visitNode1_map_pfx f _ _ _ _ _) ?_
              exact ih _ hcf _ (p ++ [0]) _ _ q hcq
          | succ k =>
            simp only [List.getElem?_cons_succ] at hck
            cases k with
            | zero =>
              simp only [List.getElem?_cons_zero] at hck
              have hc := Option.some.inj hck
              subst hc
              have hpe : p ++ (0 + 1 : Nat) :: q = (p ++ [1]) ++ q := by
                simp [List.append_assoc]
              rw [hpe]
              refine mget_mono_of_prefix (exists_prefix_goList _ ?_ _ _ _ _ _) ?_
              · intro p2 k2 c2 sc2 st2
                exact visitNode1_map_pfx f _ _ _ _ _
              · refine mget_mono_of_prefix (prefix_cons _ _) ?_
                exact ih _ hcf _ (p ++ [1]) _ _ q hcq
            | succ k =>
              simp only [List.getElem?_cons_succ] at hck
              cases k with
              | zero =>
                simp only [List.getElem?_cons_zero] at hck
                have hc := Option.some.inj hck
                subst hc
                cases q with
                | nil =>
                  have hpe : p ++ [(0 + 1 + 1 : Nat)] = p ++ [2] := by
                    have h2 : (0 + 1 + 1 : Nat) = 2 := by omega
                    rw [h2]
                  rw [hpe]
                  refine mget_mono_of_prefix (exists_prefix_goList _ ?_ _ _ _ _ _) ?_
                  · intro p2 k2 c2 sc2 st2
                    exact visitNode1_map_pfx f _ _ _ _ _
                  · exact mget_mset_self_isSome _ _ _
                | cons k2 q2 =>
                  obtain ⟨c2, hck2, hcq2⟩ := nodeAt_cons_decomp hcq
                  have hcf2 : nsize c2 ≤ f := by
                    have h1 := children_nsize (List.getElem?_mem hck2)
                    omega
                  have hpe : p ++ (0 + 1 + 1 : Nat) :: k2 :: q2
                      = (p ++ [2]) ++ [0 + k2] ++ q2 := by
                    have h2 : (0 + 1 + 1 : Nat) = 2 := by omega
                    rw [h2]
                    simp [List.append_assoc]
                  rw [hpe]
                  refine goList_covers _ (p ++ [2]) q2 c2 ?_ ?_ _ k2 0 _ _ hck2
                  · intro p2 k2 c2 sc2 st2
                    exact visitNode1_map_pfx f _ _ _ _ _
                  · intro i2 sc2 st2
                    exact ih _ hcf2 _ ((p ++ [2]) ++ [i2]) sc2 st2 q2 hcq2
              | succ k =>
                simp at hck
        | false =>
          simp only [visitNode1, hb, Bool.false_eq_true, reduceIte]
          cases k with
          | zero =>
            simp only [List.getElem?_cons_zero] at hck
            have hc := Option.some.inj hck
            subst hc
            have hpe : p ++ (0 : Nat) :: q = (p ++ [0]) ++ q := by simp [List.append_assoc]
            rw [hpe]
            refine mget_mono_of_prefix (visitNode1_map_pfx f _ _ _ _ _) ?_
            refine mget_mono_of_prefix (visitNode1_map_pfx f _ _ _ _ _) ?_
            exact ih _ hcf _ (p ++ [0]) _ _ q hcq
          | succ k =>
            simp only [List.getElem?_cons_succ] at hck
            cases k with
            | zero =>
              simp only [List.getElem?_cons_zero] at hck
              have hc := Option.some.inj hck
              subst hc
              have hpe : p ++ (0 + 1 : Nat) :: q = (p ++ [1]) ++ q := by
                simp [List.append_assoc]
              rw [hpe]
              refine mget_mono_of_prefix (visitNode1_map_pfx f _ _ _ _ _) ?_
              exact ih _ hcf _ (p ++ [1]) _ _ q hcq
            | succ k =>
              simp only [List.getElem?_cons_succ] at hck
              cases k with
              | zero =>
                simp only [List.getElem?_cons_zero] at hck
                have hc := Option.some.inj hck
                subst hc
                have hpe : p ++ (0 + 1 + 1 : Nat) :: q = (p ++ [2]) ++ q := by
                  have h2 : (0 + 1 + 1 : Nat) = 2 := by omega
                  rw [h2]
                  simp [List.append_assoc]
                rw [hpe]
                exact ih _ hcf _ (p ++ [2]) _ _ q hcq
              | succ k =>
                simp at hck

/-- **C2.** After construction of a `SourceFileScopesContainer`, the
node-to-scope map built by pass 1 is total over the analyzed tree: for every
node reachable from the source-file root (any path `q` with
`nodeAt root q = some _`, including nodes of kinds the builder has no special
handling for), `getScopeForNode` returns a scope instead of taking the
`No scope could be found for node` throw. -/
theorem container_map_total (root : Node) (q : NodePath)
    (h : (nodeAt root q).isSome) :
    (getScopeForNode (buildContainer root) q).isSome := by
  have hc := visitNode1_covers (nsize root) root (Nat.le_refl _) none [] 0
    { scopes := [{ scopeKind := ScopeKind.functionScope, bindings := [],
                   parentScope := none, declaratingNode := [], references := [] }],
      scopesMap := [], err := false } q h
  simpa [getScopeForNode, buildContainer, findScopes] using hc

/-- Witness for `container_map_total`: the initializer identifier `b` of
`const a = b;` sits at path `[0, 0, 0, 1]` and gets a scope. -/
theorem container_map_total_witness :
    (nodeAt progConstAB [0, 0, 0, 1]).isSome = true ∧
      (getScopeForNode (buildContainer progConstAB) [0, 0, 0, 1]).isSome = true :=
  ⟨by decide, container_map_total progConstAB [0, 0, 0, 1] (by decide)⟩

theorem applyEvents_append (m : ScopesMap) :
    ∀ (a b : List RefEvent) (scs : List Scope),
      applyEvents m (a ++ b) scs = applyEvents m b (applyEvents m a scs) := by
  intro a
  induction a with
  | nil => intro b scs; rfl
  | cons ev evs ihe =>
    intro b scs
    simp only [List.cons_append, applyEvents]
    exact ihe b (applyEvent m ev scs)

theorem goList2_scopes (m : ScopesMap)
    (v : NodePath → Nat → Node → Bool → ResolveState → ResolveState)
    (vc : NodePath → Nat → Node → Bool → List RefEvent) (p : NodePath)
    (hv : ∀ p2 k c col st,
      (v p2 k c col st).scopes = applyEvents m (vc p2 k c col) st.scopes) :
    ∀ (cs : List Node) (k : Nat) (col : Bool) (st : ResolveState),
      (goList2 v p k cs col st).scopes
        = applyEvents m (goCollect vc p k cs col) st.scopes := by
  intro cs
  induction cs with
  | nil => intro k col st; rfl
  | cons c cs ihc =>
    intro k col st
    simp only [goList2, goCollect]
    rw [applyEvents_append, ihc, hv]

theorem visitNode2_scopes_eq :
    ∀ (fuel : Nat) (m : ScopesMap) (p : NodePath) (n : Node) (collect : Bool)
      (ini : Option NodePath) (st : ResolveState),
      (visitNode2 fuel m p n collect ini st).scopes
        = applyEvents m (collectRefs fuel p n collect ini) st.scopes := by
  intro fuel
  induction fuel with
  | zero => intro m p n collect ini st; rfl
  | succ f ih =>
    intro m p n collect ini st
    cases n with
    | identifier t =>
      cases collect with
      | false => simp [visitNode2, collectRefs, applyEvents]
      | true =>
        cases ht : t == "" with
        | true =>
          cases hm : mget p m with
          | none => simp [visitNode2, collectRefs, applyEvents, bne, hm, ht]
          | some sc => simp [visitNode2, collectRefs, applyEvents, bne, hm, ht]
        | false =>
          cases hm : mget p m with
          | none =>
            cases ini with
            | none => simp [visitNode2, collectRefs, applyEvents, applyEvent, bne, hm, ht]
            | some ip => simp [visitNode2, collectRefs, applyEvents, applyEvent, bne, hm, ht]
          | some sc =>
            cases ini with
            | none => simp [visitNode2, collectRefs, applyEvents, applyEvent, bne, hm, ht]
            | some ip => simp [visitNode2, collectRefs, applyEvents, applyEvent, bne, hm, ht]
    | variableDeclaration vnm vini =>
      cases vini with
      | none =>
        simp only [visitNode2, collectRefs, List.nil_append]
        exact ih _ _ _ _ _ _
      | some e =>
        simp only [visitNode2, collectRefs]
        rw [ih, ih, applyEvents_append]
    | expressionStatement e =>
      simp only [visitNode2, collectRefs]
      exact ih _ _ _ _ _ _
    | computedPropertyName e =>
      simp only [visitNode2, collectRefs]
      exact ih _ _ _ _ _ _
    | binaryExpression l op r =>
      cases hop : op == BinaryOperator.equalsToken with
      | true =>
        cases l
        case identifier lt =>
          simp only [visitNode2, collectRefs, hop, reduceIte]
          cases hm : mget p m with
          | none =>
            rw [ih]
            simp [applyEvents, applyEvent, hm]
          | some sc =>
            rw [ih]
            simp [applyEvents, applyEvent, hm]
        all_goals
          simp only [visitNode2, collectRefs, hop, reduceIte]
          rw [ih, ih, applyEvents_append]
      | false =>
        simp only [visitNode2, collectRefs, hop, Bool.false_eq_true, reduceIte]
        exact goList2_scopes _ _ _ _
          (fun p2 k2 c2 col2 st2 => ih m (p2 ++ [k2]) c2 col2 none st2) _ _ _ _
    | arrowFunction ps body =>
      simp only [visitNode2, collectRefs]
      rw [ih, applyEvents_append,
        goList2_scopes m _ _ p (fun p2 k2 c2 col2 st2 => ih m (p2 ++ [k2]) c2 col2 none st2)]
    | parameter pnm pini =>
      cases pini with
      | none =>
        simp only [visitNode2, collectRefs, List.append_nil]
        exact ih _ _ _ _ _ _
      | some e =>
        simp only [visitNode2, collectRefs]
        rw [ih, ih, applyEvents_append]
    | forOfStatement lini le lstmt =>
      simp only [visitNode2, collectRefs]
      rw [ih, ih, ih, applyEvents_append, applyEvents_append]
    | forInStatement lini le lstmt =>
      simp only [visitNode2, collectRefs]
      rw [ih, ih, ih, applyEvents_append, applyEvents_append]
    | functionDeclaration fname ps body =>
      simp only [visitNode2, collectRefs]
      exact goList2_scopes _ _ _ _
        (fun p2 k2 c2 col2 st2 => ih m (p2 ++ [k2]) c2 col2 none st2) _ _ _ _
    | functionExpression fname ps body =>
      simp only [visitNode2, collectRefs]
      exact goList2_scopes _ _ _ _
        (fun p2 k2 c2 col2 st2 => ih m (p2 ++ [k2]) c2 col2 none st2) _ _ _ _
    | sourceFile sts =>
      simp only [visitNode2, collectRefs]
      exact goList2_scopes _ _ _ _
        (fun p2 k2 c2 col2 st2 => ih m (p2 ++ [k2]) c2 col2 none st2) _ _ _ _
    | block sts =>
      simp only [visitNode2, collectRefs]
      exact goList2_scopes _ _ _ _
        (fun p2 k2 c2 col2 st2 => ih m (p2 ++ [k2]) c2 col2 none st2) _ _ _ _
    | variableDeclarationList fl ds =>
      simp only [visitNode2, collectRefs]
      exact goList2_scopes _ _ _ _
        (fun p2 k2 c2 col2 st2 => ih m (p2 ++ [k2]) c2 col2 none st2) _ _ _ _
    | objectBindingPattern els =>
      simp only [visitNode2, collectRefs]
      exact goList2_scopes _ _ _ _
        (fun p2 k2 c2 col2 st2 => ih m (p2 ++ [k2]) c2 col2 none st2) _ _ _ _
    | arrayBindingPattern els =>
      simp only [visitNode2, collectRefs]
      exact goList2_scopes _ _ _ _
        (fun p2 k2 c2 col2 st2 => ih m (p2 ++ [k2]) c2 col2 none st2) _ _ _ _
    | bindingElement prop bnm bini =>
      simp only [visitNode2, collectRefs]
      exact goList2_scopes _ _ _ _
        (fun p2 k2 c2 col2 st2 => ih m (p2 ++ [k2]) c2 col2 none st2) _ _ _ _
    | classDeclaration cname ms =>
      simp only [visitNode2, collectRefs]
      exact goList2_scopes _ _ _ _
        (fun p2 k2 c2 col2 st2 => ih m (p2 ++ [k2]) c2 col2 none st2) _ _ _ _
    | otherNode cs =>
      simp only [visitNode2, collectRefs]
      exact goList2_scopes _ _ _ _
        (fun p2 k2 c2 col2 st2 => ih m (p2 ++ [k2]) c2 col2 none st2) _ _ _ _

theorem getElem?_append_split_scope {A B : List Scope} {k : Nat} {c : Scope}
    (h : (A ++ B)[k]? = some c) :
    (k < A.length ∧ A[k]? = some c) ∨ (A.length ≤ k ∧ B[k - A.length]? = some c) := by
  by_cases hk : k < A.length
  · left
    refine ⟨hk, ?_⟩
    rw [List.getElem?_append_left hk] at h
    exact h
  · right
    have hk2 : A.length ≤ k := Nat.le_of_not_lt hk
    refine ⟨hk2, ?_⟩
    rw [List.getElem?_append_right hk2] at h
    exact h

theorem getElem?_none_supdate {scs : List Scope} {k : Nat} (i : Nat) (f : Scope → Scope)
    (h : scs[k]? = none) : (supdate i f scs)[k]? = none := by
  rw [List.getElem?_eq_none_iff] at h ⊢
  rw [supdate_length]
  exact h

theorem supdate_refs_pres {scs : List Scope} {j k : Nat} {sd1 : Scope}
    (g : Scope → List (String × ScopeBindingDeclaration))
    (h : (supdate j (fun s => { s with bindings := g s }) scs)[k]? = some sd1) :
    ∃ sd0, scs[k]? = some sd0 ∧ sd1.references = sd0.references := by
  by_cases hk : k = j
  · subst hk
    cases h0 : scs[k]? with
    | none =>
      rw [getElem?_none_supdate _ _ h0] at h
      exact absurd h (by simp)
    | some sd0 =>
      rw [supdate_self h0] at h
      obtain rfl := Option.some.inj h
      exact ⟨sd0, rfl, rfl⟩
  · rw [supdate_other _ hk] at h
    exact ⟨sd1, h, rfl⟩

theorem supdate_refs_append {scs : List Scope} {i k : Nat} {sd1 : Scope}
    (ref : ScopeReference)
    (h : (supdate i (fun s => { s with references := s.references ++ [ref] }) scs)[k]?
      = some sd1)
    {r : ScopeReference} (hr : r ∈ sd1.references) :
    (∃ sd0, scs[k]? = some sd0 ∧ r ∈ sd0.references) ∨ r = ref := by
  by_cases hk : k = i
  · subst hk
    cases h0 : scs[k]? with
    | none =>
      rw [getElem?_none_supdate _ _ h0] at h
      exact absurd h (by simp)
    | some sd0 =>
      rw [supdate_self h0] at h
      obtain rfl := Option.some.inj h
      simp only [List.mem_append, List.mem_singleton] at hr
      rcases hr with hr | hr
      · exact Or.inl ⟨sd0, rfl, hr⟩
      · exact Or.inr hr
  · rw [supdate_other _ hk] at h
    exact Or.inl ⟨sd1, h, hr⟩

theorem addReference_refs_cases (i : Nat) (t : String) (idPath : NodePath)
    (wE : Option NodePath) (isInit : Bool) (scs : List Scope) (j : Nat) (sd : Scope)
    (r : ScopeReference) (hj : (addReference i t idPath wE isInit scs)[j]? = some sd)
    (hr : r ∈ sd.references) :
    (∃ sd0, scs[j]? = some sd0 ∧ r ∈ sd0.references) ∨
      (r.identifier = t ∧ r.identifierPath = idPath ∧ r.writeExpr = wE ∧
        r.isInitializer = isInit) := by
  simp only [addReference] at hj
  cases hbo : getBinding scs i t with
  | none =>
    rw [hbo] at hj
    rcases supdate_refs_append _ hj hr with ⟨sd0, h0, hr0⟩ | rfl
    · exact Or.inl ⟨sd0, h0, hr0⟩
    · exact Or.inr ⟨rfl, rfl, rfl, rfl⟩
  | some bj =>
    obtain ⟨b, j2⟩ := bj
    rw [hbo] at hj
    rcases supdate_refs_append _ hj hr with ⟨sd1, h1, hr1⟩ | rfl
    · obtain ⟨sd0, h0, he⟩ := supdate_refs_pres _ h1
      rw [he] at hr1
      exact Or.inl ⟨sd0, h0, hr1⟩
    · exact Or.inr ⟨rfl, rfl, rfl, rfl⟩

theorem applyEvents_refs_cases (m : ScopesMap) :
    ∀ (evs : List RefEvent) (scs : List Scope) (j : Nat) (sd : Scope) (r : ScopeReference),
      (applyEvents m evs scs)[j]? = some sd → r ∈ sd.references →
      (∃ sd0, scs[j]? = some sd0 ∧ r ∈ sd0.references) ∨
        (∃ ev ∈ evs, r.identifier = ev.text ∧ r.identifierPath = ev.identifierPath ∧
          r.writeExpr = ev.writeExpr ∧ r.isInitializer = ev.isInitializer) := by
  intro evs
  induction evs with
  | nil =>
    intro scs j sd r hj hr
    exact Or.inl ⟨sd, hj, hr⟩
  | cons ev evs ihe =>
    intro scs j sd r hj hr
    rcases ihe (applyEvent m ev scs) j sd r hj hr with ⟨sd0, h0, hr0⟩ | ⟨ev2, hev2, hf⟩
    · simp only [applyEvent] at h0
      cases hm : mget ev.scopePath m with
      | none =>
        rw [hm] at h0
        exact Or.inl ⟨sd0, h0, hr0⟩
      | some sc =>
        rw [hm] at h0
        rcases addReference_refs_cases _ _ _ _ _ _ _ _ _ h0 hr0 with ⟨sd1, h1, hr1⟩ | hf
        · exact Or.inl ⟨sd1, h1, hr1⟩
        · exact Or.inr ⟨ev, List.mem_cons_self _ _, hf⟩
    · exact Or.inr ⟨ev2, List.mem_cons_of_mem _ hev2, hf⟩

theorem newChildScope_refs (kind : ScopeKind) (declPath : NodePath) (parentSc : Nat)
    (st : BuildState)
    (hst : ∀ (j : Nat) (sd : Scope), st.scopes[j]? = some sd → sd.references = []) :
    ∀ (j : Nat) (sd : Scope), (newChildScope kind declPath parentSc st).scopes[j]? = some sd →
      sd.references = [] := by
  intro j sd h
  simp only [newChildScope] at h
  rcases getElem?_append_split_scope h with ⟨hlt, h1⟩ | ⟨hge, h1⟩
  · exact hst j sd h1
  · cases hj : j - st.scopes.length with
    | zero =>
      rw [hj] at h1
      obtain rfl := (Option.some.inj h1).symm
      rfl
    | succ j2 =>
      rw [hj] at h1
      simp at h1

theorem addBinding_refs (sc : Nat) (nm : String) (d : ScopeBindingDeclaration)
    (st : BuildState)
    (hst : ∀ (j : Nat) (sd : Scope), st.scopes[j]? = some sd → sd.references = []) :
    ∀ (j : Nat) (sd : Scope), (addBinding sc nm d st).scopes[j]? = some sd → sd.references = [] := by
  intro j sd h
  simp only [addBinding] at h
  cases hk : d.bindingScopeKind == ScopeKind.lexicalScope with
  | true =>
    rw [hk] at h
    simp only [reduceIte] at h
    obtain ⟨sd0, h0, he⟩ := supdate_refs_pres _ h
    rw [he]
    exact hst j sd0 h0
  | false =>
    rw [hk] at h
    simp only [Bool.false_eq_true, reduceIte] at h
    cases hf : findFunctionScope (sc + 1) sc st.scopes with
    | none =>
      rw [hf] at h
      exact hst j sd h
    | some j2 =>
      rw [hf] at h
      obtain ⟨sd0, h0, he⟩ := supdate_refs_pres _ h
      rw [he]
      exact hst j sd0 h0

theorem bindList_refs (h : Node → BuildState → BuildState)
    (hh : ∀ el st, (∀ (j : Nat) (sd : Scope), st.scopes[j]? = some sd → sd.references = []) →
      ∀ (j : Nat) (sd : Scope), (h el st).scopes[j]? = some sd → sd.references = []) :
    ∀ (els : List Node) (st : BuildState),
      (∀ (j : Nat) (sd : Scope), st.scopes[j]? = some sd → sd.references = []) →
      ∀ (j : Nat) (sd : Scope), (bindList h els st).scopes[j]? = some sd → sd.references = [] := by
  intro els
  induction els with
  | nil => intro st hst; exact hst
  | cons el els ihe =>
    intro st hst
    exact ihe _ (hh el st hst)

theorem bindName_refs :
    ∀ (fuel : Nat) (bn : Node) (declPath : NodePath) (sc : Nat) (kind : ScopeKind)
      (mu : Mutability) (st : BuildState),
      (∀ (j : Nat) (sd : Scope), st.scopes[j]? = some sd → sd.references = []) →
      ∀ (j : Nat) (sd : Scope), (bindName fuel bn declPath sc kind mu st).scopes[j]? = some sd →
        sd.references = [] := by
  intro fuel
  induction fuel with
  | zero => intro bn dp sc kind mu st hst; exact hst
  | succ f ih =>
    intro bn dp sc kind mu st hst
    cases bn with
    | identifier t => exact addBinding_refs _ _ _ _ hst
    | objectBindingPattern els =>
      refine bindList_refs _ ?_ els st hst
      intro el st2 hst2
      cases el <;>
        first
          | exact ih _ _ _ _ _ _ hst2
          | exact hst2
    | arrayBindingPattern els =>
      refine bindList_refs _ ?_ els st hst
      intro el st2 hst2
      cases el <;>
        first
          | exact ih _ _ _ _ _ _ hst2
          | exact hst2
    | sourceFile sts => exact hst
    | block sts => exact hst
    | variableDeclarationList fl ds => exact hst
    | variableDeclaration vnm vini => exact hst
    | bindingElement prop bnm bini => exact hst
    | parameter pnm pini => exact hst
    | functionDeclaration fname ps body => exact hst
    | functionExpression fname ps body => exact hst
    | arrowFunction ps body => exact hst
    | classDeclaration cname ms => exact hst
    | expressionStatement e => exact hst
    | binaryExpression l op r => exact hst
    | computedPropertyName e => exact hst
    | forOfStatement lini le lstmt => exact hst
    | forInStatement lini le lstmt => exact hst
    | otherNode cs => exact hst

theorem goList_refs (v : NodePath → Nat → Node → Nat → BuildState → BuildState)
    (p : NodePath)
    (hv : ∀ p2 k c sc st, (∀ (j : Nat) (sd : Scope), st.scopes[j]? = some sd → sd.references = []) →
      ∀ (j : Nat) (sd : Scope), (v p2 k c sc st).scopes[j]? = some sd → sd.references = []) :
    ∀ (cs : List Node) (k sc : Nat) (st : BuildState),
      (∀ (j : Nat) (sd : Scope), st.scopes[j]? = some sd → sd.references = []) →
      ∀ (j : Nat) (sd : Scope), (goList v p k cs sc st).scopes[j]? = some sd → sd.references = [] := by
  intro cs
  induction cs with
  | nil => intro k sc st hst; exact hst
  | cons c cs ihc =>
    intro k sc st hst
    exact ihc _ _ _ (hv p k c sc st hst)

theorem mem_goCollect {vc : NodePath → Nat → Node → Bool → List RefEvent} {p : NodePath}
    {ev : RefEvent} :
    ∀ {cs : List Node} {k : Nat} {col : Bool}, ev ∈ goCollect vc p k cs col →
      ∃ kk c, c ∈ cs ∧ ev ∈ vc p kk c col := by
  intro cs
  induction cs with
  | nil =>
    intro k col h
    simp [goCollect] at h
  | cons c cs ihc =>
    intro k col h
    simp only [goCollect, List.mem_append] at h
    cases h with
    | inl h => exact ⟨k, c, List.mem_cons_self _ _, h⟩
    | inr h =>
      obtain ⟨kk, c2, hc2, hev⟩ := ihc h
      exact ⟨kk, c2, List.mem_cons_of_mem _ hc2, hev⟩

theorem collectRefs_empty_text :
    ∀ (fuel : Nat) (p : NodePath) (n : Node) (collect : Bool) (ini : Option NodePath)
      (ev : RefEvent), ev ∈ collectRefs fuel p n collect ini → ev.text = "" →
      ev.writeExpr.isSome = true ∧ ev.isInitializer = false := by
  intro fuel
  induction fuel with
  | zero =>
    intro p n collect ini ev h
    simp [collectRefs] at h
  | succ f ih =>
    intro p n collect ini ev hev htxt
    cases n with
    | identifier t =>
      simp only [collectRefs] at hev
      cases hg : collect && (t != "") with
      | false =>
        rw [hg] at hev
        simp at hev
      | true =>
        rw [hg] at hev
        have ht : (t != "") = true := ((Bool.and_eq_true _ _).mp hg).2
        cases ini with
        | none =>
          simp only [reduceIte, List.mem_singleton] at hev
          subst hev
          have ht0 : t = "" := htxt
          rw [ht0] at ht
          simp at ht
        | some ip =>
          simp only [reduceIte, List.mem_singleton] at hev
          subst hev
          have ht0 : t = "" := htxt
          rw [ht0] at ht
          simp at ht
    | variableDeclaration vnm vini =>
      cases vini with
      | none =>
        simp only [collectRefs, List.nil_append] at hev
        exact ih _ _ _ _ _ hev htxt
      | some e =>
        simp only [collectRefs, List.mem_append] at hev
        cases hev with
        | inl h => exact ih _ _ _ _ _ h htxt
        | inr h => exact ih _ _ _ _ _ h htxt
    | expressionStatement e =>
      simp only [collectRefs] at hev
      exact ih _ _ _ _ _ hev htxt
    | computedPropertyName e =>
      simp only [collectRefs] at hev
      exact ih _ _ _ _ _ hev htxt
    | binaryExpression l op r =>
      cases hop : op == BinaryOperator.equalsToken with
      | true =>
        simp only [collectRefs, hop, reduceIte, List.mem_append] at hev
        cases hev with
        | inl h =>
          cases l <;>
            first
              | exact ih _ _ _ _ _ h htxt
              | (simp only [List.mem_singleton] at h
                 subst h
                 exact ⟨rfl, rfl⟩)
        | inr h => exact ih _ _ _ _ _ h htxt
      | false =>
        simp only [collectRefs, hop, Bool.false_eq_true, reduceIte] at hev
        obtain ⟨kk, c2, hc2, h⟩ := mem_goCollect hev
        exact ih _ _ _ _ _ h htxt
    | arrowFunction ps body =>
      simp only [collectRefs, List.mem_append] at hev
      cases hev with
      | inl h =>
        obtain ⟨kk, c2, hc2, h2⟩ := mem_goCollect h
        exact ih _ _ _ _ _ h2 htxt
      | inr h => exact ih _ _ _ _ _ h htxt
    | parameter pnm pini =>
      cases pini with
      | none =>
        simp only [collectRefs, List.append_nil] at hev
        exact ih _ _ _ _ _ hev htxt
      | some e =>
        simp only [collectRefs, List.mem_append] at hev
        cases hev with
        | inl h => exact ih _ _ _ _ _ h htxt
        | inr h => exact ih _ _ _ _ _ h htxt
    | forOfStatement lini le lstmt =>
      simp only [collectRefs, List.mem_append] at hev
      rcases hev with (h | h) | h
      · exact ih _ _ _ _ _ h htxt
      · exact ih _ _ _ _ _ h htxt
      · exact ih _ _ _ _ _ h htxt
    | forInStatement lini le lstmt =>
      simp only [collectRefs, List.mem_append] at hev
      rcases hev with (h | h) | h
      · exact ih _ _ _ _ _ h htxt
      · exact ih _ _ _ _ _ h htxt
      · exact ih _ _ _ _ _ h htxt
    | functionDeclaration fname ps body =>
      simp only [collectRefs] at hev
      obtain ⟨kk, c2, hc2, h⟩ := mem_goCollect hev
      exact ih _ _ _ _ _ h htxt
    | functionExpression fname ps body =>
      simp only [collectRefs] at hev
      obtain ⟨kk, c2, hc2, h⟩ := mem_goCollect hev
      exact ih _ _ _ _ _ h htxt
    | sourceFile sts =>
      simp only [collectRefs] at hev
      obtain ⟨kk, c2, hc2, h⟩ := mem_goCollect hev
      exact ih _ _ _ _ _ h htxt
    | block sts =>
      simp only [collectRefs] at hev
      obtain ⟨kk, c2, hc2, h⟩ := mem_goCollect hev
      exact ih _ _ _ _ _ h htxt
    | variableDeclarationList fl ds =>
      simp only [collectRefs] at hev
      obtain ⟨kk, c2, hc2, h⟩ := mem_goCollect hev
      exact ih _ _ _ _ _ h htxt
    | objectBindingPattern els =>
      simp only [collectRefs] at hev
      obtain ⟨kk, c2, hc2, h⟩ := mem_goCollect hev
      exact ih _ _ _ _ _ h htxt
    | arrayBindingPattern els =>
      simp only [collectRefs] at hev
      obtain ⟨kk, c2, hc2, h⟩ := mem_goCollect hev
      exact ih _ _ _ _ _ h htxt
    | bindingElement prop bnm bini =>
      simp only [collectRefs] at hev
      obtain ⟨kk, c2, hc2, h⟩ := mem_goCollect hev
      exact ih _ _ _ _ _ h htxt
    | classDeclaration cname ms =>
      simp only [collectRefs] at hev
      obtain ⟨kk, c2, hc2, h⟩ := mem_goCollect hev
      exact ih _ _ _ _ _ h htxt
    | otherNode cs =>
      simp only [collectRefs] at hev
      obtain ⟨kk, c2, hc2, h⟩ := mem_goCollect hev
      exact ih _ _ _ _ _ h htxt

theorem visitNode1_refs_empty :
    ∀ (fuel : Nat) (par : Option Node) (p : NodePath) (n : Node) (sc : Nat)
      (st : BuildState),
      (∀ (j : Nat) (sd : Scope), st.scopes[j]? = some sd → sd.references = []) →
      ∀ (j : Nat) (sd : Scope),
        (visitNode1 fuel par p n sc st).scopes[j]? = some sd → sd.references = [] := by
  intro fuel
  induction fuel with
  | zero => intro par p n sc st hst; exact hst
  | succ f ih =>
    intro par p n sc st hst
    cases n with
    | identifier t =>
      simp only [visitNode1]
      refine goList_refs _ _ ?_ _ _ _ _ (hst)
      intro p2 k2 c2 sc2 st2 hst2
      exact ih _ _ _ _ _ hst2
    | sourceFile sts =>
      simp only [visitNode1]
      refine goList_refs _ _ ?_ _ _ _ _ (hst)
      intro p2 k2 c2 sc2 st2 hst2
      exact ih _ _ _ _ _ hst2
    | variableDeclarationList fl ds =>
      simp only [visitNode1]
      refine goList_refs _ _ ?_ _ _ _ _ (hst)
      intro p2 k2 c2 sc2 st2 hst2
      exact ih _ _ _ _ _ hst2
    | objectBindingPattern els =>
      simp only [visitNode1]
      refine goList_refs _ _ ?_ _ _ _ _ (hst)
      intro p2 k2 c2 sc2 st2 hst2
      exact ih _ _ _ _ _ hst2
    | arrayBindingPattern els =>
      simp only [visitNode1]
      refine goList_refs _ _ ?_ _ _ _ _ (hst)
      intro p2 k2 c2 sc2 st2 hst2
      exact ih _ _ _ _ _ hst2
    | bindingElement prop bnm bini =>
      simp only [visitNode1]
      refine goList_refs _ _ ?_ _ _ _ _ (hst)
      intro p2 k2 c2 sc2 st2 hst2
      exact ih _ _ _ _ _ hst2
    | parameter pnm pini =>
      simp only [visitNode1]
      refine goList_refs _ _ ?_ _ _ _ _ (hst)
      intro p2 k2 c2 sc2 st2 hst2
      exact ih _ _ _ _ _ hst2
    | expressionStatement e =>
      simp only [visitNode1]
      refine goList_refs _ _ ?_ _ _ _ _ (hst)
      intro p2 k2 c2 sc2 st2 hst2
      exact ih _ _ _ _ _ hst2
    | binaryExpression l op r =>
      simp only [visitNode1]
      refine goList_refs _ _ ?_ _ _ _ _ (hst)
      intro p2 k2 c2 sc2 st2 hst2
      exact ih _ _ _ _ _ hst2
    | computedPropertyName e =>
      simp only [visitNode1]
      refine goList_refs _ _ ?_ _ _ _ _ (hst)
      intro p2 k2 c2 sc2 st2 hst2
      exact ih _ _ _ _ _ hst2
    | otherNode cs =>
      simp only [visitNode1]
      refine goList_refs _ _ ?_ _ _ _ _ (hst)
      intro p2 k2 c2 sc2 st2 hst2
      exact ih _ _ _ _ _ hst2
    | block sts =>
      simp only [visitNode1]
      refine goList_refs _ _ ?_ _ _ _ _ (newChildScope_refs _ _ _ _ hst)
      intro p2 k2 c2 sc2 st2 hst2
      exact ih _ _ _ _ _ hst2
    | variableDeclaration vnm vini =>
      simp only [visitNode1]
      refine goList_refs _ _ ?_ _ _ _ _ ?_
      ·
        intro p2 k2 c2 sc2 st2 hst2
        exact ih _ _ _ _ _ hst2
      · cases par with
        | none => exact hst
        | some pn =>
          cases pn <;>
            first
              | exact bindName_refs f _ _ _ _ _ _ hst
              | exact hst
    | classDeclaration cname ms =>
      cases cname with
      | none =>
        simp only [visitNode1]
        refine goList_refs _ _ ?_ _ _ _ _
          (addBinding_refs _ _ _ _ (newChildScope_refs _ _ _ _ hst))
        intro p2 k2 c2 sc2 st2 hst2
        exact ih _ _ _ _ _ hst2
      | some t =>
        simp only [visitNode1]
        refine goList_refs _ _ ?_ _ _ _ _
          (addBinding_refs _ _ _ _ (newChildScope_refs _ _ _ _ (addBinding_refs _ _ _ _ hst)))
        intro p2 k2 c2 sc2 st2 hst2
        exact ih _ _ _ _ _ hst2
    | functionDeclaration fname ps body =>
      cases fname with
      | none =>
        cases body with
        | none =>
          simp only [visitNode1]
          refine goList_refs _ _ ?_ _ _ _ _ (newChildScope_refs _ _ _ _ hst)
          intro p2 k2 c2 sc2 st2 hst2
          cases c2 <;>
            first
              | exact ih _ _ _ _ _ hst2
              | exact bindName_refs f _ _ _ _ _ _ (ih _ _ _ _ _ hst2)
        | some b =>
          cases hb : b.isBlockNode with
          | true =>
            simp only [visitNode1, hb, reduceIte]
            refine goList_refs _ _ ?_ _ _ _ _ ?_
            ·
              intro p2 k2 c2 sc2 st2 hst2
              exact ih _ _ _ _ _ hst2
            · refine goList_refs _ _ ?_ _ _ _ _ (newChildScope_refs _ _ _ _ hst)
              intro p2 k2 c2 sc2 st2 hst2
              cases c2 <;>
                first
                  | exact ih _ _ _ _ _ hst2
                  | exact bindName_refs f _ _ _ _ _ _ (ih _ _ _ _ _ hst2)
          | false =>
            simp only [visitNode1, hb, Bool.false_eq_true, reduceIte]
            refine ih _ _ _ _ _
              (goList_refs _ _ ?_ _ _ _ _ (newChildScope_refs _ _ _ _ hst))
            intro p2 k2 c2 sc2 st2 hst2
            cases c2 <;>
              first
                | exact ih _ _ _ _ _ hst2
                | exact bindName_refs f _ _ _ _ _ _ (ih _ _ _ _ _ hst2)
      | some t =>
        cases body with
        | none =>
          simp only [visitNode1]
          refine goList_refs _ _ ?_ _ _ _ _
            (newChildScope_refs _ _ _ _ (addBinding_refs _ _ _ _ hst))
          intro p2 k2 c2 sc2 st2 hst2
          cases c2 <;>
            first
              | exact ih _ _ _ _ _ hst2
              | exact bindName_refs f _ _ _ _ _ _ (ih _ _ _ _ _ hst2)
        | some b =>
          cases hb : b.isBlockNode with
          | true =>
            simp only [visitNode1, hb, reduceIte]
            refine goList_refs _ _ ?_ _ _ _ _ ?_
            ·
              intro p2 k2 c2 sc2 st2 hst2
              exact ih _ _ _ _ _ hst2
            · refine goList_refs _ _ ?_ _ _ _ _
                (newChildScope_refs _ _ _ _ (addBinding_refs _ _ _ _ hst))
              intro p2 k2 c2 sc2 st2 hst2
              cases c2 <;>
                first
                  | exact ih _ _ _ _ _ hst2
                  | exact bindName_refs f _ _ _ _ _ _ (ih _ _ _ _ _ hst2)
          | false =>
            simp only [visitNode1, hb, Bool.false_eq_true, reduceIte]
            refine ih _ _ _ _ _
              (goList_refs _ _ ?_ _ _ _ _
                (newChildScope_refs _ _ _ _ (addBinding_refs _ _ _ _ hst)))
            intro p2 k2 c2 sc2 st2 hst2
            cases c2 <;>
              first
                | exact ih _ _ _ _ _ hst2
                | exact bindName_refs f _ _ _ _ _ _ (ih _ _ _ _ _ hst2)
    | functionExpression fname ps body =>
      cases fname with
      | none =>
        cases body with
        | none =>
          simp only [visitNode1]
          refine goList_refs _ _ ?_ _ _ _ _ (newChildScope_refs _ _ _ _ hst)
          intro p2 k2 c2 sc2 st2 hst2
          cases c2 <;>
            first
              | exact ih _ _ _ _ _ hst2
              | exact bindName_refs f _ _ _ _ _ _ (ih _ _ _ _ _ hst2)
        | some b =>
          cases hb : b.isBlockNode with
          | true =>
            simp only [visitNode1, hb, reduceIte]
            refine goList_refs _ _ ?_ _ _ _ _ ?_
            ·
              intro p2 k2 c2 sc2 st2 hst2
              exact ih _ _ _ _ _ hst2
            · refine goList_refs _ _ ?_ _ _ _ _ (newChildScope_refs _ _ _ _ hst)
              intro p2 k2 c2 sc2 st2 hst2
              cases c2 <;>
                first
                  | exact ih _ _ _ _ _ hst2
                  | exact bindName_refs f _ _ _ _ _ _ (ih _ _ _ _ _ hst2)
          | false =>
            simp only [visitNode1, hb, Bool.false_eq_true, reduceIte]
            refine ih _ _ _ _ _
              (goList_refs _ _ ?_ _ _ _ _ (newChildScope_refs _ _ _ _ hst))
            intro p2 k2 c2 sc2 st2 hst2
            cases c2 <;>
              first
                | exact ih _ _ _ _ _ hst2
                | exact bindName_refs f _ _ _ _ _ _ (ih _ _ _ _ _ hst2)
      | some t =>
        cases body with
        | none =>
          simp only [visitNode1]
          refine goList_refs _ _ ?_ _ _ _ _
            (newChildScope_refs _ _ _ _ (addBinding_refs _ _ _ _ hst))
          intro p2 k2 c2 sc2 st2 hst2
          cases c2 <;>
            first
              | exact ih _ _ _ _ _ hst2
              | exact bindName_refs f _ _ _ _ _ _ (ih _ _ _ _ _ hst2)
        | some b =>
          cases hb : b.isBlockNode with
          | true =>
            simp only [visitNode1, hb, reduceIte]
            refine goList_refs _ _ ?_ _ _ _ _ ?_
            ·
              intro p2 k2 c2 sc2 st2 hst2
              exact ih _ _ _ _ _ hst2
            · refine goList_refs _ _ ?_ _ _ _ _
                (newChildScope_refs _ _ _ _ (addBinding_refs _ _ _ _ hst))
              intro p2 k2 c2 sc2 st2 hst2
              cases c2 <;>
                first
                  | exact ih _ _ _ _ _ hst2
                  | exact bindName_refs f _ _ _ _ _ _ (ih _ _ _ _ _ hst2)
          | false =>
            simp only [visitNode1, hb, Bool.false_eq_true, reduceIte]
            refine ih _ _ _ _ _
              (goList_refs _ _ ?_ _ _ _ _
                (newChildScope_refs _ _ _ _ (addBinding_refs _ _ _ _ hst)))
            intro p2 k2 c2 sc2 st2 hst2
            cases c2 <;>
              first
                | exact ih _ _ _ _ _ hst2
                | exact bindName_refs f _ _ _ _ _ _ (ih _ _ _ _ _ hst2)
    | arrowFunction ps body =>
      cases hb : body.isBlockNode with
      | true =>
        simp only [visitNode1, hb, reduceIte]
        refine goList_refs _ _ ?_ _ _ _ _ ?_
        ·
          intro p2 k2 c2 sc2 st2 hst2
          exact ih _ _ _ _ _ hst2
        · refine goList_refs _ _ ?_ _ _ _ _ (newChildScope_refs _ _ _ _ hst)
          intro p2 k2 c2 sc2 st2 hst2
          cases c2 <;>
            first
              | exact ih _ _ _ _ _ hst2
              | exact bindName_refs f _ _ _ _ _ _ (ih _ _ _ _ _ hst2)
      | false =>
        simp only [visitNode1, hb, Bool.false_eq_true, reduceIte]
        refine ih _ _ _ _ _
          (goList_refs _ _ ?_ _ _ _ _ (newChildScope_refs _ _ _ _ hst))
        intro p2 k2 c2 sc2 st2 hst2
        cases c2 <;>
          first
            | exact ih _ _ _ _ _ hst2
            | exact bindName_refs f _ _ _ _ _ _ (ih _ _ _ _ _ hst2)
    | forOfStatement lini le lstmt =>
      cases hb : lstmt.isBlockNode with
      | true =>
        simp only [visitNode1, hb, reduceIte]
        refine goList_refs _ _ ?_ _ _ _ _
          (ih _ _ _ _ _ (ih _ _ _ _ _ (newChildScope_refs _ _ _ _ hst)))
        intro p2 k2 c2 sc2 st2 hst2
        exact ih _ _ _ _ _ hst2
      | false =>
        simp only [visitNode1, hb, Bool.false_eq_true, reduceIte]
        exact ih _ _ _ _ _ (ih _ _ _ _ _ (ih _ _ _ _ _ (newChildScope_refs _ _ _ _ hst)))
    | forInStatement lini le lstmt =>
      cases hb : lstmt.isBlockNode with
      | true =>
        simp only [visitNode1, hb, reduceIte]
        refine goList_refs _ _ ?_ _ _ _ _
          (ih _ _ _ _ _ (ih _ _ _ _ _ (newChildScope_refs _ _ _ _ hst)))
        intro p2 k2 c2 sc2 st2 hst2
        exact ih _ _ _ _ _ hst2
      | false =>
        simp only [visitNode1, hb, Bool.false_eq_true, reduceIte]
        exact ih _ _ _ _ _ (ih _ _ _ _ _ (ih _ _ _ _ _ (newChildScope_refs _ _ _ _ hst)))

/-- **C10, counterexample.** The claim says no scope's reference list ever
contains a reference with empty identifier text.  For the program `"" = y;`
(an assignment whose left side is an empty-text identifier) the
assignment-left branch of the resolver records such a reference in the root
scope, because that branch, unlike the plain-identifier branch, performs no
empty-text check. -/
theorem empty_text_reference_recorded :
    (buildContainer progEmptyAssign).scopes.any
      (fun sd => sd.references.any (fun r => r.identifier == "")) = true := by
  decide

/-- **C10, amended.** Empty-text references can be recorded, but only by the
assignment-left branch: after construction, every reference with empty
identifier text in any scope's reference list is a write (its
write-expression is present and its is-initializer flag is false).
Empty-text identifier nodes reached as plain value reads are skipped. -/
theorem empty_text_refs_only_assignment_writes (root : Node) (j : Nat) (sd : Scope)
    (r : ScopeReference) (hj : (buildContainer root).scopes[j]? = some sd)
    (hr : r ∈ sd.references) (hid : r.identifier = "") :
    r.writeExpr.isSome = true ∧ r.isInitializer = false := by
  have hbase : ∀ (j2 : Nat) (sd2 : Scope),
      ([{ scopeKind := ScopeKind.functionScope, bindings := [], parentScope := none,
          declaratingNode := [], references := [] }] : List Scope)[j2]? = some sd2 →
      sd2.references = [] := by
    intro j2 sd2 h2
    cases j2 with
    | zero =>
      obtain rfl := (Option.some.inj h2).symm
      rfl
    | succ j3 => simp at h2
  have hb := visitNode2_scopes_eq (nsize root) (findScopes root).scopesMap [] root false
    none { scopes := (findScopes root).scopes, err := false }
  have hj2 : (applyEvents (findScopes root).scopesMap
      (collectRefs (nsize root) [] root false none) (findScopes root).scopes)[j]?
      = some sd := by
    have hc : (buildContainer root).scopes
        = (visitNode2 (nsize root) (findScopes root).scopesMap [] root false none
            { scopes := (findScopes root).scopes, err := false }).scopes := rfl
    rw [hc, hb] at hj
    exact hj
  rcases applyEvents_refs_cases _ _ _ _ _ _ hj2 hr with ⟨sd0, h0, hr0⟩ | ⟨ev, hev, hf⟩
  · have h1 := visitNode1_refs_empty (nsize root) none [] root 0
      { scopes := [{ scopeKind := ScopeKind.functionScope, bindings := [],
                     parentScope := none, declaratingNode := [], references := [] }],
        scopesMap := [], err := false } hbase j sd0 h0
    rw [h1] at hr0
    simp at hr0
  · have h2 := collectRefs_empty_text (nsize root) [] root false none ev hev
      (by rw [← hf.1]; exact hid)
    refine ⟨?_, ?_⟩
    · rw [hf.2.2.1]
      exact h2.1
    · rw [hf.2.2.2]
      exact h2.2

/-- Witness for `empty_text_refs_only_assignment_writes`: in `"" = y;` the
recorded empty-text reference carries the right-hand side as write-expression
and is not an initializer. -/
theorem empty_text_refs_only_assignment_writes_witness :
    (buildContainer progEmptyAssign).scopes[0]? = some w10scope ∧
      w10ref ∈ w10scope.references ∧ w10ref.identifier = "" ∧
      w10ref.writeExpr.isSome = true ∧ w10ref.isInitializer = false :=
  ⟨by decide, by decide, by decide,
    empty_text_refs_only_assignment_writes progEmptyAssign 0 w10scope w10ref (by decide)
      (by decide) (by decide)⟩

theorem mem_goCollect_idx {vc : NodePath → Nat → Node → Bool → List RefEvent}
    {p : NodePath} {ev : RefEvent} :
    ∀ {cs : List Node} {k : Nat} {col : Bool}, ev ∈ goCollect vc p k cs col →
      ∃ j c, cs[j]? = some c ∧ ev ∈ vc p (k + j) c col := by
  intro cs
  induction cs with
  | nil =>
    intro k col h
    simp [goCollect] at h
  | cons c cs ihc =>
    intro k col h
    simp only [goCollect, List.mem_append] at h
    cases h with
    | inl h => exact ⟨0, c, by simp, h⟩
    | inr h =>
      obtain ⟨j, c2, hj, hev⟩ := ihc h
      refine ⟨j + 1, c2, by simpa using hj, ?_⟩
      have he : k + (j + 1) = (k + 1) + j := by omega
      rw [he]
      exact hev

theorem nodeAt_cons_decomp_eq {n : Node} {k : Nat} {q : NodePath} {t : Node}
    (h : nodeAt n (k :: q) = some t) :
    ∃ c, (children n)[k]? = some c ∧ nodeAt c q = some t := by
  rw [nodeAt] at h
  cases hc : (children n)[k]? with
  | none =>
    rw [hc] at h
    exact absurd h (by simp)
  | some c =>
    rw [hc] at h
    exact ⟨c, rfl, h⟩

theorem collectRefs_path :
    ∀ (fuel : Nat) (p : NodePath) (n : Node) (collect : Bool) (ini : Option NodePath)
      (ev : RefEvent), ev ∈ collectRefs fuel p n collect ini →
      ∃ r, ev.identifierPath = p ++ r := by
  intro fuel
  induction fuel with
  | zero =>
    intro p n collect ini ev h
    simp [collectRefs] at h
  | succ f ih =>
    intro p n collect ini ev hev
    cases n with
    | identifier t =>
      simp only [collectRefs] at hev
      cases hg : collect && (t != "") with
      | false =>
        rw [hg] at hev
        simp at hev
      | true =>
        rw [hg] at hev
        cases ini with
        | none =>
          simp only [reduceIte, List.mem_singleton] at hev
          subst hev
          exact ⟨[], by simp⟩
        | some ip =>
          simp only [reduceIte, List.mem_singleton] at hev
          subst hev
          exact ⟨[], by simp⟩
    | variableDeclaration vnm vini =>
      cases vini with
      | none =>
        simp only [collectRefs, List.nil_append] at hev
        obtain ⟨r, hr⟩ := ih _ _ _ _ _ hev
        exact ⟨0 :: r, by rw [hr]; simp⟩
      | some e =>
        simp only [collectRefs, List.mem_append] at hev
        cases hev with
        | inl h =>
          obtain ⟨r, hr⟩ := ih _ _ _ _ _ h
          exact ⟨1 :: r, by rw [hr]; simp⟩
        | inr h =>
          obtain ⟨r, hr⟩ := ih _ _ _ _ _ h
          exact ⟨0 :: r, by rw [hr]; simp⟩
    | expressionStatement e =>
      simp only [collectRefs] at hev
      obtain ⟨r, hr⟩ := ih _ _ _ _ _ hev
      exact ⟨0 :: r, by rw [hr]; simp⟩
    | computedPropertyName e =>
      simp only [collectRefs] at hev
      obtain ⟨r, hr⟩ := ih _ _ _ _ _ hev
      exact ⟨0 :: r, by rw [hr]; simp⟩
    | binaryExpression l op r =>
      cases hop : op == BinaryOperator.equalsToken with
      | true =>
        simp only [collectRefs, hop, reduceIte, List.mem_append] at hev
        cases hev with
        | inl h =>
          cases l <;>
            first
              | (simp only [List.mem_singleton] at h; subst h; exact ⟨[0], by simp⟩)
              | (obtain ⟨r2, hr⟩ := ih _ _ _ _ _ h; exact ⟨0 :: r2, by rw [hr]; simp⟩)
        | inr h =>
          obtain ⟨r2, hr⟩ := ih _ _ _ _ _ h
          exact ⟨1 :: r2, by rw [hr]; simp⟩
      | false =>
        simp only [collectRefs, hop, Bool.false_eq_true, reduceIte] at hev
        obtain ⟨kk, c2, hc2, h⟩ := mem_goCollect hev
        obtain ⟨r2, hr⟩ := ih _ _ _ _ _ h
        exact ⟨kk :: r2, by rw [hr]; simp⟩
    | arrowFunction ps body =>
      simp only [collectRefs, List.mem_append] at hev
      cases hev with
      | inl h =>
        obtain ⟨kk, c2, hc2, h2⟩ := mem_goCollect h
        obtain ⟨r, hr⟩ := ih _ _ _ _ _ h2
        exact ⟨kk :: r, by rw [hr]; simp⟩
      | inr h =>
        obtain ⟨r, hr⟩ := ih _ _ _ _ _ h
        exact ⟨ps.length :: r, by rw [hr]; simp⟩
    | parameter pnm pini =>
      cases pini with
      | none =>
        simp only [collectRefs, List.append_nil] at hev
        obtain ⟨r, hr⟩ := ih _ _ _ _ _ hev
        exact ⟨0 :: r, by rw [hr]; simp⟩
      | some e =>
        simp only [collectRefs, List.mem_append] at hev
        cases hev with
        | inl h =>
          obtain ⟨r, hr⟩ := ih _ _ _ _ _ h
          exact ⟨0 :: r, by rw [hr]; simp⟩
        | inr h =>
          obtain ⟨r, hr⟩ := ih _ _ _ _ _ h
          exact ⟨1 :: r, by rw [hr]; simp⟩
    | forOfStatement lini le lstmt =>
      simp only [collectRefs, List.mem_append] at hev
      rcases hev with (h | h) | h
      · obtain ⟨r, hr⟩ := ih _ _ _ _ _ h
        exact ⟨1 :: r, by rw [hr]; simp⟩
      · obtain ⟨r, hr⟩ := ih _ _ _ _ _ h
        exact ⟨0 :: r, by rw [hr]; simp⟩
      · obtain ⟨r, hr⟩ := ih _ _ _ _ _ h
        exact ⟨2 :: r, by rw [hr]; simp⟩
    | forInStatement lini le lstmt =>
      simp only [collectRefs, List.mem_append] at hev
      rcases hev with (h | h) | h
      · obtain ⟨r, hr⟩ := ih _ _ _ _ _ h
        exact ⟨1 :: r, by rw [hr]; simp⟩
      · obtain ⟨r, hr⟩ := ih _ _ _ _ _ h
        exact ⟨0 :: r, by rw [hr]; simp⟩
      · obtain ⟨r, hr⟩ := ih _ _ _ _ _ h
        exact ⟨2 :: r, by rw [hr]; simp⟩
    | sourceFile sts =>
      simp only [collectRefs] at hev
      obtain ⟨kk, c2, hc2, h⟩ := mem_goCollect hev
      obtain ⟨r, hr⟩ := ih _ _ _ _ _ h
      exact ⟨kk :: r, by rw [hr]; simp⟩
    | block sts =>
      simp only [collectRefs] at hev
      obtain ⟨kk, c2, hc2, h⟩ := mem_goCollect hev
      obtain ⟨r, hr⟩ := ih _ _ _ _ _ h
      exact ⟨kk :: r, by rw [hr]; simp⟩
    | variableDeclarationList fl ds =>
      simp only [collectRefs] at hev
      obtain ⟨kk, c2, hc2, h⟩ := mem_goCollect hev
      obtain ⟨r, hr⟩ := ih _ _ _ _ _ h
      exact ⟨kk :: r, by rw [hr]; simp⟩
    | objectBindingPattern els =>
      simp only [collectRefs] at hev
      obtain ⟨kk, c2, hc2, h⟩ := mem_goCollect hev
      obtain ⟨r, hr⟩ := ih _ _ _ _ _ h
      exact ⟨kk :: r, by rw [hr]; simp⟩
    | arrayBindingPattern els =>
      simp only [collectRefs] at hev
      obtain ⟨kk, c2, hc2, h⟩ := mem_goCollect hev
      obtain ⟨r, hr⟩ := ih _ _ _ _ _ h
      exact ⟨kk :: r, by rw [hr]; simp⟩
    | bindingElement prop bnm bini =>
      simp only [collectRefs] at hev
      obtain ⟨kk, c2, hc2, h⟩ := mem_goCollect hev
      obtain ⟨r, hr⟩ := ih _ _ _ _ _ h
      exact ⟨kk :: r, by rw [hr]; simp⟩
    | classDeclaration cname ms =>
      simp only [collectRefs] at hev
      obtain ⟨kk, c2, hc2, h⟩ := mem_goCollect hev
      obtain ⟨r, hr⟩ := ih _ _ _ _ _ h
      exact ⟨kk :: r, by rw [hr]; simp⟩
    | otherNode cs =>
      simp only [collectRefs] at hev
      obtain ⟨kk, c2, hc2, h⟩ := mem_goCollect hev
      obtain ⟨r, hr⟩ := ih _ _ _ _ _ h
      exact ⟨kk :: r, by rw [hr]; simp⟩
    | functionDeclaration fname ps body =>
      simp only [collectRefs] at hev
      obtain ⟨kk, c2, hc2, h⟩ := mem_goCollect hev
      obtain ⟨r, hr⟩ := ih _ _ _ _ _ h
      exact ⟨kk :: r, by rw [hr]; simp⟩
    | functionExpression fname ps body =>
      simp only [collectRefs] at hev
      obtain ⟨kk, c2, hc2, h⟩ := mem_goCollect hev
      obtain ⟨r, hr⟩ := ih _ _ _ _ _ h
      exact ⟨kk :: r, by rw [hr]; simp⟩

theorem ne_path_of_other_child {fuel : Nat} {p : NodePath} {c : Node} {col : Bool}
    {ini : Option NodePath} {ev : RefEvent} {kk k : Nat} {rest : NodePath}
    (hev : ev ∈ collectRefs fuel (p ++ [kk]) c col ini) (hne : kk ≠ k) :
    ev.identifierPath ≠ p ++ k :: rest := by
  obtain ⟨r, hr⟩ := collectRefs_path fuel (p ++ [kk]) c col ini ev hev
  rw [hr]
  intro he
  rw [List.append_assoc] at he
  have h2 := List.append_cancel_left he
  simp only [List.singleton_append, List.cons.injEq] at h2
  exact hne h2.1

theorem collectRefs_pattern_no_target :
    ∀ (fuel : Nat) (p : NodePath) (bn : Node) (q2 : NodePath),
      isTarget bn q2 = true →
      ∀ ev ∈ collectRefs fuel p bn false none, ev.identifierPath ≠ p ++ q2 := by
  intro fuel
  induction fuel with
  | zero =>
    intro p bn q2 htgt ev hev
    simp [collectRefs] at hev
  | succ f ih =>
    intro p bn q2 htgt ev hev
    cases bn with
    | identifier t =>
      simp [collectRefs] at hev
    | objectBindingPattern els =>
      cases q2 with
      | nil => simp [isTarget] at htgt
      | cons k rest =>
        simp only [isTarget] at htgt
        cases hel : els[k]? with
        | none =>
          rw [hel] at htgt
          simp at htgt
        | some el =>
          rw [hel] at htgt
          simp only [collectRefs] at hev
          obtain ⟨kj, c2, hc2, hev2⟩ := mem_goCollect_idx hev
          simp only [Nat.zero_add] at hev2
          by_cases hkj : kj = k
          · rw [hkj] at hc2 hev2
            have hc3 : els[k]? = some c2 := hc2
            rw [hel] at hc3
            obtain rfl := Option.some.inj hc3
            intro he
            have he2 : ev.identifierPath = (p ++ [k]) ++ rest :=
              he.trans (by simp [List.append_assoc])
            exact ih (p ++ [k]) el rest htgt ev hev2 he2
          · intro he
            have he2 : ev.identifierPath = p ++ k :: rest :=
              he.trans (by simp [List.append_assoc])
            exact ne_path_of_other_child hev2 hkj he2
    | arrayBindingPattern els =>
      cases q2 with
      | nil => simp [isTarget] at htgt
      | cons k rest =>
        simp only [isTarget] at htgt
        cases hel : els[k]? with
        | none =>
          rw [hel] at htgt
          simp at htgt
        | some el =>
          rw [hel] at htgt
          simp only [collectRefs] at hev
          obtain ⟨kj, c2, hc2, hev2⟩ := mem_goCollect_idx hev
          simp only [Nat.zero_add] at hev2
          by_cases hkj : kj = k
          · rw [hkj] at hc2 hev2
            have hc3 : els[k]? = some c2 := hc2
            rw [hel] at hc3
            obtain rfl := Option.some.inj hc3
            intro he
            have he2 : ev.identifierPath = (p ++ [k]) ++ rest :=
              he.trans (by simp [List.append_assoc])
            exact ih (p ++ [k]) el rest htgt ev hev2 he2
          · intro he
            have he2 : ev.identifierPath = p ++ k :: rest :=
              he.trans (by simp [List.append_assoc])
            exact ne_path_of_other_child hev2 hkj he2
    | bindingElement prop nm bini =>
      cases q2 with
      | nil => simp [isTarget] at htgt
      | cons j rest =>
        simp only [isTarget, Bool.and_eq_true] at htgt
        obtain ⟨hj, htgt2⟩ := htgt
        have hj2 : j = (if prop.isSome then 1 else 0) := eq_of_beq hj
        simp only [collectRefs] at hev
        obtain ⟨kj, c2, hc2, hev2⟩ := mem_goCollect_idx hev
        simp only [Nat.zero_add] at hev2
        cases prop with
        | none =>
          by_cases hkj : kj = 0
          · rw [hkj] at hc2 hev2
            have hc3 : nm = c2 := by
              simp only [children] at hc2
              simpa using hc2
            obtain rfl := hc3
            rw [hj2]
            intro he
            have he2 : ev.identifierPath = (p ++ [0]) ++ rest :=
              he.trans (by simp [List.append_assoc])
            exact ih (p ++ [0]) nm rest htgt2 ev hev2 he2
          · rw [hj2]
            intro he
            have he2 : ev.identifierPath = p ++ 0 :: rest :=
              he.trans (by simp [List.append_assoc])
            exact ne_path_of_other_child hev2 hkj he2
        | some pe =>
          by_cases hkj : kj = 1
          · rw [hkj] at hc2 hev2
            have hc3 : nm = c2 := by
              simp only [children] at hc2
              simpa using hc2
            obtain rfl := hc3
            rw [hj2]
            intro he
            have he2 : ev.identifierPath = (p ++ [1]) ++ rest :=
              he.trans (by simp [List.append_assoc])
            exact ih (p ++ [1]) nm rest htgt2 ev hev2 he2
          · rw [hj2]
            intro he
            have he2 : ev.identifierPath = p ++ 1 :: rest :=
              he.trans (by simp [List.append_assoc])
            exact ne_path_of_other_child hev2 hkj he2
    | sourceFile sts => simp [isTarget] at htgt
    | block sts => simp [isTarget] at htgt
    | variableDeclarationList fl ds => simp [isTarget] at htgt
    | variableDeclaration vnm vini => simp [isTarget] at htgt
    | parameter pnm2 pini2 => simp [isTarget] at htgt
    | functionDeclaration fname ps body => simp [isTarget] at htgt
    | functionExpression fname ps body => simp [isTarget] at htgt
    | arrowFunction ps body => simp [isTarget] at htgt
    | classDeclaration cname ms => simp [isTarget] at htgt
    | expressionStatement e => simp [isTarget] at htgt
    | binaryExpression l op r => simp [isTarget] at htgt
    | computedPropertyName e => simp [isTarget] at htgt
    | forOfStatement lini le lstmt => simp [isTarget] at htgt
    | forInStatement lini le lstmt => simp [isTarget] at htgt
    | otherNode cs => simp [isTarget] at htgt

theorem collectRefs_no_param_target :
    ∀ (fuel : Nat) (p : NodePath) (n : Node) (collect : Bool) (ini : Option NodePath)
      (q1 : NodePath) (pnm : Node) (pini : Option Node) (q2 : NodePath),
      nodeAt n q1 = some (.parameter pnm pini) → isTarget pnm q2 = true →
      ∀ ev ∈ collectRefs fuel p n collect ini,
        ev.identifierPath ≠ p ++ q1 ++ 0 :: q2 := by
  intro fuel
  induction fuel with
  | zero =>
    intro p n collect ini q1 pnm pini q2 hq1 htgt ev hev
    simp [collectRefs] at hev
  | succ f ih =>
    intro p n collect ini q1 pnm pini q2 hq1 htgt ev hev
    cases q1 with
    | nil =>
      obtain rfl := Option.some.inj hq1
      simp only [collectRefs, List.mem_append] at hev
      cases hev with
      | inl h =>
        intro he
        have he2 : ev.identifierPath = (p ++ [0]) ++ q2 :=
          he.trans (by simp [List.append_assoc])
        exact collectRefs_pattern_no_target f (p ++ [0]) pnm q2 htgt ev h he2
      | inr h =>
        cases pini with
        | none => simp at h
        | some e =>
          intro he
          have he2 : ev.identifierPath = p ++ 0 :: q2 :=
            he.trans (by simp [List.append_assoc])
          exact ne_path_of_other_child h (by decide) he2
    | cons k q1 =>
      obtain ⟨c, hck, hcq⟩ := nodeAt_cons_decomp_eq hq1
      cases n with
      | identifier t =>
        simp [children] at hck
      | variableDeclaration vnm vini =>
        cases vini with
        | none =>
          simp only [collectRefs, List.nil_append] at hev
          by_cases hki : k = 0
          · rw [hki] at hck
            rw [hki]
            obtain rfl := Option.some.inj hck
            intro he
            have he2 : ev.identifierPath = (p ++ [0]) ++ q1 ++ 0 :: q2 :=
              he.trans (by simp [List.append_assoc])
            exact ih (p ++ [0]) _ _ _ q1 pnm pini q2 hcq htgt ev hev he2
          · intro he
            have he2 : ev.identifierPath = p ++ k :: (q1 ++ 0 :: q2) :=
              he.trans (by simp [List.append_assoc])
            exact ne_path_of_other_child hev (fun hx => hki hx.symm) he2
        | some e =>
          simp only [collectRefs, List.mem_append] at hev
          cases hev with
          | inl h =>
            by_cases hki : k = 1
            · rw [hki] at hck
              rw [hki]
              obtain rfl := Option.some.inj hck
              intro he
              have he2 : ev.identifierPath = (p ++ [1]) ++ q1 ++ 0 :: q2 :=
                he.trans (by simp [List.append_assoc])
              exact ih (p ++ [1]) _ _ _ q1 pnm pini q2 hcq htgt ev h he2
            · intro he
              have he2 : ev.identifierPath = p ++ k :: (q1 ++ 0 :: q2) :=
                he.trans (by simp [List.append_assoc])
              exact ne_path_of_other_child h (fun hx => hki hx.symm) he2
          | inr h =>
            by_cases hki : k = 0
            · rw [hki] at hck
              rw [hki]
              obtain rfl := Option.some.inj hck
              intro he
              have he2 : ev.identifierPath = (p ++ [0]) ++ q1 ++ 0 :: q2 :=
                he.trans (by simp [List.append_assoc])
              exact ih (p ++ [0]) _ _ _ q1 pnm pini q2 hcq htgt ev h he2
            · intro he
              have he2 : ev.identifierPath = p ++ k :: (q1 ++ 0 :: q2) :=
                he.trans (by simp [List.append_assoc])
              exact ne_path_of_other_child h (fun hx => hki hx.symm) he2
      | expressionStatement e =>
        simp only [collectRefs] at hev
        by_cases hki : k = 0
        · rw [hki] at hck
          rw [hki]
          obtain rfl := Option.some.inj hck
          intro he
          have he2 : ev.identifierPath = (p ++ [0]) ++ q1 ++ 0 :: q2 :=
            he.trans (by simp [List.append_assoc])
          exact ih (p ++ [0]) _ _ _ q1 pnm pini q2 hcq htgt ev hev he2
        · intro he
          have he2 : ev.identifierPath = p ++ k :: (q1 ++ 0 :: q2) :=
            he.trans (by simp [List.append_assoc])
          exact ne_path_of_other_child hev (fun hx => hki hx.symm) he2
      | computedPropertyName e =>
        simp only [collectRefs] at hev
        by_cases hki : k = 0
        · rw [hki] at hck
          rw [hki]
          obtain rfl := Option.some.inj hck
          intro he
          have he2 : ev.identifierPath = (p ++ [0]) ++ q1 ++ 0 :: q2 :=
            he.trans (by simp [List.append_assoc])
          exact ih (p ++ [0]) _ _ _ q1 pnm pini q2 hcq htgt ev hev he2
        · intro he
          have he2 : ev.identifierPath = p ++ k :: (q1 ++ 0 :: q2) :=
            he.trans (by simp [List.append_assoc])
          exact ne_path_of_other_child hev (fun hx => hki hx.symm) he2
      | parameter pnm2 pini2 =>
        cases pini2 with
        | none =>
          simp only [collectRefs, List.append_nil] at hev
          by_cases hki : k = 0
          · rw [hki] at hck
            rw [hki]
            obtain rfl := Option.some.inj hck
            intro he
            have he2 : ev.identifierPath = (p ++ [0]) ++ q1 ++ 0 :: q2 :=
              he.trans (by simp [List.append_assoc])
            exact ih (p ++ [0]) _ _ _ q1 pnm pini q2 hcq htgt ev hev he2
          · intro he
            have he2 : ev.identifierPath = p ++ k :: (q1 ++ 0 :: q2) :=
              he.trans (by simp [List.append_assoc])
            exact ne_path_of_other_child hev (fun hx => hki hx.symm) he2
        | some e =>
          simp only [collectRefs, List.mem_append] at hev
          cases hev with
          | inl h =>
            by_cases hki : k = 0
            · rw [hki] at hck
              rw [hki]
              obtain rfl := Option.some.inj hck
              intro he
              have he2 : ev.identifierPath = (p ++ [0]) ++ q1 ++ 0 :: q2 :=
                he.trans (by simp [List.append_assoc])
              exact ih (p ++ [0]) _ _ _ q1 pnm pini q2 hcq htgt ev h he2
            · intro he
              have he2 : ev.identifierPath = p ++ k :: (q1 ++ 0 :: q2) :=
                he.trans (by simp [List.append_assoc])
              exact ne_path_of_other_child h (fun hx => hki hx.symm) he2
          | inr h =>
            by_cases hki : k = 1
            · rw [hki] at hck
              rw [hki]
              obtain rfl := Option.some.inj hck
              intro he
              have he2 : ev.identifierPath = (p ++ [1]) ++ q1 ++ 0 :: q2 :=
                he.trans (by simp [List.append_assoc])
              exact ih (p ++ [1]) _ _ _ q1 pnm pini q2 hcq htgt ev h he2
            · intro he
              have he2 : ev.identifierPath = p ++ k :: (q1 ++ 0 :: q2) :=
                he.trans (by simp [List.append_assoc])
              exact ne_path_of_other_child h (fun hx => hki hx.symm) he2
      | forOfStatement lini le lstmt =>
        simp only [collectRefs, List.mem_append] at hev
        rcases hev with (h | h) | h
        ·
          by_cases hki : k = 1
          · rw [hki] at hck
            rw [hki]
            obtain rfl := Option.some.inj hck
            intro he
            have he2 : ev.identifierPath = (p ++ [1]) ++ q1 ++ 0 :: q2 :=
              he.trans (by simp [List.append_assoc])
            exact ih (p ++ [1]) _ _ _ q1 pnm pini q2 hcq htgt ev h he2
          · intro he
            have he2 : ev.identifierPath = p ++ k :: (q1 ++ 0 :: q2) :=
              he.trans (by simp [List.append_assoc])
            exact ne_path_of_other_child h (fun hx => hki hx.symm) he2
        ·
          by_cases hki : k = 0
          · rw [hki] at hck
            rw [hki]
            obtain rfl := Option.some.inj hck
            intro he
            have he2 : ev.identifierPath = (p ++ [0]) ++ q1 ++ 0 :: q2 :=
              he.trans (by simp [List.append_assoc])
            exact ih (p ++ [0]) _ _ _ q1 pnm pini q2 hcq htgt ev h he2
          · intro he
            have he2 : ev.identifierPath = p ++ k :: (q1 ++ 0 :: q2) :=
              he.trans (by simp [List.append_assoc])
            exact ne_path_of_other_child h (fun hx => hki hx.symm) he2
        ·
          by_cases hki : k = 2
          · rw [hki] at hck
            rw [hki]
            obtain rfl := Option.some.inj hck
            intro he
            have he2 : ev.identifierPath = (p ++ [2]) ++ q1 ++ 0 :: q2 :=
              he.trans (by simp [List.append_assoc])
            exact ih (p ++ [2]) _ _ _ q1 pnm pini q2 hcq htgt ev h he2
          · intro he
            have he2 : ev.identifierPath = p ++ k :: (q1 ++ 0 :: q2) :=
              he.trans (by simp [List.append_assoc])
            exact ne_path_of_other_child h (fun hx => hki hx.symm) he2
      | forInStatement lini le lstmt =>
        simp only [collectRefs, List.mem_append] at hev
        rcases hev with (h | h) | h
        ·
          by_cases hki : k = 1
          · rw [hki] at hck
            rw [hki]
            obtain rfl := Option.some.inj hck
            intro he
            have he2 : ev.identifierPath = (p ++ [1]) ++ q1 ++ 0 :: q2 :=
              he.trans (by simp [List.append_assoc])
            exact ih (p ++ [1]) _ _ _ q1 pnm pini q2 hcq htgt ev h he2
          · intro he
            have he2 : ev.identifierPath = p ++ k :: (q1 ++ 0 :: q2) :=
              he.trans (by simp [List.append_assoc])
            exact ne_path_of_other_child h (fun hx => hki hx.symm) he2
        ·
          by_cases hki : k = 0
          · rw [hki] at hck
            rw [hki]
            obtain rfl := Option.some.inj hck
            intro he
            have he2 : ev.identifierPath = (p ++ [0]) ++ q1 ++ 0 :: q2 :=
              he.trans (by simp [List.append_assoc])
            exact ih (p ++ [0]) _ _ _ q1 pnm pini q2 hcq htgt ev h he2
          · intro he
            have he2 : ev.identifierPath = p ++ k :: (q1 ++ 0 :: q2) :=
              he.trans (by simp [List.append_assoc])
            exact ne_path_of_other_child h (fun hx => hki hx.symm) he2
        ·
          by_cases hki : k = 2
          · rw [hki] at hck
            rw [hki]
            obtain rfl := Option.some.inj hck
            intro he
            have he2 : ev.identifierPath = (p ++ [2]) ++ q1 ++ 0 :: q2 :=
              he.trans (by simp [List.append_assoc])
            exact ih (p ++ [2]) _ _ _ q1 pnm pini q2 hcq htgt ev h he2
          · intro he
            have he2 : ev.identifierPath = p ++ k :: (q1 ++ 0 :: q2) :=
              he.trans (by simp [List.append_assoc])
            exact ne_path_of_other_child h (fun hx => hki hx.symm) he2
      | binaryExpression l op r =>
        cases hop : op == BinaryOperator.equalsToken with
        | true =>
          simp only [collectRefs, hop, reduceIte, List.mem_append] at hev
          cases hev with
          | inl h =>
            cases l <;>
              first
                | (dsimp only at h
                   simp only [List.mem_singleton] at h
                   subst h
                   intro he
                   dsimp only at he
                   have he2 : p ++ [0] = p ++ k :: (q1 ++ 0 :: q2) :=
                     he.trans (by simp [List.append_assoc])
                   have h3 := List.append_cancel_left he2
                   simp at h3)
                | (dsimp only at h
                   by_cases hk0 : k = 0
                   · rw [hk0] at hck
                     rw [hk0]
                     obtain rfl := Option.some.inj hck
                     intro he
                     have he2 : ev.identifierPath = (p ++ [0]) ++ q1 ++ 0 :: q2 :=
                       he.trans (by simp [List.append_assoc])
                     exact ih (p ++ [0]) _ _ _ q1 pnm pini q2 hcq htgt ev h he2
                   · intro he
                     have he2 : ev.identifierPath = p ++ k :: (q1 ++ 0 :: q2) :=
                       he.trans (by simp [List.append_assoc])
                     exact ne_path_of_other_child h (fun hx => hk0 hx.symm) he2)
          | inr h =>
            by_cases hki : k = 1
            · rw [hki] at hck
              rw [hki]
              obtain rfl := Option.some.inj hck
              intro he
              have he2 : ev.identifierPath = (p ++ [1]) ++ q1 ++ 0 :: q2 :=
                he.trans (by simp [List.append_assoc])
              exact ih (p ++ [1]) _ _ _ q1 pnm pini q2 hcq htgt ev h he2
            · intro he
              have he2 : ev.identifierPath = p ++ k :: (q1 ++ 0 :: q2) :=
                he.trans (by simp [List.append_assoc])
              exact ne_path_of_other_child h (fun hx => hki hx.symm) he2
        | false =>

          simp only [collectRefs, hop, Bool.false_eq_true, reduceIte] at hev
          obtain ⟨kj, c2, hc2, hev2⟩ := mem_goCollect_idx hev
          simp only [Nat.zero_add] at hev2
          by_cases hkj : kj = k
          · rw [hkj] at hc2 hev2
            rw [hck] at hc2
            obtain rfl := Option.some.inj hc2
            intro he
            have he2 : ev.identifierPath = (p ++ [k]) ++ q1 ++ 0 :: q2 :=
              he.trans (by simp [List.append_assoc])
            exact ih (p ++ [k]) _ _ _ q1 pnm pini q2 hcq htgt ev hev2 he2
          · intro he
            have he2 : ev.identifierPath = p ++ k :: (q1 ++ 0 :: q2) :=
              he.trans (by simp [List.append_assoc])
            exact ne_path_of_other_child hev2 hkj he2
      | arrowFunction ps body =>
        simp only [collectRefs, List.mem_append] at hev
        cases hev with
        | inl h =>
          obtain ⟨kj, c2, hc2, hev2⟩ := mem_goCollect_idx h
          simp only [Nat.zero_add] at hev2
          by_cases hkj : kj = k
          · rw [hkj] at hc2 hev2
            have hlt := getElem?_some_lt hc2
            have hcc : (children (Node.arrowFunction ps body))[k]? = ps[k]? := by
              simp only [children]
              exact List.getElem?_append_left hlt
            rw [hcc, hc2] at hck
            obtain rfl := (Option.some.inj hck).symm
            intro he
            have he2 : ev.identifierPath = (p ++ [k]) ++ q1 ++ 0 :: q2 :=
              he.trans (by simp [List.append_assoc])
            exact ih (p ++ [k]) _ _ _ q1 pnm pini q2 hcq htgt ev hev2 he2
          · intro he
            have he2 : ev.identifierPath = p ++ k :: (q1 ++ 0 :: q2) :=
              he.trans (by simp [List.append_assoc])
            exact ne_path_of_other_child hev2 hkj he2
        | inr h =>
          by_cases hkb : k = ps.length
          · rw [hkb] at hck
            rw [hkb]
            simp only [children] at hck
            rw [List.getElem?_concat_length] at hck
            obtain rfl := Option.some.inj hck
            intro he
            have he2 : ev.identifierPath = (p ++ [ps.length]) ++ q1 ++ 0 :: q2 :=
              he.trans (by simp [List.append_assoc])
            exact ih (p ++ [ps.length]) _ _ _ q1 pnm pini q2 hcq htgt ev h he2
          · intro he
            have he2 : ev.identifierPath = p ++ k :: (q1 ++ 0 :: q2) :=
              he.trans (by simp [List.append_assoc])
            exact ne_path_of_other_child h (fun hx => hkb hx.symm) he2
      | sourceFile sts =>
        simp only [collectRefs] at hev
        obtain ⟨kj, c2, hc2, hev2⟩ := mem_goCollect_idx hev
        simp only [Nat.zero_add] at hev2
        by_cases hkj : kj = k
        · rw [hkj] at hc2 hev2
          rw [hck] at hc2
          obtain rfl := Option.some.inj hc2
          intro he
          have he2 : ev.identifierPath = (p ++ [k]) ++ q1 ++ 0 :: q2 :=
            he.trans (by simp [List.append_assoc])
          exact ih (p ++ [k]) _ _ _ q1 pnm pini q2 hcq htgt ev hev2 he2
        · intro he
          have he2 : ev.identifierPath = p ++ k :: (q1 ++ 0 :: q2) :=
            he.trans (by simp [List.append_assoc])
          exact ne_path_of_other_child hev2 hkj he2
      | block sts =>
        simp only [collectRefs] at hev
        obtain ⟨kj, c2, hc2, hev2⟩ := mem_goCollect_idx hev
        simp only [Nat.zero_add] at hev2
        by_cases hkj : kj = k
        · rw [hkj] at hc2 hev2
          rw [hck] at hc2
          obtain rfl := Option.some.inj hc2
          intro he
          have he2 : ev.identifierPath = (p ++ [k]) ++ q1 ++ 0 :: q2 :=
            he.trans (by simp [List.append_assoc])
          exact ih (p ++ [k]) _ _ _ q1 pnm pini q2 hcq htgt ev hev2 he2
        · intro he
          have he2 : ev.identifierPath = p ++ k :: (q1 ++ 0 :: q2) :=
            he.trans (by simp [List.append_assoc])
          exact ne_path_of_other_child hev2 hkj he2
      | variableDeclarationList fl ds =>
        simp only [collectRefs] at hev
        obtain ⟨kj, c2, hc2, hev2⟩ := mem_goCollect_idx hev
        simp only [Nat.zero_add] at hev2
        by_cases hkj : kj = k
        · rw [hkj] at hc2 hev2
          rw [hck] at hc2
          obtain rfl := Option.some.inj hc2
          intro he
          have he2 : ev.identifierPath = (p ++ [k]) ++ q1 ++ 0 :: q2 :=
            he.trans (by simp [List.append_assoc])
          exact ih (p ++ [k]) _ _ _ q1 pnm pini q2 hcq htgt ev hev2 he2
        · intro he
          have he2 : ev.identifierPath = p ++ k :: (q1 ++ 0 :: q2) :=
            he.trans (by simp [List.append_assoc])
          exact ne_path_of_other_child hev2 hkj he2
      | objectBindingPattern els =>
        simp only [collectRefs] at hev
        obtain ⟨kj, c2, hc2, hev2⟩ := mem_goCollect_idx hev
        simp only [Nat.zero_add] at hev2
        by_cases hkj : kj = k
        · rw [hkj] at hc2 hev2
          rw [hck] at hc2
          obtain rfl := Option.some.inj hc2
          intro he
          have he2 : ev.identifierPath = (p ++ [k]) ++ q1 ++ 0 :: q2 :=
            he.trans (by simp [List.append_assoc])
          exact ih (p ++ [k]) _ _ _ q1 pnm pini q2 hcq htgt ev hev2 he2
        · intro he
          have he2 : ev.identifierPath = p ++ k :: (q1 ++ 0 :: q2) :=
            he.trans (by simp [List.append_assoc])
          exact ne_path_of_other_child hev2 hkj he2
      | arrayBindingPattern els =>
        simp only [collectRefs] at hev
        obtain ⟨kj, c2, hc2, hev2⟩ := mem_goCollect_idx hev
        simp only [Nat.zero_add] at hev2
        by_cases hkj : kj = k
        · rw [hkj] at hc2 hev2
          rw [hck] at hc2
          obtain rfl := Option.some.inj hc2
          intro he
          have he2 : ev.identifierPath = (p ++ [k]) ++ q1 ++ 0 :: q2 :=
            he.trans (by simp [List.append_assoc])
          exact ih (p ++ [k]) _ _ _ q1 pnm pini q2 hcq htgt ev hev2 he2
        · intro he
          have he2 : ev.identifierPath = p ++ k :: (q1 ++ 0 :: q2) :=
            he.trans (by simp [List.append_assoc])
          exact ne_path_of_other_child hev2 hkj he2
      | bindingElement prop bnm bini2 =>
        simp only [collectRefs] at hev
        obtain ⟨kj, c2, hc2, hev2⟩ := mem_goCollect_idx hev
        simp only [Nat.zero_add] at hev2
        by_cases hkj : kj = k
        · rw [hkj] at hc2 hev2
          rw [hck] at hc2
          obtain rfl := Option.some.inj hc2
          intro he
          have he2 : ev.identifierPath = (p ++ [k]) ++ q1 ++ 0 :: q2 :=
            he.trans (by simp [List.append_assoc])
          exact ih (p ++ [k]) _ _ _ q1 pnm pini q2 hcq htgt ev hev2 he2
        · intro he
          have he2 : ev.identifierPath = p ++ k :: (q1 ++ 0 :: q2) :=
            he.trans (by simp [List.append_assoc])
          exact ne_path_of_other_child hev2 hkj he2
      | classDeclaration cname ms =>
        simp only [collectRefs] at hev
        obtain ⟨kj, c2, hc2, hev2⟩ := mem_goCollect_idx hev
        simp only [Nat.zero_add] at hev2
        by_cases hkj : kj = k
        · rw [hkj] at hc2 hev2
          rw [hck] at hc2
          obtain rfl := Option.some.inj hc2
          intro he
          have he2 : ev.identifierPath = (p ++ [k]) ++ q1 ++ 0 :: q2 :=
            he.trans (by simp [List.append_assoc])
          exact ih (p ++ [k]) _ _ _ q1 pnm pini q2 hcq htgt ev hev2 he2
        · intro he
          have he2 : ev.identifierPath = p ++ k :: (q1 ++ 0 :: q2) :=
            he.trans (by simp [List.append_assoc])
          exact ne_path_of_other_child hev2 hkj he2
      | otherNode cs =>
        simp only [collectRefs] at hev
        obtain ⟨kj, c2, hc2, hev2⟩ := mem_goCollect_idx hev
        simp only [Nat.zero_add] at hev2
        by_cases hkj : kj = k
        · rw [hkj] at hc2 hev2
          rw [hck] at hc2
          obtain rfl := Option.some.inj hc2
          intro he
          have he2 : ev.identifierPath = (p ++ [k]) ++ q1 ++ 0 :: q2 :=
            he.trans (by simp [List.append_assoc])
          exact ih (p ++ [k]) _ _ _ q1 pnm pini q2 hcq htgt ev hev2 he2
        · intro he
          have he2 : ev.identifierPath = p ++ k :: (q1 ++ 0 :: q2) :=
            he.trans (by simp [List.append_assoc])
          exact ne_path_of_other_child hev2 hkj he2
      | functionDeclaration fname ps body =>
        simp only [collectRefs] at hev
        obtain ⟨kj, c2, hc2, hev2⟩ := mem_goCollect_idx hev
        simp only [Nat.zero_add] at hev2
        by_cases hkj : kj = k
        · rw [hkj] at hc2 hev2
          rw [hck] at hc2
          obtain rfl := Option.some.inj hc2
          intro he
          have he2 : ev.identifierPath = (p ++ [k]) ++ q1 ++ 0 :: q2 :=
            he.trans (by simp [List.append_assoc])
          exact ih (p ++ [k]) _ _ _ q1 pnm pini q2 hcq htgt ev hev2 he2
        · intro he
          have he2 : ev.identifierPath = p ++ k :: (q1 ++ 0 :: q2) :=
            he.trans (by simp [List.append_assoc])
          exact ne_path_of_other_child hev2 hkj he2
      | functionExpression fname ps body =>
        simp only [collectRefs] at hev
        obtain ⟨kj, c2, hc2, hev2⟩ := mem_goCollect_idx hev
        simp only [Nat.zero_add] at hev2
        by_cases hkj : kj = k
        · rw [hkj] at hc2 hev2
          rw [hck] at hc2
          obtain rfl := Option.some.inj hc2
          intro he
          have he2 : ev.identifierPath = (p ++ [k]) ++ q1 ++ 0 :: q2 :=
            he.trans (by simp [List.append_assoc])
          exact ih (p ++ [k]) _ _ _ q1 pnm pini q2 hcq htgt ev hev2 he2
        · intro he
          have he2 : ev.identifierPath = p ++ k :: (q1 ++ 0 :: q2) :=
            he.trans (by simp [List.append_assoc])
          exact ne_path_of_other_child hev2 hkj he2

/-- **C5, counterexample.** The claim says destructuring-pattern targets are
never recorded as references, in parameter declarations and variable
declarations alike.  For `const \x7ba\x7d = b;` the node at path `[0, 0, 0]` is a
variable declaration whose binding pattern has `[0, 0]` as a target position
(the identifier `a`, full path `[0, 0, 0, 0, 0, 0]`), and the resolver DOES
record a reference for it: the declare-with-initializer visit of a variable
declaration's name descends through the pattern with reference collection
enabled. -/
theorem destructure_var_target_referenced :
    (buildContainer progDestructureVar).scopes.any
        (fun sd => sd.references.any
          (fun r => r.identifierPath == [0, 0, 0, 0, 0, 0])) = true
      ∧ nodeAt progDestructureVar [0, 0, 0]
          = some (.variableDeclaration
              (.objectBindingPattern [.bindingElement none (.identifier "a") none])
              (some (.identifier "b")))
      ∧ isTarget (.objectBindingPattern [.bindingElement none (.identifier "a") none])
          [0, 0] = true :=
  ⟨by decide, rfl, by decide⟩

/-- **C5, amended.** Targets of a destructuring pattern in a PARAMETER
declaration never have a reference recorded in any scope's reference list:
for any parameter node of the tree (at path `q1`, with binding-name pattern
`pnm`) and any target position `q2` of that pattern, no reference in the
built container points at path `q1 ++ 0 :: q2`.  (For variable declarations
the analogous statement is false; see the counterexample.) -/
theorem param_pattern_targets_never_referenced (root : Node) (q1 : NodePath)
    (pnm : Node) (pini : Option Node) (q2 : NodePath)
    (hpar : nodeAt root q1 = some (.parameter pnm pini))
    (htgt : isTarget pnm q2 = true)
    (j : Nat) (sd : Scope) (hj : (buildContainer root).scopes[j]? = some sd)
    (r : ScopeReference) (hr : r ∈ sd.references) :
    r.identifierPath ≠ q1 ++ 0 :: q2 := by
  intro he
  have hbase : ∀ (j2 : Nat) (sd2 : Scope),
      ([{ scopeKind := ScopeKind.functionScope, bindings := [], parentScope := none,
          declaratingNode := [], references := [] }] : List Scope)[j2]? = some sd2 →
      sd2.references = [] := by
    intro j2 sd2 h2
    cases j2 with
    | zero =>
      obtain rfl := (Option.some.inj h2).symm
      rfl
    | succ j3 => simp at h2
  have hb := visitNode2_scopes_eq (nsize root) (findScopes root).scopesMap [] root false
    none { scopes := (findScopes root).scopes, err := false }
  have hj2 : (applyEvents (findScopes root).scopesMap
      (collectRefs (nsize root) [] root false none) (findScopes root).scopes)[j]?
      = some sd := by
    have hc : (buildContainer root).scopes
        = (visitNode2 (nsize root) (findScopes root).scopesMap [] root false none
            { scopes := (findScopes root).scopes, err := false }).scopes := rfl
    rw [hc, hb] at hj
    exact hj
  rcases applyEvents_refs_cases _ _ _ _ _ _ hj2 hr with ⟨sd0, h0, hr0⟩ | ⟨ev, hev, hf⟩
  · have h1 := visitNode1_refs_empty (nsize root) none [] root 0
      { scopes := [{ scopeKind := ScopeKind.functionScope, bindings := [],
                     parentScope := none, declaratingNode := [], references := [] }],
        scopesMap := [], err := false } hbase j sd0 h0
    rw [h1] at hr0
    simp at hr0
  · have h2 := collectRefs_no_param_target (nsize root) [] root false none q1 pnm pini q2
      hpar htgt ev hev
    refine h2 ?_
    rw [← hf.2.1, he]
    simp

/-- Witness for `param_pattern_targets_never_referenced`: in
`function f({a}) {} const {c} = d;` the parameter sits at path `[0, 1]`,
its pattern's target position is `[0, 0]`, and the root scope's first
reference (the read of `d`) does not point at the parameter target. -/
theorem param_pattern_targets_never_referenced_witness :
    nodeAt progParamPattern [0, 1]
        = some (.parameter
            (.objectBindingPattern [.bindingElement none (.identifier "a") none]) none) ∧
      isTarget (.objectBindingPattern [.bindingElement none (.identifier "a") none])
        [0, 0] = true ∧
      (buildContainer progParamPattern).scopes[0]? = some w5scope ∧
      w5ref ∈ w5scope.references ∧
      w5ref.identifierPath ≠ [0, 1] ++ 0 :: [0, 0] :=
  ⟨rfl, by decide, by decide, by decide,
    param_pattern_targets_never_referenced progParamPattern [0, 1]
      (.objectBindingPattern [.bindingElement none (.identifier "a") none]) none [0, 0]
      rfl (by decide) 0 w5scope (by decide) w5ref (by decide)⟩

theorem newChildScope_length (kind : ScopeKind) (declPath : NodePath) (parentSc : Nat)
    (st : BuildState) :
    (newChildScope kind declPath parentSc st).scopes.length = st.scopes.length + 1 := by
  simp [newChildScope]

theorem storeBinding_scopes_length (i : Nat) (nm : String) (d : ScopeBindingDeclaration)
    (st : BuildState) :
    (storeBinding i nm d st).scopes.length = st.scopes.length := by
  simp [storeBinding, supdate_length]

theorem addBinding_scopes_length (sc : Nat) (nm : String) (d : ScopeBindingDeclaration)
    (st : BuildState) :
    (addBinding sc nm d st).scopes.length = st.scopes.length := by
  simp only [addBinding]
  cases hk : d.bindingScopeKind == ScopeKind.lexicalScope with
  | true =>
    simp only [reduceIte]
    exact storeBinding_scopes_length _ _ _ _
  | false =>
    simp only [Bool.false_eq_true, reduceIte]
    cases hf : findFunctionScope (sc + 1) sc st.scopes with
    | none => rfl
    | some j => exact storeBinding_scopes_length _ _ _ _

theorem bindList_scopes_length (h : Node → BuildState → BuildState)
    (hh : ∀ el st, (h el st).scopes.length = st.scopes.length) :
    ∀ (els : List Node) (st : BuildState),
      (bindList h els st).scopes.length = st.scopes.length := by
  intro els
  induction els with
  | nil => intro st; rfl
  | cons el els ihe =>
    intro st
    rw [bindList, ihe, hh]

theorem bindName_scopes_length :
    ∀ (fuel : Nat) (bn : Node) (dp : NodePath) (sc : Nat) (kind : ScopeKind)
      (mu : Mutability) (st : BuildState),
      (bindName fuel bn dp sc kind mu st).scopes.length = st.scopes.length := by
  intro fuel
  induction fuel with
  | zero => intro bn dp sc kind mu st; rfl
  | succ f ih =>
    intro bn dp sc kind mu st
    cases bn with
    | identifier t => exact addBinding_scopes_length _ _ _ _
    | objectBindingPattern els =>
      refine bindList_scopes_length _ ?_ els st
      intro el st2
      cases el <;>
        first
          | exact ih _ _ _ _ _ _
          | rfl
    | arrayBindingPattern els =>
      refine bindList_scopes_length _ ?_ els st
      intro el st2
      cases el <;>
        first
          | exact ih _ _ _ _ _ _
          | rfl
    | sourceFile sts => rfl
    | block sts => rfl
    | variableDeclarationList fl ds => rfl
    | variableDeclaration vnm vini => rfl
    | bindingElement prop bnm bini => rfl
    | parameter pnm pini => rfl
    | functionDeclaration fname ps body => rfl
    | functionExpression fname ps body => rfl
    | arrowFunction ps body => rfl
    | classDeclaration cname ms => rfl
    | expressionStatement e => rfl
    | binaryExpression l op r => rfl
    | computedPropertyName e => rfl
    | forOfStatement lini le lstmt => rfl
    | forInStatement lini le lstmt => rfl
    | otherNode cs => rfl

theorem goList_len (v : NodePath → Nat → Node → Nat → BuildState → BuildState)
    (p : NodePath)
    (hv : ∀ p2 k c sc st, st.scopes.length ≤ (v p2 k c sc st).scopes.length) :
    ∀ (cs : List Node) (k sc : Nat) (st : BuildState),
      st.scopes.length ≤ (goList v p k cs sc st).scopes.length := by
  intro cs
  induction cs with
  | nil => intro k sc st; exact Nat.le_refl _
  | cons c cs ihc =>
    intro k sc st
    exact Nat.le_trans (hv p k c sc st) (ihc (k + 1) sc (v p k c sc st))

theorem visitNode1_scopes_len :
    ∀ (fuel : Nat) (par : Option Node) (p : NodePath) (n : Node) (sc : Nat)
      (st : BuildState),
      st.scopes.length ≤ (visitNode1 fuel par p n sc st).scopes.length := by
  intro fuel
  induction fuel with
  | zero => intro par p n sc st; exact Nat.le_refl _
  | succ f ih =>
    intro par p n sc st
    cases n with
    | identifier t =>
      simp only [visitNode1]
      refine Nat.le_trans ?_ (goList_len _ _ ?_ _ _ _ _)
      · exact Nat.le_refl _
      ·
        intro p2 k2 c2 sc2 st2
        exact ih _ _ _ _ _
    | sourceFile sts =>
      simp only [visitNode1]
      refine Nat.le_trans ?_ (goList_len _ _ ?_ _ _ _ _)
      · exact Nat.le_refl _
      ·
        intro p2 k2 c2 sc2 st2
        exact ih _ _ _ _ _
    | variableDeclarationList fl ds =>
      simp only [visitNode1]
      refine Nat.le_trans ?_ (goList_len _ _ ?_ _ _ _ _)
      · exact Nat.le_refl _
      ·
        intro p2 k2 c2 sc2 st2
        exact ih _ _ _ _ _
    | objectBindingPattern els =>
      simp only [visitNode1]
      refine Nat.le_trans ?_ (goList_len _ _ ?_ _ _ _ _)
      · exact Nat.le_refl _
      ·
        intro p2 k2 c2 sc2 st2
        exact ih _ _ _ _ _
    | arrayBindingPattern els =>
      simp only [visitNode1]
      refine Nat.le_trans ?_ (goList_len _ _ ?_ _ _ _ _)
      · exact Nat.le_refl _
      ·
        intro p2 k2 c2 sc2 st2
        exact ih _ _ _ _ _
    | bindingElement prop bnm bini =>
      simp only [visitNode1]
      refine Nat.le_trans ?_ (goList_len _ _ ?_ _ _ _ _)
      · exact Nat.le_refl _
      ·
        intro p2 k2 c2 sc2 st2
        exact ih _ _ _ _ _
    | parameter pnm pini =>
      simp only [visitNode1]
      refine Nat.le_trans ?_ (goList_len _ _ ?_ _ _ _ _)
      · exact Nat.le_refl _
      ·
        intro p2 k2 c2 sc2 st2
        exact ih _ _ _ _ _
    | expressionStatement e =>
      simp only [visitNode1]
      refine Nat.le_trans ?_ (goList_len _ _ ?_ _ _ _ _)
      · exact Nat.le_refl _
      ·
        intro p2 k2 c2 sc2 st2
        exact ih _ _ _ _ _
    | binaryExpression l op r =>
      simp only [visitNode1]
      refine Nat.le_trans ?_ (goList_len _ _ ?_ _ _ _ _)
      · exact Nat.le_refl _
      ·
        intro p2 k2 c2 sc2 st2
        exact ih _ _ _ _ _
    | computedPropertyName e =>
      simp only [visitNode1]
      refine Nat.le_trans ?_ (goList_len _ _ ?_ _ _ _ _)
      · exact Nat.le_refl _
      ·
        intro p2 k2 c2 sc2 st2
        exact ih _ _ _ _ _
    | otherNode cs =>
      simp only [visitNode1]
      refine Nat.le_trans ?_ (goList_len _ _ ?_ _ _ _ _)
      · exact Nat.le_refl _
      ·
        intro p2 k2 c2 sc2 st2
        exact ih _ _ _ _ _
    | block sts =>
      simp only [visitNode1]
      refine Nat.le_trans ?_ (goList_len _ _ ?_ _ _ _ _)
      · rw [newChildScope_length]
        exact Nat.le_succ _
      ·
        intro p2 k2 c2 sc2 st2
        exact ih _ _ _ _ _
    | variableDeclaration vnm vini =>
      simp only [visitNode1]
      refine Nat.le_trans ?_ (goList_len _ _ ?_ _ _ _ _)
      · cases par with
        | none => exact Nat.le_refl _
        | some pn =>
          cases pn
          case variableDeclarationList fl2 ds2 =>
            dsimp only
            rw [bindName_scopes_length]
          all_goals exact Nat.le_refl _
      ·
        intro p2 k2 c2 sc2 st2
        exact ih _ _ _ _ _
    | classDeclaration cname ms =>
      simp only [visitNode1]
      refine Nat.le_trans ?_ (goList_len _ _ ?_ _ _ _ _)
      · cases cname with
        | none =>
          rw [addBinding_scopes_length, newChildScope_length]
          exact Nat.le_succ _
        | some t =>
          rw [addBinding_scopes_length, newChildScope_length, addBinding_scopes_length]
          exact Nat.le_succ _
      ·
        intro p2 k2 c2 sc2 st2
        exact ih _ _ _ _ _
    | functionDeclaration fname ps body =>
      cases fname with
      | none =>
        cases body with
        | none =>
          simp only [visitNode1]
          refine Nat.le_trans ?_ (goList_len _ _ ?_ _ _ _ _)
          · rw [newChildScope_length]
            exact Nat.le_succ _
          ·
            intro p2 k2 c2 sc2 st2
            cases c2 <;>
              first
                | exact ih _ _ _ _ _
                | exact Nat.le_trans (ih _ _ _ _ _)
                    (Nat.le_of_eq (bindName_scopes_length _ _ _ _ _ _ _).symm)
        | some b =>
          cases hb : b.isBlockNode with
          | true =>
            simp only [visitNode1, hb, reduceIte]
            refine Nat.le_trans ?_ (goList_len _ _ ?_ _ _ _ _)
            · refine Nat.le_trans ?_ (goList_len _ _ ?_ _ _ _ _)
              · rw [newChildScope_length]
                exact Nat.le_succ _
              ·
                intro p2 k2 c2 sc2 st2
                cases c2 <;>
                  first
                    | exact ih _ _ _ _ _
                    | exact Nat.le_trans (ih _ _ _ _ _)
                        (Nat.le_of_eq (bindName_scopes_length _ _ _ _ _ _ _).symm)
            ·
              intro p2 k2 c2 sc2 st2
              exact ih _ _ _ _ _
          | false =>
            simp only [visitNode1, hb, Bool.false_eq_true, reduceIte]
            refine Nat.le_trans ?_ (ih _ _ _ _ _)
            refine Nat.le_trans ?_ (goList_len _ _ ?_ _ _ _ _)
            · rw [newChildScope_length]
              exact Nat.le_succ _
            ·
              intro p2 k2 c2 sc2 st2
              cases c2 <;>
                first
                  | exact ih _ _ _ _ _
                  | exact Nat.le_trans (ih _ _ _ _ _)
                      (Nat.le_of_eq (bindName_scopes_length _ _ _ _ _ _ _).symm)
      | some t =>
        cases body with
        | none =>
          simp only [visitNode1]
          refine Nat.le_trans ?_ (goList_len _ _ ?_ _ _ _ _)
          · rw [newChildScope_length, addBinding_scopes_length]
            exact Nat.le_succ _
          ·
            intro p2 k2 c2 sc2 st2
            cases c2 <;>
              first
                | exact ih _ _ _ _ _
                | exact Nat.le_trans (ih _ _ _ _ _)
                    (Nat.le_of_eq (bindName_scopes_length _ _ _ _ _ _ _).symm)
        | some b =>
          cases hb : b.isBlockNode with
          | true =>
            simp only [visitNode1, hb, reduceIte]
            refine Nat.le_trans ?_ (goList_len _ _ ?_ _ _ _ _)
            · refine Nat.le_trans ?_ (goList_len _ _ ?_ _ _ _ _)
              · rw [newChildScope_length, addBinding_scopes_length]
                exact Nat.le_succ _
              ·
                intro p2 k2 c2 sc2 st2
                cases c2 <;>
                  first
                    | exact ih _ _ _ _ _
                    | exact Nat.le_trans (ih _ _ _ _ _)
                        (Nat.le_of_eq (bindName_scopes_length _ _ _ _ _ _ _).symm)
            ·
              intro p2 k2 c2 sc2 st2
              exact ih _ _ _ _ _
          | false =>
            simp only [visitNode1, hb, Bool.false_eq_true, reduceIte]
            refine Nat.le_trans ?_ (ih _ _ _ _ _)
            refine Nat.le_trans ?_ (goList_len _ _ ?_ _ _ _ _)
            · rw [newChildScope_length, addBinding_scopes_length]
              exact Nat.le_succ _
            ·
              intro p2 k2 c2 sc2 st2
              cases c2 <;>
                first
                  | exact ih _ _ _ _ _
                  | exact Nat.le_trans (ih _ _ _ _ _)
                      (Nat.le_of_eq (bindName_scopes_length _ _ _ _ _ _ _).symm)
    | functionExpression fname ps body =>
      cases fname with
      | none =>
        cases body with
        | none =>
          simp only [visitNode1]
          refine Nat.le_trans ?_ (goList_len _ _ ?_ _ _ _ _)
          · rw [newChildScope_length]
            exact Nat.le_succ _
          ·
            intro p2 k2 c2 sc2 st2
            cases c2 <;>
              first
                | exact ih _ _ _ _ _
                | exact Nat.le_trans (ih _ _ _ _ _)
                    (Nat.le_of_eq (bindName_scopes_length _ _ _ _ _ _ _).symm)
        | some b =>
          cases hb : b.isBlockNode with
          | true =>
            simp only [visitNode1, hb, reduceIte]
            refine Nat.le_trans ?_ (goList_len _ _ ?_ _ _ _ _)
            · refine Nat.le_trans ?_ (goList_len _ _ ?_ _ _ _ _)
              · rw [newChildScope_length]
                exact Nat.le_succ _
              ·
                intro p2 k2 c2 sc2 st2
                cases c2 <;>
                  first
                    | exact ih _ _ _ _ _
                    | exact Nat.le_trans (ih _ _ _ _ _)
                        (Nat.le_of_eq (bindName_scopes_length _ _ _ _ _ _ _).symm)
            ·
              intro p2 k2 c2 sc2 st2
              exact ih _ _ _ _ _
          | false =>
            simp only [visitNode1, hb, Bool.false_eq_true, reduceIte]
            refine Nat.le_trans ?_ (ih _ _ _ _ _)
            refine Nat.le_trans ?_ (goList_len _ _ ?_ _ _ _ _)
            · rw [newChildScope_length]
              exact Nat.le_succ _
            ·
              intro p2 k2 c2 sc2 st2
              cases c2 <;>
                first
                  | exact ih _ _ _ _ _
                  | exact Nat.le_trans (ih _ _ _ _ _)
                      (Nat.le_of_eq (bindName_scopes_length _ _ _ _ _ _ _).symm)
      | some t =>
        cases body with
        | none =>
          simp only [visitNode1]
          refine Nat.le_trans ?_ (goList_len _ _ ?_ _ _ _ _)
          · rw [newChildScope_length, addBinding_scopes_length]
            exact Nat.le_succ _
          ·
            intro p2 k2 c2 sc2 st2
            cases c2 <;>
              first
                | exact ih _ _ _ _ _
                | exact Nat.le_trans (ih _ _ _ _ _)
                    (Nat.le_of_eq (bindName_scopes_length _ _ _ _ _ _ _).symm)
        | some b =>
          cases hb : b.isBlockNode with
          | true =>
            simp only [visitNode1, hb, reduceIte]
            refine Nat.le_trans ?_ (goList_len _ _ ?_ _ _ _ _)
            · refine Nat.le_trans ?_ (goList_len _ _ ?_ _ _ _ _)
              · rw [newChildScope_length, addBinding_scopes_length]
                exact Nat.le_succ _
              ·
                intro p2 k2 c2 sc2 st2
                cases c2 <;>
                  first
                    | exact ih _ _ _ _ _
                    | exact Nat.le_trans (ih _ _ _ _ _)
                        (Nat.le_of_eq (bindName_scopes_length _ _ _ _ _ _ _).symm)
            ·
              intro p2 k2 c2 sc2 st2
              exact ih _ _ _ _ _
          | false =>
            simp only [visitNode1, hb, Bool.false_eq_true, reduceIte]
            refine Nat.le_trans ?_ (ih _ _ _ _ _)
            refine Nat.le_trans ?_ (goList_len _ _ ?_ _ _ _ _)
            · rw [newChildScope_length, addBinding_scopes_length]
              exact Nat.le_succ _
            ·
              intro p2 k2 c2 sc2 st2
              cases c2 <;>
                first
                  | exact ih _ _ _ _ _
                  | exact Nat.le_trans (ih _ _ _ _ _)
                      (Nat.le_of_eq (bindName_scopes_length _ _ _ _ _ _ _).symm)
    | arrowFunction ps body =>
      cases hb : body.isBlockNode with
      | true =>
        simp only [visitNode1, hb, reduceIte]
        refine Nat.le_trans ?_ (goList_len _ _ ?_ _ _ _ _)
        · refine Nat.le_trans ?_ (goList_len _ _ ?_ _ _ _ _)
          · rw [newChildScope_length]
            exact Nat.le_succ _
          ·
            intro p2 k2 c2 sc2 st2
            cases c2 <;>
              first
                | exact ih _ _ _ _ _
                | exact Nat.le_trans (ih _ _ _ _ _)
                    (Nat.le_of_eq (bindName_scopes_length _ _ _ _ _ _ _).symm)
        ·
          intro p2 k2 c2 sc2 st2
          exact ih _ _ _ _ _
      | false =>
        simp only [visitNode1, hb, Bool.false_eq_true, reduceIte]
        refine Nat.le_trans ?_ (ih _ _ _ _ _)
        refine Nat.le_trans ?_ (goList_len _ _ ?_ _ _ _ _)
        · rw [newChildScope_length]
          exact Nat.le_succ _
        ·
          intro p2 k2 c2 sc2 st2
          cases c2 <;>
            first
              | exact ih _ _ _ _ _
              | exact Nat.le_trans (ih _ _ _ _ _)
                  (Nat.le_of_eq (bindName_scopes_length _ _ _ _ _ _ _).symm)
    | forOfStatement lini le lstmt =>
      cases hb : lstmt.isBlockNode with
      | true =>
        simp only [visitNode1, hb, reduceIte]
        refine Nat.le_trans ?_ (goList_len _ _ ?_ _ _ _ _)
        · refine Nat.le_trans ?_ (ih _ _ _ _ _)
          refine Nat.le_trans ?_ (ih _ _ _ _ _)
          rw [newChildScope_length]
          exact Nat.le_succ _
        ·
          intro p2 k2 c2 sc2 st2
          exact ih _ _ _ _ _
      | false =>
        simp only [visitNode1, hb, Bool.false_eq_true, reduceIte]
        refine Nat.le_trans ?_ (ih _ _ _ _ _)
        refine Nat.le_trans ?_ (ih _ _ _ _ _)
        refine Nat.le_trans ?_ (ih _ _ _ _ _)
        rw [newChildScope_length]
        exact Nat.le_succ _
    | forInStatement lini le lstmt =>
      cases hb : lstmt.isBlockNode with
      | true =>
        simp only [visitNode1, hb, reduceIte]
        refine Nat.le_trans ?_ (goList_len _ _ ?_ _ _ _ _)
        · refine Nat.le_trans ?_ (ih _ _ _ _ _)
          refine Nat.le_trans ?_ (ih _ _ _ _ _)
          rw [newChildScope_length]
          exact Nat.le_succ _
        ·
          intro p2 k2 c2 sc2 st2
          exact ih _ _ _ _ _
      | false =>
        simp only [visitNode1, hb, Bool.false_eq_true, reduceIte]
        refine Nat.le_trans ?_ (ih _ _ _ _ _)
        refine Nat.le_trans ?_ (ih _ _ _ _ _)
        refine Nat.le_trans ?_ (ih _ _ _ _ _)
        rw [newChildScope_length]
        exact Nat.le_succ _

theorem spec_trans {P : NodePath × Nat → Prop} {m1 m2 m3 : ScopesMap}
    (h2 : ∃ B, m3 = B ++ m2 ∧ ∀ en ∈ B, P en)
    (h1 : ∃ B, m2 = B ++ m1 ∧ ∀ en ∈ B, P en) :
    ∃ B, m3 = B ++ m1 ∧ ∀ en ∈ B, P en := by
  obtain ⟨B2, e2, p2⟩ := h2
  obtain ⟨B1, e1, p1⟩ := h1
  refine ⟨B2 ++ B1, by rw [e2, e1, List.append_assoc], ?_⟩
  intro en hen
  rcases List.mem_append.mp hen with h | h
  · exact p2 en h
  · exact p1 en h

theorem spec_of_eq {P : NodePath × Nat → Prop} {m1 m2 : ScopesMap} (h : m2 = m1) :
    ∃ B, m2 = B ++ m1 ∧ ∀ en ∈ B, P en :=
  ⟨[], by simp [h], by simp⟩

theorem spec_cons {P : NodePath × Nat → Prop} (en0 : NodePath × Nat) (m : ScopesMap)
    (hP : P en0) : ∃ B, (en0 :: m : ScopesMap) = B ++ m ∧ ∀ en ∈ B, P en := by
  refine ⟨[en0], rfl, ?_⟩
  intro en hen
  simp at hen
  subst hen
  exact hP

theorem entryOkW_mono {p1 p : NodePath} {sc len sc2 len2 : Nat} {en : NodePath × Nat}
    (h : entryOkW p1 sc2 len2 en) (hp : ∃ r0, p1 = p ++ r0)
    (hsc : sc2 = sc ∨ len ≤ sc2) (hlen : len ≤ len2) : entryOkW p sc len en := by
  obtain ⟨⟨r, hr⟩, hv⟩ := h
  obtain ⟨r0, hr0⟩ := hp
  refine ⟨⟨r0 ++ r, by rw [hr, hr0, List.append_assoc]⟩, ?_⟩
  rcases hv with hv | hv
  · rcases hsc with h2 | h2
    · exact Or.inl (hv.trans h2)
    · exact Or.inr (by omega)
  · exact Or.inr (by omega)

theorem entryOkS_mono {p1 p : NodePath} {k sc len sc2 len2 : Nat} {en : NodePath × Nat}
    (h : entryOkW p1 sc2 len2 en) (hp : ∃ r0, p1 = (p ++ [k]) ++ r0)
    (hsc : sc2 = sc ∨ len ≤ sc2) (hlen : len ≤ len2) : entryOkS p sc len en := by
  obtain ⟨⟨r, hr⟩, hv⟩ := h
  obtain ⟨r0, hr0⟩ := hp
  refine ⟨⟨k, r0 ++ r, by rw [hr, hr0]; simp [List.append_assoc]⟩, ?_⟩
  rcases hv with hv | hv
  · rcases hsc with h2 | h2
    · exact Or.inl (hv.trans h2)
    · exact Or.inr (by omega)
  · exact Or.inr (by omega)

theorem setChildren_entry (p : NodePath) (sc : Nat) :
    ∀ (cs : List Node) (i : Nat) (m : ScopesMap),
      ∃ B, setChildren p sc i cs m = B ++ m ∧
        ∀ en ∈ B, (∃ kk, en.1 = p ++ [kk]) ∧ en.2 = sc := by
  intro cs
  induction cs with
  | nil => exact fun i m => ⟨[], rfl, by simp⟩
  | cons c cs ihc =>
    intro i m
    obtain ⟨B, hB, hP⟩ := ihc (i + 1) (mset (p ++ [i]) sc m)
    refine ⟨B ++ [(p ++ [i], sc)], ?_, ?_⟩
    · show setChildren p sc (i + 1) cs (mset (p ++ [i]) sc m) = (B ++ [(p ++ [i], sc)]) ++ m
      rw [hB]
      simp [mset, List.append_assoc]
    · intro en hen
      rcases List.mem_append.mp hen with h | h
      · exact hP en h
      · simp at h
        subst h
        exact ⟨⟨i, rfl⟩, rfl⟩

theorem goList_spec (v : NodePath → Nat → Node → Nat → BuildState → BuildState)
    (p : NodePath) (P : NodePath × Nat → Prop) (len sc2 : Nat)
    (hmono : ∀ k c st2, st2.scopes.length ≤ (v p k c sc2 st2).scopes.length)
    (hv : ∀ k c st2, len ≤ st2.scopes.length →
      ∃ B, (v p k c sc2 st2).scopesMap = B ++ st2.scopesMap ∧ ∀ en ∈ B, P en) :
    ∀ (cs : List Node) (k : Nat) (st2 : BuildState), len ≤ st2.scopes.length →
      ∃ B, (goList v p k cs sc2 st2).scopesMap = B ++ st2.scopesMap ∧ ∀ en ∈ B, P en := by
  intro cs
  induction cs with
  | nil => exact fun k st2 h => ⟨[], rfl, by simp⟩
  | cons c cs ihc =>
    intro k st2 hl
    obtain ⟨B1, e1, p1⟩ := hv k c st2 hl
    obtain ⟨B2, e2, p2⟩ := ihc (k + 1) (v p k c sc2 st2) (hl.trans (hmono k c st2))
    refine ⟨B2 ++ B1, ?_, ?_⟩
    · simp only [goList, e2, e1, List.append_assoc]
    · intro en hen
      rcases List.mem_append.mp hen with h | h
      · exact p2 en h
      · exact p1 en h

theorem spec_weaken {p1 p : NodePath} {sc2 len2 sc len : Nat} {m1 m2 : ScopesMap}
    (h : ∃ B, m2 = B ++ m1 ∧ ∀ en ∈ B, entryOkW p1 sc2 len2 en)
    (hp : ∃ r0, p1 = p ++ r0) (hsc : sc2 = sc ∨ len ≤ sc2) (hlen : len ≤ len2) :
    ∃ B, m2 = B ++ m1 ∧ ∀ en ∈ B, entryOkW p sc len en := by
  obtain ⟨B, hB, hP⟩ := h
  exact ⟨B, hB, fun en hen => entryOkW_mono (hP en hen) hp hsc hlen⟩

theorem setChildren_specW (p : NodePath) (sc len : Nat) (cs : List Node) (i : Nat)
    (m : ScopesMap) :
    ∃ B, setChildren p sc i cs m = B ++ m ∧ ∀ en ∈ B, entryOkW p sc len en := by
  obtain ⟨B, hB, hP⟩ := setChildren_entry p sc cs i m
  refine ⟨B, hB, ?_⟩
  intro en hen
  obtain ⟨⟨kk, hk⟩, hvv⟩ := hP en hen
  exact ⟨⟨[kk], hk⟩, Or.inl hvv⟩

theorem goList_specW (v : NodePath → Nat → Node → Nat → BuildState → BuildState)
    (p2 : NodePath) (sc2 : Nat)
    (hmono : ∀ k c st2, st2.scopes.length ≤ (v p2 k c sc2 st2).scopes.length)
    (hv : ∀ k c st2, ∃ B, (v p2 k c sc2 st2).scopesMap = B ++ st2.scopesMap ∧
      ∀ en ∈ B, entryOkW (p2 ++ [k]) sc2 st2.scopes.length en) :
    ∀ (cs : List Node) (k : Nat) (st2 : BuildState),
      ∃ B, (goList v p2 k cs sc2 st2).scopesMap = B ++ st2.scopesMap ∧
        ∀ en ∈ B, entryOkW p2 sc2 st2.scopes.length en := by
  intro cs
  induction cs with
  | nil => exact fun k st2 => ⟨[], rfl, by simp⟩
  | cons c cs ihc =>
    intro k st2
    obtain ⟨B1, e1, p1⟩ := hv k c st2
    obtain ⟨B2, e2, p2h⟩ := ihc (k + 1) (v p2 k c sc2 st2)
    refine ⟨B2 ++ B1, ?_, ?_⟩
    · simp only [goList, e2, e1, List.append_assoc]
    · intro en hen
      rcases List.mem_append.mp hen with h | h
      · exact entryOkW_mono (p2h en h) ⟨[], (List.append_nil p2).symm⟩ (Or.inl rfl)
          (hmono k c st2)
      · exact entryOkW_mono (p1 en h) ⟨[k], rfl⟩ (Or.inl rfl) (Nat.le_refl _)

theorem bindParameterName_scopes_length (fuel : Nat) (pp : NodePath) (nm : Node)
    (sc : Nat) (st : BuildState) :
    (bindParameterName fuel pp nm sc st).scopes.length = st.scopes.length :=
  bindName_scopes_length _ _ _ _ _ _ _

theorem bindParameterName_scopesMap (fuel : Nat) (pp : NodePath) (nm : Node)
    (sc : Nat) (st : BuildState) :
    (bindParameterName fuel pp nm sc st).scopesMap = st.scopesMap :=
  bindName_scopesMap _ _ _ _ _ _ _

theorem visitNode1_map_spec :
    ∀ (fuel : Nat) (par : Option Node) (p : NodePath) (n : Node) (sc : Nat)
      (st : BuildState),
      ∃ B, (visitNode1 fuel par p n sc st).scopesMap = B ++ st.scopesMap ∧
        ∀ en ∈ B, entryOkW p sc st.scopes.length en := by
  intro fuel
  induction fuel with
  | zero => intro par p n sc st; exact ⟨[], rfl, by simp⟩
  | succ f ih =>
    intro par p n sc st
    cases n with
    | identifier t =>
      simp only [visitNode1]
      refine spec_trans (spec_weaken (goList_specW _ _ _ ?_ ?_ _ _ _)
          ⟨[], (List.append_nil p).symm⟩ (Or.inl rfl) (Nat.le_refl _)) ?_
      · intro k2 c2 st2
        exact visitNode1_scopes_len _ _ _ _ _ _
      · intro k2 c2 st2
        exact ih _ _ c2 _ st2
      · exact spec_cons _ _ ⟨⟨[], by simp⟩, Or.inl rfl⟩
    | sourceFile sts =>
      simp only [visitNode1]
      refine spec_trans (spec_weaken (goList_specW _ _ _ ?_ ?_ _ _ _)
          ⟨[], (List.append_nil p).symm⟩ (Or.inl rfl) (Nat.le_refl _)) ?_
      · intro k2 c2 st2
        exact visitNode1_scopes_len _ _ _ _ _ _
      · intro k2 c2 st2
        exact ih _ _ c2 _ st2
      · exact spec_cons _ _ ⟨⟨[], by simp⟩, Or.inl rfl⟩
    | variableDeclarationList fl ds =>
      simp only [visitNode1]
      refine spec_trans (spec_weaken (goList_specW _ _ _ ?_ ?_ _ _ _)
          ⟨[], (List.append_nil p).symm⟩ (Or.inl rfl) (Nat.le_refl _)) ?_
      · intro k2 c2 st2
        exact visitNode1_scopes_len _ _ _ _ _ _
      · intro k2 c2 st2
        exact ih _ _ c2 _ st2
      · exact spec_cons _ _ ⟨⟨[], by simp⟩, Or.inl rfl⟩
    | objectBindingPattern els =>
      simp only [visitNode1]
      refine spec_trans (spec_weaken (goList_specW _ _ _ ?_ ?_ _ _ _)
          ⟨[], (List.append_nil p).symm⟩ (Or.inl rfl) (Nat.le_refl _)) ?_
      · intro k2 c2 st2
        exact visitNode1_scopes_len _ _ _ _ _ _
      · intro k2 c2 st2
        exact ih _ _ c2 _ st2
      · exact spec_cons _ _ ⟨⟨[], by simp⟩, Or.inl rfl⟩
    | arrayBindingPattern els =>
      simp only [visitNode1]
      refine spec_trans (spec_weaken (goList_specW _ _ _ ?_ ?_ _ _ _)
          ⟨[], (List.append_nil p).symm⟩ (Or.inl rfl) (Nat.le_refl _)) ?_
      · intro k2 c2 st2
        exact visitNode1_scopes_len _ _ _ _ _ _
      · intro k2 c2 st2
        exact ih _ _ c2 _ st2
      · exact spec_cons _ _ ⟨⟨[], by simp⟩, Or.inl rfl⟩
    | bindingElement prop bnm bini =>
      simp only [visitNode1]
      refine spec_trans (spec_weaken (goList_specW _ _ _ ?_ ?_ _ _ _)
          ⟨[], (List.append_nil p).symm⟩ (Or.inl rfl) (Nat.le_refl _)) ?_
      · intro k2 c2 st2
        exact visitNode1_scopes_len _ _ _ _ _ _
      · intro k2 c2 st2
        exact ih _ _ c2 _ st2
      · exact spec_cons _ _ ⟨⟨[], by simp⟩, Or.inl rfl⟩
    | parameter pnm pini =>
      simp only [visitNode1]
      refine spec_trans (spec_weaken (goList_specW _ _ _ ?_ ?_ _ _ _)
          ⟨[], (List.append_nil p).symm⟩ (Or.inl rfl) (Nat.le_refl _)) ?_
      · intro k2 c2 st2
        exact visitNode1_scopes_len _ _ _ _ _ _
      · intro k2 c2 st2
        exact ih _ _ c2 _ st2
      · exact spec_cons _ _ ⟨⟨[], by simp⟩, Or.inl rfl⟩
    | expressionStatement e =>
      simp only [visitNode1]
      refine spec_trans (spec_weaken (goList_specW _ _ _ ?_ ?_ _ _ _)
          ⟨[], (List.append_nil p).symm⟩ (Or.inl rfl) (Nat.le_refl _)) ?_
      · intro k2 c2 st2
        exact visitNode1_scopes_len _ _ _ _ _ _
      · intro k2 c2 st2
        exact ih _ _ c2 _ st2
      · exact spec_cons _ _ ⟨⟨[], by simp⟩, Or.inl rfl⟩
    | binaryExpression l op r =>
      simp only [visitNode1]
      refine spec_trans (spec_weaken (goList_specW _ _ _ ?_ ?_ _ _ _)
          ⟨[], (List.append_nil p).symm⟩ (Or.inl rfl) (Nat.le_refl _)) ?_
      · intro k2 c2 st2
        exact visitNode1_scopes_len _ _ _ _ _ _
      · intro k2 c2 st2
        exact ih _ _ c2 _ st2
      · exact spec_cons _ _ ⟨⟨[], by simp⟩, Or.inl rfl⟩
    | computedPropertyName e =>
      simp only [visitNode1]
      refine spec_trans (spec_weaken (goList_specW _ _ _ ?_ ?_ _ _ _)
          ⟨[], (List.append_nil p).symm⟩ (Or.inl rfl) (Nat.le_refl _)) ?_
      · intro k2 c2 st2
        exact visitNode1_scopes_len _ _ _ _ _ _
      · intro k2 c2 st2
        exact ih _ _ c2 _ st2
      · exact spec_cons _ _ ⟨⟨[], by simp⟩, Or.inl rfl⟩
    | otherNode cs =>
      simp only [visitNode1]
      refine spec_trans (spec_weaken (goList_specW _ _ _ ?_ ?_ _ _ _)
          ⟨[], (List.append_nil p).symm⟩ (Or.inl rfl) (Nat.le_refl _)) ?_
      · intro k2 c2 st2
        exact visitNode1_scopes_len _ _ _ _ _ _
      · intro k2 c2 st2
        exact ih _ _ c2 _ st2
      · exact spec_cons _ _ ⟨⟨[], by simp⟩, Or.inl rfl⟩
    | block sts =>
      simp only [visitNode1]
      refine spec_trans (spec_weaken (goList_specW _ _ _ ?_ ?_ _ _ _)
          ⟨[], (List.append_nil p).symm⟩ (Or.inr (Nat.le_refl _)) ?_) ?_
      · intro k2 c2 st2
        exact visitNode1_scopes_len _ _ _ _ _ _
      · intro k2 c2 st2
        exact ih _ _ c2 _ st2
      · rw [newChildScope_length]
        exact Nat.le_succ _
      · exact spec_cons _ _ ⟨⟨[], by simp⟩, Or.inl rfl⟩
    | variableDeclaration vnm vini =>
      simp only [visitNode1]
      refine spec_trans (spec_weaken (goList_specW _ _ _ ?_ ?_ _ _ _)
          ⟨[], (List.append_nil p).symm⟩ (Or.inl rfl) ?_) ?_
      · intro k2 c2 st2
        exact visitNode1_scopes_len _ _ _ _ _ _
      · intro k2 c2 st2
        exact ih _ _ c2 _ st2
      · cases par with
        | none => exact Nat.le_refl _
        | some pn =>
          cases pn
          case variableDeclarationList fl2 ds2 =>
            dsimp only
            rw [bindName_scopes_length]
          all_goals exact Nat.le_refl _
      · cases par with
        | none => exact spec_cons _ _ ⟨⟨[], by simp⟩, Or.inl rfl⟩
        | some pn =>
          cases pn
          case variableDeclarationList fl2 ds2 =>
            dsimp only
            refine spec_trans (spec_of_eq (bindName_scopesMap _ _ _ _ _ _ _)) ?_
            exact spec_cons _ _ ⟨⟨[], by simp⟩, Or.inl rfl⟩
          all_goals exact spec_cons _ _ ⟨⟨[], by simp⟩, Or.inl rfl⟩
    | classDeclaration cname ms =>
      simp only [visitNode1]
      refine spec_trans (spec_weaken (goList_specW _ _ _ ?_ ?_ _ _ _)
          ⟨[], (List.append_nil p).symm⟩ (Or.inr ?_) ?_) ?_
      · intro k2 c2 st2
        exact visitNode1_scopes_len _ _ _ _ _ _
      · intro k2 c2 st2
        exact ih _ _ c2 _ st2
      · cases cname with
        | none => exact Nat.le_refl _
        | some t => rw [addBinding_scopes_length]
      · cases cname with
        | none =>
          rw [addBinding_scopes_length, newChildScope_length]
          exact Nat.le_succ _
        | some t =>
          rw [addBinding_scopes_length, newChildScope_length, addBinding_scopes_length]
          exact Nat.le_succ _
      · refine spec_trans (spec_of_eq (addBinding_scopesMap _ _ _ _)) ?_
        cases cname with
        | none => exact spec_cons _ _ ⟨⟨[], by simp⟩, Or.inl rfl⟩
        | some t =>
          refine spec_trans (spec_of_eq (addBinding_scopesMap _ _ _ _)) ?_
          exact spec_cons _ _ ⟨⟨[], by simp⟩, Or.inl rfl⟩
    | functionDeclaration fname ps body =>
      cases fname with
      | none =>
        cases body with
        | none =>
          simp only [visitNode1, Option.isSome_none, Bool.false_eq_true, reduceIte]
          refine spec_trans (spec_weaken (goList_specW _ _ _ ?_ ?_ _ _ _)
              ⟨[], (List.append_nil p).symm⟩ (Or.inr ?_) ?_) ?_
          · intro k2 c2 st2
            cases c2
            case parameter pnm2 pini2 =>
              dsimp only
              rw [bindParameterName_scopes_length]
              exact visitNode1_scopes_len _ _ _ _ _ _
            all_goals exact visitNode1_scopes_len _ _ _ _ _ _
          · intro k2 c2 st2
            obtain ⟨B, hB, hP⟩ := ih _ (p ++ [k2]) c2 _ st2
            refine ⟨B, ?_, ?_⟩
            · cases c2 <;>
                first
                  | exact hB
                  | exact (bindName_scopesMap _ _ _ _ _ _ _).trans hB
            · intro en hen
              exact hP en hen
          ·
            exact Nat.le_refl _
          ·
            rw [newChildScope_length]
            exact Nat.le_succ _
          ·
            refine spec_trans (setChildren_specW p sc st.scopes.length _ _ _) ?_
            exact spec_cons _ _ ⟨⟨[], by simp⟩, Or.inl rfl⟩
        | some b =>
          cases hb : b.isBlockNode with
          | true =>
            simp only [visitNode1, Option.isSome_none, Bool.false_eq_true, reduceIte, hb]
            refine spec_trans (spec_weaken (goList_specW _ _ _ ?_ ?_ _ _ _)
                ⟨_, rfl⟩ (Or.inr ?_) ?_) ?_
            · intro k2 c2 st2
              exact visitNode1_scopes_len _ _ _ _ _ _
            · intro k2 c2 st2
              exact ih _ _ c2 _ st2
            ·
              exact Nat.le_refl _
            · refine Nat.le_trans ?_ (goList_len _ _ ?_ _ _ _ _)
              ·
                rw [newChildScope_length]
                exact Nat.le_succ _
              · intro p3 k2 c2 sc3 st2
                cases c2
                case parameter pnm2 pini2 =>
                  dsimp only
                  rw [bindParameterName_scopes_length]
                  exact visitNode1_scopes_len _ _ _ _ _ _
                all_goals exact visitNode1_scopes_len _ _ _ _ _ _
            · refine spec_trans (spec_cons _ _ ⟨⟨_, rfl⟩, Or.inr ?_⟩) ?_
              ·
                exact Nat.le_refl _
              ·
                refine spec_trans (spec_weaken (goList_specW _ _ _ ?_ ?_ _ _ _)
                    ⟨[], (List.append_nil p).symm⟩ (Or.inr ?_) ?_) ?_
                · intro k2 c2 st2
                  cases c2
                  case parameter pnm2 pini2 =>
                    dsimp only
                    rw [bindParameterName_scopes_length]
                    exact visitNode1_scopes_len _ _ _ _ _ _
                  all_goals exact visitNode1_scopes_len _ _ _ _ _ _
                · intro k2 c2 st2
                  obtain ⟨B, hB, hP⟩ := ih _ (p ++ [k2]) c2 _ st2
                  refine ⟨B, ?_, ?_⟩
                  · cases c2 <;>
                      first
                        | exact hB
                        | exact (bindName_scopesMap _ _ _ _ _ _ _).trans hB
                  · intro en hen
                    exact hP en hen
                ·
                  exact Nat.le_refl _
                ·
                  rw [newChildScope_length]
                  exact Nat.le_succ _
                ·
                  refine spec_trans (setChildren_specW p sc st.scopes.length _ _ _) ?_
                  exact spec_cons _ _ ⟨⟨[], by simp⟩, Or.inl rfl⟩
          | false =>
            simp only [visitNode1, Option.isSome_none, Bool.false_eq_true, reduceIte, hb, Bool.false_eq_true]
            refine spec_trans (spec_weaken (ih _ _ b _ _) ⟨_, rfl⟩ (Or.inr ?_) ?_) ?_
            ·
              exact Nat.le_refl _
            · refine Nat.le_trans ?_ (goList_len _ _ ?_ _ _ _ _)
              ·
                rw [newChildScope_length]
                exact Nat.le_succ _
              · intro p3 k2 c2 sc3 st2
                cases c2
                case parameter pnm2 pini2 =>
                  dsimp only
                  rw [bindParameterName_scopes_length]
                  exact visitNode1_scopes_len _ _ _ _ _ _
                all_goals exact visitNode1_scopes_len _ _ _ _ _ _
            ·
              refine spec_trans (spec_weaken (goList_specW _ _ _ ?_ ?_ _ _ _)
                  ⟨[], (List.append_nil p).symm⟩ (Or.inr ?_) ?_) ?_
              · intro k2 c2 st2
                cases c2
                case parameter pnm2 pini2 =>
                  dsimp only
                  rw [bindParameterName_scopes_length]
                  exact visitNode1_scopes_len _ _ _ _ _ _
                all_goals exact visitNode1_scopes_len _ _ _ _ _ _
              · intro k2 c2 st2
                obtain ⟨B, hB, hP⟩ := ih _ (p ++ [k2]) c2 _ st2
                refine ⟨B, ?_, ?_⟩
                · cases c2 <;>
                    first
                      | exact hB
                      | exact (bindName_scopesMap _ _ _ _ _ _ _).trans hB
                · intro en hen
                  exact hP en hen
              ·
                exact Nat.le_refl _
              ·
                rw [newChildScope_length]
                exact Nat.le_succ _
              ·
                refine spec_trans (setChildren_specW p sc st.scopes.length _ _ _) ?_
                exact spec_cons _ _ ⟨⟨[], by simp⟩, Or.inl rfl⟩
      | some t =>
        cases body with
        | none =>
          simp only [visitNode1, Option.isSome_some, reduceIte]
          refine spec_trans (spec_weaken (goList_specW _ _ _ ?_ ?_ _ _ _)
              ⟨[], (List.append_nil p).symm⟩ (Or.inr ?_) ?_) ?_
          · intro k2 c2 st2
            cases c2
            case parameter pnm2 pini2 =>
              dsimp only
              rw [bindParameterName_scopes_length]
              exact visitNode1_scopes_len _ _ _ _ _ _
            all_goals exact visitNode1_scopes_len _ _ _ _ _ _
          · intro k2 c2 st2
            obtain ⟨B, hB, hP⟩ := ih _ (p ++ [k2]) c2 _ st2
            refine ⟨B, ?_, ?_⟩
            · cases c2 <;>
                first
                  | exact hB
                  | exact (bindName_scopesMap _ _ _ _ _ _ _).trans hB
            · intro en hen
              exact hP en hen
          ·
            rw [addBinding_scopes_length]
            exact Nat.le_refl _
          ·
            rw [newChildScope_length, addBinding_scopes_length]
            exact Nat.le_succ _
          ·
            refine spec_trans (spec_of_eq (addBinding_scopesMap _ _ _ _)) ?_
            refine spec_trans (spec_cons _ _ ⟨⟨[0], rfl⟩, Or.inl rfl⟩) ?_
            refine spec_trans (setChildren_specW p sc st.scopes.length _ _ _) ?_
            exact spec_cons _ _ ⟨⟨[], by simp⟩, Or.inl rfl⟩
        | some b =>
          cases hb : b.isBlockNode with
          | true =>
            simp only [visitNode1, Option.isSome_some, reduceIte, hb]
            refine spec_trans (spec_weaken (goList_specW _ _ _ ?_ ?_ _ _ _)
                ⟨_, rfl⟩ (Or.inr ?_) ?_) ?_
            · intro k2 c2 st2
              exact visitNode1_scopes_len _ _ _ _ _ _
            · intro k2 c2 st2
              exact ih _ _ c2 _ st2
            ·
              rw [addBinding_scopes_length]
              exact Nat.le_refl _
            · refine Nat.le_trans ?_ (goList_len _ _ ?_ _ _ _ _)
              ·
                rw [newChildScope_length, addBinding_scopes_length]
                exact Nat.le_succ _
              · intro p3 k2 c2 sc3 st2
                cases c2
                case parameter pnm2 pini2 =>
                  dsimp only
                  rw [bindParameterName_scopes_length]
                  exact visitNode1_scopes_len _ _ _ _ _ _
                all_goals exact visitNode1_scopes_len _ _ _ _ _ _
            · refine spec_trans (spec_cons _ _ ⟨⟨_, rfl⟩, Or.inr ?_⟩) ?_
              ·
                rw [addBinding_scopes_length]
                exact Nat.le_refl _
              ·
                refine spec_trans (spec_weaken (goList_specW _ _ _ ?_ ?_ _ _ _)
                    ⟨[], (List.append_nil p).symm⟩ (Or.inr ?_) ?_) ?_
                · intro k2 c2 st2
                  cases c2
                  case parameter pnm2 pini2 =>
                    dsimp only
                    rw [bindParameterName_scopes_length]
                    exact visitNode1_scopes_len _ _ _ _ _ _
                  all_goals exact visitNode1_scopes_len _ _ _ _ _ _
                · intro k2 c2 st2
                  obtain ⟨B, hB, hP⟩ := ih _ (p ++ [k2]) c2 _ st2
                  refine ⟨B, ?_, ?_⟩
                  · cases c2 <;>
                      first
                        | exact hB
                        | exact (bindName_scopesMap _ _ _ _ _ _ _).trans hB
                  · intro en hen
                    exact hP en hen
                ·
                  rw [addBinding_scopes_length]
                  exact Nat.le_refl _
                ·
                  rw [newChildScope_length, addBinding_scopes_length]
                  exact Nat.le_succ _
                ·
                  refine spec_trans (spec_of_eq (addBinding_scopesMap _ _ _ _)) ?_
                  refine spec_trans (spec_cons _ _ ⟨⟨[0], rfl⟩, Or.inl rfl⟩) ?_
                  refine spec_trans (setChildren_specW p sc st.scopes.length _ _ _) ?_
                  exact spec_cons _ _ ⟨⟨[], by simp⟩, Or.inl rfl⟩
          | false =>
            simp only [visitNode1, Option.isSome_some, reduceIte, hb, Bool.false_eq_true]
            refine spec_trans (spec_weaken (ih _ _ b _ _) ⟨_, rfl⟩ (Or.inr ?_) ?_) ?_
            ·
              rw [addBinding_scopes_length]
              exact Nat.le_refl _
            · refine Nat.le_trans ?_ (goList_len _ _ ?_ _ _ _ _)
              ·
                rw [newChildScope_length, addBinding_scopes_length]
                exact Nat.le_succ _
              · intro p3 k2 c2 sc3 st2
                cases c2
                case parameter pnm2 pini2 =>
                  dsimp only
                  rw [bindParameterName_scopes_length]
                  exact visitNode1_scopes_len _ _ _ _ _ _
                all_goals exact visitNode1_scopes_len _ _ _ _ _ _
            ·
              refine spec_trans (spec_weaken (goList_specW _ _ _ ?_ ?_ _ _ _)
                  ⟨[], (List.append_nil p).symm⟩ (Or.inr ?_) ?_) ?_
              · intro k2 c2 st2
                cases c2
                case parameter pnm2 pini2 =>
                  dsimp only
                  rw [bindParameterName_scopes_length]
                  exact visitNode1_scopes_len _ _ _ _ _ _
                all_goals exact visitNode1_scopes_len _ _ _ _ _ _
              · intro k2 c2 st2
                obtain ⟨B, hB, hP⟩ := ih _ (p ++ [k2]) c2 _ st2
                refine ⟨B, ?_, ?_⟩
                · cases c2 <;>
                    first
                      | exact hB
                      | exact (bindName_scopesMap _ _ _ _ _ _ _).trans hB
                · intro en hen
                  exact hP en hen
              ·
                rw [addBinding_scopes_length]
                exact Nat.le_refl _
              ·
                rw [newChildScope_length, addBinding_scopes_length]
                exact Nat.le_succ _
              ·
                refine spec_trans (spec_of_eq (addBinding_scopesMap _ _ _ _)) ?_
                refine spec_trans (spec_cons _ _ ⟨⟨[0], rfl⟩, Or.inl rfl⟩) ?_
                refine spec_trans (setChildren_specW p sc st.scopes.length _ _ _) ?_
                exact spec_cons _ _ ⟨⟨[], by simp⟩, Or.inl rfl⟩
    | functionExpression fname ps body =>
      cases fname with
      | none =>
        cases body with
        | none =>
          simp only [visitNode1, Option.isSome_none, Bool.false_eq_true, reduceIte]
          refine spec_trans (spec_weaken (goList_specW _ _ _ ?_ ?_ _ _ _)
              ⟨[], (List.append_nil p).symm⟩ (Or.inr ?_) ?_) ?_
          · intro k2 c2 st2
            cases c2
            case parameter pnm2 pini2 =>
              dsimp only
              rw [bindParameterName_scopes_length]
              exact visitNode1_scopes_len _ _ _ _ _ _
            all_goals exact visitNode1_scopes_len _ _ _ _ _ _
          · intro k2 c2 st2
            obtain ⟨B, hB, hP⟩ := ih _ (p ++ [k2]) c2 _ st2
            refine ⟨B, ?_, ?_⟩
            · cases c2 <;>
                first
                  | exact hB
                  | exact (bindName_scopesMap _ _ _ _ _ _ _).trans hB
            · intro en hen
              exact hP en hen
          ·
            exact Nat.le_refl _
          ·
            rw [newChildScope_length]
            exact Nat.le_succ _
          ·
            refine spec_trans (setChildren_specW p sc st.scopes.length _ _ _) ?_
            exact spec_cons _ _ ⟨⟨[], by simp⟩, Or.inl rfl⟩
        | some b =>
          cases hb : b.isBlockNode with
          | true =>
            simp only [visitNode1, Option.isSome_none, Bool.false_eq_true, reduceIte, hb]
            refine spec_trans (spec_weaken (goList_specW _ _ _ ?_ ?_ _ _ _)
                ⟨_, rfl⟩ (Or.inr ?_) ?_) ?_
            · intro k2 c2 st2
              exact visitNode1_scopes_len _ _ _ _ _ _
            · intro k2 c2 st2
              exact ih _ _ c2 _ st2
            ·
              exact Nat.le_refl _
            · refine Nat.le_trans ?_ (goList_len _ _ ?_ _ _ _ _)
              ·
                rw [newChildScope_length]
                exact Nat.le_succ _
              · intro p3 k2 c2 sc3 st2
                cases c2
                case parameter pnm2 pini2 =>
                  dsimp only
                  rw [bindParameterName_scopes_length]
                  exact visitNode1_scopes_len _ _ _ _ _ _
                all_goals exact visitNode1_scopes_len _ _ _ _ _ _
            · refine spec_trans (spec_cons _ _ ⟨⟨_, rfl⟩, Or.inr ?_⟩) ?_
              ·
                exact Nat.le_refl _
              ·
                refine spec_trans (spec_weaken (goList_specW _ _ _ ?_ ?_ _ _ _)
                    ⟨[], (List.append_nil p).symm⟩ (Or.inr ?_) ?_) ?_
                · intro k2 c2 st2
                  cases c2
                  case parameter pnm2 pini2 =>
                    dsimp only
                    rw [bindParameterName_scopes_length]
                    exact visitNode1_scopes_len _ _ _ _ _ _
                  all_goals exact visitNode1_scopes_len _ _ _ _ _ _
                · intro k2 c2 st2
                  obtain ⟨B, hB, hP⟩ := ih _ (p ++ [k2]) c2 _ st2
                  refine ⟨B, ?_, ?_⟩
                  · cases c2 <;>
                      first
                        | exact hB
                        | exact (bindName_scopesMap _ _ _ _ _ _ _).trans hB
                  · intro en hen
                    exact hP en hen
                ·
                  exact Nat.le_refl _
                ·
                  rw [newChildScope_length]
                  exact Nat.le_succ _
                ·
                  refine spec_trans (setChildren_specW p sc st.scopes.length _ _ _) ?_
                  exact spec_cons _ _ ⟨⟨[], by simp⟩, Or.inl rfl⟩
          | false =>
            simp only [visitNode1, Option.isSome_none, Bool.false_eq_true, reduceIte, hb, Bool.false_eq_true]
            refine spec_trans (spec_weaken (ih _ _ b _ _) ⟨_, rfl⟩ (Or.inr ?_) ?_) ?_
            ·
              exact Nat.le_refl _
            · refine Nat.le_trans ?_ (goList_len _ _ ?_ _ _ _ _)
              ·
                rw [newChildScope_length]
                exact Nat.le_succ _
              · intro p3 k2 c2 sc3 st2
                cases c2
                case parameter pnm2 pini2 =>
                  dsimp only
                  rw [bindParameterName_scopes_length]
                  exact visitNode1_scopes_len _ _ _ _ _ _
                all_goals exact visitNode1_scopes_len _ _ _ _ _ _
            ·
              refine spec_trans (spec_weaken (goList_specW _ _ _ ?_ ?_ _ _ _)
                  ⟨[], (List.append_nil p).symm⟩ (Or.inr ?_) ?_) ?_
              · intro k2 c2 st2
                cases c2
                case parameter pnm2 pini2 =>
                  dsimp only
                  rw [bindParameterName_scopes_length]
                  exact visitNode1_scopes_len _ _ _ _ _ _
                all_goals exact visitNode1_scopes_len _ _ _ _ _ _
              · intro k2 c2 st2
                obtain ⟨B, hB, hP⟩ := ih _ (p ++ [k2]) c2 _ st2
                refine ⟨B, ?_, ?_⟩
                · cases c2 <;>
                    first
                      | exact hB
                      | exact (bindName_scopesMap _ _ _ _ _ _ _).trans hB
                · intro en hen
                  exact hP en hen
              ·
                exact Nat.le_refl _
              ·
                rw [newChildScope_length]
                exact Nat.le_succ _
              ·
                refine spec_trans (setChildren_specW p sc st.scopes.length _ _ _) ?_
                exact spec_cons _ _ ⟨⟨[], by simp⟩, Or.inl rfl⟩
      | some t =>
        cases body with
        | none =>
          simp only [visitNode1, Option.isSome_some, reduceIte]
          refine spec_trans (spec_weaken (goList_specW _ _ _ ?_ ?_ _ _ _)
              ⟨[], (List.append_nil p).symm⟩ (Or.inr ?_) ?_) ?_
          · intro k2 c2 st2
            cases c2
            case parameter pnm2 pini2 =>
              dsimp only
              rw [bindParameterName_scopes_length]
              exact visitNode1_scopes_len _ _ _ _ _ _
            all_goals exact visitNode1_scopes_len _ _ _ _ _ _
          · intro k2 c2 st2
            obtain ⟨B, hB, hP⟩ := ih _ (p ++ [k2]) c2 _ st2
            refine ⟨B, ?_, ?_⟩
            · cases c2 <;>
                first
                  | exact hB
                  | exact (bindName_scopesMap _ _ _ _ _ _ _).trans hB
            · intro en hen
              exact hP en hen
          ·
            rw [addBinding_scopes_length]
            exact Nat.le_refl _
          ·
            rw [newChildScope_length, addBinding_scopes_length]
            exact Nat.le_succ _
          ·
            refine spec_trans (spec_of_eq (addBinding_scopesMap _ _ _ _)) ?_
            refine spec_trans (spec_cons _ _ ⟨⟨[0], rfl⟩, Or.inl rfl⟩) ?_
            refine spec_trans (setChildren_specW p sc st.scopes.length _ _ _) ?_
            exact spec_cons _ _ ⟨⟨[], by simp⟩, Or.inl rfl⟩
        | some b =>
          cases hb : b.isBlockNode with
          | true =>
            simp only [visitNode1, Option.isSome_some, reduceIte, hb]
            refine spec_trans (spec_weaken (goList_specW _ _ _ ?_ ?_ _ _ _)
                ⟨_, rfl⟩ (Or.inr ?_) ?_) ?_
            · intro k2 c2 st2
              exact visitNode1_scopes_len _ _ _ _ _ _
            · intro k2 c2 st2
              exact ih _ _ c2 _ st2
            ·
              rw [addBinding_scopes_length]
              exact Nat.le_refl _
            · refine Nat.le_trans ?_ (goList_len _ _ ?_ _ _ _ _)
              ·
                rw [newChildScope_length, addBinding_scopes_length]
                exact Nat.le_succ _
              · intro p3 k2 c2 sc3 st2
                cases c2
                case parameter pnm2 pini2 =>
                  dsimp only
                  rw [bindParameterName_scopes_length]
                  exact visitNode1_scopes_len _ _ _ _ _ _
                all_goals exact visitNode1_scopes_len _ _ _ _ _ _
            · refine spec_trans (spec_cons _ _ ⟨⟨_, rfl⟩, Or.inr ?_⟩) ?_
              ·
                rw [addBinding_scopes_length]
                exact Nat.le_refl _
              ·
                refine spec_trans (spec_weaken (goList_specW _ _ _ ?_ ?_ _ _ _)
                    ⟨[], (List.append_nil p).symm⟩ (Or.inr ?_) ?_) ?_
                · intro k2 c2 st2
                  cases c2
                  case parameter pnm2 pini2 =>
                    dsimp only
                    rw [bindParameterName_scopes_length]
                    exact visitNode1_scopes_len _ _ _ _ _ _
                  all_goals exact visitNode1_scopes_len _ _ _ _ _ _
                · intro k2 c2 st2
                  obtain ⟨B, hB, hP⟩ := ih _ (p ++ [k2]) c2 _ st2
                  refine ⟨B, ?_, ?_⟩
                  · cases c2 <;>
                      first
                        | exact hB
                        | exact (bindName_scopesMap _ _ _ _ _ _ _).trans hB
                  · intro en hen
                    exact hP en hen
                ·
                  rw [addBinding_scopes_length]
                  exact Nat.le_refl _
                ·
                  rw [newChildScope_length, addBinding_scopes_length]
                  exact Nat.le_succ _
                ·
                  refine spec_trans (spec_of_eq (addBinding_scopesMap _ _ _ _)) ?_
                  refine spec_trans (spec_cons _ _ ⟨⟨[0], rfl⟩, Or.inl rfl⟩) ?_
                  refine spec_trans (setChildren_specW p sc st.scopes.length _ _ _) ?_
                  exact spec_cons _ _ ⟨⟨[], by simp⟩, Or.inl rfl⟩
          | false =>
            simp only [visitNode1, Option.isSome_some, reduceIte, hb, Bool.false_eq_true]
            refine spec_trans (spec_weaken (ih _ _ b _ _) ⟨_, rfl⟩ (Or.inr ?_) ?_) ?_
            ·
              rw [addBinding_scopes_length]
              exact Nat.le_refl _
            · refine Nat.le_trans ?_ (goList_len _ _ ?_ _ _ _ _)
              ·
                rw [newChildScope_length, addBinding_scopes_length]
                exact Nat.le_succ _
              · intro p3 k2 c2 sc3 st2
                cases c2
                case parameter pnm2 pini2 =>
                  dsimp only
                  rw [bindParameterName_scopes_length]
                  exact visitNode1_scopes_len _ _ _ _ _ _
                all_goals exact visitNode1_scopes_len _ _ _ _ _ _
            ·
              refine spec_trans (spec_weaken (goList_specW _ _ _ ?_ ?_ _ _ _)
                  ⟨[], (List.append_nil p).symm⟩ (Or.inr ?_) ?_) ?_
              · intro k2 c2 st2
                cases c2
                case parameter pnm2 pini2 =>
                  dsimp only
                  rw [bindParameterName_scopes_length]
                  exact visitNode1_scopes_len _ _ _ _ _ _
                all_goals exact visitNode1_scopes_len _ _ _ _ _ _
              · intro k2 c2 st2
                obtain ⟨B, hB, hP⟩ := ih _ (p ++ [k2]) c2 _ st2
                refine ⟨B, ?_, ?_⟩
                · cases c2 <;>
                    first
                      | exact hB
                      | exact (bindName_scopesMap _ _ _ _ _ _ _).trans hB
                · intro en hen
                  exact hP en hen
              ·
                rw [addBinding_scopes_length]
                exact Nat.le_refl _
              ·
                rw [newChildScope_length, addBinding_scopes_length]
                exact Nat.le_succ _
              ·
                refine spec_trans (spec_of_eq (addBinding_scopesMap _ _ _ _)) ?_
                refine spec_trans (spec_cons _ _ ⟨⟨[0], rfl⟩, Or.inl rfl⟩) ?_
                refine spec_trans (setChildren_specW p sc st.scopes.length _ _ _) ?_
                exact spec_cons _ _ ⟨⟨[], by simp⟩, Or.inl rfl⟩
    | arrowFunction ps body =>
      cases hb : body.isBlockNode with
      | true =>
        simp only [visitNode1, hb, reduceIte]
        refine spec_trans (spec_weaken (goList_specW _ _ _ ?_ ?_ _ _ _)
            ⟨_, rfl⟩ (Or.inr (Nat.le_refl _)) ?_) ?_
        · intro k2 c2 st2
          exact visitNode1_scopes_len _ _ _ _ _ _
        · intro k2 c2 st2
          exact ih _ _ c2 _ st2
        · refine Nat.le_trans ?_ (goList_len _ _ ?_ _ _ _ _)
          · rw [newChildScope_length]
            exact Nat.le_succ _
          · intro p3 k2 c2 sc3 st2
            cases c2
            case parameter pnm2 pini2 =>
              dsimp only
              rw [bindParameterName_scopes_length]
              exact visitNode1_scopes_len _ _ _ _ _ _
            all_goals exact visitNode1_scopes_len _ _ _ _ _ _
        · refine spec_trans (spec_cons _ _ ⟨⟨_, rfl⟩, Or.inr (Nat.le_refl _)⟩) ?_
          · refine spec_trans (spec_weaken (goList_specW _ _ _ ?_ ?_ _ _ _)
                ⟨[], (List.append_nil p).symm⟩ (Or.inr (Nat.le_refl _)) ?_) ?_
            · intro k2 c2 st2
              cases c2
              case parameter pnm2 pini2 =>
                dsimp only
                rw [bindParameterName_scopes_length]
                exact visitNode1_scopes_len _ _ _ _ _ _
              all_goals exact visitNode1_scopes_len _ _ _ _ _ _
            · intro k2 c2 st2
              obtain ⟨B, hB, hP⟩ := ih _ (p ++ [k2]) c2 _ st2
              refine ⟨B, ?_, ?_⟩
              · cases c2 <;>
                  first
                    | exact hB
                    | exact (bindName_scopesMap _ _ _ _ _ _ _).trans hB
              · intro en hen
                exact hP en hen
            · rw [newChildScope_length]
              exact Nat.le_succ _
            · refine spec_trans (setChildren_specW p sc st.scopes.length _ _ _) ?_
              exact spec_cons _ _ ⟨⟨[], by simp⟩, Or.inl rfl⟩
      | false =>
        simp only [visitNode1, hb, Bool.false_eq_true, reduceIte]
        refine spec_trans (spec_weaken (ih _ _ body _ _) ⟨_, rfl⟩
            (Or.inr (Nat.le_refl _)) ?_) ?_
        · refine Nat.le_trans ?_ (goList_len _ _ ?_ _ _ _ _)
          · rw [newChildScope_length]
            exact Nat.le_succ _
          · intro p3 k2 c2 sc3 st2
            cases c2
            case parameter pnm2 pini2 =>
              dsimp only
              rw [bindParameterName_scopes_length]
              exact visitNode1_scopes_len _ _ _ _ _ _
            all_goals exact visitNode1_scopes_len _ _ _ _ _ _
        · refine spec_trans (spec_weaken (goList_specW _ _ _ ?_ ?_ _ _ _)
              ⟨[], (List.append_nil p).symm⟩ (Or.inr (Nat.le_refl _)) ?_) ?_
          · intro k2 c2 st2
            cases c2
            case parameter pnm2 pini2 =>
              dsimp only
              rw [bindParameterName_scopes_length]
              exact visitNode1_scopes_len _ _ _ _ _ _
            all_goals exact visitNode1_scopes_len _ _ _ _ _ _
          · intro k2 c2 st2
            obtain ⟨B, hB, hP⟩ := ih _ (p ++ [k2]) c2 _ st2
            refine ⟨B, ?_, ?_⟩
            · cases c2 <;>
                first
                  | exact hB
                  | exact (bindName_scopesMap _ _ _ _ _ _ _).trans hB
            · intro en hen
              exact hP en hen
          · rw [newChildScope_length]
            exact Nat.le_succ _
          · refine spec_trans (setChildren_specW p sc st.scopes.length _ _ _) ?_
            exact spec_cons _ _ ⟨⟨[], by simp⟩, Or.inl rfl⟩
    | forOfStatement lini le lstmt =>
      cases hb : lstmt.isBlockNode with
      | true =>
        simp only [visitNode1, hb, reduceIte]
        refine spec_trans (spec_weaken (goList_specW _ _ _ ?_ ?_ _ _ _)
            ⟨_, rfl⟩ (Or.inr (Nat.le_refl _)) ?_) ?_
        · intro k2 c2 st2
          exact visitNode1_scopes_len _ _ _ _ _ _
        · intro k2 c2 st2
          exact ih _ _ c2 _ st2
        · refine Nat.le_trans ?_ (visitNode1_scopes_len _ _ _ _ _ _)
          refine Nat.le_trans ?_ (visitNode1_scopes_len _ _ _ _ _ _)
          rw [newChildScope_length]
          exact Nat.le_succ _
        · refine spec_trans (spec_cons _ _ ⟨⟨_, rfl⟩, Or.inr (Nat.le_refl _)⟩) ?_
          · refine spec_trans (spec_weaken (ih _ _ le _ _) ⟨_, rfl⟩ (Or.inl rfl) ?_) ?_
            · refine Nat.le_trans ?_ (visitNode1_scopes_len _ _ _ _ _ _)
              rw [newChildScope_length]
              exact Nat.le_succ _
            · refine spec_trans (spec_weaken (ih _ _ lini _ _) ⟨_, rfl⟩
                  (Or.inr (Nat.le_refl _)) ?_) ?_
              · rw [newChildScope_length]
                exact Nat.le_succ _
              · refine spec_trans (setChildren_specW p sc st.scopes.length _ _ _) ?_
                exact spec_cons _ _ ⟨⟨[], by simp⟩, Or.inl rfl⟩
      | false =>
        simp only [visitNode1, hb, Bool.false_eq_true, reduceIte]
        refine spec_trans (spec_weaken (ih _ _ lstmt _ _) ⟨_, rfl⟩
            (Or.inr (Nat.le_refl _)) ?_) ?_
        · refine Nat.le_trans ?_ (visitNode1_scopes_len _ _ _ _ _ _)
          refine Nat.le_trans ?_ (visitNode1_scopes_len _ _ _ _ _ _)
          rw [newChildScope_length]
          exact Nat.le_succ _
        · refine spec_trans (spec_weaken (ih _ _ le _ _) ⟨_, rfl⟩ (Or.inl rfl) ?_) ?_
          · refine Nat.le_trans ?_ (visitNode1_scopes_len _ _ _ _ _ _)
            rw [newChildScope_length]
            exact Nat.le_succ _
          · refine spec_trans (spec_weaken (ih _ _ lini _ _) ⟨_, rfl⟩
                (Or.inr (Nat.le_refl _)) ?_) ?_
            · rw [newChildScope_length]
              exact Nat.le_succ _
            · refine spec_trans (setChildren_specW p sc st.scopes.length _ _ _) ?_
              exact spec_cons _ _ ⟨⟨[], by simp⟩, Or.inl rfl⟩
    | forInStatement lini le lstmt =>
      cases hb : lstmt.isBlockNode with
      | true =>
        simp only [visitNode1, hb, reduceIte]
        refine spec_trans (spec_weaken (goList_specW _ _ _ ?_ ?_ _ _ _)
            ⟨_, rfl⟩ (Or.inr (Nat.le_refl _)) ?_) ?_
        · intro k2 c2 st2
          exact visitNode1_scopes_len _ _ _ _ _ _
        · intro k2 c2 st2
          exact ih _ _ c2 _ st2
        · refine Nat.le_trans ?_ (visitNode1_scopes_len _ _ _ _ _ _)
          refine Nat.le_trans ?_ (visitNode1_scopes_len _ _ _ _ _ _)
          rw [newChildScope_length]
          exact Nat.le_succ _
        · refine spec_trans (spec_cons _ _ ⟨⟨_, rfl⟩, Or.inr (Nat.le_refl _)⟩) ?_
          · refine spec_trans (spec_weaken (ih _ _ le _ _) ⟨_, rfl⟩ (Or.inl rfl) ?_) ?_
            · refine Nat.le_trans ?_ (visitNode1_scopes_len _ _ _ _ _ _)
              rw [newChildScope_length]
              exact Nat.le_succ _
            · refine spec_trans (spec_weaken (ih _ _ lini _ _) ⟨_, rfl⟩
                  (Or.inr (Nat.le_refl _)) ?_) ?_
              · rw [newChildScope_length]
                exact Nat.le_succ _
              · refine spec_trans (setChildren_specW p sc st.scopes.length _ _ _) ?_
                exact spec_cons _ _ ⟨⟨[], by simp⟩, Or.inl rfl⟩
      | false =>
        simp only [visitNode1, hb, Bool.false_eq_true, reduceIte]
        refine spec_trans (spec_weaken (ih _ _ lstmt _ _) ⟨_, rfl⟩
            (Or.inr (Nat.le_refl _)) ?_) ?_
        · refine Nat.le_trans ?_ (visitNode1_scopes_len _ _ _ _ _ _)
          refine Nat.le_trans ?_ (visitNode1_scopes_len _ _ _ _ _ _)
          rw [newChildScope_length]
          exact Nat.le_succ _
        · refine spec_trans (spec_weaken (ih _ _ le _ _) ⟨_, rfl⟩ (Or.inl rfl) ?_) ?_
          · refine Nat.le_trans ?_ (visitNode1_scopes_len _ _ _ _ _ _)
            rw [newChildScope_length]
            exact Nat.le_succ _
          · refine spec_trans (spec_weaken (ih _ _ lini _ _) ⟨_, rfl⟩
                (Or.inr (Nat.le_refl _)) ?_) ?_
            · rw [newChildScope_length]
              exact Nat.le_succ _
            · refine spec_trans (setChildren_specW p sc st.scopes.length _ _ _) ?_
              exact spec_cons _ _ ⟨⟨[], by simp⟩, Or.inl rfl⟩

theorem entryOkS_val {p : NodePath} {sc2 len2 sc len : Nat} {en : NodePath × Nat}
    (h : entryOkS p sc2 len2 en) (hsc : sc2 = sc ∨ len ≤ sc2) (hlen : len ≤ len2) :
    entryOkS p sc len en := by
  obtain ⟨hp, hv⟩ := h
  refine ⟨hp, ?_⟩
  rcases hv with hv | hv
  · rcases hsc with h2 | h2
    · exact Or.inl (hv.trans h2)
    · exact Or.inr (by omega)
  · exact Or.inr (by omega)

theorem specS_weaken {p : NodePath} {sc2 len2 sc len : Nat} {m1 m2 : ScopesMap}
    (h : ∃ B, m2 = B ++ m1 ∧ ∀ en ∈ B, entryOkS p sc2 len2 en)
    (hsc : sc2 = sc ∨ len ≤ sc2) (hlen : len ≤ len2) :
    ∃ B, m2 = B ++ m1 ∧ ∀ en ∈ B, entryOkS p sc len en := by
  obtain ⟨B, hB, hP⟩ := h
  exact ⟨B, hB, fun en hen => entryOkS_val (hP en hen) hsc hlen⟩

theorem specS_rebase {p : NodePath} {k2 sc2 len2 sc len : Nat} {m1 m2 : ScopesMap}
    (h : ∃ B, m2 = B ++ m1 ∧ ∀ en ∈ B, entryOkS (p ++ [k2]) sc2 len2 en)
    (hsc : sc2 = sc ∨ len ≤ sc2) (hlen : len ≤ len2) :
    ∃ B, m2 = B ++ m1 ∧ ∀ en ∈ B, entryOkS p sc len en := by
  obtain ⟨B, hB, hP⟩ := h
  refine ⟨B, hB, ?_⟩
  intro en hen
  obtain ⟨⟨k, r, hr⟩, hv⟩ := hP en hen
  refine ⟨⟨k2, k :: r, by rw [hr]; simp⟩, ?_⟩
  rcases hv with hv | hv
  · rcases hsc with h2 | h2
    · exact Or.inl (hv.trans h2)
    · exact Or.inr (by omega)
  · exact Or.inr (by omega)

theorem spec_weakenS {p1 p : NodePath} {k sc2 len2 sc len : Nat} {m1 m2 : ScopesMap}
    (h : ∃ B, m2 = B ++ m1 ∧ ∀ en ∈ B, entryOkW p1 sc2 len2 en)
    (hp : ∃ r0, p1 = (p ++ [k]) ++ r0) (hsc : sc2 = sc ∨ len ≤ sc2) (hlen : len ≤ len2) :
    ∃ B, m2 = B ++ m1 ∧ ∀ en ∈ B, entryOkS p sc len en := by
  obtain ⟨B, hB, hP⟩ := h
  exact ⟨B, hB, fun en hen => entryOkS_mono (hP en hen) hp hsc hlen⟩

theorem setChildren_specS (p : NodePath) (sc len : Nat) (cs : List Node) (i : Nat)
    (m : ScopesMap) :
    ∃ B, setChildren p sc i cs m = B ++ m ∧ ∀ en ∈ B, entryOkS p sc len en := by
  obtain ⟨B, hB, hP⟩ := setChildren_entry p sc cs i m
  refine ⟨B, hB, ?_⟩
  intro en hen
  obtain ⟨⟨kk, hk⟩, hvv⟩ := hP en hen
  exact ⟨⟨kk, [], hk⟩, Or.inl hvv⟩

theorem goList_specS (v : NodePath → Nat → Node → Nat → BuildState → BuildState)
    (p2 : NodePath) (sc2 : Nat)
    (hmono : ∀ k c st2, st2.scopes.length ≤ (v p2 k c sc2 st2).scopes.length)
    (hv : ∀ k c st2, ∃ B, (v p2 k c sc2 st2).scopesMap = B ++ st2.scopesMap ∧
      ∀ en ∈ B, entryOkW (p2 ++ [k]) sc2 st2.scopes.length en) :
    ∀ (cs : List Node) (k : Nat) (st2 : BuildState),
      ∃ B, (goList v p2 k cs sc2 st2).scopesMap = B ++ st2.scopesMap ∧
        ∀ en ∈ B, entryOkS p2 sc2 st2.scopes.length en := by
  intro cs
  induction cs with
  | nil => exact fun k st2 => ⟨[], rfl, by simp⟩
  | cons c cs ihc =>
    intro k st2
    obtain ⟨B1, e1, p1⟩ := hv k c st2
    obtain ⟨B2, e2, p2h⟩ := ihc (k + 1) (v p2 k c sc2 st2)
    refine ⟨B2 ++ B1, ?_, ?_⟩
    · simp only [goList, e2, e1, List.append_assoc]
    · intro en hen
      rcases List.mem_append.mp hen with h | h
      · exact entryOkS_val (p2h en h) (Or.inl rfl) (hmono k c st2)
      · exact entryOkS_mono (p1 en h) ⟨[], (List.append_nil _).symm⟩ (Or.inl rfl)
          (Nat.le_refl _)

theorem visitNode1_map_spec_succ :
    ∀ (f : Nat) (par : Option Node) (p : NodePath) (n : Node) (sc : Nat)
      (st : BuildState),
      ∃ B, (visitNode1 (f + 1) par p n sc st).scopesMap = B ++ (p, sc) :: st.scopesMap ∧
        ∀ en ∈ B, entryOkS p sc st.scopes.length en := by
  intro f par p n sc st
  have ih := visitNode1_map_spec f
  cases n with
    | identifier t =>
      simp only [visitNode1]
      refine spec_trans (specS_weaken (goList_specS _ _ _ ?_ ?_ _ _ _)
          (Or.inl rfl) (Nat.le_refl _)) ?_
      · intro k2 c2 st2
        exact visitNode1_scopes_len _ _ _ _ _ _
      · intro k2 c2 st2
        exact ih _ _ c2 _ st2
      · exact spec_of_eq rfl
    | sourceFile sts =>
      simp only [visitNode1]
      refine spec_trans (specS_weaken (goList_specS _ _ _ ?_ ?_ _ _ _)
          (Or.inl rfl) (Nat.le_refl _)) ?_
      · intro k2 c2 st2
        exact visitNode1_scopes_len _ _ _ _ _ _
      · intro k2 c2 st2
        exact ih _ _ c2 _ st2
      · exact spec_of_eq rfl
    | variableDeclarationList fl ds =>
      simp only [visitNode1]
      refine spec_trans (specS_weaken (goList_specS _ _ _ ?_ ?_ _ _ _)
          (Or.inl rfl) (Nat.le_refl _)) ?_
      · intro k2 c2 st2
        exact visitNode1_scopes_len _ _ _ _ _ _
      · intro k2 c2 st2
        exact ih _ _ c2 _ st2
      · exact spec_of_eq rfl
    | objectBindingPattern els =>
      simp only [visitNode1]
      refine spec_trans (specS_weaken (goList_specS _ _ _ ?_ ?_ _ _ _)
          (Or.inl rfl) (Nat.le_refl _)) ?_
      · intro k2 c2 st2
        exact visitNode1_scopes_len _ _ _ _ _ _
      · intro k2 c2 st2
        exact ih _ _ c2 _ st2
      · exact spec_of_eq rfl
    | arrayBindingPattern els =>
      simp only [visitNode1]
      refine spec_trans (specS_weaken (goList_specS _ _ _ ?_ ?_ _ _ _)
          (Or.inl rfl) (Nat.le_refl _)) ?_
      · intro k2 c2 st2
        exact visitNode1_scopes_len _ _ _ _ _ _
      · intro k2 c2 st2
        exact ih _ _ c2 _ st2
      · exact spec_of_eq rfl
    | bindingElement prop bnm bini =>
      simp only [visitNode1]
      refine spec_trans (specS_weaken (goList_specS _ _ _ ?_ ?_ _ _ _)
          (Or.inl rfl) (Nat.le_refl _)) ?_
      · intro k2 c2 st2
        exact visitNode1_scopes_len _ _ _ _ _ _
      · intro k2 c2 st2
        exact ih _ _ c2 _ st2
      · exact spec_of_eq rfl
    | parameter pnm pini =>
      simp only [visitNode1]
      refine spec_trans (specS_weaken (goList_specS _ _ _ ?_ ?_ _ _ _)
          (Or.inl rfl) (Nat.le_refl _)) ?_
      · intro k2 c2 st2
        exact visitNode1_scopes_len _ _ _ _ _ _
      · intro k2 c2 st2
        exact ih _ _ c2 _ st2
      · exact spec_of_eq rfl
    | expressionStatement e =>
      simp only [visitNode1]
      refine spec_trans (specS_weaken (goList_specS _ _ _ ?_ ?_ _ _ _)
          (Or.inl rfl) (Nat.le_refl _)) ?_
      · intro k2 c2 st2
        exact visitNode1_scopes_len _ _ _ _ _ _
      · intro k2 c2 st2
        exact ih _ _ c2 _ st2
      · exact spec_of_eq rfl
    | binaryExpression l op r =>
      simp only [visitNode1]
      refine spec_trans (specS_weaken (goList_specS _ _ _ ?_ ?_ _ _ _)
          (Or.inl rfl) (Nat.le_refl _)) ?_
      · intro k2 c2 st2
        exact visitNode1_scopes_len _ _ _ _ _ _
      · intro k2 c2 st2
        exact ih _ _ c2 _ st2
      · exact spec_of_eq rfl
    | computedPropertyName e =>
      simp only [visitNode1]
      refine spec_trans (specS_weaken (goList_specS _ _ _ ?_ ?_ _ _ _)
          (Or.inl rfl) (Nat.le_refl _)) ?_
      · intro k2 c2 st2
        exact visitNode1_scopes_len _ _ _ _ _ _
      · intro k2 c2 st2
        exact ih _ _ c2 _ st2
      · exact spec_of_eq rfl
    | otherNode cs =>
      simp only [visitNode1]
      refine spec_trans (specS_weaken (goList_specS _ _ _ ?_ ?_ _ _ _)
          (Or.inl rfl) (Nat.le_refl _)) ?_
      · intro k2 c2 st2
        exact visitNode1_scopes_len _ _ _ _ _ _
      · intro k2 c2 st2
        exact ih _ _ c2 _ st2
      · exact spec_of_eq rfl
    | block sts =>
      simp only [visitNode1]
      refine spec_trans (specS_weaken (goList_specS _ _ _ ?_ ?_ _ _ _)
          (Or.inr (Nat.le_refl _)) ?_) ?_
      · intro k2 c2 st2
        exact visitNode1_scopes_len _ _ _ _ _ _
      · intro k2 c2 st2
        exact ih _ _ c2 _ st2
      · rw [newChildScope_length]
        exact Nat.le_succ _
      · exact spec_of_eq rfl
    | variableDeclaration vnm vini =>
      simp only [visitNode1]
      refine spec_trans (specS_weaken (goList_specS _ _ _ ?_ ?_ _ _ _)
          (Or.inl rfl) ?_) ?_
      · intro k2 c2 st2
        exact visitNode1_scopes_len _ _ _ _ _ _
      · intro k2 c2 st2
        exact ih _ _ c2 _ st2
      · cases par with
        | none => exact Nat.le_refl _
        | some pn =>
          cases pn
          case variableDeclarationList fl2 ds2 =>
            dsimp only
            rw [bindName_scopes_length]
          all_goals exact Nat.le_refl _
      · cases par with
        | none => exact spec_of_eq rfl
        | some pn =>
          cases pn
          case variableDeclarationList fl2 ds2 =>
            dsimp only
            refine spec_trans (spec_of_eq (bindName_scopesMap _ _ _ _ _ _ _)) ?_
            exact spec_of_eq rfl
          all_goals exact spec_of_eq rfl
    | classDeclaration cname ms =>
      simp only [visitNode1]
      refine spec_trans (specS_weaken (goList_specS _ _ _ ?_ ?_ _ _ _)
          (Or.inr ?_) ?_) ?_
      · intro k2 c2 st2
        exact visitNode1_scopes_len _ _ _ _ _ _
      · intro k2 c2 st2
        exact ih _ _ c2 _ st2
      · cases cname with
        | none => exact Nat.le_refl _
        | some t => rw [addBinding_scopes_length]
      · cases cname with
        | none =>
          rw [addBinding_scopes_length, newChildScope_length]
          exact Nat.le_succ _
        | some t =>
          rw [addBinding_scopes_length, newChildScope_length, addBinding_scopes_length]
          exact Nat.le_succ _
      · refine spec_trans (spec_of_eq (addBinding_scopesMap _ _ _ _)) ?_
        cases cname with
        | none => exact spec_of_eq rfl
        | some t =>
          refine spec_trans (spec_of_eq (addBinding_scopesMap _ _ _ _)) ?_
          exact spec_of_eq rfl
    | functionDeclaration fname ps body =>
      cases fname with
      | none =>
        cases body with
        | none =>
          simp only [visitNode1, Option.isSome_none, Bool.false_eq_true, reduceIte]
          refine spec_trans (specS_weaken (goList_specS _ _ _ ?_ ?_ _ _ _)
              (Or.inr ?_) ?_) ?_
          · intro k2 c2 st2
            cases c2
            case parameter pnm2 pini2 =>
              dsimp only
              rw [bindParameterName_scopes_length]
              exact visitNode1_scopes_len _ _ _ _ _ _
            all_goals exact visitNode1_scopes_len _ _ _ _ _ _
          · intro k2 c2 st2
            obtain ⟨B, hB, hP⟩ := ih _ (p ++ [k2]) c2 _ st2
            refine ⟨B, ?_, ?_⟩
            · cases c2 <;>
                first
                  | exact hB
                  | exact (bindName_scopesMap _ _ _ _ _ _ _).trans hB
            · intro en hen
              exact hP en hen
          ·
            exact Nat.le_refl _
          ·
            rw [newChildScope_length]
            exact Nat.le_succ _
          ·
            refine spec_trans (setChildren_specS p sc st.scopes.length _ _ _) ?_
            exact spec_of_eq rfl
        | some b =>
          cases hb : b.isBlockNode with
          | true =>
            simp only [visitNode1, Option.isSome_none, Bool.false_eq_true, reduceIte, hb]
            refine spec_trans (specS_rebase (goList_specS _ _ _ ?_ ?_ _ _ _)
                (Or.inr ?_) ?_) ?_
            · intro k2 c2 st2
              exact visitNode1_scopes_len _ _ _ _ _ _
            · intro k2 c2 st2
              exact ih _ _ c2 _ st2
            ·
              exact Nat.le_refl _
            · refine Nat.le_trans ?_ (goList_len _ _ ?_ _ _ _ _)
              ·
                rw [newChildScope_length]
                exact Nat.le_succ _
              · intro p3 k2 c2 sc3 st2
                cases c2
                case parameter pnm2 pini2 =>
                  dsimp only
                  rw [bindParameterName_scopes_length]
                  exact visitNode1_scopes_len _ _ _ _ _ _
                all_goals exact visitNode1_scopes_len _ _ _ _ _ _
            · refine spec_trans (spec_cons _ _ ⟨⟨_, [], rfl⟩, Or.inr ?_⟩) ?_
              ·
                exact Nat.le_refl _
              ·
                refine spec_trans (specS_weaken (goList_specS _ _ _ ?_ ?_ _ _ _)
                    (Or.inr ?_) ?_) ?_
                · intro k2 c2 st2
                  cases c2
                  case parameter pnm2 pini2 =>
                    dsimp only
                    rw [bindParameterName_scopes_length]
                    exact visitNode1_scopes_len _ _ _ _ _ _
                  all_goals exact visitNode1_scopes_len _ _ _ _ _ _
                · intro k2 c2 st2
                  obtain ⟨B, hB, hP⟩ := ih _ (p ++ [k2]) c2 _ st2
                  refine ⟨B, ?_, ?_⟩
                  · cases c2 <;>
                      first
                        | exact hB
                        | exact (bindName_scopesMap _ _ _ _ _ _ _).trans hB
                  · intro en hen
                    exact hP en hen
                ·
                  exact Nat.le_refl _
                ·
                  rw [newChildScope_length]
                  exact Nat.le_succ _
                ·
                  refine spec_trans (setChildren_specS p sc st.scopes.length _ _ _) ?_
                  exact spec_of_eq rfl
          | false =>
            simp only [visitNode1, Option.isSome_none, Bool.false_eq_true, reduceIte, hb, Bool.false_eq_true]
            refine spec_trans (spec_weakenS (ih _ _ b _ _)
                ⟨[], (List.append_nil _).symm⟩ (Or.inr ?_) ?_) ?_
            ·
              exact Nat.le_refl _
            · refine Nat.le_trans ?_ (goList_len _ _ ?_ _ _ _ _)
              ·
                rw [newChildScope_length]
                exact Nat.le_succ _
              · intro p3 k2 c2 sc3 st2
                cases c2
                case parameter pnm2 pini2 =>
                  dsimp only
                  rw [bindParameterName_scopes_length]
                  exact visitNode1_scopes_len _ _ _ _ _ _
                all_goals exact visitNode1_scopes_len _ _ _ _ _ _
            ·
              refine spec_trans (specS_weaken (goList_specS _ _ _ ?_ ?_ _ _ _)
                  (Or.inr ?_) ?_) ?_
              · intro k2 c2 st2
                cases c2
                case parameter pnm2 pini2 =>
                  dsimp only
                  rw [bindParameterName_scopes_length]
                  exact visitNode1_scopes_len _ _ _ _ _ _
                all_goals exact visitNode1_scopes_len _ _ _ _ _ _
              · intro k2 c2 st2
                obtain ⟨B, hB, hP⟩ := ih _ (p ++ [k2]) c2 _ st2
                refine ⟨B, ?_, ?_⟩
                · cases c2 <;>
                    first
                      | exact hB
                      | exact (bindName_scopesMap _ _ _ _ _ _ _).trans hB
                · intro en hen
                  exact hP en hen
              ·
                exact Nat.le_refl _
              ·
                rw [newChildScope_length]
                exact Nat.le_succ _
              ·
                refine spec_trans (setChildren_specS p sc st.scopes.length _ _ _) ?_
                exact spec_of_eq rfl
      | some t =>
        cases body with
        | none =>
          simp only [visitNode1, Option.isSome_some, reduceIte]
          refine spec_trans (specS_weaken (goList_specS _ _ _ ?_ ?_ _ _ _)
              (Or.inr ?_) ?_) ?_
          · intro k2 c2 st2
            cases c2
            case parameter pnm2 pini2 =>
              dsimp only
              rw [bindParameterName_scopes_length]
              exact visitNode1_scopes_len _ _ _ _ _ _
            all_goals exact visitNode1_scopes_len _ _ _ _ _ _
          · intro k2 c2 st2
            obtain ⟨B, hB, hP⟩ := ih _ (p ++ [k2]) c2 _ st2
            refine ⟨B, ?_, ?_⟩
            · cases c2 <;>
                first
                  | exact hB
                  | exact (bindName_scopesMap _ _ _ _ _ _ _).trans hB
            · intro en hen
              exact hP en hen
          ·
            rw [addBinding_scopes_length]
            exact Nat.le_refl _
          ·
            rw [newChildScope_length, addBinding_scopes_length]
            exact Nat.le_succ _
          ·
            refine spec_trans (spec_of_eq (addBinding_scopesMap _ _ _ _)) ?_
            refine spec_trans (spec_cons _ _ ⟨⟨0, [], rfl⟩, Or.inl rfl⟩) ?_
            refine spec_trans (setChildren_specS p sc st.scopes.length _ _ _) ?_
            exact spec_of_eq rfl
        | some b =>
          cases hb : b.isBlockNode with
          | true =>
            simp only [visitNode1, Option.isSome_some, reduceIte, hb]
            refine spec_trans (specS_rebase (goList_specS _ _ _ ?_ ?_ _ _ _)
                (Or.inr ?_) ?_) ?_
            · intro k2 c2 st2
              exact visitNode1_scopes_len _ _ _ _ _ _
            · intro k2 c2 st2
              exact ih _ _ c2 _ st2
            ·
              rw [addBinding_scopes_length]
              exact Nat.le_refl _
            · refine Nat.le_trans ?_ (goList_len _ _ ?_ _ _ _ _)
              ·
                rw [newChildScope_length, addBinding_scopes_length]
                exact Nat.le_succ _
              · intro p3 k2 c2 sc3 st2
                cases c2
                case parameter pnm2 pini2 =>
                  dsimp only
                  rw [bindParameterName_scopes_length]
                  exact visitNode1_scopes_len _ _ _ _ _ _
                all_goals exact visitNode1_scopes_len _ _ _ _ _ _
            · refine spec_trans (spec_cons _ _ ⟨⟨_, [], rfl⟩, Or.inr ?_⟩) ?_
              ·
                rw [addBinding_scopes_length]
                exact Nat.le_refl _
              ·
                refine spec_trans (specS_weaken (goList_specS _ _ _ ?_ ?_ _ _ _)
                    (Or.inr ?_) ?_) ?_
                · intro k2 c2 st2
                  cases c2
                  case parameter pnm2 pini2 =>
                    dsimp only
                    rw [bindParameterName_scopes_length]
                    exact visitNode1_scopes_len _ _ _ _ _ _
                  all_goals exact visitNode1_scopes_len _ _ _ _ _ _
                · intro k2 c2 st2
                  obtain ⟨B, hB, hP⟩ := ih _ (p ++ [k2]) c2 _ st2
                  refine ⟨B, ?_, ?_⟩
                  · cases c2 <;>
                      first
                        | exact hB
                        | exact (bindName_scopesMap _ _ _ _ _ _ _).trans hB
                  · intro en hen
                    exact hP en hen
                ·
                  rw [addBinding_scopes_length]
                  exact Nat.le_refl _
                ·
                  rw [newChildScope_length, addBinding_scopes_length]
                  exact Nat.le_succ _
                ·
                  refine spec_trans (spec_of_eq (addBinding_scopesMap _ _ _ _)) ?_
                  refine spec_trans (spec_cons _ _ ⟨⟨0, [], rfl⟩, Or.inl rfl⟩) ?_
                  refine spec_trans (setChildren_specS p sc st.scopes.length _ _ _) ?_
                  exact spec_of_eq rfl
          | false =>
            simp only [visitNode1, Option.isSome_some, reduceIte, hb, Bool.false_eq_true]
            refine spec_trans (spec_weakenS (ih _ _ b _ _)
                ⟨[], (List.append_nil _).symm⟩ (Or.inr ?_) ?_) ?_
            ·
              rw [addBinding_scopes_length]
              exact Nat.le_refl _
            · refine Nat.le_trans ?_ (goList_len _ _ ?_ _ _ _ _)
              ·
                rw [newChildScope_length, addBinding_scopes_length]
                exact Nat.le_succ _
              · intro p3 k2 c2 sc3 st2
                cases c2
                case parameter pnm2 pini2 =>
                  dsimp only
                  rw [bindParameterName_scopes_length]
                  exact visitNode1_scopes_len _ _ _ _ _ _
                all_goals exact visitNode1_scopes_len _ _ _ _ _ _
            ·
              refine spec_trans (specS_weaken (goList_specS _ _ _ ?_ ?_ _ _ _)
                  (Or.inr ?_) ?_) ?_
              · intro k2 c2 st2
                cases c2
                case parameter pnm2 pini2 =>
                  dsimp only
                  rw [bindParameterName_scopes_length]
                  exact visitNode1_scopes_len _ _ _ _ _ _
                all_goals exact visitNode1_scopes_len _ _ _ _ _ _
              · intro k2 c2 st2
                obtain ⟨B, hB, hP⟩ := ih _ (p ++ [k2]) c2 _ st2
                refine ⟨B, ?_, ?_⟩
                · cases c2 <;>
                    first
                      | exact hB
                      | exact (bindName_scopesMap _ _ _ _ _ _ _).trans hB
                · intro en hen
                  exact hP en hen
              ·
                rw [addBinding_scopes_length]
                exact Nat.le_refl _
              ·
                rw [newChildScope_length, addBinding_scopes_length]
                exact Nat.le_succ _
              ·
                refine spec_trans (spec_of_eq (addBinding_scopesMap _ _ _ _)) ?_
                refine spec_trans (spec_cons _ _ ⟨⟨0, [], rfl⟩, Or.inl rfl⟩) ?_
                refine spec_trans (setChildren_specS p sc st.scopes.length _ _ _) ?_
                exact spec_of_eq rfl
    | functionExpression fname ps body =>
      cases fname with
      | none =>
        cases body with
        | none =>
          simp only [visitNode1, Option.isSome_none, Bool.false_eq_true, reduceIte]
          refine spec_trans (specS_weaken (goList_specS _ _ _ ?_ ?_ _ _ _)
              (Or.inr ?_) ?_) ?_
          · intro k2 c2 st2
            cases c2
            case parameter pnm2 pini2 =>
              dsimp only
              rw [bindParameterName_scopes_length]
              exact visitNode1_scopes_len _ _ _ _ _ _
            all_goals exact visitNode1_scopes_len _ _ _ _ _ _
          · intro k2 c2 st2
            obtain ⟨B, hB, hP⟩ := ih _ (p ++ [k2]) c2 _ st2
            refine ⟨B, ?_, ?_⟩
            · cases c2 <;>
                first
                  | exact hB
                  | exact (bindName_scopesMap _ _ _ _ _ _ _).trans hB
            · intro en hen
              exact hP en hen
          ·
            exact Nat.le_refl _
          ·
            rw [newChildScope_length]
            exact Nat.le_succ _
          ·
            refine spec_trans (setChildren_specS p sc st.scopes.length _ _ _) ?_
            exact spec_of_eq rfl
        | some b =>
          cases hb : b.isBlockNode with
          | true =>
            simp only [visitNode1, Option.isSome_none, Bool.false_eq_true, reduceIte, hb]
            refine spec_trans (specS_rebase (goList_specS _ _ _ ?_ ?_ _ _ _)
                (Or.inr ?_) ?_) ?_
            · intro k2 c2 st2
              exact visitNode1_scopes_len _ _ _ _ _ _
            · intro k2 c2 st2
              exact ih _ _ c2 _ st2
            ·
              exact Nat.le_refl _
            · refine Nat.le_trans ?_ (goList_len _ _ ?_ _ _ _ _)
              ·
                rw [newChildScope_length]
                exact Nat.le_succ _
              · intro p3 k2 c2 sc3 st2
                cases c2
                case parameter pnm2 pini2 =>
                  dsimp only
                  rw [bindParameterName_scopes_length]
                  exact visitNode1_scopes_len _ _ _ _ _ _
                all_goals exact visitNode1_scopes_len _ _ _ _ _ _
            · refine spec_trans (spec_cons _ _ ⟨⟨_, [], rfl⟩, Or.inr ?_⟩) ?_
              ·
                exact Nat.le_refl _
              ·
                refine spec_trans (specS_weaken (goList_specS _ _ _ ?_ ?_ _ _ _)
                    (Or.inr ?_) ?_) ?_
                · intro k2 c2 st2
                  cases c2
                  case parameter pnm2 pini2 =>
                    dsimp only
                    rw [bindParameterName_scopes_length]
                    exact visitNode1_scopes_len _ _ _ _ _ _
                  all_goals exact visitNode1_scopes_len _ _ _ _ _ _
                · intro k2 c2 st2
                  obtain ⟨B, hB, hP⟩ := ih _ (p ++ [k2]) c2 _ st2
                  refine ⟨B, ?_, ?_⟩
                  · cases c2 <;>
                      first
                        | exact hB
                        | exact (bindName_scopesMap _ _ _ _ _ _ _).trans hB
                  · intro en hen
                    exact hP en hen
                ·
                  exact Nat.le_refl _
                ·
                  rw [newChildScope_length]
                  exact Nat.le_succ _
                ·
                  refine spec_trans (setChildren_specS p sc st.scopes.length _ _ _) ?_
                  exact spec_of_eq rfl
          | false =>
            simp only [visitNode1, Option.isSome_none, Bool.false_eq_true, reduceIte, hb, Bool.false_eq_true]
            refine spec_trans (spec_weakenS (ih _ _ b _ _)
                ⟨[], (List.append_nil _).symm⟩ (Or.inr ?_) ?_) ?_
            ·
              exact Nat.le_refl _
            · refine Nat.le_trans ?_ (goList_len _ _ ?_ _ _ _ _)
              ·
                rw [newChildScope_length]
                exact Nat.le_succ _
              · intro p3 k2 c2 sc3 st2
                cases c2
                case parameter pnm2 pini2 =>
                  dsimp only
                  rw [bindParameterName_scopes_length]
                  exact visitNode1_scopes_len _ _ _ _ _ _
                all_goals exact visitNode1_scopes_len _ _ _ _ _ _
            ·
              refine spec_trans (specS_weaken (goList_specS _ _ _ ?_ ?_ _ _ _)
                  (Or.inr ?_) ?_) ?_
              · intro k2 c2 st2
                cases c2
                case parameter pnm2 pini2 =>
                  dsimp only
                  rw [bindParameterName_scopes_length]
                  exact visitNode1_scopes_len _ _ _ _ _ _
                all_goals exact visitNode1_scopes_len _ _ _ _ _ _
              · intro k2 c2 st2
                obtain ⟨B, hB, hP⟩ := ih _ (p ++ [k2]) c2 _ st2
                refine ⟨B, ?_, ?_⟩
                · cases c2 <;>
                    first
                      | exact hB
                      | exact (bindName_scopesMap _ _ _ _ _ _ _).trans hB
                · intro en hen
                  exact hP en hen
              ·
                exact Nat.le_refl _
              ·
                rw [newChildScope_length]
                exact Nat.le_succ _
              ·
                refine spec_trans (setChildren_specS p sc st.scopes.length _ _ _) ?_
                exact spec_of_eq rfl
      | some t =>
        cases body with
        | none =>
          simp only [visitNode1, Option.isSome_some, reduceIte]
          refine spec_trans (specS_weaken (goList_specS _ _ _ ?_ ?_ _ _ _)
              (Or.inr ?_) ?_) ?_
          · intro k2 c2 st2
            cases c2
            case parameter pnm2 pini2 =>
              dsimp only
              rw [bindParameterName_scopes_length]
              exact visitNode1_scopes_len _ _ _ _ _ _
            all_goals exact visitNode1_scopes_len _ _ _ _ _ _
          · intro k2 c2 st2
            obtain ⟨B, hB, hP⟩ := ih _ (p ++ [k2]) c2 _ st2
            refine ⟨B, ?_, ?_⟩
            · cases c2 <;>
                first
                  | exact hB
                  | exact (bindName_scopesMap _ _ _ _ _ _ _).trans hB
            · intro en hen
              exact hP en hen
          ·
            rw [addBinding_scopes_length]
            exact Nat.le_refl _
          ·
            rw [newChildScope_length, addBinding_scopes_length]
            exact Nat.le_succ _
          ·
            refine spec_trans (spec_of_eq (addBinding_scopesMap _ _ _ _)) ?_
            refine spec_trans (spec_cons _ _ ⟨⟨0, [], rfl⟩, Or.inl rfl⟩) ?_
            refine spec_trans (setChildren_specS p sc st.scopes.length _ _ _) ?_
            exact spec_of_eq rfl
        | some b =>
          cases hb : b.isBlockNode with
          | true =>
            simp only [visitNode1, Option.isSome_some, reduceIte, hb]
            refine spec_trans (specS_rebase (goList_specS _ _ _ ?_ ?_ _ _ _)
                (Or.inr ?_) ?_) ?_
            · intro k2 c2 st2
              exact visitNode1_scopes_len _ _ _ _ _ _
            · intro k2 c2 st2
              exact ih _ _ c2 _ st2
            ·
              rw [addBinding_scopes_length]
              exact Nat.le_refl _
            · refine Nat.le_trans ?_ (goList_len _ _ ?_ _ _ _ _)
              ·
                rw [newChildScope_length, addBinding_scopes_length]
                exact Nat.le_succ _
              · intro p3 k2 c2 sc3 st2
                cases c2
                case parameter pnm2 pini2 =>
                  dsimp only
                  rw [bindParameterName_scopes_length]
                  exact visitNode1_scopes_len _ _ _ _ _ _
                all_goals exact visitNode1_scopes_len _ _ _ _ _ _
            · refine spec_trans (spec_cons _ _ ⟨⟨_, [], rfl⟩, Or.inr ?_⟩) ?_
              ·
                rw [addBinding_scopes_length]
                exact Nat.le_refl _
              ·
                refine spec_trans (specS_weaken (goList_specS _ _ _ ?_ ?_ _ _ _)
                    (Or.inr ?_) ?_) ?_
                · intro k2 c2 st2
                  cases c2
                  case parameter pnm2 pini2 =>
                    dsimp only
                    rw [bindParameterName_scopes_length]
                    exact visitNode1_scopes_len _ _ _ _ _ _
                  all_goals exact visitNode1_scopes_len _ _ _ _ _ _
                · intro k2 c2 st2
                  obtain ⟨B, hB, hP⟩ := ih _ (p ++ [k2]) c2 _ st2
                  refine ⟨B, ?_, ?_⟩
                  · cases c2 <;>
                      first
                        | exact hB
                        | exact (bindName_scopesMap _ _ _ _ _ _ _).trans hB
                  · intro en hen
                    exact hP en hen
                ·
                  rw [addBinding_scopes_length]
                  exact Nat.le_refl _
                ·
                  rw [newChildScope_length, addBinding_scopes_length]
                  exact Nat.le_succ _
                ·
                  refine spec_trans (spec_of_eq (addBinding_scopesMap _ _ _ _)) ?_
                  refine spec_trans (spec_cons _ _ ⟨⟨0, [], rfl⟩, Or.inl rfl⟩) ?_
                  refine spec_trans (setChildren_specS p sc st.scopes.length _ _ _) ?_
                  exact spec_of_eq rfl
          | false =>
            simp only [visitNode1, Option.isSome_some, reduceIte, hb, Bool.false_eq_true]
            refine spec_trans (spec_weakenS (ih _ _ b _ _)
                ⟨[], (List.append_nil _).symm⟩ (Or.inr ?_) ?_) ?_
            ·
              rw [addBinding_scopes_length]
              exact Nat.le_refl _
            · refine Nat.le_trans ?_ (goList_len _ _ ?_ _ _ _ _)
              ·
                rw [newChildScope_length, addBinding_scopes_length]
                exact Nat.le_succ _
              · intro p3 k2 c2 sc3 st2
                cases c2
                case parameter pnm2 pini2 =>
                  dsimp only
                  rw [bindParameterName_scopes_length]
                  exact visitNode1_scopes_len _ _ _ _ _ _
                all_goals exact visitNode1_scopes_len _ _ _ _ _ _
            ·
              refine spec_trans (specS_weaken (goList_specS _ _ _ ?_ ?_ _ _ _)
                  (Or.inr ?_) ?_) ?_
              · intro k2 c2 st2
                cases c2
                case parameter pnm2 pini2 =>
                  dsimp only
                  rw [bindParameterName_scopes_length]
                  exact visitNode1_scopes_len _ _ _ _ _ _
                all_goals exact visitNode1_scopes_len _ _ _ _ _ _
              · intro k2 c2 st2
                obtain ⟨B, hB, hP⟩ := ih _ (p ++ [k2]) c2 _ st2
                refine ⟨B, ?_, ?_⟩
                · cases c2 <;>
                    first
                      | exact hB
                      | exact (bindName_scopesMap _ _ _ _ _ _ _).trans hB
                · intro en hen
                  exact hP en hen
              ·
                rw [addBinding_scopes_length]
                exact Nat.le_refl _
              ·
                rw [newChildScope_length, addBinding_scopes_length]
                exact Nat.le_succ _
              ·
                refine spec_trans (spec_of_eq (addBinding_scopesMap _ _ _ _)) ?_
                refine spec_trans (spec_cons _ _ ⟨⟨0, [], rfl⟩, Or.inl rfl⟩) ?_
                refine spec_trans (setChildren_specS p sc st.scopes.length _ _ _) ?_
                exact spec_of_eq rfl
    | arrowFunction ps body =>
      cases hb : body.isBlockNode with
      | true =>
        simp only [visitNode1, hb, reduceIte]
        refine spec_trans (specS_rebase (goList_specS _ _ _ ?_ ?_ _ _ _)
            (Or.inr (Nat.le_refl _)) ?_) ?_
        · intro k2 c2 st2
          exact visitNode1_scopes_len _ _ _ _ _ _
        · intro k2 c2 st2
          exact ih _ _ c2 _ st2
        · refine Nat.le_trans ?_ (goList_len _ _ ?_ _ _ _ _)
          · rw [newChildScope_length]
            exact Nat.le_succ _
          · intro p3 k2 c2 sc3 st2
            cases c2
            case parameter pnm2 pini2 =>
              dsimp only
              rw [bindParameterName_scopes_length]
              exact visitNode1_scopes_len _ _ _ _ _ _
            all_goals exact visitNode1_scopes_len _ _ _ _ _ _
        · refine spec_trans (spec_cons _ _ ⟨⟨_, [], rfl⟩, Or.inr (Nat.le_refl _)⟩) ?_
          · refine spec_trans (specS_weaken (goList_specS _ _ _ ?_ ?_ _ _ _)
                (Or.inr (Nat.le_refl _)) ?_) ?_
            · intro k2 c2 st2
              cases c2
              case parameter pnm2 pini2 =>
                dsimp only
                rw [bindParameterName_scopes_length]
                exact visitNode1_scopes_len _ _ _ _ _ _
              all_goals exact visitNode1_scopes_len _ _ _ _ _ _
            · intro k2 c2 st2
              obtain ⟨B, hB, hP⟩ := ih _ (p ++ [k2]) c2 _ st2
              refine ⟨B, ?_, ?_⟩
              · cases c2 <;>
                  first
                    | exact hB
                    | exact (bindName_scopesMap _ _ _ _ _ _ _).trans hB
              · intro en hen
                exact hP en hen
            · rw [newChildScope_length]
              exact Nat.le_succ _
            · refine spec_trans (setChildren_specS p sc st.scopes.length _ _ _) ?_
              exact spec_of_eq rfl
      | false =>
        simp only [visitNode1, hb, Bool.false_eq_true, reduceIte]
        refine spec_trans (spec_weakenS (ih _ _ body _ _)
            ⟨[], (List.append_nil _).symm⟩ (Or.inr (Nat.le_refl _)) ?_) ?_
        · refine Nat.le_trans ?_ (goList_len _ _ ?_ _ _ _ _)
          · rw [newChildScope_length]
            exact Nat.le_succ _
          · intro p3 k2 c2 sc3 st2
            cases c2
            case parameter pnm2 pini2 =>
              dsimp only
              rw [bindParameterName_scopes_length]
              exact visitNode1_scopes_len _ _ _ _ _ _
            all_goals exact visitNode1_scopes_len _ _ _ _ _ _
        · refine spec_trans (specS_weaken (goList_specS _ _ _ ?_ ?_ _ _ _)
              (Or.inr (Nat.le_refl _)) ?_) ?_
          · intro k2 c2 st2
            cases c2
            case parameter pnm2 pini2 =>
              dsimp only
              rw [bindParameterName_scopes_length]
              exact visitNode1_scopes_len _ _ _ _ _ _
            all_goals exact visitNode1_scopes_len _ _ _ _ _ _
          · intro k2 c2 st2
            obtain ⟨B, hB, hP⟩ := ih _ (p ++ [k2]) c2 _ st2
            refine ⟨B, ?_, ?_⟩
            · cases c2 <;>
                first
                  | exact hB
                  | exact (bindName_scopesMap _ _ _ _ _ _ _).trans hB
            · intro en hen
              exact hP en hen
          · rw [newChildScope_length]
            exact Nat.le_succ _
          · refine spec_trans (setChildren_specS p sc st.scopes.length _ _ _) ?_
            exact spec_of_eq rfl
    | forOfStatement lini le lstmt =>
      cases hb : lstmt.isBlockNode with
      | true =>
        simp only [visitNode1, hb, reduceIte]
        refine spec_trans (specS_rebase (goList_specS _ _ _ ?_ ?_ _ _ _)
            (Or.inr (Nat.le_refl _)) ?_) ?_
        · intro k2 c2 st2
          exact visitNode1_scopes_len _ _ _ _ _ _
        · intro k2 c2 st2
          exact ih _ _ c2 _ st2
        · refine Nat.le_trans ?_ (visitNode1_scopes_len _ _ _ _ _ _)
          refine Nat.le_trans ?_ (visitNode1_scopes_len _ _ _ _ _ _)
          rw [newChildScope_length]
          exact Nat.le_succ _
        · refine spec_trans (spec_cons _ _ ⟨⟨_, [], rfl⟩, Or.inr (Nat.le_refl _)⟩) ?_
          · refine spec_trans (spec_weakenS (ih _ _ le _ _)
                ⟨[], (List.append_nil _).symm⟩ (Or.inl rfl) ?_) ?_
            · refine Nat.le_trans ?_ (visitNode1_scopes_len _ _ _ _ _ _)
              rw [newChildScope_length]
              exact Nat.le_succ _
            · refine spec_trans (spec_weakenS (ih _ _ lini _ _)
                  ⟨[], (List.append_nil _).symm⟩ (Or.inr (Nat.le_refl _)) ?_) ?_
              · rw [newChildScope_length]
                exact Nat.le_succ _
              · refine spec_trans (setChildren_specS p sc st.scopes.length _ _ _) ?_
                exact spec_of_eq rfl
      | false =>
        simp only [visitNode1, hb, Bool.false_eq_true, reduceIte]
        refine spec_trans (spec_weakenS (ih _ _ lstmt _ _)
            ⟨[], (List.append_nil _).symm⟩ (Or.inr (Nat.le_refl _)) ?_) ?_
        · refine Nat.le_trans ?_ (visitNode1_scopes_len _ _ _ _ _ _)
          refine Nat.le_trans ?_ (visitNode1_scopes_len _ _ _ _ _ _)
          rw [newChildScope_length]
          exact Nat.le_succ _
        · refine spec_trans (spec_weakenS (ih _ _ le _ _)
              ⟨[], (List.append_nil _).symm⟩ (Or.inl rfl) ?_) ?_
          · refine Nat.le_trans ?_ (visitNode1_scopes_len _ _ _ _ _ _)
            rw [newChildScope_length]
            exact Nat.le_succ _
          · refine spec_trans (spec_weakenS (ih _ _ lini _ _)
                ⟨[], (List.append_nil _).symm⟩ (Or.inr (Nat.le_refl _)) ?_) ?_
            · rw [newChildScope_length]
              exact Nat.le_succ _
            · refine spec_trans (setChildren_specS p sc st.scopes.length _ _ _) ?_
              exact spec_of_eq rfl
    | forInStatement lini le lstmt =>
      cases hb : lstmt.isBlockNode with
      | true =>
        simp only [visitNode1, hb, reduceIte]
        refine spec_trans (specS_rebase (goList_specS _ _ _ ?_ ?_ _ _ _)
            (Or.inr (Nat.le_refl _)) ?_) ?_
        · intro k2 c2 st2
          exact visitNode1_scopes_len _ _ _ _ _ _
        · intro k2 c2 st2
          exact ih _ _ c2 _ st2
        · refine Nat.le_trans ?_ (visitNode1_scopes_len _ _ _ _ _ _)
          refine Nat.le_trans ?_ (visitNode1_scopes_len _ _ _ _ _ _)
          rw [newChildScope_length]
          exact Nat.le_succ _
        · refine spec_trans (spec_cons _ _ ⟨⟨_, [], rfl⟩, Or.inr (Nat.le_refl _)⟩) ?_
          · refine spec_trans (spec_weakenS (ih _ _ le _ _)
                ⟨[], (List.append_nil _).symm⟩ (Or.inl rfl) ?_) ?_
            · refine Nat.le_trans ?_ (visitNode1_scopes_len _ _ _ _ _ _)
              rw [newChildScope_length]
              exact Nat.le_succ _
            · refine spec_trans (spec_weakenS (ih _ _ lini _ _)
                  ⟨[], (List.append_nil _).symm⟩ (Or.inr (Nat.le_refl _)) ?_) ?_
              · rw [newChildScope_length]
                exact Nat.le_succ _
              · refine spec_trans (setChildren_specS p sc st.scopes.length _ _ _) ?_
                exact spec_of_eq rfl
      | false =>
        simp only [visitNode1, hb, Bool.false_eq_true, reduceIte]
        refine spec_trans (spec_weakenS (ih _ _ lstmt _ _)
            ⟨[], (List.append_nil _).symm⟩ (Or.inr (Nat.le_refl _)) ?_) ?_
        · refine Nat.le_trans ?_ (visitNode1_scopes_len _ _ _ _ _ _)
          refine Nat.le_trans ?_ (visitNode1_scopes_len _ _ _ _ _ _)
          rw [newChildScope_length]
          exact Nat.le_succ _
        · refine spec_trans (spec_weakenS (ih _ _ le _ _)
              ⟨[], (List.append_nil _).symm⟩ (Or.inl rfl) ?_) ?_
          · refine Nat.le_trans ?_ (visitNode1_scopes_len _ _ _ _ _ _)
            rw [newChildScope_length]
            exact Nat.le_succ _
          · refine spec_trans (spec_weakenS (ih _ _ lini _ _)
                ⟨[], (List.append_nil _).symm⟩ (Or.inr (Nat.le_refl _)) ?_) ?_
            · rw [newChildScope_length]
              exact Nat.le_succ _
            · refine spec_trans (setChildren_specS p sc st.scopes.length _ _ _) ?_
              exact spec_of_eq rfl

theorem skelPres_refl (a : List Scope) : skelPres a a :=
  fun j sd h => ⟨sd, h, rfl, rfl, rfl⟩

theorem skelPres_trans {a b c : List Scope} (h1 : skelPres a b) (h2 : skelPres b c) :
    skelPres a c := by
  intro j sd h
  obtain ⟨sd2, hb, k2, p2, d2⟩ := h1 j sd h
  obtain ⟨sd3, hc, k3, p3, d3⟩ := h2 j sd2 hb
  exact ⟨sd3, hc, k3.trans k2, p3.trans p2, d3.trans d2⟩

theorem supdate_bindings_skel (i : Nat)
    (g : Scope → List (String × ScopeBindingDeclaration)) (scs : List Scope) :
    skelPres scs (supdate i (fun s => { s with bindings := g s }) scs) := by
  intro j sd h
  by_cases hj : j = i
  · subst hj
    rw [supdate_self h]
    exact ⟨_, rfl, rfl, rfl, rfl⟩
  · rw [supdate_other _ hj]
    exact ⟨sd, h, rfl, rfl, rfl⟩

theorem storeBinding_skel (i : Nat) (nm : String) (d : ScopeBindingDeclaration)
    (st : BuildState) : skelPres st.scopes (storeBinding i nm d st).scopes :=
  supdate_bindings_skel i _ st.scopes

theorem addBinding_skel (sc : Nat) (nm : String) (d : ScopeBindingDeclaration)
    (st : BuildState) : skelPres st.scopes (addBinding sc nm d st).scopes := by
  simp only [addBinding]
  cases hk : d.bindingScopeKind == ScopeKind.lexicalScope with
  | true =>
    simp only [reduceIte]
    exact storeBinding_skel _ _ _ _
  | false =>
    simp only [Bool.false_eq_true, reduceIte]
    cases hf : findFunctionScope (sc + 1) sc st.scopes with
    | none => exact skelPres_refl _
    | some j => exact storeBinding_skel _ _ _ _

theorem newChildScope_skel (kind : ScopeKind) (declPath : NodePath) (parentSc : Nat)
    (st : BuildState) : skelPres st.scopes (newChildScope kind declPath parentSc st).scopes := by
  intro j sd h
  refine ⟨sd, ?_, rfl, rfl, rfl⟩
  simp only [newChildScope]
  rw [List.getElem?_append_left (getElem?_some_lt h)]
  exact h

theorem bindList_skel (h : Node → BuildState → BuildState)
    (hh : ∀ el st, skelPres st.scopes (h el st).scopes) :
    ∀ (els : List Node) (st : BuildState), skelPres st.scopes (bindList h els st).scopes := by
  intro els
  induction els with
  | nil => intro st; exact skelPres_refl _
  | cons el els ihe =>
    intro st
    exact skelPres_trans (hh el st) (ihe (h el st))

theorem bindName_skel :
    ∀ (fuel : Nat) (bn : Node) (dp : NodePath) (sc : Nat) (kind : ScopeKind)
      (mu : Mutability) (st : BuildState),
      skelPres st.scopes (bindName fuel bn dp sc kind mu st).scopes := by
  intro fuel
  induction fuel with
  | zero => intro bn dp sc kind mu st; exact skelPres_refl _
  | succ f ih =>
    intro bn dp sc kind mu st
    cases bn with
    | identifier t => exact addBinding_skel _ _ _ _
    | objectBindingPattern els =>
      refine bindList_skel _ ?_ els st
      intro el st2
      cases el <;>
        first
          | exact ih _ _ _ _ _ _
          | exact skelPres_refl _
    | arrayBindingPattern els =>
      refine bindList_skel _ ?_ els st
      intro el st2
      cases el <;>
        first
          | exact ih _ _ _ _ _ _
          | exact skelPres_refl _
    | sourceFile sts => exact skelPres_refl _
    | block sts => exact skelPres_refl _
    | variableDeclarationList fl ds => exact skelPres_refl _
    | variableDeclaration vnm vini => exact skelPres_refl _
    | bindingElement prop bnm bini => exact skelPres_refl _
    | parameter pnm pini => exact skelPres_refl _
    | functionDeclaration fname ps body => exact skelPres_refl _
    | functionExpression fname ps body => exact skelPres_refl _
    | arrowFunction ps body => exact skelPres_refl _
    | classDeclaration cname ms => exact skelPres_refl _
    | expressionStatement e => exact skelPres_refl _
    | binaryExpression l op r => exact skelPres_refl _
    | computedPropertyName e => exact skelPres_refl _
    | forOfStatement lini le lstmt => exact skelPres_refl _
    | forInStatement lini le lstmt => exact skelPres_refl _
    | otherNode cs => exact skelPres_refl _

theorem goList_skel (v : NodePath → Nat → Node → Nat → BuildState → BuildState)
    (p : NodePath)
    (hv : ∀ p2 k c sc st, skelPres st.scopes (v p2 k c sc st).scopes) :
    ∀ (cs : List Node) (k sc : Nat) (st : BuildState),
      skelPres st.scopes (goList v p k cs sc st).scopes := by
  intro cs
  induction cs with
  | nil => intro k sc st; exact skelPres_refl _
  | cons c cs ihc =>
    intro k sc st
    exact skelPres_trans (hv p k c sc st) (ihc (k + 1) sc (v p k c sc st))

theorem visitNode1_skel :
    ∀ (fuel : Nat) (par : Option Node) (p : NodePath) (n : Node) (sc : Nat)
      (st : BuildState),
      skelPres st.scopes (visitNode1 fuel par p n sc st).scopes := by
  intro fuel
  induction fuel with
  | zero => intro par p n sc st; exact skelPres_refl _
  | succ f ih =>
    intro par p n sc st
    cases n with
    | identifier t =>
      simp only [visitNode1]
      refine skelPres_trans ?_ (goList_skel _ _ ?_ _ _ _ _)
      · exact skelPres_refl _
      ·
        intro p2 k2 c2 sc2 st2
        exact ih _ _ _ _ _
    | sourceFile sts =>
      simp only [visitNode1]
      refine skelPres_trans ?_ (goList_skel _ _ ?_ _ _ _ _)
      · exact skelPres_refl _
      ·
        intro p2 k2 c2 sc2 st2
        exact ih _ _ _ _ _
    | variableDeclarationList fl ds =>
      simp only [visitNode1]
      refine skelPres_trans ?_ (goList_skel _ _ ?_ _ _ _ _)
      · exact skelPres_refl _
      ·
        intro p2 k2 c2 sc2 st2
        exact ih _ _ _ _ _
    | objectBindingPattern els =>
      simp only [visitNode1]
      refine skelPres_trans ?_ (goList_skel _ _ ?_ _ _ _ _)
      · exact skelPres_refl _
      ·
        intro p2 k2 c2 sc2 st2
        exact ih _ _ _ _ _
    | arrayBindingPattern els =>
      simp only [visitNode1]
      refine skelPres_trans ?_ (goList_skel _ _ ?_ _ _ _ _)
      · exact skelPres_refl _
      ·
        intro p2 k2 c2 sc2 st2
        exact ih _ _ _ _ _
    | bindingElement prop bnm bini =>
      simp only [visitNode1]
      refine skelPres_trans ?_ (goList_skel _ _ ?_ _ _ _ _)
      · exact skelPres_refl _
      ·
        intro p2 k2 c2 sc2 st2
        exact ih _ _ _ _ _
    | parameter pnm pini =>
      simp only [visitNode1]
      refine skelPres_trans ?_ (goList_skel _ _ ?_ _ _ _ _)
      · exact skelPres_refl _
      ·
        intro p2 k2 c2 sc2 st2
        exact ih _ _ _ _ _
    | expressionStatement e =>
      simp only [visitNode1]
      refine skelPres_trans ?_ (goList_skel _ _ ?_ _ _ _ _)
      · exact skelPres_refl _
      ·
        intro p2 k2 c2 sc2 st2
        exact ih _ _ _ _ _
    | binaryExpression l op r =>
      simp only [visitNode1]
      refine skelPres_trans ?_ (goList_skel _ _ ?_ _ _ _ _)
      · exact skelPres_refl _
      ·
        intro p2 k2 c2 sc2 st2
        exact ih _ _ _ _ _
    | computedPropertyName e =>
      simp only [visitNode1]
      refine skelPres_trans ?_ (goList_skel _ _ ?_ _ _ _ _)
      · exact skelPres_refl _
      ·
        intro p2 k2 c2 sc2 st2
        exact ih _ _ _ _ _
    | otherNode cs =>
      simp only [visitNode1]
      refine skelPres_trans ?_ (goList_skel _ _ ?_ _ _ _ _)
      · exact skelPres_refl _
      ·
        intro p2 k2 c2 sc2 st2
        exact ih _ _ _ _ _
    | block sts =>
      simp only [visitNode1]
      refine skelPres_trans ?_ (goList_skel _ _ ?_ _ _ _ _)
      · refine skelPres_trans ?_ (newChildScope_skel _ _ _ _)
        exact skelPres_refl _
      ·
        intro p2 k2 c2 sc2 st2
        exact ih _ _ _ _ _
    | variableDeclaration vnm vini =>
      simp only [visitNode1]
      refine skelPres_trans ?_ (goList_skel _ _ ?_ _ _ _ _)
      · cases par with
        | none => exact skelPres_refl _
        | some pn =>
          cases pn <;>
            first
              | refine skelPres_trans ?_ (bindName_skel f _ _ _ _ _ _) <;>
                  exact skelPres_refl _
              | exact skelPres_refl _
      ·
        intro p2 k2 c2 sc2 st2
        exact ih _ _ _ _ _
    | classDeclaration cname ms =>
      cases cname with
      | none =>
        simp only [visitNode1]
        refine skelPres_trans ?_ (goList_skel _ _ ?_ _ _ _ _)
        · refine skelPres_trans ?_ (addBinding_skel _ _ _ _)
          refine skelPres_trans ?_ (newChildScope_skel _ _ _ _)
          exact skelPres_refl _
        ·
          intro p2 k2 c2 sc2 st2
          exact ih _ _ _ _ _
      | some t =>
        simp only [visitNode1]
        refine skelPres_trans ?_ (goList_skel _ _ ?_ _ _ _ _)
        · refine skelPres_trans ?_ (addBinding_skel _ _ _ _)
          refine skelPres_trans ?_ (newChildScope_skel _ _ _ _)
          refine skelPres_trans ?_ (addBinding_skel _ _ _ _)
          exact skelPres_refl _
        ·
          intro p2 k2 c2 sc2 st2
          exact ih _ _ _ _ _
    | functionDeclaration fname ps body =>
      cases fname with
      | none =>
        cases body with
        | none =>
          simp only [visitNode1]
          refine skelPres_trans ?_ (goList_skel _ _ ?_ _ _ _ _)
          · refine skelPres_trans ?_ (newChildScope_skel _ _ _ _)
            exact skelPres_refl _
          ·
            intro p2 k2 c2 sc2 st2
            cases c2 <;>
              first
                | exact ih _ _ _ _ _
                | exact skelPres_trans (ih _ _ _ _ _) (bindName_skel f _ _ _ _ _ _)
        | some b =>
          cases hb : b.isBlockNode with
          | true =>
            simp only [visitNode1, hb, reduceIte]
            refine skelPres_trans ?_ (goList_skel _ _ ?_ _ _ _ _)
            · refine skelPres_trans ?_ (goList_skel _ _ ?_ _ _ _ _)
              · refine skelPres_trans ?_ (newChildScope_skel _ _ _ _)
                exact skelPres_refl _
              ·
                intro p2 k2 c2 sc2 st2
                cases c2 <;>
                  first
                    | exact ih _ _ _ _ _
                    | exact skelPres_trans (ih _ _ _ _ _) (bindName_skel f _ _ _ _ _ _)
            ·
              intro p2 k2 c2 sc2 st2
              exact ih _ _ _ _ _
          | false =>
            simp only [visitNode1, hb, Bool.false_eq_true, reduceIte]
            refine skelPres_trans ?_ (ih _ _ _ _ _)
            refine skelPres_trans ?_ (goList_skel _ _ ?_ _ _ _ _)
            · refine skelPres_trans ?_ (newChildScope_skel _ _ _ _)
              exact skelPres_refl _
            ·
              intro p2 k2 c2 sc2 st2
              cases c2 <;>
                first
                  | exact ih _ _ _ _ _
                  | exact skelPres_trans (ih _ _ _ _ _) (bindName_skel f _ _ _ _ _ _)
      | some t =>
        cases body with
        | none =>
          simp only [visitNode1]
          refine skelPres_trans ?_ (goList_skel _ _ ?_ _ _ _ _)
          · refine skelPres_trans ?_ (newChildScope_skel _ _ _ _)
            refine skelPres_trans ?_ (addBinding_skel _ _ _ _)
            exact skelPres_refl _
          ·
            intro p2 k2 c2 sc2 st2
            cases c2 <;>
              first
                | exact ih _ _ _ _ _
                | exact skelPres_trans (ih _ _ _ _ _) (bindName_skel f _ _ _ _ _ _)
        | some b =>
          cases hb : b.isBlockNode with
          | true =>
            simp only [visitNode1, hb, reduceIte]
            refine skelPres_trans ?_ (goList_skel _ _ ?_ _ _ _ _)
            · refine skelPres_trans ?_ (goList_skel _ _ ?_ _ _ _ _)
              · refine skelPres_trans ?_ (newChildScope_skel _ _ _ _)
                refine skelPres_trans ?_ (addBinding_skel _ _ _ _)
                exact skelPres_refl _
              ·
                intro p2 k2 c2 sc2 st2
                cases c2 <;>
                  first
                    | exact ih _ _ _ _ _
                    | exact skelPres_trans (ih _ _ _ _ _) (bindName_skel f _ _ _ _ _ _)
            ·
              intro p2 k2 c2 sc2 st2
              exact ih _ _ _ _ _
          | false =>
            simp only [visitNode1, hb, Bool.false_eq_true, reduceIte]
            refine skelPres_trans ?_ (ih _ _ _ _ _)
            refine skelPres_trans ?_ (goList_skel _ _ ?_ _ _ _ _)
            · refine skelPres_trans ?_ (newChildScope_skel _ _ _ _)
              refine skelPres_trans ?_ (addBinding_skel _ _ _ _)
              exact skelPres_refl _
            ·
              intro p2 k2 c2 sc2 st2
              cases c2 <;>
                first
                  | exact ih _ _ _ _ _
                  | exact skelPres_trans (ih _ _ _ _ _) (bindName_skel f _ _ _ _ _ _)
    | functionExpression fname ps body =>
      cases fname with
      | none =>
        cases body with
        | none =>
          simp only [visitNode1]
          refine skelPres_trans ?_ (goList_skel _ _ ?_ _ _ _ _)
          · refine skelPres_trans ?_ (newChildScope_skel _ _ _ _)
            exact skelPres_refl _
          ·
            intro p2 k2 c2 sc2 st2
            cases c2 <;>
              first
                | exact ih _ _ _ _ _
                | exact skelPres_trans (ih _ _ _ _ _) (bindName_skel f _ _ _ _ _ _)
        | some b =>
          cases hb : b.isBlockNode with
          | true =>
            simp only [visitNode1, hb, reduceIte]
            refine skelPres_trans ?_ (goList_skel _ _ ?_ _ _ _ _)
            · refine skelPres_trans ?_ (goList_skel _ _ ?_ _ _ _ _)
              · refine skelPres_trans ?_ (newChildScope_skel _ _ _ _)
                exact skelPres_refl _
              ·
                intro p2 k2 c2 sc2 st2
                cases c2 <;>
                  first
                    | exact ih _ _ _ _ _
                    | exact skelPres_trans (ih _ _ _ _ _) (bindName_skel f _ _ _ _ _ _)
            ·
              intro p2 k2 c2 sc2 st2
              exact ih _ _ _ _ _
          | false =>
            simp only [visitNode1, hb, Bool.false_eq_true, reduceIte]
            refine skelPres_trans ?_ (ih _ _ _ _ _)
            refine skelPres_trans ?_ (goList_skel _ _ ?_ _ _ _ _)
            · refine skelPres_trans ?_ (newChildScope_skel _ _ _ _)
              exact skelPres_refl _
            ·
              intro p2 k2 c2 sc2 st2
              cases c2 <;>
                first
                  | exact ih _ _ _ _ _
                  | exact skelPres_trans (ih _ _ _ _ _) (bindName_skel f _ _ _ _ _ _)
      | some t =>
        cases body with
        | none =>
          simp only [visitNode1]
          refine skelPres_trans ?_ (goList_skel _ _ ?_ _ _ _ _)
          · refine skelPres_trans ?_ (newChildScope_skel _ _ _ _)
            refine skelPres_trans ?_ (addBinding_skel _ _ _ _)
            exact skelPres_refl _
          ·
            intro p2 k2 c2 sc2 st2
            cases c2 <;>
              first
                | exact ih _ _ _ _ _
                | exact skelPres_trans (ih _ _ _ _ _) (bindName_skel f _ _ _ _ _ _)
        | some b =>
          cases hb : b.isBlockNode with
          | true =>
            simp only [visitNode1, hb, reduceIte]
            refine skelPres_trans ?_ (goList_skel _ _ ?_ _ _ _ _)
            · refine skelPres_trans ?_ (goList_skel _ _ ?_ _ _ _ _)
              · refine skelPres_trans ?_ (newChildScope_skel _ _ _ _)
                refine skelPres_trans ?_ (addBinding_skel _ _ _ _)
                exact skelPres_refl _
              ·
                intro p2 k2 c2 sc2 st2
                cases c2 <;>
                  first
                    | exact ih _ _ _ _ _
                    | exact skelPres_trans (ih _ _ _ _ _) (bindName_skel f _ _ _ _ _ _)
            ·
              intro p2 k2 c2 sc2 st2
              exact ih _ _ _ _ _
          | false =>
            simp only [visitNode1, hb, Bool.false_eq_true, reduceIte]
            refine skelPres_trans ?_ (ih _ _ _ _ _)
            refine skelPres_trans ?_ (goList_skel _ _ ?_ _ _ _ _)
            · refine skelPres_trans ?_ (newChildScope_skel _ _ _ _)
              refine skelPres_trans ?_ (addBinding_skel _ _ _ _)
              exact skelPres_refl _
            ·
              intro p2 k2 c2 sc2 st2
              cases c2 <;>
                first
                  | exact ih _ _ _ _ _
                  | exact skelPres_trans (ih _ _ _ _ _) (bindName_skel f _ _ _ _ _ _)
    | arrowFunction ps body =>
      cases hb : body.isBlockNode with
      | true =>
        simp only [visitNode1, hb, reduceIte]
        refine skelPres_trans ?_ (goList_skel _ _ ?_ _ _ _ _)
        · refine skelPres_trans ?_ (goList_skel _ _ ?_ _ _ _ _)
          · refine skelPres_trans ?_ (newChildScope_skel _ _ _ _)
            exact skelPres_refl _
          ·
            intro p2 k2 c2 sc2 st2
            cases c2 <;>
              first
                | exact ih _ _ _ _ _
                | exact skelPres_trans (ih _ _ _ _ _) (bindName_skel f _ _ _ _ _ _)
        ·
          intro p2 k2 c2 sc2 st2
          exact ih _ _ _ _ _
      | false =>
        simp only [visitNode1, hb, Bool.false_eq_true, reduceIte]
        refine skelPres_trans ?_ (ih _ _ _ _ _)
        refine skelPres_trans ?_ (goList_skel _ _ ?_ _ _ _ _)
        · refine skelPres_trans ?_ (newChildScope_skel _ _ _ _)
          exact skelPres_refl _
        ·
          intro p2 k2 c2 sc2 st2
          cases c2 <;>
            first
              | exact ih _ _ _ _ _
              | exact skelPres_trans (ih _ _ _ _ _) (bindName_skel f _ _ _ _ _ _)
    | forOfStatement lini le lstmt =>
      cases hb : lstmt.isBlockNode with
      | true =>
        simp only [visitNode1, hb, reduceIte]
        refine skelPres_trans ?_ (goList_skel _ _ ?_ _ _ _ _)
        · refine skelPres_trans ?_ (ih _ _ _ _ _)
          refine skelPres_trans ?_ (ih _ _ _ _ _)
          refine skelPres_trans ?_ (newChildScope_skel _ _ _ _)
          exact skelPres_refl _
        ·
          intro p2 k2 c2 sc2 st2
          exact ih _ _ _ _ _
      | false =>
        simp only [visitNode1, hb, Bool.false_eq_true, reduceIte]
        refine skelPres_trans ?_ (ih _ _ _ _ _)
        refine skelPres_trans ?_ (ih _ _ _ _ _)
        refine skelPres_trans ?_ (ih _ _ _ _ _)
        refine skelPres_trans ?_ (newChildScope_skel _ _ _ _)
        exact skelPres_refl _
    | forInStatement lini le lstmt =>
      cases hb : lstmt.isBlockNode with
      | true =>
        simp only [visitNode1, hb, reduceIte]
        refine skelPres_trans ?_ (goList_skel _ _ ?_ _ _ _ _)
        · refine skelPres_trans ?_ (ih _ _ _ _ _)
          refine skelPres_trans ?_ (ih _ _ _ _ _)
          refine skelPres_trans ?_ (newChildScope_skel _ _ _ _)
          exact skelPres_refl _
        ·
          intro p2 k2 c2 sc2 st2
          exact ih _ _ _ _ _
      | false =>
        simp only [visitNode1, hb, Bool.false_eq_true, reduceIte]
        refine skelPres_trans ?_ (ih _ _ _ _ _)
        refine skelPres_trans ?_ (ih _ _ _ _ _)
        refine skelPres_trans ?_ (ih _ _ _ _ _)
        refine skelPres_trans ?_ (newChildScope_skel _ _ _ _)
        exact skelPres_refl _

theorem mget_cons_self (q : NodePath) (v : Nat) (m : ScopesMap) :
    mget q ((q, v) :: m) = some v := by
  simp [mget]

theorem mget_cons_ne (q p2 : NodePath) (v : Nat) (m : ScopesMap) (h : p2 ≠ q) :
    mget q ((p2, v) :: m) = mget q m := by
  unfold mget
  rw [List.find?_cons_of_neg]
  simp only [beq_iff_eq]
  exact h

theorem mget_append_skip :
    ∀ (A : ScopesMap) (q : NodePath) (m : ScopesMap),
      (∀ en ∈ A, en.1 ≠ q) → mget q (A ++ m) = mget q m := by
  intro A
  induction A with
  | nil => intro q m h; rfl
  | cons a A ihA =>
    intro q m h
    obtain ⟨a1, a2⟩ := a
    rw [List.cons_append, mget_cons_ne q a1 a2 (A ++ m) (h (a1, a2) (by simp))]
    exact ihA q m (fun en hen => h en (List.mem_cons_of_mem _ hen))

theorem mget_append_cases :
    ∀ (A : ScopesMap) (q : NodePath) (m : ScopesMap),
      mget q (A ++ m) = mget q m ∨
        ∃ en, en ∈ A ∧ en.1 = q ∧ mget q (A ++ m) = some en.2 := by
  intro A
  induction A with
  | nil => intro q m; exact Or.inl rfl
  | cons a A ihA =>
    intro q m
    obtain ⟨a1, a2⟩ := a
    by_cases h1 : a1 = q
    · subst h1
      exact Or.inr ⟨(a1, a2), by simp, rfl, by rw [List.cons_append]; exact mget_cons_self _ _ _⟩
    · rw [List.cons_append, mget_cons_ne q a1 a2 (A ++ m) h1]
      rcases ihA q m with h | ⟨en, hen, hq, hv⟩
      · exact Or.inl h
      · exact Or.inr ⟨en, List.mem_cons_of_mem _ hen, hq, hv⟩

theorem mget_value_bound {P : Nat → Prop} (m : ScopesMap) (q : NodePath) (v : Nat)
    (hm : ∀ en ∈ m, P en.2) (h : mget q m = some v) : P v := by
  unfold mget at h
  cases hf : m.find? (fun e => e.1 == q) with
  | none => rw [hf] at h; simp at h
  | some en =>
    rw [hf] at h
    simp at h
    have hmem := List.mem_of_find?_eq_some hf
    rw [← h]
    exact hm en hmem


theorem path_ext_ne_base (p : NodePath) (x : Nat) (r : NodePath) :
    p ++ x :: r ≠ p := by
  intro h
  have h2 := congrArg List.length h
  simp at h2

theorem path_ext_ne_sibling {p : NodePath} {x y : Nat} (r s : NodePath) (hxy : x ≠ y) :
    p ++ x :: r ≠ p ++ y :: s := by
  intro h
  have h2 := List.append_cancel_left h
  injection h2 with h3 h4
  exact hxy h3

theorem path_ext2_ne_child (p : NodePath) (x k : Nat) (r : NodePath) :
    p ++ x :: k :: r ≠ p ++ [x] := by
  intro h
  have h2 := List.append_cancel_left h
  injection h2 with h3 h4
  exact List.cons_ne_nil k r h4

theorem path_single_ne_ext2 (p : NodePath) (kk x k : Nat) (r : NodePath) :
    p ++ [kk] ≠ p ++ x :: k :: r := by
  intro h
  have h2 := List.append_cancel_left h
  injection h2 with h3 h4
  exact List.cons_ne_nil k r h4.symm

theorem pathS_ne_base {p : NodePath} {x k : Nat} (r : NodePath) :
    (p ++ [x]) ++ k :: r ≠ p := by
  simp only [List.append_assoc, List.singleton_append]
  exact path_ext_ne_base p x (k :: r)

theorem pathS_ne_sibling {p : NodePath} {x y k : Nat} (r s : NodePath) (hxy : x ≠ y) :
    (p ++ [x]) ++ k :: r ≠ p ++ y :: s := by
  simp only [List.append_assoc, List.singleton_append]
  exact path_ext_ne_sibling _ _ hxy

theorem pathS_ne_self {p : NodePath} {x k : Nat} (r : NodePath) :
    (p ++ [x]) ++ k :: r ≠ p ++ [x] := by
  simp only [List.append_assoc, List.singleton_append]
  exact path_ext2_ne_child p x k r

theorem visitNode1_forOf_eq (f : Nat) (par : Option Node) (p : NodePath)
    (ini e lstmt : Node) (sc : Nat) (st stA stB stC : BuildState)
    (hb : lstmt.isBlockNode = true)
    (hA : stA = newChildScope ScopeKind.lexicalScope p sc
            (addAllChildren p (.forOfStatement ini e lstmt) sc
              { st with scopesMap := mset p sc st.scopesMap }))
    (hB : stB = visitNode1 (f + 1) (some (.forOfStatement ini e lstmt)) (p ++ [0]) ini
            st.scopes.length stA)
    (hC : stC = visitNode1 (f + 1) (some (.forOfStatement ini e lstmt)) (p ++ [1]) e sc stB) :
    visitNode1 (f + 1 + 1) par p (.forOfStatement ini e lstmt) sc st =
      goList (fun p2 k c sc2 st2 => visitNode1 (f + 1) (some lstmt) (p2 ++ [k]) c sc2 st2)
        (p ++ [2]) 0 (children lstmt) st.scopes.length
        { stC with scopesMap := mset (p ++ [2]) st.scopes.length stC.scopesMap } := by
  subst hC hB hA
  conv_lhs => rw [visitNode1]
  dsimp only
  simp only [hb, reduceIte]
  rfl

theorem visitNode1_forIn_eq (f : Nat) (par : Option Node) (p : NodePath)
    (ini e lstmt : Node) (sc : Nat) (st stA stB stC : BuildState)
    (hb : lstmt.isBlockNode = true)
    (hA : stA = newChildScope ScopeKind.lexicalScope p sc
            (addAllChildren p (.forInStatement ini e lstmt) sc
              { st with scopesMap := mset p sc st.scopesMap }))
    (hB : stB = visitNode1 (f + 1) (some (.forInStatement ini e lstmt)) (p ++ [0]) ini
            st.scopes.length stA)
    (hC : stC = visitNode1 (f + 1) (some (.forInStatement ini e lstmt)) (p ++ [1]) e sc stB) :
    visitNode1 (f + 1 + 1) par p (.forInStatement ini e lstmt) sc st =
      goList (fun p2 k c sc2 st2 => visitNode1 (f + 1) (some lstmt) (p2 ++ [k]) c sc2 st2)
        (p ++ [2]) 0 (children lstmt) st.scopes.length
        { stC with scopesMap := mset (p ++ [2]) st.scopes.length stC.scopesMap } := by
  subst hC hB hA
  conv_lhs => rw [visitNode1]
  dsimp only
  simp only [hb, reduceIte]
  rfl


theorem loopOf_facts (f : Nat) (par : Option Node) (p : NodePath)
    (ini e lstmt : Node) (sc : Nat) (st : BuildState)
    (hb : lstmt.isBlockNode = true)
    (hsc : sc < st.scopes.length)
    (hm : ∀ en ∈ st.scopesMap, en.2 < st.scopes.length) :
    (∃ sd, (visitNode1 (f + 1 + 1) par p (.forOfStatement ini e lstmt) sc
          st).scopes[st.scopes.length]? = some sd ∧
        sd.scopeKind = ScopeKind.lexicalScope ∧ sd.parentScope = some sc ∧
        sd.declaratingNode = p) ∧
    mget p (visitNode1 (f + 1 + 1) par p (.forOfStatement ini e lstmt) sc
        st).scopesMap = some sc ∧
    mget (p ++ [0]) (visitNode1 (f + 1 + 1) par p (.forOfStatement ini e lstmt) sc
        st).scopesMap = some st.scopes.length ∧
    mget (p ++ [1]) (visitNode1 (f + 1 + 1) par p (.forOfStatement ini e lstmt) sc
        st).scopesMap = some sc ∧
    mget (p ++ [2]) (visitNode1 (f + 1 + 1) par p (.forOfStatement ini e lstmt) sc
        st).scopesMap = some st.scopes.length ∧
    (∀ q2 : NodePath, mget (p ++ 1 :: q2) (visitNode1 (f + 1 + 1) par p
        (.forOfStatement ini e lstmt) sc st).scopesMap ≠ some st.scopes.length) := by
  obtain ⟨stA, hA⟩ : ∃ x : BuildState,
      x = newChildScope ScopeKind.lexicalScope p sc
            (addAllChildren p (.forOfStatement ini e lstmt) sc
              { st with scopesMap := mset p sc st.scopesMap }) := ⟨_, rfl⟩
  obtain ⟨stB, hB⟩ : ∃ x : BuildState,
      x = visitNode1 (f + 1) (some (.forOfStatement ini e lstmt)) (p ++ [0]) ini
            st.scopes.length stA := ⟨_, rfl⟩
  obtain ⟨stC, hC⟩ : ∃ x : BuildState,
      x = visitNode1 (f + 1) (some (.forOfStatement ini e lstmt)) (p ++ [1]) e sc stB := ⟨_, rfl⟩
  have hres := visitNode1_forOf_eq f par p ini e lstmt sc st stA stB stC hb hA hB hC
  have hlenA : stA.scopes.length = st.scopes.length + 1 := by
    rw [hA, newChildScope_length]
    rfl
  have hlenB : st.scopes.length + 1 ≤ stB.scopes.length := by
    rw [hB, ← hlenA]
    exact visitNode1_scopes_len _ _ _ _ _ _
  have hlenC : st.scopes.length + 1 ≤ stC.scopes.length := by
    rw [hC]
    exact hlenB.trans (visitNode1_scopes_len _ _ _ _ _ _)
  have hmapA : stA.scopesMap =
      setChildren p sc 0 (children (.forOfStatement ini e lstmt)) ((p, sc) :: st.scopesMap) := by
    rw [hA]
    rfl
  obtain ⟨Bc, hBc, pBc⟩ :=
    setChildren_entry p sc (children (.forOfStatement ini e lstmt)) 0 ((p, sc) :: st.scopesMap)
  obtain ⟨Bi, hBi, pBi⟩ := visitNode1_map_spec_succ f (some (.forOfStatement ini e lstmt))
    (p ++ [0]) ini st.scopes.length stA
  have hmapB : stB.scopesMap = Bi ++ (p ++ [0], st.scopes.length) :: stA.scopesMap := by
    rw [hB]
    exact hBi
  obtain ⟨Be, hBe, pBe⟩ := visitNode1_map_spec_succ f (some (.forOfStatement ini e lstmt))
    (p ++ [1]) e sc stB
  have hmapC : stC.scopesMap = Be ++ (p ++ [1], sc) :: stB.scopesMap := by
    rw [hC]
    exact hBe
  obtain ⟨Bb, hBb, pBb⟩ :=
    goList_specS (fun p2 k c sc2 st2 => visitNode1 (f + 1) (some lstmt) (p2 ++ [k]) c sc2 st2)
      (p ++ [2]) st.scopes.length
      (fun k c st2 => visitNode1_scopes_len _ _ _ _ _ _)
      (fun k c st2 => visitNode1_map_spec (f + 1) _ _ c _ st2)
      (children lstmt) 0
      { stC with scopesMap := mset (p ++ [2]) st.scopes.length stC.scopesMap }
  have hmapD : ({ stC with
        scopesMap := mset (p ++ [2]) st.scopes.length stC.scopesMap } : BuildState).scopesMap =
      (p ++ [2], st.scopes.length) :: (Be ++ (p ++ [1], sc) ::
        (Bi ++ (p ++ [0], st.scopes.length) :: (Bc ++ (p, sc) :: st.scopesMap))) := by
    show mset (p ++ [2]) st.scopes.length stC.scopesMap = _
    simp only [mset]
    rw [hmapC, hmapB, hmapA, hBc]
  rw [hres, hBb, hmapD]
  refine ⟨?_, ?_, ?_, ?_, ?_, ?_⟩
  · have hscA : stA.scopes[st.scopes.length]? =
        some { scopeKind := ScopeKind.lexicalScope, bindings := [], parentScope := some sc,
               declaratingNode := p, references := [] } := by
      rw [hA]
      exact List.getElem?_concat_length _ _
    have hskel : skelPres stA.scopes
        ((goList (fun p2 k c sc2 st2 => visitNode1 (f + 1) (some lstmt) (p2 ++ [k]) c sc2 st2)
          (p ++ [2]) 0 (children lstmt) st.scopes.length
          { stC with scopesMap := mset (p ++ [2]) st.scopes.length stC.scopesMap }).scopes) := by
      refine skelPres_trans ?_ (goList_skel _ _ ?_ _ _ _ _)
      · show skelPres stA.scopes stC.scopes
        refine skelPres_trans (a := stA.scopes) (b := stB.scopes) ?_ ?_
        · rw [hB]
          exact visitNode1_skel _ _ _ _ _ _
        · rw [hC]
          exact visitNode1_skel _ _ _ _ _ _
      · intro p2 k2 c2 sc2 st2
        exact visitNode1_skel _ _ _ _ _ _
    obtain ⟨sd2, hsd2, hkind, hpar, hdecl⟩ := hskel st.scopes.length _ hscA
    exact ⟨sd2, hsd2, by rw [hkind], by rw [hpar], by rw [hdecl]⟩
  · rw [mget_append_skip Bb _ _ ?hb1, mget_cons_ne _ _ _ _ (path_ext_ne_base p 2 []),
      mget_append_skip Be _ _ ?hb2, mget_cons_ne _ _ _ _ (path_ext_ne_base p 1 []),
      mget_append_skip Bi _ _ ?hb3, mget_cons_ne _ _ _ _ (path_ext_ne_base p 0 []),
      mget_append_skip Bc _ _ ?hb4, mget_cons_self]
    case hb1 =>
      intro en hen
      obtain ⟨⟨k, r, hp⟩, _⟩ := pBb en hen
      rw [hp]
      exact pathS_ne_base r
    case hb2 =>
      intro en hen
      obtain ⟨⟨k, r, hp⟩, _⟩ := pBe en hen
      rw [hp]
      exact pathS_ne_base r
    case hb3 =>
      intro en hen
      obtain ⟨⟨k, r, hp⟩, _⟩ := pBi en hen
      rw [hp]
      exact pathS_ne_base r
    case hb4 =>
      intro en hen
      obtain ⟨⟨kk, hp⟩, _⟩ := pBc en hen
      rw [hp]
      exact path_ext_ne_base p kk []
  · rw [mget_append_skip Bb _ _ ?hc1,
      mget_cons_ne _ _ _ _ (@path_ext_ne_sibling p 2 0 [] [] (by omega)),
      mget_append_skip Be _ _ ?hc2,
      mget_cons_ne _ _ _ _ (@path_ext_ne_sibling p 1 0 [] [] (by omega)),
      mget_append_skip Bi _ _ ?hc3, mget_cons_self]
    case hc1 =>
      intro en hen
      obtain ⟨⟨k, r, hp⟩, _⟩ := pBb en hen
      rw [hp]
      exact @pathS_ne_sibling p 2 0 k r [] (by omega)
    case hc2 =>
      intro en hen
      obtain ⟨⟨k, r, hp⟩, _⟩ := pBe en hen
      rw [hp]
      exact @pathS_ne_sibling p 1 0 k r [] (by omega)
    case hc3 =>
      intro en hen
      obtain ⟨⟨k, r, hp⟩, _⟩ := pBi en hen
      rw [hp]
      exact pathS_ne_self r
  · rw [mget_append_skip Bb _ _ ?hd1,
      mget_cons_ne _ _ _ _ (@path_ext_ne_sibling p 2 1 [] [] (by omega)),
      mget_append_skip Be _ _ ?hd2, mget_cons_self]
    case hd1 =>
      intro en hen
      obtain ⟨⟨k, r, hp⟩, _⟩ := pBb en hen
      rw [hp]
      exact @pathS_ne_sibling p 2 1 k r [] (by omega)
    case hd2 =>
      intro en hen
      obtain ⟨⟨k, r, hp⟩, _⟩ := pBe en hen
      rw [hp]
      exact pathS_ne_self r
  · rw [mget_append_skip Bb _ _ ?he1, mget_cons_self]
    case he1 =>
      intro en hen
      obtain ⟨⟨k, r, hp⟩, _⟩ := pBb en hen
      rw [hp]
      exact pathS_ne_self r
  · intro q2
    rw [mget_append_skip Bb _ _ ?hf1,
      mget_cons_ne _ _ _ _ (@path_ext_ne_sibling p 2 1 [] q2 (by omega))]
    case hf1 =>
      intro en hen
      obtain ⟨⟨k, r, hp⟩, _⟩ := pBb en hen
      rw [hp]
      exact @pathS_ne_sibling p 2 1 k r q2 (by omega)
    rcases mget_append_cases Be (p ++ 1 :: q2) _ with hskip | ⟨en, hen, hq, hv⟩
    · rw [hskip]
      cases q2 with
      | nil =>
        rw [mget_cons_self]
        intro hcon
        have h5 : sc = st.scopes.length := Option.some.inj hcon
        omega
      | cons k2 r2 =>
        rw [mget_cons_ne _ _ _ _ (path_single_ne_ext2 p 1 1 k2 r2),
          mget_append_skip Bi _ _ ?hf2,
          mget_cons_ne _ _ _ _ (@path_ext_ne_sibling p 0 1 [] (k2 :: r2) (by omega)),
          mget_append_skip Bc _ _ ?hf3,
          mget_cons_ne _ _ _ _ (Ne.symm (path_ext_ne_base p 1 (k2 :: r2)))]
        case hf2 =>
          intro en hen
          obtain ⟨⟨k, r, hp⟩, _⟩ := pBi en hen
          rw [hp]
          exact @pathS_ne_sibling p 0 1 k r (k2 :: r2) (by omega)
        case hf3 =>
          intro en hen
          obtain ⟨⟨kk, hp⟩, _⟩ := pBc en hen
          rw [hp]
          exact path_single_ne_ext2 p kk 1 k2 r2
        intro hcon
        have hlt := @mget_value_bound (fun v => v < st.scopes.length) st.scopesMap (p ++ 1 :: k2 :: r2) st.scopes.length hm hcon
        omega
    · rw [hv]
      obtain ⟨_, hval⟩ := pBe en hen
      intro hcon
      have h5 : en.2 = st.scopes.length := Option.some.inj hcon
      rcases hval with h1 | h1 <;> omega

theorem loopIn_facts (f : Nat) (par : Option Node) (p : NodePath)
    (ini e lstmt : Node) (sc : Nat) (st : BuildState)
    (hb : lstmt.isBlockNode = true)
    (hsc : sc < st.scopes.length)
    (hm : ∀ en ∈ st.scopesMap, en.2 < st.scopes.length) :
    (∃ sd, (visitNode1 (f + 1 + 1) par p (.forInStatement ini e lstmt) sc
          st).scopes[st.scopes.length]? = some sd ∧
        sd.scopeKind = ScopeKind.lexicalScope ∧ sd.parentScope = some sc ∧
        sd.declaratingNode = p) ∧
    mget p (visitNode1 (f + 1 + 1) par p (.forInStatement ini e lstmt) sc
        st).scopesMap = some sc ∧
    mget (p ++ [0]) (visitNode1 (f + 1 + 1) par p (.forInStatement ini e lstmt) sc
        st).scopesMap = some st.scopes.length ∧
    mget (p ++ [1]) (visitNode1 (f + 1 + 1) par p (.forInStatement ini e lstmt) sc
        st).scopesMap = some sc ∧
    mget (p ++ [2]) (visitNode1 (f + 1 + 1) par p (.forInStatement ini e lstmt) sc
        st).scopesMap = some st.scopes.length ∧
    (∀ q2 : NodePath, mget (p ++ 1 :: q2) (visitNode1 (f + 1 + 1) par p
        (.forInStatement ini e lstmt) sc st).scopesMap ≠ some st.scopes.length) := by
  obtain ⟨stA, hA⟩ : ∃ x : BuildState,
      x = newChildScope ScopeKind.lexicalScope p sc
            (addAllChildren p (.forInStatement ini e lstmt) sc
              { st with scopesMap := mset p sc st.scopesMap }) := ⟨_, rfl⟩
  obtain ⟨stB, hB⟩ : ∃ x : BuildState,
      x = visitNode1 (f + 1) (some (.forInStatement ini e lstmt)) (p ++ [0]) ini
            st.scopes.length stA := ⟨_, rfl⟩
  obtain ⟨stC, hC⟩ : ∃ x : BuildState,
      x = visitNode1 (f + 1) (some (.forInStatement ini e lstmt)) (p ++ [1]) e sc stB := ⟨_, rfl⟩
  have hres := visitNode1_forIn_eq f par p ini e lstmt sc st stA stB stC hb hA hB hC
  have hlenA : stA.scopes.length = st.scopes.length + 1 := by
    rw [hA, newChildScope_length]
    rfl
  have hlenB : st.scopes.length + 1 ≤ stB.scopes.length := by
    rw [hB, ← hlenA]
    exact visitNode1_scopes_len _ _ _ _ _ _
  have hlenC : st.scopes.length + 1 ≤ stC.scopes.length := by
    rw [hC]
    exact hlenB.trans (visitNode1_scopes_len _ _ _ _ _ _)
  have hmapA : stA.scopesMap =
      setChildren p sc 0 (children (.forInStatement ini e lstmt)) ((p, sc) :: st.scopesMap) := by
    rw [hA]
    rfl
  obtain ⟨Bc, hBc, pBc⟩ :=
    setChildren_entry p sc (children (.forInStatement ini e lstmt)) 0 ((p, sc) :: st.scopesMap)
  obtain ⟨Bi, hBi, pBi⟩ := visitNode1_map_spec_succ f (some (.forInStatement ini e lstmt))
    (p ++ [0]) ini st.scopes.length stA
  have hmapB : stB.scopesMap = Bi ++ (p ++ [0], st.scopes.length) :: stA.scopesMap := by
    rw [hB]
    exact hBi
  obtain ⟨Be, hBe, pBe⟩ := visitNode1_map_spec_succ f (some (.forInStatement ini e lstmt))
    (p ++ [1]) e sc stB
  have hmapC : stC.scopesMap = Be ++ (p ++ [1], sc) :: stB.scopesMap := by
    rw [hC]
    exact hBe
  obtain ⟨Bb, hBb, pBb⟩ :=
    goList_specS (fun p2 k c sc2 st2 => visitNode1 (f + 1) (some lstmt) (p2 ++ [k]) c sc2 st2)
      (p ++ [2]) st.scopes.length
      (fun k c st2 => visitNode1_scopes_len _ _ _ _ _ _)
      (fun k c st2 => visitNode1_map_spec (f + 1) _ _ c _ st2)
      (children lstmt) 0
      { stC with scopesMap := mset (p ++ [2]) st.scopes.length stC.scopesMap }
  have hmapD : ({ stC with
        scopesMap := mset (p ++ [2]) st.scopes.length stC.scopesMap } : BuildState).scopesMap =
      (p ++ [2], st.scopes.length) :: (Be ++ (p ++ [1], sc) ::
        (Bi ++ (p ++ [0], st.scopes.length) :: (Bc ++ (p, sc) :: st.scopesMap))) := by
    show mset (p ++ [2]) st.scopes.length stC.scopesMap = _
    simp only [mset]
    rw [hmapC, hmapB, hmapA, hBc]
  rw [hres, hBb, hmapD]
  refine ⟨?_, ?_, ?_, ?_, ?_, ?_⟩
  · have hscA : stA.scopes[st.scopes.length]? =
        some { scopeKind := ScopeKind.lexicalScope, bindings := [], parentScope := some sc,
               declaratingNode := p, references := [] } := by
      rw [hA]
      exact List.getElem?_concat_length _ _
    have hskel : skelPres stA.scopes
        ((goList (fun p2 k c sc2 st2 => visitNode1 (f + 1) (some lstmt) (p2 ++ [k]) c sc2 st2)
          (p ++ [2]) 0 (children lstmt) st.scopes.length
          { stC with scopesMap := mset (p ++ [2]) st.scopes.length stC.scopesMap }).scopes) := by
      refine skelPres_trans ?_ (goList_skel _ _ ?_ _ _ _ _)
      · show skelPres stA.scopes stC.scopes
        refine skelPres_trans (a := stA.scopes) (b := stB.scopes) ?_ ?_
        · rw [hB]
          exact visitNode1_skel _ _ _ _ _ _
        · rw [hC]
          exact visitNode1_skel _ _ _ _ _ _
      · intro p2 k2 c2 sc2 st2
        exact visitNode1_skel _ _ _ _ _ _
    obtain ⟨sd2, hsd2, hkind, hpar, hdecl⟩ := hskel st.scopes.length _ hscA
    exact ⟨sd2, hsd2, by rw [hkind], by rw [hpar], by rw [hdecl]⟩
  · rw [mget_append_skip Bb _ _ ?hb1, mget_cons_ne _ _ _ _ (path_ext_ne_base p 2 []),
      mget_append_skip Be _ _ ?hb2, mget_cons_ne _ _ _ _ (path_ext_ne_base p 1 []),
      mget_append_skip Bi _ _ ?hb3, mget_cons_ne _ _ _ _ (path_ext_ne_base p 0 []),
      mget_append_skip Bc _ _ ?hb4, mget_cons_self]
    case hb1 =>
      intro en hen
      obtain ⟨⟨k, r, hp⟩, _⟩ := pBb en hen
      rw [hp]
      exact pathS_ne_base r
    case hb2 =>
      intro en hen
      obtain ⟨⟨k, r, hp⟩, _⟩ := pBe en hen
      rw [hp]
      exact pathS_ne_base r
    case hb3 =>
      intro en hen
      obtain ⟨⟨k, r, hp⟩, _⟩ := pBi en hen
      rw [hp]
      exact pathS_ne_base r
    case hb4 =>
      intro en hen
      obtain ⟨⟨kk, hp⟩, _⟩ := pBc en hen
      rw [hp]
      exact path_ext_ne_base p kk []
  · rw [mget_append_skip Bb _ _ ?hc1,
      mget_cons_ne _ _ _ _ (@path_ext_ne_sibling p 2 0 [] [] (by omega)),
      mget_append_skip Be _ _ ?hc2,
      mget_cons_ne _ _ _ _ (@path_ext_ne_sibling p 1 0 [] [] (by omega)),
      mget_append_skip Bi _ _ ?hc3, mget_cons_self]
    case hc1 =>
      intro en hen
      obtain ⟨⟨k, r, hp⟩, _⟩ := pBb en hen
      rw [hp]
      exact @pathS_ne_sibling p 2 0 k r [] (by omega)
    case hc2 =>
      intro en hen
      obtain ⟨⟨k, r, hp⟩, _⟩ := pBe en hen
      rw [hp]
      exact @pathS_ne_sibling p 1 0 k r [] (by omega)
    case hc3 =>
      intro en hen
      obtain ⟨⟨k, r, hp⟩, _⟩ := pBi en hen
      rw [hp]
      exact pathS_ne_self r
  · rw [mget_append_skip Bb _ _ ?hd1,
      mget_cons_ne _ _ _ _ (@path_ext_ne_sibling p 2 1 [] [] (by omega)),
      mget_append_skip Be _ _ ?hd2, mget_cons_self]
    case hd1 =>
      intro en hen
      obtain ⟨⟨k, r, hp⟩, _⟩ := pBb en hen
      rw [hp]
      exact @pathS_ne_sibling p 2 1 k r [] (by omega)
    case hd2 =>
      intro en hen
      obtain ⟨⟨k, r, hp⟩, _⟩ := pBe en hen
      rw [hp]
      exact pathS_ne_self r
  · rw [mget_append_skip Bb _ _ ?he1, mget_cons_self]
    case he1 =>
      intro en hen
      obtain ⟨⟨k, r, hp⟩, _⟩ := pBb en hen
      rw [hp]
      exact pathS_ne_self r
  · intro q2
    rw [mget_append_skip Bb _ _ ?hf1,
      mget_cons_ne _ _ _ _ (@path_ext_ne_sibling p 2 1 [] q2 (by omega))]
    case hf1 =>
      intro en hen
      obtain ⟨⟨k, r, hp⟩, _⟩ := pBb en hen
      rw [hp]
      exact @pathS_ne_sibling p 2 1 k r q2 (by omega)
    rcases mget_append_cases Be (p ++ 1 :: q2) _ with hskip | ⟨en, hen, hq, hv⟩
    · rw [hskip]
      cases q2 with
      | nil =>
        rw [mget_cons_self]
        intro hcon
        have h5 : sc = st.scopes.length := Option.some.inj hcon
        omega
      | cons k2 r2 =>
        rw [mget_cons_ne _ _ _ _ (path_single_ne_ext2 p 1 1 k2 r2),
          mget_append_skip Bi _ _ ?hf2,
          mget_cons_ne _ _ _ _ (@path_ext_ne_sibling p 0 1 [] (k2 :: r2) (by omega)),
          mget_append_skip Bc _ _ ?hf3,
          mget_cons_ne _ _ _ _ (Ne.symm (path_ext_ne_base p 1 (k2 :: r2)))]
        case hf2 =>
          intro en hen
          obtain ⟨⟨k, r, hp⟩, _⟩ := pBi en hen
          rw [hp]
          exact @pathS_ne_sibling p 0 1 k r (k2 :: r2) (by omega)
        case hf3 =>
          intro en hen
          obtain ⟨⟨kk, hp⟩, _⟩ := pBc en hen
          rw [hp]
          exact path_single_ne_ext2 p kk 1 k2 r2
        intro hcon
        have hlt := @mget_value_bound (fun v => v < st.scopes.length) st.scopesMap (p ++ 1 :: k2 :: r2) st.scopes.length hm hcon
        omega
    · rw [hv]
      obtain ⟨_, hval⟩ := pBe en hen
      intro hcon
      have h5 : en.2 = st.scopes.length := Option.some.inj hcon
      rcases hval with h1 | h1 <;> omega


theorem letDecl_scopes_eq (f : Nat) (flags : VarDeclFlags) (x : String)
    (par2 : Option Node) (q : NodePath) (j : Nat) (st2 : BuildState)
    (hflags : flags.blockScoped = true) :
    (visitNode1 (f + 1 + 1 + 1) par2 q
        (.variableDeclarationList flags [.variableDeclaration (.identifier x) none])
        j st2).scopes =
      supdate j (fun s =>
        { s with
          bindings :=
            bset x
              { declaringNode := q ++ [0], bindingScopeKind := ScopeKind.lexicalScope,
                identifier := x,
                mutability := if flags.isConst then Mutability.immutable else Mutability.mutable_,
                references := [] } s.bindings }) st2.scopes := by
  simp only [visitNode1, children, goList, bindName, hflags, reduceIte]
  rfl


/-- C8 (counterexample): in `for (x of (y) => y) {}` the arrow-function body
(path `[0,1,1]`), a node inside the iterated expression, is mapped to the
arrow's own function scope (index 2), not to the containing scope (index 0):
the claim that EVERY node of the iterated/source expression is mapped to the
containing scope fails as soon as the expression itself introduces scopes. -/
theorem forOf_expression_node_not_containing_scope :
    getScopeForNode (buildContainer progForOfArrow) [0, 1] = some 0 ∧
    getScopeForNode (buildContainer progForOfArrow) [0, 1, 1] = some 2 ∧
    getScopeForNode (buildContainer progForOfArrow) [0, 1, 1] ≠ some 0 := by
  decide

/-- C8 (amended): visiting a `for-in`/`for-of` statement with a block body in
scope `sc` (1) appends one fresh lexical scope, recorded at the old arena
length, whose parent is `sc` and whose declaring node is the loop node;
(2) maps the loop node itself to `sc`, the initializer and the block body to
the fresh loop scope, and the ROOT of the iterated/source expression to `sc`;
(3) never maps any node under the iterated expression to the loop scope (deeper
nodes may still map to scopes the expression itself introduces, not to `sc`);
and (4) a block-scoped `let`/`const` single-variable initializer stores the
loop variable's binding in exactly the scope it is visited with — the loop
scope — leaving all other scopes' bindings untouched, which is what makes the
loop variable independent of outer same-named bindings. -/
theorem loop_head_scope_behaviour (isIn : Bool) (f : Nat) (par : Option Node)
    (p : NodePath) (ini e lstmt : Node) (sc : Nat) (st : BuildState)
    (hb : lstmt.isBlockNode = true)
    (hsc : sc < st.scopes.length)
    (hm : ∀ en ∈ st.scopesMap, en.2 < st.scopes.length) :
    (∃ sd, (visitNode1 (f + 1 + 1 + 1 + 1) par p (mkLoop isIn ini e lstmt) sc
          st).scopes[st.scopes.length]? = some sd ∧
        sd.scopeKind = ScopeKind.lexicalScope ∧ sd.parentScope = some sc ∧
        sd.declaratingNode = p) ∧
    mget p (visitNode1 (f + 1 + 1 + 1 + 1) par p (mkLoop isIn ini e lstmt) sc
        st).scopesMap = some sc ∧
    mget (p ++ [0]) (visitNode1 (f + 1 + 1 + 1 + 1) par p (mkLoop isIn ini e lstmt) sc
        st).scopesMap = some st.scopes.length ∧
    mget (p ++ [1]) (visitNode1 (f + 1 + 1 + 1 + 1) par p (mkLoop isIn ini e lstmt) sc
        st).scopesMap = some sc ∧
    mget (p ++ [2]) (visitNode1 (f + 1 + 1 + 1 + 1) par p (mkLoop isIn ini e lstmt) sc
        st).scopesMap = some st.scopes.length ∧
    (∀ q2 : NodePath, mget (p ++ 1 :: q2) (visitNode1 (f + 1 + 1 + 1 + 1) par p
        (mkLoop isIn ini e lstmt) sc st).scopesMap ≠ some st.scopes.length) ∧
    (∀ (flags : VarDeclFlags) (x : String) (par2 : Option Node) (q : NodePath)
        (j : Nat) (st2 : BuildState),
      ini = .variableDeclarationList flags [.variableDeclaration (.identifier x) none] →
      flags.blockScoped = true →
      (visitNode1 (f + 1 + 1 + 1) par2 q ini j st2).scopes =
        supdate j (fun s =>
          { s with
            bindings :=
              bset x
                { declaringNode := q ++ [0], bindingScopeKind := ScopeKind.lexicalScope,
                  identifier := x,
                  mutability :=
                    if flags.isConst then Mutability.immutable else Mutability.mutable_,
                  references := [] } s.bindings }) st2.scopes) := by
  cases isIn with
  | false =>
    simp only [mkLoop, Bool.false_eq_true, reduceIte]
    obtain ⟨c1, c2, c3, c4, c5, c6⟩ :=
      loopOf_facts (f + 1 + 1) par p ini e lstmt sc st hb hsc hm
    refine ⟨c1, c2, c3, c4, c5, c6, ?_⟩
    intro flags x par2 q j st2 hini hflags
    subst hini
    exact letDecl_scopes_eq f flags x par2 q j st2 hflags
  | true =>
    simp only [mkLoop, reduceIte]
    obtain ⟨c1, c2, c3, c4, c5, c6⟩ :=
      loopIn_facts (f + 1 + 1) par p ini e lstmt sc st hb hsc hm
    refine ⟨c1, c2, c3, c4, c5, c6, ?_⟩
    intro flags x par2 q j st2 hini hflags
    subst hini
    exact letDecl_scopes_eq f flags x par2 q j st2 hflags

/-- Witness for the amended C8 theorem: `for (let i of xs) {}` visited at the
root of a one-scope build state satisfies the hypotheses, and the loop node
maps to the containing scope while the body maps to the fresh loop scope. -/
theorem loop_head_scope_behaviour_witness :
    (Node.block []).isBlockNode = true ∧ 0 < w8st.scopes.length ∧
    (∀ en ∈ w8st.scopesMap, en.2 < w8st.scopes.length) ∧
    mget [0] (visitNode1 (0 + 1 + 1 + 1 + 1) none [0]
      (mkLoop false w8ini (.identifier "xs") (.block [])) 0 w8st).scopesMap = some 0 ∧
    mget [0, 2] (visitNode1 (0 + 1 + 1 + 1 + 1) none [0]
      (mkLoop false w8ini (.identifier "xs") (.block [])) 0 w8st).scopesMap =
      some w8st.scopes.length :=
  ⟨by decide, by decide, by decide,
    (loop_head_scope_behaviour false 0 none [0] w8ini (.identifier "xs") (.block []) 0 w8st
      (by decide) (by decide) (by decide)).2.1,
    by
      have h5 := (loop_head_scope_behaviour false 0 none [0] w8ini (.identifier "xs")
        (.block []) 0 w8st (by decide) (by decide) (by decide)).2.2.2.2.1
      simpa using h5⟩

end TsScope